import Mathlib

/-!
Verification of the Gaupol subtitle editor core: the editing delegate
(src/lib/gaupol/base/delegates/edit.py), its undo/redo action register,
and the tag converter (src/lib/gaupol/base/tags/converter.py).

Subtitle data lives in four parallel per-row arrays: a list of time
triples, a list of frame triples, and two text channels.  Every mutating
operation registers a revert operation with the action register; undo and
redo replay those reverts.  Time values (millisecond-precision timestamp
strings in the source, compared lexicographically, which on normalized
timestamps is numeric comparison) are modelled as integer millisecond
counts, frame values as integers; the clock calculator collaborator (not
part of the sources) is an abstract pair of conversion functions.
-/

namespace Gaupol

/-- Position field identifiers (gaupol.base.colcons: SHOW, HIDE, DURN). -/
inductive Col where
  | SHOW
  | HIDE
  | DURN
deriving DecidableEq, Repr

/-- Document identifiers (gaupol.base.cons.Document: MAIN, TRAN). -/
inductive Document where
  | MAIN
  | TRAN
deriving DecidableEq, Repr

/-- Main file mode (gaupol.base.cons.Mode: TIME, FRAME). -/
inductive Mode where
  | TIME
  | FRAME
deriving DecidableEq, Repr

/-- Register constants (gaupol.base.cons.Action: DO, UNDO, REDO). -/
inductive Action where
  | DO
  | UNDO
  | REDO
deriving DecidableEq, Repr

/-- One row of the times or frames array: the three-element list
[show, hide, duration] of the source, indexed by the column constants. -/
structure Triple (α : Type) where
  shw : α
  hid : α
  drn : α
deriving DecidableEq, Repr

instance [Inhabited α] : Inhabited (Triple α) := ⟨⟨default, default, default⟩⟩

/-- Reading one field of a position triple (triple[col] in the source). -/
def Triple.get (t : Triple α) : Col → α
  | Col.SHOW => t.shw
  | Col.HIDE => t.hid
  | Col.DURN => t.drn

/-- Writing one field of a position triple (triple[col] = v in the source). -/
def Triple.set (t : Triple α) : Col → α → Triple α
  | Col.SHOW, v => { t with shw := v }
  | Col.HIDE, v => { t with hid := v }
  | Col.DURN, v => { t with drn := v }

/-- Python compares the three-element position lists lexicographically. -/
def Triple.lex [LinearOrder α] (a b : Triple α) : Prop :=
  a.shw < b.shw ∨ (a.shw = b.shw ∧ (a.hid < b.hid ∨ (a.hid = b.hid ∧ a.drn < b.drn)))

instance [LinearOrder α] (a b : Triple α) : Decidable (Triple.lex a b) := by
  unfold Triple.lex
  infer_instance

/-- Boolean form of the lexicographic triple comparison, as passed to the
binary search. -/
def tripleLt [LinearOrder α] (a b : Triple α) : Bool :=
  decide (Triple.lex a b)

/-- The loop of bisect.bisect_right from the Python standard library, with an
explicit iteration bound (the bound is sufficient whenever it is at least
hi - lo, which the wrapper below guarantees). -/
def bisectGo (lt : α → α → Bool) (a : List α) (x : α) : Nat → Nat → Nat → Nat
  | 0, lo, _ => lo
  | fuel + 1, lo, hi =>
      if lo < hi then
        if lt x (a.getD ((lo + hi) / 2) x) then bisectGo lt a x fuel lo ((lo + hi) / 2)
        else bisectGo lt a x fuel ((lo + hi) / 2 + 1) hi
      else lo

/-- bisect.bisect_right: the rightmost insertion point of x in a. -/
def bisect_right (lt : α → α → Bool) (a : List α) (x : α) : Nat :=
  bisectGo lt a x a.length 0 a.length

/-- Modelled from the spec: the ClockCalculator collaborator (the time and
frame arithmetic helper, not part of the sources).  Time values are integer
millisecond counts, frame values integers; the two conversions for the
document framerate are abstract functions. -/
structure Calc where
  time_to_frame : Int → Int
  frame_to_time : Int → Int

/-- Modelled from the spec: the duration of a time interval is hide minus
show (on normalized timestamp strings the source computes exactly this
millisecond difference). -/
def Calc.get_time_duration (_c : Calc) (shw hid : Int) : Int := hid - shw

/-- Modelled from the spec: the duration of a frame interval is hide minus
show. -/
def Calc.get_frame_duration (_c : Calc) (shw hid : Int) : Int := hid - shw

/-- Modelled from the spec: adding a duration to a time. -/
def Calc.add_times (_c : Calc) (a b : Int) : Int := a + b

/-- Modelled from the spec: a timestamp as fractional seconds. -/
def Calc.time_to_seconds (_c : Calc) (t : Int) : ℚ := (t : ℚ) / 1000

/-- Modelled from the spec: fractional seconds rounded back to a
millisecond timestamp. -/
def Calc.seconds_to_time (_c : Calc) (s : ℚ) : Int := round (1000 * s)

/-- One revert instruction: the revert_method plus revert_args of a registered
action.  The source passes bound methods; here the closed command syntax.  The
same type doubles as the syntax of the mutating editing calls themselves,
since every revert method is one of them. -/
inductive RevertOp where
  | set_time (row : Nat) (col : Col) (value : Int)
  | set_frame (row : Nat) (col : Col) (value : Int)
  | set_text (row : Nat) (document : Document) (value : String)
  | replace_texts (rows : List Nat) (document : Document) (texts : List String)
  | replace_both_texts (main_rows tran_rows : List Nat) (main_texts tran_texts : List String)
  | insert_subtitles (rows : List Nat)
      (data : Option (List (Triple Int) × List (Triple Int) × List String × List String))
  | remove_subtitles (rows : List Nat)
deriving DecidableEq, Repr

/-- A revertable action on the undo or redo stack.  revert_ops lists the
revert instructions to invoke, most recent sub-action first; a plain action
carries exactly one.  updated_rows is the row-refresh metadata passed to
register_action. -/
structure RevertableAction where
  revert_ops : List RevertOp
  updated_rows : List Nat
deriving DecidableEq, Repr

/-- The project state: the four parallel arrays, the document mode and
framerate, the clock calculator, the clipboard, and the undo and redo
stacks. -/
structure Project where
  mode : Mode
  calcu : Calc
  framerate : ℚ
  times : List (Triple Int)
  frames : List (Triple Int)
  main_texts : List String
  tran_texts : List String
  clipboard : List (Option String)
  undoables : List RevertableAction
  redoables : List RevertableAction

/-- The empty text, as inserted for blank rows. -/
def blank : String := ""

/-- EditDelegate.get_mode: the authoritative coordinate system.  The source
reads it off the main file, defaulting to time mode; here it is a field. -/
def get_mode (p : Project) : Mode := p.mode

/-- Modelled from the spec: ActionRegister registration.  With Action.DO the
new action is pushed onto the undo stack and the redo stack is cleared;
registration during an undo (Action.UNDO) pushes the fresh inverse onto the
redo stack; registration during a redo (Action.REDO) pushes it onto the undo
stack. -/
def register_action (p : Project) (register : Action) (op : RevertOp)
    (updated_rows : List Nat) : Project :=
  match register with
  | Action.DO =>
      { p with undoables := ⟨[op], updated_rows⟩ :: p.undoables, redoables := [] }
  | Action.UNDO =>
      { p with redoables := ⟨[op], updated_rows⟩ :: p.redoables }
  | Action.REDO =>
      { p with undoables := ⟨[op], updated_rows⟩ :: p.undoables }

/-- Modelled from the spec: ActionRegister.group merges the top n actions of
the stack addressed by the register constant into a single action whose undo
replays the n reverts in reverse chronological order. -/
def group_actions (p : Project) (register : Action) (n : Nat) : Project :=
  let merged := fun (stack : List RevertableAction) =>
    RevertableAction.mk ((stack.take n).map RevertableAction.revert_ops).flatten
      ((stack.take n).map RevertableAction.updated_rows).flatten :: stack.drop n
  match register with
  | Action.DO => { p with undoables := merged p.undoables }
  | Action.UNDO => { p with redoables := merged p.redoables }
  | Action.REDO => { p with undoables := merged p.undoables }

/-- EditDelegate.set_durations: recompute both duration fields of a row from
its show and hide fields. -/
def set_durations (p : Project) (row : Nat) : Project :=
  let tt := p.times.getD row default
  let ft := p.frames.getD row default
  { p with
    times := p.times.set row { tt with drn := p.calcu.get_time_duration tt.shw tt.hid }
    frames := p.frames.set row { ft with drn := p.calcu.get_frame_duration ft.shw ft.hid } }

/-- EditDelegate.set_hides: recompute both hide fields of a row from its show
and duration fields. -/
def set_hides (p : Project) (row : Nat) : Project :=
  let tt := p.times.getD row default
  let ft := p.frames.getD row default
  { p with
    times := p.times.set row { tt with hid := p.calcu.add_times tt.shw tt.drn }
    frames := p.frames.set row { ft with hid := ft.shw + ft.drn } }

/-- Moving one entry of an array: entry.insert(new_row, entry.pop(row)) in
EditDelegate._sort_data. -/
def moveRow (l : List α) (row new_row : Nat) (dflt : α) : List α :=
  (l.eraseIdx row).insertIdx new_row (l.getD row dflt)

/-- The new index computed by EditDelegate._sort_data: the rightmost
insertion point of the row's triple among the other rows' triples in the
authoritative coordinate system (get_positions returns times in time mode and
frames in frame mode). -/
def new_row_of (p : Project) (row : Nat) : Nat :=
  match p.mode with
  | Mode.TIME =>
      bisect_right tripleLt (p.times.take row ++ p.times.drop (row + 1))
        (p.times.getD row default)
  | Mode.FRAME =>
      bisect_right tripleLt (p.frames.take row ++ p.frames.drop (row + 1))
        (p.frames.getD row default)

/-- EditDelegate._sort_data: binary-search the new position of a row whose
show value changed and, if it differs, move the row in all four parallel
arrays.  Returns the new index of the row. -/
def sort_data (p : Project) (row : Nat) : Project × Nat :=
  let new_row := new_row_of p row
  if new_row ≠ row then
    ({ p with
        times := moveRow p.times row new_row default
        frames := moveRow p.frames row new_row default
        main_texts := moveRow p.main_texts row new_row blank
        tran_texts := moveRow p.tran_texts row new_row blank },
      new_row)
  else (p, new_row)

/-- EditDelegate.set_time: write one time field, mirror it into the frame
triple, recompute the dependent fields, resort on a show change, and register
the mode-dependent revert.  Returns the new index of the row. -/
def set_time (p : Project) (row : Nat) (col : Col) (value : Int)
    (register : Action) : Project × Nat :=
  if value = (p.times.getD row default).get col then (p, row)
  else
    let rop := fun revert_row =>
      match p.mode with
      | Mode.TIME => RevertOp.set_time revert_row col ((p.times.getD row default).get col)
      | Mode.FRAME => RevertOp.set_frame revert_row col ((p.frames.getD row default).get col)
    let p1 := { p with
      times := p.times.set row ((p.times.getD row default).set col value)
      frames := p.frames.set row
        ((p.frames.getD row default).set col (p.calcu.time_to_frame value)) }
    let p2 := match col with
      | Col.SHOW => set_durations p1 row
      | Col.HIDE => set_durations p1 row
      | Col.DURN => set_hides p1 row
    let res := if col = Col.SHOW then sort_data p2 row else (p2, row)
    let updated_rows :=
      if col = Col.SHOW ∧ res.2 ≠ row then
        List.range' (min row res.2) (max row res.2 + 1 - min row res.2)
      else []
    (register_action res.1 register (rop res.2) updated_rows, res.2)

/-- EditDelegate.set_frame: the frame-coordinate twin of set_time. -/
def set_frame (p : Project) (row : Nat) (col : Col) (value : Int)
    (register : Action) : Project × Nat :=
  if value = (p.frames.getD row default).get col then (p, row)
  else
    let rop := fun revert_row =>
      match p.mode with
      | Mode.TIME => RevertOp.set_time revert_row col ((p.times.getD row default).get col)
      | Mode.FRAME => RevertOp.set_frame revert_row col ((p.frames.getD row default).get col)
    let p1 := { p with
      frames := p.frames.set row ((p.frames.getD row default).set col value)
      times := p.times.set row
        ((p.times.getD row default).set col (p.calcu.frame_to_time value)) }
    let p2 := match col with
      | Col.SHOW => set_durations p1 row
      | Col.HIDE => set_durations p1 row
      | Col.DURN => set_hides p1 row
    let res := if col = Col.SHOW then sort_data p2 row else (p2, row)
    let updated_rows :=
      if col = Col.SHOW ∧ res.2 ≠ row then
        List.range' (min row res.2) (max row res.2 + 1 - min row res.2)
      else []
    (register_action res.1 register (rop res.2) updated_rows, res.2)

/-- EditDelegate.set_text: write one text, registering the original text as
revert unless the value is unchanged. -/
def set_text (p : Project) (row : Nat) (document : Document) (value : String)
    (register : Action) : Project :=
  match document with
  | Document.MAIN =>
      let orig_value := p.main_texts.getD row blank
      let p1 := { p with main_texts := p.main_texts.set row value }
      if value = orig_value then p1
      else register_action p1 register (RevertOp.set_text row document orig_value) []
  | Document.TRAN =>
      let orig_value := p.tran_texts.getD row blank
      let p1 := { p with tran_texts := p.tran_texts.set row value }
      if value = orig_value then p1
      else register_action p1 register (RevertOp.set_text row document orig_value) []

/-- The in-place loop of EditDelegate.replace_texts: set each listed row to
its new text, collecting the texts previously there for the revert. -/
def replaceLoop (texts : List String) : List Nat → List String → List String × List String
  | row :: rows, nt :: nts =>
      let orig := texts.getD row blank
      let res := replaceLoop (texts.set row nt) rows nts
      (res.1, orig :: res.2)
  | _, _ => (texts, [])

/-- EditDelegate.replace_texts. -/
def replace_texts (p : Project) (rows : List Nat) (document : Document)
    (new_texts : List String) (register : Action) : Project :=
  match document with
  | Document.MAIN =>
      let res := replaceLoop p.main_texts rows new_texts
      register_action { p with main_texts := res.1 } register
        (RevertOp.replace_texts rows document res.2) []
  | Document.TRAN =>
      let res := replaceLoop p.tran_texts rows new_texts
      register_action { p with tran_texts := res.1 } register
        (RevertOp.replace_texts rows document res.2) []

/-- EditDelegate.replace_both_texts: independently indexed text replacement in
both channels, registered as one action. -/
def replace_both_texts (p : Project) (main_rows tran_rows : List Nat)
    (new_main_texts new_tran_texts : List String) (register : Action) : Project :=
  let mres := replaceLoop p.main_texts main_rows new_main_texts
  let tres := replaceLoop p.tran_texts tran_rows new_tran_texts
  register_action { p with main_texts := mres.1, tran_texts := tres.1 } register
    (RevertOp.replace_both_texts main_rows tran_rows mres.2 tres.2) []

/-- The loop of EditDelegate._insert_data on one array: insert vals[i] at
position rows[i], in order. -/
def insertLoop (l : List α) : List Nat → List α → List α
  | row :: rows, v :: vs => insertLoop (l.insertIdx row v) rows vs
  | _, _ => l

/-- EditDelegate._insert_data: insert caller-supplied rows; the data is not
resorted. -/
def insert_data (p : Project) (rows : List Nat) (times : List (Triple Int))
    (frames : List (Triple Int)) (main_texts tran_texts : List String) : Project :=
  { p with
    times := insertLoop p.times rows times
    frames := insertLoop p.frames rows frames
    main_texts := insertLoop p.main_texts rows main_texts
    tran_texts := insertLoop p.tran_texts rows tran_texts }

/-- EditDelegate._insert_blank: insert blank-text rows over a contiguous
range, interpolating positions between the neighbouring rows, or using a
three-second default duration at the end of the document. -/
def insert_blank (p : Project) (rows : List Nat) : Project :=
  let start_row := (rows.min?).getD 0
  let amount := rows.length
  match p.mode with
  | Mode.TIME =>
      let start : ℚ :=
        if start_row > 0 then p.calcu.time_to_seconds ((p.times.getD (start_row - 1) default).hid)
        else 0
      let duration : ℚ :=
        if start_row < p.times.length then
          (p.calcu.time_to_seconds ((p.times.getD start_row default).shw) - start) / (amount : ℚ)
        else 3
      (List.range amount).foldl (fun (q : Project) (i : Nat) =>
        let show_time := p.calcu.seconds_to_time (start + (i : ℚ) * duration)
        let hide_time := p.calcu.seconds_to_time (start + ((i : ℚ) + 1) * duration)
        let durn_time := p.calcu.get_time_duration show_time hide_time
        let show_frame := p.calcu.time_to_frame show_time
        let hide_frame := p.calcu.time_to_frame hide_time
        let durn_frame := p.calcu.get_frame_duration show_frame hide_frame
        { q with
          times := q.times.insertIdx (start_row + i) ⟨show_time, hide_time, durn_time⟩
          frames := q.frames.insertIdx (start_row + i) ⟨show_frame, hide_frame, durn_frame⟩
          main_texts := q.main_texts.insertIdx (start_row + i) blank
          tran_texts := q.tran_texts.insertIdx (start_row + i) blank }) p
  | Mode.FRAME =>
      let start : Int :=
        if start_row > 0 then (p.frames.getD (start_row - 1) default).hid else 0
      let duration : Int :=
        if start_row < p.times.length then
          ((p.frames.getD start_row default).shw - start).tdiv (amount : Int)
        else round (p.framerate * 3)
      (List.range amount).foldl (fun (q : Project) (i : Nat) =>
        let show_frame := start + (i : Int) * duration
        let hide_frame := start + ((i : Int) + 1) * duration
        let durn_frame := p.calcu.get_frame_duration show_frame hide_frame
        let show_time := p.calcu.frame_to_time show_frame
        let hide_time := p.calcu.frame_to_time hide_frame
        let durn_time := p.calcu.get_time_duration show_time hide_time
        { q with
          times := q.times.insertIdx (start_row + i) ⟨show_time, hide_time, durn_time⟩
          frames := q.frames.insertIdx (start_row + i) ⟨show_frame, hide_frame, durn_frame⟩
          main_texts := q.main_texts.insertIdx (start_row + i) blank
          tran_texts := q.tran_texts.insertIdx (start_row + i) blank }) p

/-- EditDelegate.insert_subtitles: sort the rows, insert blank or
caller-supplied data, and register the removal of those rows as revert. -/
def insert_subtitles (p : Project) (rows : List Nat)
    (data : Option (List (Triple Int) × List (Triple Int) × List String × List String))
    (register : Action) : Project :=
  let rows := List.insertionSort (· ≤ ·) rows
  let p1 := match data with
    | none => insert_blank p rows
    | some (ts, fs, ms, trs) => insert_data p rows ts fs ms trs
  register_action p1 register (RevertOp.remove_subtitles rows) []

/-- The reversed-order removal loop of EditDelegate.remove_subtitles on one
array: process the sorted rows from highest to lowest, popping each and
collecting the popped values in ascending row order. -/
def removeLoop [Inhabited α] (l : List α) : List Nat → List α × List α
  | [] => (l, [])
  | row :: rest =>
      let res := removeLoop l rest
      (res.1.eraseIdx row, res.1.getD row default :: res.2)

/-- EditDelegate.remove_subtitles: remove an arbitrary row set, registering
the re-insertion of the removed data as revert. -/
def remove_subtitles (p : Project) (rows : List Nat) (register : Action) : Project :=
  let rows := List.insertionSort (· ≤ ·) rows
  let tres := removeLoop p.times rows
  let fres := removeLoop p.frames rows
  let mres := removeLoop p.main_texts rows
  let rres := removeLoop p.tran_texts rows
  register_action
    { p with times := tres.1, frames := fres.1, main_texts := mres.1, tran_texts := rres.1 }
    register
    (RevertOp.insert_subtitles rows (some (tres.2, fres.2, mres.2, rres.2))) []

/-- EditDelegate.paste_texts: extend the document with blank rows when the
clipboard is longer than the rows available, overwrite the texts at the
offsets holding a value, and group the two actions into one undoable unit
when rows were added.  Returns the rows pasted into. -/
def paste_texts (p : Project) (start_row : Nat) (document : Document)
    (register : Action) : Project × List Nat :=
  let data := p.clipboard
  let current_length := p.times.length
  let amount : Int := (data.length : Int) - ((current_length : Int) - (start_row : Int))
  let p1 :=
    if amount > 0 then
      insert_subtitles p (List.range' current_length amount.toNat) none register
    else p
  let rows := data.enum.filterMap (fun iv => iv.2.map (fun _ => start_row + iv.1))
  let new_texts := data.filterMap id
  let p2 := replace_texts p1 rows document new_texts register
  let p3 := if amount > 0 then group_actions p2 register 2 else p2
  (p3, rows)

/-- Dispatch of a revert instruction back into the mutating operation it
names, with the register constant of the replay. -/
def applyRevert (p : Project) (op : RevertOp) (register : Action) : Project :=
  match op with
  | RevertOp.set_time row col value => (set_time p row col value register).1
  | RevertOp.set_frame row col value => (set_frame p row col value register).1
  | RevertOp.set_text row document value => set_text p row document value register
  | RevertOp.replace_texts rows document texts => replace_texts p rows document texts register
  | RevertOp.replace_both_texts mr tr mt trt => replace_both_texts p mr tr mt trt register
  | RevertOp.insert_subtitles rows data => insert_subtitles p rows data register
  | RevertOp.remove_subtitles rows => remove_subtitles p rows register

/-- Modelled from the spec: undo pops the top undo action, invokes its revert
operations (each a mutating operation that registers its own inverse onto the
redo stack), and groups those inverses into the corresponding redo action.
An empty undo stack is a no-op. -/
def undo (p : Project) : Project :=
  match p.undoables with
  | [] => p
  | a :: rest =>
      let p1 := a.revert_ops.foldl (fun q op => applyRevert q op Action.UNDO)
        { p with undoables := rest }
      group_actions p1 Action.UNDO a.revert_ops.length

/-- Modelled from the spec: redo pops the top redo action, re-invokes its
operations (each registering its inverse back onto the undo stack), and
groups those inverses into the corresponding undo action.  An empty redo
stack is a no-op. -/
def redo (p : Project) : Project :=
  match p.redoables with
  | [] => p
  | a :: rest =>
      let p1 := a.revert_ops.foldl (fun q op => applyRevert q op Action.REDO)
        { p with redoables := rest }
      group_actions p1 Action.REDO a.revert_ops.length

/-- An editing call issued by a caller: a revert instruction replayed with
Action.DO. -/
def applyEdit (p : Project) (op : RevertOp) : Project :=
  applyRevert p op Action.DO

/-- The observable array contents of a project: the four parallel arrays. -/
def arraysOf (p : Project) :
    List (Triple Int) × List (Triple Int) × List String × List String :=
  (p.times, p.frames, p.main_texts, p.tran_texts)

/-- One tag entry of a format class: the compiled regular-expression
substitution (pattern, flags and replacement together as one text rewrite)
and the optional repeat count of the fourth tuple slot. -/
structure TagEntry where
  sub : String → String
  count : Option Nat

/-- One rule held by TagConverter after compilation: the rewrite and the
resolved repeat count. -/
structure TagRule where
  sub : String → String
  count : Nat

/-- TagConverter.__init__ compiling one entry: a missing count slot defaults
to one application. -/
def compileEntry (e : TagEntry) : TagRule :=
  TagRule.mk e.sub (e.count.getD 1)

/-- The TagConverter state after __init__: the compiled decode and encode
rule lists plus the four hook functions of the two formats. -/
structure TagConverter where
  from_regexs : List TagRule
  to_regexs : List TagRule
  pre_decode : String → String
  post_decode : String → String
  pre_encode : String → String
  post_encode : String → String

/-- TagConverter.__init__, given the decode entries of the source format,
the encode entries of the target format and the four hooks. -/
def TagConverter.make (from_tags to_tags : List TagEntry)
    (pre_decode post_decode pre_encode post_encode : String → String) : TagConverter :=
  TagConverter.mk (from_tags.map compileEntry) (to_tags.map compileEntry)
    pre_decode post_decode pre_encode post_encode

/-- TagConverter.convert_tags: empty text returns unchanged; otherwise the
decode rules run between pre_decode and post_decode and the encode rules
between pre_encode and post_encode, each rule substituted repeat-count
times, in list order. -/
def convert_tags (c : TagConverter) (text : String) : String :=
  if text = blank then text
  else
    let t1 := c.pre_decode text
    let t2 := c.from_regexs.foldl
      (fun t entry => (List.range entry.count).foldl (fun s _ => entry.sub s) t) t1
    let t3 := c.post_decode t2
    let t4 := c.pre_encode t3
    let t5 := c.to_regexs.foldl
      (fun t entry => (List.range entry.count).foldl (fun s _ => entry.sub s) t) t4
    c.post_encode t5

/-- A rule pipeline as plain function iteration: each rule applied exactly
its repeat count of times, in list order. -/
def rulePipeline (rules : List TagRule) (text : String) : String :=
  rules.foldl (fun t r => r.sub^[r.count] t) text

/-- The rightmost insertion point of x in a as a linear scan: the length of
the prefix of elements not greater than x. -/
def upperBound (lt : α → α → Bool) (a : List α) (x : α) : Nat :=
  (a.takeWhile (fun e => !(lt x e))).length

/-- INV-4: the four parallel arrays have one common length. -/
def wfP (p : Project) : Prop :=
  p.frames.length = p.times.length ∧ p.main_texts.length = p.times.length ∧
    p.tran_texts.length = p.times.length

/-- INV-2: duration equals hide minus show, in both coordinate systems. -/
def durationsOk (p : Project) : Prop :=
  (∀ t ∈ p.times, t.drn = t.hid - t.shw) ∧ (∀ t ∈ p.frames, t.drn = t.hid - t.shw)

/-- INV-1 with time authoritative: every frame triple field equals the
calculator image of the corresponding time value. -/
def syncedTF (p : Project) : Prop :=
  ∀ i < p.times.length,
    (p.frames.getD i default).shw = p.calcu.time_to_frame (p.times.getD i default).shw ∧
    (p.frames.getD i default).hid = p.calcu.time_to_frame (p.times.getD i default).hid ∧
    (p.frames.getD i default).drn = p.calcu.time_to_frame (p.times.getD i default).drn

/-- INV-1 with frame authoritative. -/
def syncedFT (p : Project) : Prop :=
  ∀ i < p.times.length,
    (p.times.getD i default).shw = p.calcu.frame_to_time (p.frames.getD i default).shw ∧
    (p.times.getD i default).hid = p.calcu.frame_to_time (p.frames.getD i default).hid ∧
    (p.times.getD i default).drn = p.calcu.frame_to_time (p.frames.getD i default).drn

/-- Show values are non-decreasing along a list of triples. -/
def showSorted (l : List (Triple Int)) : Prop :=
  l.Pairwise (fun a b => a.shw ≤ b.shw)

/-- Show values are strictly increasing along a list of triples. -/
def strictShowSorted (l : List (Triple Int)) : Prop :=
  l.Pairwise (fun a b => a.shw < b.shw)

/-- Full-triple sortedness: non-decreasing in the lexicographic order on
(show, hide, duration), the order the binary search compares by. -/
def lexSorted (l : List (Triple Int)) : Prop :=
  l.Pairwise (fun a b => ¬ Triple.lex b a)

/-- INV-3 as observable: the authoritative coordinate list is ordered by
show value. -/
def orderedP (p : Project) : Prop :=
  (p.mode = Mode.TIME → showSorted p.times) ∧ (p.mode = Mode.FRAME → showSorted p.frames)

/-- A valid document state per the spec: INV-1 in the authoritative
direction, INV-2, INV-3 and INV-4. -/
def Valid (p : Project) : Prop :=
  wfP p ∧ durationsOk p ∧
    (p.mode = Mode.TIME → syncedTF p ∧ showSorted p.times) ∧
    (p.mode = Mode.FRAME → syncedFT p ∧ showSorted p.frames)

/-- The strengthening of Valid with strictly increasing authoritative show
values: no two rows share a position triple. -/
def StrictValid (p : Project) : Prop :=
  wfP p ∧ durationsOk p ∧
    (p.mode = Mode.TIME → syncedTF p ∧ strictShowSorted p.times) ∧
    (p.mode = Mode.FRAME → syncedFT p ∧ strictShowSorted p.frames)

/-- Valid insertion positions: each listed row is at most the length the
arrays have reached by its own insertion step. -/
def insOk : Nat → List Nat → Bool
  | _, [] => true
  | n, r :: rs => decide (r ≤ n) && insOk (n + 1) rs

/-- The documented calling contract of each mutating operation, together
with the requirement that the call actually mutates (a value-unchanged set
call registers no action and is out of scope for reversion). -/
def editPre (p : Project) : RevertOp → Prop
  | RevertOp.set_time row col value =>
      row < p.times.length ∧ value ≠ (p.times.getD row default).get col ∧
      (p.mode = Mode.FRAME →
        p.calcu.time_to_frame value ≠ (p.frames.getD row default).get col ∧
        p.calcu.frame_to_time (p.calcu.time_to_frame value) = value)
  | RevertOp.set_frame row col value =>
      row < p.times.length ∧ value ≠ (p.frames.getD row default).get col ∧
      (p.mode = Mode.TIME →
        p.calcu.frame_to_time value ≠ (p.times.getD row default).get col ∧
        p.calcu.time_to_frame (p.calcu.frame_to_time value) = value)
  | RevertOp.set_text row document value =>
      (document = Document.MAIN → row < p.main_texts.length ∧ value ≠ p.main_texts.getD row blank) ∧
      (document = Document.TRAN → row < p.tran_texts.length ∧ value ≠ p.tran_texts.getD row blank)
  | RevertOp.replace_texts rows document texts =>
      rows.Nodup ∧ texts.length = rows.length ∧
      (document = Document.MAIN → ∀ r ∈ rows, r < p.main_texts.length) ∧
      (document = Document.TRAN → ∀ r ∈ rows, r < p.tran_texts.length)
  | RevertOp.replace_both_texts main_rows tran_rows main_texts tran_texts =>
      main_rows.Nodup ∧ tran_rows.Nodup ∧
      main_texts.length = main_rows.length ∧ tran_texts.length = tran_rows.length ∧
      (∀ r ∈ main_rows, r < p.main_texts.length) ∧ (∀ r ∈ tran_rows, r < p.tran_texts.length)
  | RevertOp.insert_subtitles rows data =>
      match data with
      | none => ∃ s k, 1 ≤ k ∧ s ≤ p.times.length ∧ rows = List.range' s k
      | some (ts, fs, ms, trs) =>
          ts.length = rows.length ∧ fs.length = rows.length ∧
          ms.length = rows.length ∧ trs.length = rows.length ∧
          insOk p.times.length (List.insertionSort (· ≤ ·) rows) = true
  | RevertOp.remove_subtitles rows =>
      rows.Nodup ∧ ∀ r ∈ rows, r < p.times.length

/-- No overlap at a blank-insertion point: the interpolation interval from
the preceding row's hide (or zero at the document start) up to the
following row's show is nonempty, in the authoritative coordinates. -/
def blankFitsPre (p : Project) (s : Nat) : Prop :=
  (p.mode = Mode.TIME →
    (s > 0 → (p.times.getD (s - 1) default).shw ≤ (p.times.getD (s - 1) default).hid) ∧
    (s < p.times.length →
      (if s > 0 then (p.times.getD (s - 1) default).hid else 0) ≤ (p.times.getD s default).shw)) ∧
  (p.mode = Mode.FRAME →
    (s > 0 → (p.frames.getD (s - 1) default).shw ≤ (p.frames.getD (s - 1) default).hid) ∧
    (s < p.times.length →
      (if s > 0 then (p.frames.getD (s - 1) default).hid else 0) ≤ (p.frames.getD s default).shw))

/-- The ordering contract of each operation for the order invariant: set
calls need a valid row, blank insertion needs a contiguous in-range row
range whose surrounding rows do not overlap, and insertion of
caller-supplied data relies on the caller supplying data that lands
ordered (the documented caller responsibility). -/
def orderPre (p : Project) : RevertOp → Prop
  | RevertOp.set_time row _ _ => wfP p ∧ row < p.times.length
  | RevertOp.set_frame row _ _ => wfP p ∧ row < p.times.length
  | RevertOp.insert_subtitles rows data =>
      match data with
      | none => wfP p ∧ 0 ≤ p.framerate ∧
          (∃ s k, 1 ≤ k ∧ s ≤ p.times.length ∧ rows = List.range' s k) ∧
          blankFitsPre p ((rows.min?).getD 0)
      | some (ts, fs, ms, trs) =>
          orderedP (insert_data p (List.insertionSort (· ≤ ·) rows) ts fs ms trs)
  | _ => True

/-- A sequence of editing calls. -/
def applyEdits (p : Project) (ops : List RevertOp) : Project :=
  ops.foldl applyEdit p

/-- Every call of a sequence satisfies its ordering contract at its own
point of application. -/
def orderPreAlong (p : Project) : List RevertOp → Prop
  | [] => True
  | op :: ops => orderPre p op ∧ orderPreAlong (applyEdit p op) ops

/-- Two integers within a tolerance of each other. -/
def near (tol : Nat) (a b : Int) : Prop := (a - b).natAbs ≤ tol

/-- The calculator round-trips frames through times within the tolerance. -/
def calcRoundTrip (c : Calc) (tol : Nat) : Prop :=
  ∀ f : Int, near tol (c.time_to_frame (c.frame_to_time f)) f

/-- The calculator conversion is additive within the tolerance. -/
def calcQuasiAdd (c : Calc) (tol : Nat) : Prop :=
  ∀ a b : Int, near tol (c.time_to_frame (a + b)) (c.time_to_frame a + c.time_to_frame b)

/-- The values of a list at a list of indices. -/
def selectAt [Inhabited α] (l : List α) (rows : List Nat) : List α :=
  rows.map (fun i => l.getD i default)

/-- The list without the entries whose index belongs to the row set: what
removal in strictly descending index order computes. -/
def dropAt [Inhabited α] (l : List α) (rows : List Nat) : List α :=
  ((List.range l.length).filter (fun i => decide (i ∉ rows))).map (fun i => l.getD i default)

instance (p : Project) : Decidable (wfP p) := by
  unfold wfP
  infer_instance

instance (p : Project) : Decidable (durationsOk p) := by
  unfold durationsOk
  infer_instance

instance (p : Project) : Decidable (syncedTF p) := by
  unfold syncedTF
  infer_instance

instance (p : Project) : Decidable (syncedFT p) := by
  unfold syncedFT
  infer_instance

instance (l : List (Triple Int)) : Decidable (showSorted l) := by
  unfold showSorted
  infer_instance

instance (l : List (Triple Int)) : Decidable (strictShowSorted l) := by
  unfold strictShowSorted
  infer_instance

instance (l : List (Triple Int)) : Decidable (lexSorted l) := by
  unfold lexSorted
  infer_instance

instance (p : Project) : Decidable (orderedP p) := by
  unfold orderedP
  infer_instance

instance (p : Project) : Decidable (Valid p) := by
  unfold Valid
  infer_instance

instance (p : Project) : Decidable (StrictValid p) := by
  unfold StrictValid
  infer_instance

instance (p : Project) (s : Nat) : Decidable (blankFitsPre p s) := by
  unfold blankFitsPre
  infer_instance

instance (tol : Nat) (a b : Int) : Decidable (near tol a b) := by
  unfold near
  infer_instance

/-- A concrete calculator for witnesses: 25 frames per second over
millisecond timestamps, with exact frame-to-time conversion. -/
def calc25 : Calc := Calc.mk (fun t => t / 40) (fun f => 40 * f)

/-- A three-row valid project in time mode, used by witnesses. -/
def wbase : Project :=
  Project.mk Mode.TIME calc25 25
    [⟨0, 1000, 1000⟩, ⟨2000, 3000, 1000⟩, ⟨4000, 5000, 1000⟩]
    [⟨0, 25, 25⟩, ⟨50, 75, 25⟩, ⟨100, 125, 25⟩]
    ["a", "b", "c"] ["d", "e", "f"] [] [] []

/-- A valid project with two rows sharing one position triple but holding
different texts: the duplicate-triple counterexample state. -/
def cdup : Project :=
  Project.mk Mode.TIME calc25 25
    [⟨0, 1000, 1000⟩, ⟨0, 1000, 1000⟩]
    [⟨0, 25, 25⟩, ⟨0, 25, 25⟩]
    ["a", "b"] ["d", "e"] [] [] []

/-- A valid frame-mode project whose two rows overlap (the first row's hide
frame exceeds the second row's show frame) while show values are ordered:
the blank-insertion counterexample state. -/
def cover : Project :=
  Project.mk Mode.FRAME calc25 25
    [⟨0, 400, 400⟩, ⟨200, 800, 600⟩]
    [⟨0, 10, 10⟩, ⟨5, 20, 15⟩]
    ["a", "b"] ["d", "e"] [] [] []

/-- The spec's wording of the paste overwrite: walking the clipboard buffer
from the start row, each offset whose entry is not None has its text
overwritten, None offsets are skipped. -/
def overlay (texts : List String) (sr : Nat) : List (Option String) → List String
  | [] => texts
  | none :: rest => overlay texts (sr + 1) rest
  | some v :: rest => overlay (texts.set sr v) (sr + 1) rest

/-- The row list paste_texts replaces: the offsets of the non-None clipboard
entries shifted to the start row. -/
def pasteRows (data : List (Option String)) (c : Nat) : List Nat :=
  (data.enum).filterMap (fun iv => iv.2.map (fun _ => c + iv.1))

/-- The base project with a three-entry clipboard holding a None hole. -/
def wpaste : Project :=
  { wbase with clipboard := [some "x", none, some "y"] }

/-- The array contents written by set_time on the show field before the
resort, in closed form: the time show is the new value, the frame show its
calculator image, and both durations are recomputed against the unchanged
hides. -/
def writeShowTime (p : Project) (row : Nat) (v : Int) : Project :=
  { p with
    times := p.times.set row
      (Triple.mk v (p.times.getD row default).hid ((p.times.getD row default).hid - v))
    frames := p.frames.set row
      (Triple.mk (p.calcu.time_to_frame v) (p.frames.getD row default).hid
        ((p.frames.getD row default).hid - p.calcu.time_to_frame v)) }

/-- The array contents written by set_frame on the show field before the
resort, in closed form. -/
def writeShowFrame (p : Project) (row : Nat) (v : Int) : Project :=
  { p with
    times := p.times.set row
      (Triple.mk (p.calcu.frame_to_time v) (p.times.getD row default).hid
        ((p.times.getD row default).hid - p.calcu.frame_to_time v))
    frames := p.frames.set row
      (Triple.mk v (p.frames.getD row default).hid ((p.frames.getD row default).hid - v)) }

/-- The project with the redo stack cleared: the state undo replays reverts
against after popping the top action. -/
def clearRedo (p : Project) : Project := { p with redoables := [] }

/-- All four parallel arrays with one row moved to a new index: the closed
form of _sort_data's mutation. -/
def moveAll (p : Project) (row new : Nat) : Project :=
  { p with
    times := moveRow p.times row new default
    frames := moveRow p.frames row new default
    main_texts := moveRow p.main_texts row new blank
    tran_texts := moveRow p.tran_texts row new blank }

/-- Both position arrays with one row's triples overwritten: the closed form
of the pre-resort write of set_time and set_frame. -/
def setTriples (p : Project) (row : Nat) (tt ft : Triple Int) : Project :=
  { p with times := p.times.set row tt, frames := p.frames.set row ft }

/-- The mode-dependent revert instruction of a position write: a set_time
call carrying the original time value when the mode is TIME, a set_frame
call carrying the original frame value when the mode is FRAME. -/
def revertOp_of (p : Project) (row revert_row : Nat) (col : Col) : RevertOp :=
  match p.mode with
  | Mode.TIME => RevertOp.set_time revert_row col ((p.times.getD row default).get col)
  | Mode.FRAME => RevertOp.set_frame revert_row col ((p.frames.getD row default).get col)

/-- The updated-rows metadata of a position write. -/
def urows_of (row new_row : Nat) : List Nat :=
  if new_row ≠ row then
    List.range' (min row new_row) (max row new_row + 1 - min row new_row)
  else []

/-! List bookkeeping lemmas. -/

theorem getD_set_self (l : List α) (i : Nat) (x d : α) (h : i < l.length) :
    (l.set i x).getD i d = x := by
  have h2 : i < (l.set i x).length := by simpa using h
  rw [List.getD_eq_getElem _ d h2, List.getElem_set_self]

theorem getD_set_ne (l : List α) (i j : Nat) (x d : α) (h : i ≠ j) :
    (l.set i x).getD j d = l.getD j d := by
  by_cases hj : j < l.length
  · have h2 : j < (l.set i x).length := by simpa using hj
    rw [List.getD_eq_getElem _ d h2, List.getD_eq_getElem _ d hj, List.getElem_set_ne h]
  · have hj2 : l.length ≤ j := Nat.le_of_not_lt hj
    rw [List.getD_eq_default _ d (by simpa using hj2), List.getD_eq_default _ d hj2]

theorem eraseIdx_set_self (l : List α) (i : Nat) (x : α) :
    (l.set i x).eraseIdx i = l.eraseIdx i := by
  induction l generalizing i with
  | nil => simp
  | cons b t ih =>
      cases i with
      | zero => simp
      | succ n => simp [ih]

theorem set_getD_self (l : List α) (i : Nat) (d : α) (h : i < l.length) :
    l.set i (l.getD i d) = l := by
  induction l generalizing i with
  | nil => simp at h
  | cons b t ih =>
      cases i with
      | zero => simp
      | succ n =>
          have hn : n < t.length := by simpa using h
          rw [List.getD_cons_succ, List.set_cons_succ, ih n hn]

theorem insertIdx_eraseIdx_getD (l : List α) (i : Nat) (d : α) (h : i < l.length) :
    (l.eraseIdx i).insertIdx i (l.getD i d) = l := by
  induction l generalizing i with
  | nil => simp at h
  | cons b t ih =>
      cases i with
      | zero => simp
      | succ n =>
          have hn : n < t.length := by simpa using h
          rw [List.getD_cons_succ, List.eraseIdx_cons_succ, List.insertIdx_succ_cons, ih n hn]

theorem length_moveRow (l : List α) (row new : Nat) (d : α) (hrow : row < l.length)
    (hnew : new ≤ l.length - 1) : (moveRow l row new d).length = l.length := by
  unfold moveRow
  have he : (l.eraseIdx row).length = l.length - 1 := by
    rw [List.length_eraseIdx]
    simp [hrow]
  rw [List.length_insertIdx _ _ (by omega), he]
  omega

theorem getD_moveRow_self (l : List α) (row new : Nat) (d : α) (hrow : row < l.length)
    (hnew : new ≤ l.length - 1) : (moveRow l row new d).getD new d = l.getD row d := by
  unfold moveRow
  have he : (l.eraseIdx row).length = l.length - 1 := by
    rw [List.length_eraseIdx]
    simp [hrow]
  have h1 : new ≤ (l.eraseIdx row).length := by omega
  have h2 : new < ((l.eraseIdx row).insertIdx new (l.getD row d)).length := by
    rw [List.length_insertIdx _ _ h1]
    omega
  rw [List.getD_eq_getElem _ d h2, List.getElem_insertIdx_self _ _ _ h1]

theorem eraseIdx_moveRow (l : List α) (row new : Nat) (d : α) :
    (moveRow l row new d).eraseIdx new = l.eraseIdx row := by
  unfold moveRow
  exact List.eraseIdx_insertIdx new _

theorem moveRow_moveRow (l : List α) (row new : Nat) (d : α) (hrow : row < l.length)
    (hnew : new ≤ l.length - 1) : moveRow (moveRow l row new d) new row d = l := by
  conv_lhs => rw [moveRow]
  rw [eraseIdx_moveRow, getD_moveRow_self l row new d hrow hnew]
  exact insertIdx_eraseIdx_getD l row d hrow

theorem moveRow_self (l : List α) (row : Nat) (d : α) (hrow : row < l.length) :
    moveRow l row row d = l := by
  unfold moveRow
  exact insertIdx_eraseIdx_getD l row d hrow

/-! Lexicographic triple order lemmas. -/

theorem lex_shw_le [LinearOrder α] {a b : Triple α} (h : Triple.lex a b) : a.shw ≤ b.shw := by
  unfold Triple.lex at h
  rcases h with h | ⟨h, _⟩
  · exact le_of_lt h
  · exact le_of_eq h

theorem shw_le_of_not_lex [LinearOrder α] {a b : Triple α} (h : ¬ Triple.lex a b) :
    b.shw ≤ a.shw := by
  by_contra hc
  push_neg at hc
  exact h (Or.inl hc)

theorem lex_or_eq_of_not_lex [LinearOrder α] {b c : Triple α} (h : ¬ Triple.lex c b) :
    Triple.lex b c ∨ b = c := by
  unfold Triple.lex at *
  push_neg at h
  obtain ⟨h1, h2⟩ := h
  rcases lt_or_eq_of_le h1 with hs | hs
  · exact Or.inl (Or.inl hs)
  · obtain ⟨h3, h4⟩ := h2 hs.symm
    rcases lt_or_eq_of_le h3 with hh | hh
    · exact Or.inl (Or.inr ⟨hs, Or.inl hh⟩)
    · have h5 := h4 hh.symm
      rcases lt_or_eq_of_le h5 with hd | hd
      · exact Or.inl (Or.inr ⟨hs, Or.inr ⟨hh, hd⟩⟩)
      · right
        cases b
        cases c
        simp_all

theorem lex_trans [LinearOrder α] {a b c : Triple α} (h1 : Triple.lex a b)
    (h2 : Triple.lex b c) : Triple.lex a c := by
  unfold Triple.lex at *
  rcases h1 with h1 | ⟨e1, h1⟩ <;> rcases h2 with h2 | ⟨e2, h2⟩
  · exact Or.inl (lt_trans h1 h2)
  · exact Or.inl (lt_of_lt_of_le h1 (le_of_eq e2))
  · exact Or.inl (lt_of_le_of_lt (le_of_eq e1) h2)
  · rcases h1 with h1 | ⟨f1, h1⟩ <;> rcases h2 with h2 | ⟨f2, h2⟩
    · exact Or.inr ⟨e1.trans e2, Or.inl (lt_trans h1 h2)⟩
    · exact Or.inr ⟨e1.trans e2, Or.inl (lt_of_lt_of_le h1 (le_of_eq f2))⟩
    · exact Or.inr ⟨e1.trans e2, Or.inl (lt_of_le_of_lt (le_of_eq f1) h2)⟩
    · exact Or.inr ⟨e1.trans e2, Or.inr ⟨f1.trans f2, lt_trans h1 h2⟩⟩

theorem lex_of_lex_of_not_lex [LinearOrder α] {x b c : Triple α} (h1 : Triple.lex x b)
    (h2 : ¬ Triple.lex c b) : Triple.lex x c := by
  rcases lex_or_eq_of_not_lex h2 with h | h
  · exact lex_trans h1 h
  · exact h ▸ h1

/-! Correctness of the binary search. -/

theorem upperBound_le_length (lt : α → α → Bool) (a : List α) (x : α) :
    upperBound lt a x ≤ a.length := by
  unfold upperBound
  exact (List.takeWhile_prefix _).length_le

theorem upperBound_spec (lt : α → α → Bool) (a : List α) (x : α) :
    (upperBound lt a x = 0 ∨ lt x (a.getD (upperBound lt a x - 1) x) = false) ∧
    (upperBound lt a x = a.length ∨ lt x (a.getD (upperBound lt a x) x) = true) := by
  induction a with
  | nil => simp [upperBound]
  | cons b l ih =>
      by_cases hb : lt x b = true
      · have h0 : upperBound lt (b :: l) x = 0 := by
          unfold upperBound
          simp [List.takeWhile_cons, hb]
        refine ⟨Or.inl h0, Or.inr ?_⟩
        rw [h0]
        simpa using hb
      · have hbf : lt x b = false := by simpa using hb
        have hstep : upperBound lt (b :: l) x = upperBound lt l x + 1 := by
          unfold upperBound
          simp [List.takeWhile_cons, hbf]
        obtain ⟨ihl, ihr⟩ := ih
        constructor
        · right
          rw [hstep]
          simp only [Nat.add_sub_cancel]
          cases hub : upperBound lt l x with
          | zero => simpa using hbf
          | succ m =>
              rcases ihl with h | h
              · omega
              · rw [hub] at h
                simpa using h
        · rw [hstep]
          rcases ihr with h | h
          · left
            simp [h]
          · right
            simpa using h

theorem bisectGo_spec (lt : α → α → Bool) (a : List α) (x : α) :
    ∀ (fuel lo hi : Nat), hi - lo ≤ fuel → lo ≤ hi → hi ≤ a.length →
      (lo = 0 ∨ lt x (a.getD (lo - 1) x) = false) →
      (hi = a.length ∨ lt x (a.getD hi x) = true) →
      lo ≤ bisectGo lt a x fuel lo hi ∧ bisectGo lt a x fuel lo hi ≤ hi ∧
      (bisectGo lt a x fuel lo hi = 0 ∨
        lt x (a.getD (bisectGo lt a x fuel lo hi - 1) x) = false) ∧
      (bisectGo lt a x fuel lo hi = a.length ∨
        lt x (a.getD (bisectGo lt a x fuel lo hi) x) = true)
  | 0, lo, hi, hf, hlh, _hha, hl, hr => by
      have heq : lo = hi := by omega
      subst heq
      exact ⟨le_refl lo, le_refl lo, hl, hr⟩
  | fuel + 1, lo, hi, hf, hlh, hha, hl, hr => by
      by_cases hlt : lo < hi
      · rw [bisectGo, if_pos hlt]
        by_cases hmid : lt x (a.getD ((lo + hi) / 2) x) = true
        · rw [if_pos hmid]
          have hrec := bisectGo_spec lt a x fuel lo ((lo + hi) / 2) (by omega) (by omega)
            (by omega) hl (Or.inr hmid)
          exact ⟨hrec.1, le_trans hrec.2.1 (by omega), hrec.2.2⟩
        · rw [if_neg hmid]
          have hm : lt x (a.getD ((lo + hi) / 2) x) = false := by simpa using hmid
          have hrec := bisectGo_spec lt a x fuel ((lo + hi) / 2 + 1) hi (by omega) (by omega)
            hha (Or.inr (by simpa using hm)) hr
          exact ⟨le_trans (by omega) hrec.1, hrec.2.1, hrec.2.2⟩
      · rw [bisectGo, if_neg hlt]
        have heq : lo = hi := by omega
        subst heq
        exact ⟨le_refl lo, le_refl lo, hl, hr⟩

theorem bisect_right_spec (lt : α → α → Bool) (a : List α) (x : α) :
    bisect_right lt a x ≤ a.length ∧
    (bisect_right lt a x = 0 ∨ lt x (a.getD (bisect_right lt a x - 1) x) = false) ∧
    (bisect_right lt a x = a.length ∨ lt x (a.getD (bisect_right lt a x) x) = true) := by
  have h := bisectGo_spec lt a x a.length 0 a.length (by omega) (by omega) (le_refl _)
    (Or.inl rfl) (Or.inl rfl)
  exact ⟨h.2.1, h.2.2⟩

theorem insertion_point_not_lt (lt : α → α → Bool) (a : List α) (x : α)
    (hup : ∀ i j, i ≤ j → j < a.length → lt x (a.getD i x) = true → lt x (a.getD j x) = true)
    {r1 r2 : Nat} (hr2 : r2 ≤ a.length)
    (c1 : r1 = a.length ∨ lt x (a.getD r1 x) = true)
    (b2 : r2 = 0 ∨ lt x (a.getD (r2 - 1) x) = false) : ¬ r1 < r2 := by
  intro hlt
  have hx1 : lt x (a.getD r1 x) = true := by
    rcases c1 with e | e
    · omega
    · exact e
  have hx2 : lt x (a.getD (r2 - 1) x) = true := hup r1 (r2 - 1) (by omega) (by omega) hx1
  rcases b2 with e | e
  · omega
  · rw [e] at hx2
    exact absurd hx2 (by simp)

theorem insertion_point_unique (lt : α → α → Bool) (a : List α) (x : α)
    (hup : ∀ i j, i ≤ j → j < a.length → lt x (a.getD i x) = true → lt x (a.getD j x) = true)
    {r1 r2 : Nat} (hr1 : r1 ≤ a.length) (hr2 : r2 ≤ a.length)
    (b1 : r1 = 0 ∨ lt x (a.getD (r1 - 1) x) = false)
    (c1 : r1 = a.length ∨ lt x (a.getD r1 x) = true)
    (b2 : r2 = 0 ∨ lt x (a.getD (r2 - 1) x) = false)
    (c2 : r2 = a.length ∨ lt x (a.getD r2 x) = true) : r1 = r2 := by
  have h1 := insertion_point_not_lt lt a x hup hr2 c1 b2
  have h2 := insertion_point_not_lt lt a x hup hr1 c2 b1
  omega

theorem bisect_right_eq_upperBound (lt : α → α → Bool) (a : List α) (x : α)
    (hup : ∀ i j, i ≤ j → j < a.length → lt x (a.getD i x) = true →
      lt x (a.getD j x) = true) :
    bisect_right lt a x = upperBound lt a x := by
  have h1 := bisect_right_spec lt a x
  have h2 := upperBound_spec lt a x
  exact insertion_point_unique lt a x hup h1.1 (upperBound_le_length lt a x)
    h1.2.1 h1.2.2 h2.1 h2.2

/-- The upward-closure hypothesis of the binary search holds on any list of
triples that is sorted in the non-strict lexicographic order. -/
theorem lex_upward_of_pairwise [LinearOrder α] {a : List (Triple α)} (x : Triple α)
    (hs : a.Pairwise (fun u v => ¬ Triple.lex v u)) :
    ∀ i j, i ≤ j → j < a.length → tripleLt x (a.getD i x) = true →
      tripleLt x (a.getD j x) = true := by
  intro i j hij hj hx
  rcases Nat.eq_or_lt_of_le hij with rfl | hlt
  · exact hx
  · have hi : i < a.length := lt_trans hlt hj
    have hp := (List.pairwise_iff_getElem.mp hs) i j hi hj hlt
    rw [List.getD_eq_getElem _ _ hi] at hx
    rw [List.getD_eq_getElem _ _ hj]
    simp only [tripleLt, decide_eq_true_eq] at hx ⊢
    exact lex_of_lex_of_not_lex hx hp

/-- Strictly increasing show values give the sorted-order hypothesis. -/
theorem pairwise_not_lex_of_strict [LinearOrder α] {l : List (Triple α)}
    (h : l.Pairwise (fun u v => u.shw < v.shw)) : l.Pairwise (fun u v => ¬ Triple.lex v u) :=
  h.imp (fun hlt hl => absurd (lex_shw_le hl) (not_le.mpr hlt))

/-! Text replacement loop lemmas. -/

theorem replaceLoop_fst_length (texts : List String) (rows : List Nat) (nts : List String) :
    (replaceLoop texts rows nts).1.length = texts.length := by
  induction rows generalizing texts nts with
  | nil => simp [replaceLoop]
  | cons row rest ih =>
      cases nts with
      | nil => simp [replaceLoop]
      | cons nt nts2 => simp [replaceLoop, ih]

theorem replaceLoop_snd_length (texts : List String) (rows : List Nat) (nts : List String)
    (hl : nts.length = rows.length) : (replaceLoop texts rows nts).2.length = rows.length := by
  induction rows generalizing texts nts with
  | nil => simp [replaceLoop]
  | cons row rest ih =>
      cases nts with
      | nil => simp at hl
      | cons nt nts2 =>
          simp only [replaceLoop, List.length_cons]
          rw [ih]
          simpa using hl

theorem replaceLoop_set_comm (texts : List String) (rows : List Nat) (nts : List String)
    (r : Nat) (x : String) (hr : r ∉ rows) :
    replaceLoop (texts.set r x) rows nts =
      ((replaceLoop texts rows nts).1.set r x, (replaceLoop texts rows nts).2) := by
  induction rows generalizing texts nts with
  | nil => simp [replaceLoop]
  | cons row rest ih =>
      cases nts with
      | nil => simp [replaceLoop]
      | cons nt nts2 =>
          have hrrow : r ≠ row := by
            intro h
            exact hr (h ▸ List.mem_cons_self r rest)
          have hrest : r ∉ rest := fun h => hr (List.mem_cons_of_mem _ h)
          simp only [replaceLoop]
          rw [List.set_comm _ _ _ hrrow, ih (texts.set row nt) nts2 hrest,
            getD_set_ne _ _ _ _ _ hrrow]

theorem replaceLoop_invol (texts : List String) (rows : List Nat) (nts : List String)
    (hnd : rows.Nodup) (hb : ∀ r ∈ rows, r < texts.length) (hl : nts.length = rows.length) :
    replaceLoop (replaceLoop texts rows nts).1 rows (replaceLoop texts rows nts).2 =
      (texts, nts) := by
  induction rows generalizing texts nts with
  | nil =>
      cases nts with
      | nil => simp [replaceLoop]
      | cons => simp at hl
  | cons row rest ih =>
      cases nts with
      | nil => simp at hl
      | cons nt nts2 =>
          have hrow : row ∉ rest := (List.nodup_cons.mp hnd).1
          have hnd2 : rest.Nodup := (List.nodup_cons.mp hnd).2
          have hrl : row < texts.length := hb row (List.mem_cons_self row rest)
          have hb2 : ∀ r ∈ rest, r < (texts.set row nt).length := by
            intro r hm
            simpa using hb r (List.mem_cons_of_mem _ hm)
          have hl2 : nts2.length = rest.length := by simpa using hl
          have hb3 : ∀ r ∈ rest, r < texts.length := fun r hm =>
            hb r (List.mem_cons_of_mem _ hm)
          have e1 : replaceLoop texts (row :: rest) (nt :: nts2)
              = ((replaceLoop texts rest nts2).1.set row nt,
                 texts.getD row blank :: (replaceLoop texts rest nts2).2) := by
            rw [replaceLoop, replaceLoop_set_comm texts rest nts2 row nt hrow]
          rw [e1]
          rw [replaceLoop]
          dsimp only
          rw [List.set_set, replaceLoop_set_comm (replaceLoop texts rest nts2).1 rest
            (replaceLoop texts rest nts2).2 row (texts.getD row blank) hrow]
          dsimp only
          rw [ih texts nts2 hnd2 hb3 hl2]
          dsimp only
          rw [set_getD_self texts row blank hrl,
            getD_set_self _ _ _ _ (by
              rw [replaceLoop_fst_length]
              exact hrl)]

/-! Insertion and removal loop lemmas. -/

theorem getD_insertIdx_self (l : List α) (n : Nat) (x d : α) (h : n ≤ l.length) :
    (l.insertIdx n x).getD n d = x := by
  have h2 : n < (l.insertIdx n x).length := by
    rw [List.length_insertIdx _ _ h]
    omega
  rw [List.getD_eq_getElem _ d h2, List.getElem_insertIdx_self _ _ _ h]

theorem insertLoop_length (l : List α) (rows : List Nat) (vs : List α)
    (hok : insOk l.length rows = true) (hl : vs.length = rows.length) :
    (insertLoop l rows vs).length = l.length + rows.length := by
  induction rows generalizing l vs with
  | nil =>
      cases vs with
      | nil => simp [insertLoop]
      | cons => simp at hl
  | cons r rs ih =>
      cases vs with
      | nil => simp at hl
      | cons v vs2 =>
          simp only [insOk, Bool.and_eq_true, decide_eq_true_eq] at hok
          obtain ⟨hr, hok2⟩ := hok
          rw [insertLoop, ih (l.insertIdx r v) vs2
            (by rwa [List.length_insertIdx _ _ hr]) (by simpa using hl)]
          rw [List.length_insertIdx _ _ hr]
          simp [Nat.add_comm, Nat.add_assoc, Nat.add_left_comm]

theorem removeLoop_insertLoop [Inhabited α] (l : List α) (rows : List Nat) (vs : List α)
    (hok : insOk l.length rows = true) (hl : vs.length = rows.length) :
    removeLoop (insertLoop l rows vs) rows = (l, vs) := by
  induction rows generalizing l vs with
  | nil =>
      cases vs with
      | nil => simp [insertLoop, removeLoop]
      | cons => simp at hl
  | cons r rs ih =>
      cases vs with
      | nil => simp at hl
      | cons v vs2 =>
          simp only [insOk, Bool.and_eq_true, decide_eq_true_eq] at hok
          obtain ⟨hr, hok2⟩ := hok
          rw [insertLoop, removeLoop,
            ih (l.insertIdx r v) vs2 (by rwa [List.length_insertIdx _ _ hr])
              (by simpa using hl)]
          rw [List.eraseIdx_insertIdx, getD_insertIdx_self l r v _ hr]

theorem ascending_bounded_length (rs : List Nat) (a L : Nat) (hs : rs.Pairwise (· < ·))
    (ha : ∀ e ∈ rs, a < e) (hL : ∀ e ∈ rs, e < L) : rs.length ≤ L - (a + 1) := by
  induction rs generalizing a with
  | nil => simp
  | cons b bs ih =>
      have hab : a < b := ha b (List.mem_cons_self b bs)
      have hbL : b < L := hL b (List.mem_cons_self b bs)
      have h1 : ∀ e ∈ bs, b < e := fun e he => (List.pairwise_cons.mp hs).1 e he
      have h2 : bs.Pairwise (· < ·) := (List.pairwise_cons.mp hs).2
      have h3 : ∀ e ∈ bs, e < L := fun e he => hL e (List.mem_cons_of_mem _ he)
      have := ih b h2 h1 h3
      simp only [List.length_cons]
      omega

theorem removeLoop_fst_length [Inhabited α] (l : List α) (rows : List Nat)
    (hs : rows.Pairwise (· < ·)) (hb : ∀ r ∈ rows, r < l.length) :
    (removeLoop l rows).1.length = l.length - rows.length := by
  induction rows generalizing l with
  | nil => simp [removeLoop]
  | cons r rs ih =>
      have h1 : ∀ e ∈ rs, r < e := fun e he => (List.pairwise_cons.mp hs).1 e he
      have h2 : rs.Pairwise (· < ·) := (List.pairwise_cons.mp hs).2
      have h3 : ∀ e ∈ rs, e < l.length := fun e he => hb e (List.mem_cons_of_mem _ he)
      have hlen := ih l h2 h3
      have hcnt := ascending_bounded_length rs r l.length h2 h1 h3
      have hrl : r < l.length := hb r (List.mem_cons_self r rs)
      rw [removeLoop]
      simp only []
      rw [List.length_eraseIdx]
      rw [hlen]
      have : r < l.length - rs.length := by omega
      simp [hlen, this]
      omega

theorem removeLoop_fst_lt [Inhabited α] (l : List α) (rows : List Nat)
    (hs : rows.Pairwise (· < ·)) (hb : ∀ r ∈ rows, r < l.length) (r : Nat)
    (hr : ∀ e ∈ rows, r < e) (hrl : r < l.length) :
    r < (removeLoop l rows).1.length := by
  have h1 := removeLoop_fst_length l rows hs hb
  have h2 := ascending_bounded_length rows r l.length hs hr hb
  omega

theorem insertLoop_removeLoop [Inhabited α] (l : List α) (rows : List Nat)
    (hs : rows.Pairwise (· < ·)) (hb : ∀ r ∈ rows, r < l.length) :
    insertLoop (removeLoop l rows).1 rows (removeLoop l rows).2 = l := by
  induction rows generalizing l with
  | nil => simp [removeLoop, insertLoop]
  | cons r rs ih =>
      have h1 : ∀ e ∈ rs, r < e := fun e he => (List.pairwise_cons.mp hs).1 e he
      have h2 : rs.Pairwise (· < ·) := (List.pairwise_cons.mp hs).2
      have h3 : ∀ e ∈ rs, e < l.length := fun e he => hb e (List.mem_cons_of_mem _ he)
      have hrl : r < l.length := hb r (List.mem_cons_self r rs)
      have hrm : r < (removeLoop l rs).1.length := removeLoop_fst_lt l rs h2 h3 r h1 hrl
      rw [removeLoop, insertLoop]
      simp only []
      rw [insertIdx_eraseIdx_getD _ r _ hrm]
      exact ih l h2 h3

/-! Characterization of removal as index-set filtering. -/

theorem map_getD_range [Inhabited α] (l : List α) :
    (List.range l.length).map (fun i => l.getD i default) = l := by
  apply List.ext_getElem
  · simp
  · intro i h1 h2
    simp only [List.getElem_map, List.getElem_range]
    rw [List.getD_eq_getElem _ _ h2]

theorem eraseIdx_append_cons (xs ys : List α) (y : α) :
    (xs ++ y :: ys).eraseIdx xs.length = xs ++ ys := by
  induction xs with
  | nil => simp
  | cons a t ih => simp [ih]

theorem getD_eraseIdx_lt (l : List α) (s r : Nat) (d : α) (h : r < s) :
    (l.eraseIdx s).getD r d = l.getD r d := by
  induction l generalizing s r with
  | nil => simp
  | cons a t ih =>
      cases s with
      | zero => omega
      | succ s2 =>
          cases r with
          | zero => simp
          | succ r2 =>
              rw [List.eraseIdx_cons_succ, List.getD_cons_succ, List.getD_cons_succ,
                ih s2 r2 (by omega)]

theorem removeLoop_fst_getD_lt [Inhabited α] (l : List α) (rows : List Nat) (r : Nat)
    (hr : ∀ e ∈ rows, r < e) : (removeLoop l rows).1.getD r default = l.getD r default := by
  induction rows with
  | nil => rw [removeLoop]
  | cons s ss ih =>
      rw [removeLoop]
      dsimp only
      rw [getD_eraseIdx_lt _ _ _ _ (hr s (List.mem_cons_self s ss)),
        ih (fun e he => hr e (List.mem_cons_of_mem _ he))]

theorem removeLoop_snd_eq_selectAt [Inhabited α] (l : List α) (rows : List Nat)
    (hs : rows.Pairwise (· < ·)) : (removeLoop l rows).2 = selectAt l rows := by
  induction rows with
  | nil => rw [removeLoop, selectAt, List.map_nil]
  | cons r rs ih =>
      rw [removeLoop]
      dsimp only
      rw [removeLoop_fst_getD_lt l rs r (fun e he => (List.pairwise_cons.mp hs).1 e he),
        ih (List.pairwise_cons.mp hs).2]
      rfl

theorem eraseIdx_dropAt [Inhabited α] (l : List α) (rs : List Nat) (r : Nat)
    (hall : ∀ e ∈ rs, r < e) (hrl : r < l.length) :
    (dropAt l rs).eraseIdx r = dropAt l (r :: rs) := by
  unfold dropAt
  have hsplit : List.range l.length
      = List.range (r + 1) ++ (List.range (l.length - (r + 1))).map ((r + 1) + ·) := by
    rw [← List.range_add]
    congr 1
    omega
  have hr1 : List.range (r + 1) = List.range r ++ [r] := List.range_succ r
  have hfront : ∀ (rows2 : List Nat), (∀ e ∈ rows2, r ≤ e) →
      (List.range r).filter (fun i => decide (i ∉ rows2)) = List.range r := by
    intro rows2 h2
    apply List.filter_eq_self.mpr
    intro x hx
    have hxr : x < r := List.mem_range.mp hx
    simp only [decide_eq_true_eq]
    intro hmem
    exact absurd (h2 x hmem) (by omega)
  have hback : (List.range (l.length - (r + 1))).filter
        ((fun i => decide (i ∉ r :: rs)) ∘ ((r + 1) + ·))
      = (List.range (l.length - (r + 1))).filter ((fun i => decide (i ∉ rs)) ∘ ((r + 1) + ·)) := by
    apply List.filter_congr
    intro x _
    simp only [Function.comp_apply, decide_eq_true_eq, List.mem_cons, decide_eq_decide]
    constructor
    · intro h hm
      exact h (Or.inr hm)
    · intro h hm
      rcases hm with he | hm2
      · exact absurd he (by omega)
      · exact h hm2
  have hallc : ∀ e ∈ (r :: rs), r ≤ e := by
    intro e he
    rcases List.mem_cons.mp he with rfl | h
    · exact le_refl e
    · exact le_of_lt (hall e h)
  have hkeep : List.filter (fun i => decide (i ∉ rs)) [r] = [r] := by
    simp only [List.filter_cons, List.filter_nil, decide_eq_true_eq]
    rw [if_pos]
    intro hmem
    exact absurd (hall r hmem) (by omega)
  have hdrop : List.filter (fun i => decide (i ∉ r :: rs)) [r] = [] := by
    simp [List.filter_cons]
  rw [hsplit, hr1]
  rw [List.filter_append, List.filter_append, List.filter_append, List.filter_append]
  rw [hfront rs (fun e he => le_of_lt (hall e he)), hfront (r :: rs) hallc]
  rw [List.filter_map, List.filter_map, hback, hkeep, hdrop]
  rw [List.map_append, List.map_append, List.map_append, List.map_append]
  rw [List.append_assoc, List.append_assoc]
  have hlenA : ((List.range r).map (fun i => l.getD i default)).length = r := by simp
  have hmain := eraseIdx_append_cons ((List.range r).map (fun i => l.getD i default))
    ((((List.range (l.length - (r + 1))).filter
        ((fun i => decide (i ∉ rs)) ∘ ((r + 1) + ·))).map ((r + 1) + ·)).map
      (fun i => l.getD i default)) (l.getD r default)
  rw [hlenA.symm]
  simpa using hmain

theorem removeLoop_fst_eq_dropAt [Inhabited α] (l : List α) (rows : List Nat)
    (hs : rows.Pairwise (· < ·)) (hb : ∀ r ∈ rows, r < l.length) :
    (removeLoop l rows).1 = dropAt l rows := by
  induction rows with
  | nil =>
      rw [removeLoop]
      unfold dropAt
      rw [List.filter_eq_self.mpr (by simp)]
      exact (map_getD_range l).symm
  | cons r rs ih =>
      rw [removeLoop]
      dsimp only
      rw [ih (List.pairwise_cons.mp hs).2 (fun e he => hb e (List.mem_cons_of_mem _ he)),
        eraseIdx_dropAt l rs r (fun e he => (List.pairwise_cons.mp hs).1 e he)
          (hb r (List.mem_cons_self r rs))]

/-! Pipeline iteration lemmas for the tag converter. -/

theorem foldl_range_const (f : α → α) (n : Nat) (t : α) :
    (List.range n).foldl (fun s _ => f s) t = f^[n] t := by
  induction n generalizing t with
  | zero => simp
  | succ m ih =>
      rw [List.range_succ, List.foldl_append, ih]
      simp only [List.foldl_cons, List.foldl_nil]
      exact (Function.iterate_succ_apply' f m t).symm

theorem foldl_rules_eq_rulePipeline (rules : List TagRule) (t : String) :
    rules.foldl (fun t entry => (List.range entry.count).foldl (fun s _ => entry.sub s) t) t
      = rulePipeline rules t := by
  unfold rulePipeline
  induction rules generalizing t with
  | nil => rfl
  | cons r rs ih =>
      rw [List.foldl_cons, List.foldl_cons, foldl_range_const, ih]

/-- C6: calling set_time with the value already stored in the time triple,
or set_frame with the value already stored in the frame triple, returns the
input row index, registers no action, and leaves the whole project state,
in particular all four parallel arrays, unchanged. -/
theorem noop_set_call (p : Project) (row : Nat) (col : Col) (tv fv : Int)
    (register : Action)
    (ht : tv = (p.times.getD row default).get col)
    (hf : fv = (p.frames.getD row default).get col) :
    set_time p row col tv register = (p, row) ∧
    set_frame p row col fv register = (p, row) := by
  constructor
  · rw [set_time, if_pos ht]
  · rw [set_frame, if_pos hf]

/-- Witness for C6 at a concrete project, row and field. -/
theorem noop_set_call_witness :
    ((0 : Int) = (wbase.times.getD 0 default).get Col.SHOW ∧
      (0 : Int) = (wbase.frames.getD 0 default).get Col.SHOW) ∧
    set_time wbase 0 Col.SHOW 0 Action.DO = (wbase, 0) ∧
    set_frame wbase 0 Col.SHOW 0 Action.DO = (wbase, 0) :=
  ⟨⟨by decide, by decide⟩,
    noop_set_call wbase 0 Col.SHOW 0 0 Action.DO (by decide) (by decide)⟩

/-- C9: convert_tags returns empty text unchanged, and on non-empty text it
is exactly the composition of pre_decode, the decode rules in list order
(each applied its repeat count of times, defaulting to one when the entry
carries no count), post_decode, pre_encode, the encode rules in list order
likewise, and post_encode. -/
theorem convert_tags_pipeline (from_tags to_tags : List TagEntry)
    (pre_decode post_decode pre_encode post_encode : String → String) (text : String) :
    convert_tags
        (TagConverter.make from_tags to_tags pre_decode post_decode pre_encode post_encode)
        blank = blank ∧
    (text ≠ blank →
      convert_tags
          (TagConverter.make from_tags to_tags pre_decode post_decode pre_encode post_encode)
          text
        = post_encode (rulePipeline (to_tags.map compileEntry)
            (pre_encode (post_decode (rulePipeline (from_tags.map compileEntry)
              (pre_decode text)))))) := by
  constructor
  · rw [convert_tags, if_pos rfl]
  · intro h
    rw [convert_tags, if_neg h]
    unfold TagConverter.make
    dsimp only
    rw [foldl_rules_eq_rulePipeline, foldl_rules_eq_rulePipeline]

/-- Witness for C9 on a non-empty text with one count-free decode rule. -/
theorem convert_tags_pipeline_witness :
    ("x" ≠ blank) ∧
    (convert_tags
        (TagConverter.make [TagEntry.mk id none] [] id id id id) blank = blank ∧
      ("x" ≠ blank →
        convert_tags (TagConverter.make [TagEntry.mk id none] [] id id id id) "x"
          = id (rulePipeline (([] : List TagEntry).map compileEntry)
              (id (id (rulePipeline ([TagEntry.mk id none].map compileEntry) (id "x"))))))) :=
  ⟨by decide, convert_tags_pipeline [TagEntry.mk id none] [] id id id id "x"⟩

/-- C10: insert_subtitles and remove_subtitles sort their rows argument into
ascending order before mutating anything, so permuted rows (data held
fixed) produce the same project state and the same registered action. -/
theorem rows_permutation_invariant (p : Project) (rows rows2 : List Nat)
    (data : Option (List (Triple Int) × List (Triple Int) × List String × List String))
    (register : Action) (h : rows.Perm rows2) :
    insert_subtitles p rows data register = insert_subtitles p rows2 data register ∧
    remove_subtitles p rows register = remove_subtitles p rows2 register := by
  have hs : List.insertionSort (· ≤ ·) rows = List.insertionSort (· ≤ ·) rows2 := by
    have hs1 := List.sorted_insertionSort (fun a b : Nat => a ≤ b) rows
    have hs2 := List.sorted_insertionSort (fun a b : Nat => a ≤ b) rows2
    have hperm : (List.insertionSort (fun a b : Nat => a ≤ b) rows).Perm
        (List.insertionSort (fun a b : Nat => a ≤ b) rows2) :=
      ((List.perm_insertionSort _ rows).trans h).trans
        (List.perm_insertionSort _ rows2).symm
    exact List.eq_of_perm_of_sorted hperm hs1 hs2
  constructor
  · unfold insert_subtitles
    rw [hs]
  · unfold remove_subtitles
    rw [hs]

/-- Witness for C10 at a concrete permutation. -/
theorem rows_permutation_invariant_witness :
    ([2, 0, 1] : List Nat).Perm [0, 1, 2] ∧
    (insert_subtitles wbase [2, 0, 1] none Action.DO
        = insert_subtitles wbase [0, 1, 2] none Action.DO ∧
      remove_subtitles wbase [2, 0, 1] Action.DO
        = remove_subtitles wbase [0, 1, 2] Action.DO) :=
  ⟨by decide, rows_permutation_invariant wbase [2, 0, 1] [0, 1, 2] none Action.DO (by decide)⟩

/-- C5: when the mode is TIME, set_frame registers its revert as a set_time
call carrying the row's original time value (not a back-converted frame
value), and when the mode is FRAME, set_time registers its revert as a
set_frame call carrying the row's original frame value; the revert call
targets the row's post-resort index. -/
theorem mode_dependent_revert (p : Project) (row : Nat) (col : Col) (tv fv : Int)
    (hfv : fv ≠ (p.frames.getD row default).get col)
    (htv : tv ≠ (p.times.getD row default).get col) :
    (p.mode = Mode.TIME →
      ((set_frame p row col fv Action.DO).1.undoables.headD
          (RevertableAction.mk [] [])).revert_ops
        = [RevertOp.set_time (set_frame p row col fv Action.DO).2 col
            ((p.times.getD row default).get col)]) ∧
    (p.mode = Mode.FRAME →
      ((set_time p row col tv Action.DO).1.undoables.headD
          (RevertableAction.mk [] [])).revert_ops
        = [RevertOp.set_frame (set_time p row col tv Action.DO).2 col
            ((p.frames.getD row default).get col)]) := by
  constructor
  · intro hm
    rw [set_frame, if_neg hfv]
    simp only [hm, register_action]
    rfl
  · intro hm
    rw [set_time, if_neg htv]
    simp only [hm, register_action]
    rfl

/-- Witness for C5 at a concrete time-mode project. -/
theorem mode_dependent_revert_witness :
    ((7 : Int) ≠ (wbase.frames.getD 1 default).get Col.HIDE ∧
      (7 : Int) ≠ (wbase.times.getD 1 default).get Col.HIDE) ∧
    ((wbase.mode = Mode.TIME →
      ((set_frame wbase 1 Col.HIDE 7 Action.DO).1.undoables.headD
          (RevertableAction.mk [] [])).revert_ops
        = [RevertOp.set_time (set_frame wbase 1 Col.HIDE 7 Action.DO).2 Col.HIDE
            ((wbase.times.getD 1 default).get Col.HIDE)]) ∧
    (wbase.mode = Mode.FRAME →
      ((set_time wbase 1 Col.HIDE 7 Action.DO).1.undoables.headD
          (RevertableAction.mk [] [])).revert_ops
        = [RevertOp.set_frame (set_time wbase 1 Col.HIDE 7 Action.DO).2 Col.HIDE
            ((wbase.frames.getD 1 default).get Col.HIDE)])) :=
  ⟨⟨by decide, by decide⟩, mode_dependent_revert wbase 1 Col.HIDE 7 7 (by decide) (by decide)⟩

/-! Closed forms of set_time and set_frame. -/

theorem set_time_SHOW_parts (p : Project) (row : Nat) (v : Int) (register : Action)
    (hv : v ≠ (p.times.getD row default).get Col.SHOW)
    (hrow : row < p.times.length) (hfr : row < p.frames.length) :
    set_time p row Col.SHOW v register
      = (register_action (sort_data (writeShowTime p row v) row).1 register
          (match p.mode with
            | Mode.TIME => RevertOp.set_time (sort_data (writeShowTime p row v) row).2 Col.SHOW
                (p.times.getD row default).shw
            | Mode.FRAME => RevertOp.set_frame (sort_data (writeShowTime p row v) row).2 Col.SHOW
                (p.frames.getD row default).shw)
          (if (sort_data (writeShowTime p row v) row).2 ≠ row then
            List.range' (min row (sort_data (writeShowTime p row v) row).2)
              (max row (sort_data (writeShowTime p row v) row).2 + 1
                - min row (sort_data (writeShowTime p row v) row).2)
          else []),
        (sort_data (writeShowTime p row v) row).2) := by
  rw [set_time, if_neg hv]
  simp only [set_durations, Triple.set, Triple.get, writeShowTime,
    Calc.get_time_duration, Calc.get_frame_duration,
    getD_set_self _ _ _ _ hrow, getD_set_self _ _ _ _ hfr, List.set_set]
  simp

theorem set_frame_SHOW_parts (p : Project) (row : Nat) (v : Int) (register : Action)
    (hv : v ≠ (p.frames.getD row default).get Col.SHOW)
    (hrow : row < p.times.length) (hfr : row < p.frames.length) :
    set_frame p row Col.SHOW v register
      = (register_action (sort_data (writeShowFrame p row v) row).1 register
          (match p.mode with
            | Mode.TIME => RevertOp.set_time (sort_data (writeShowFrame p row v) row).2 Col.SHOW
                (p.times.getD row default).shw
            | Mode.FRAME => RevertOp.set_frame (sort_data (writeShowFrame p row v) row).2 Col.SHOW
                (p.frames.getD row default).shw)
          (if (sort_data (writeShowFrame p row v) row).2 ≠ row then
            List.range' (min row (sort_data (writeShowFrame p row v) row).2)
              (max row (sort_data (writeShowFrame p row v) row).2 + 1
                - min row (sort_data (writeShowFrame p row v) row).2)
          else []),
        (sort_data (writeShowFrame p row v) row).2) := by
  rw [set_frame, if_neg hv]
  simp only [set_durations, Triple.set, Triple.get, writeShowFrame,
    Calc.get_time_duration, Calc.get_frame_duration,
    getD_set_self _ _ _ _ hrow, getD_set_self _ _ _ _ hfr, List.set_set]
  simp

theorem set_time_HIDE_parts (p : Project) (row : Nat) (v : Int) (register : Action)
    (hv : v ≠ (p.times.getD row default).get Col.HIDE)
    (hrow : row < p.times.length) (hfr : row < p.frames.length) :
    set_time p row Col.HIDE v register
      = (register_action
          { p with
            times := p.times.set row
              (Triple.mk (p.times.getD row default).shw v
                (v - (p.times.getD row default).shw))
            frames := p.frames.set row
              (Triple.mk (p.frames.getD row default).shw (p.calcu.time_to_frame v)
                (p.calcu.time_to_frame v - (p.frames.getD row default).shw)) }
          register
          (match p.mode with
            | Mode.TIME => RevertOp.set_time row Col.HIDE (p.times.getD row default).hid
            | Mode.FRAME => RevertOp.set_frame row Col.HIDE (p.frames.getD row default).hid)
          [], row) := by
  rw [set_time, if_neg hv]
  simp only [set_durations, Triple.set, Triple.get,
    Calc.get_time_duration, Calc.get_frame_duration,
    getD_set_self _ _ _ _ hrow, getD_set_self _ _ _ _ hfr, List.set_set]
  simp

theorem set_frame_HIDE_parts (p : Project) (row : Nat) (v : Int) (register : Action)
    (hv : v ≠ (p.frames.getD row default).get Col.HIDE)
    (hrow : row < p.times.length) (hfr : row < p.frames.length) :
    set_frame p row Col.HIDE v register
      = (register_action
          { p with
            times := p.times.set row
              (Triple.mk (p.times.getD row default).shw (p.calcu.frame_to_time v)
                (p.calcu.frame_to_time v - (p.times.getD row default).shw))
            frames := p.frames.set row
              (Triple.mk (p.frames.getD row default).shw v
                (v - (p.frames.getD row default).shw)) }
          register
          (match p.mode with
            | Mode.TIME => RevertOp.set_time row Col.HIDE (p.times.getD row default).hid
            | Mode.FRAME => RevertOp.set_frame row Col.HIDE (p.frames.getD row default).hid)
          [], row) := by
  rw [set_frame, if_neg hv]
  simp only [set_durations, Triple.set, Triple.get,
    Calc.get_time_duration, Calc.get_frame_duration,
    getD_set_self _ _ _ _ hrow, getD_set_self _ _ _ _ hfr, List.set_set]
  simp

theorem set_time_DURN_parts (p : Project) (row : Nat) (v : Int) (register : Action)
    (hv : v ≠ (p.times.getD row default).get Col.DURN)
    (hrow : row < p.times.length) (hfr : row < p.frames.length) :
    set_time p row Col.DURN v register
      = (register_action
          { p with
            times := p.times.set row
              (Triple.mk (p.times.getD row default).shw
                ((p.times.getD row default).shw + v) v)
            frames := p.frames.set row
              (Triple.mk (p.frames.getD row default).shw
                ((p.frames.getD row default).shw + p.calcu.time_to_frame v)
                (p.calcu.time_to_frame v)) }
          register
          (match p.mode with
            | Mode.TIME => RevertOp.set_time row Col.DURN (p.times.getD row default).drn
            | Mode.FRAME => RevertOp.set_frame row Col.DURN (p.frames.getD row default).drn)
          [], row) := by
  rw [set_time, if_neg hv]
  simp only [set_hides, Triple.set, Triple.get, Calc.add_times,
    Calc.get_time_duration, Calc.get_frame_duration,
    getD_set_self _ _ _ _ hrow, getD_set_self _ _ _ _ hfr, List.set_set]
  simp

theorem set_frame_DURN_parts (p : Project) (row : Nat) (v : Int) (register : Action)
    (hv : v ≠ (p.frames.getD row default).get Col.DURN)
    (hrow : row < p.times.length) (hfr : row < p.frames.length) :
    set_frame p row Col.DURN v register
      = (register_action
          { p with
            times := p.times.set row
              (Triple.mk (p.times.getD row default).shw
                ((p.times.getD row default).shw + p.calcu.frame_to_time v)
                (p.calcu.frame_to_time v))
            frames := p.frames.set row
              (Triple.mk (p.frames.getD row default).shw
                ((p.frames.getD row default).shw + v) v) }
          register
          (match p.mode with
            | Mode.TIME => RevertOp.set_time row Col.DURN (p.times.getD row default).drn
            | Mode.FRAME => RevertOp.set_frame row Col.DURN (p.frames.getD row default).drn)
          [], row) := by
  rw [set_frame, if_neg hv]
  simp only [set_hides, Triple.set, Triple.get, Calc.add_times,
    Calc.get_time_duration, Calc.get_frame_duration,
    getD_set_self _ _ _ _ hrow, getD_set_self _ _ _ _ hfr, List.set_set]
  simp

/-! Resort lemmas. -/

theorem getD_eraseIdx_ge (l : List α) (s r : Nat) (d : α) (h : s ≤ r) :
    (l.eraseIdx s).getD r d = l.getD (r + 1) d := by
  induction l generalizing s r with
  | nil => simp
  | cons a t ih =>
      cases s with
      | zero => simp
      | succ s2 =>
          cases r with
          | zero => omega
          | succ r2 =>
              rw [List.eraseIdx_cons_succ, List.getD_cons_succ, List.getD_cons_succ,
                ih s2 r2 (by omega)]

theorem sort_data_arrays (p : Project) (row : Nat) (hrow : row < p.times.length)
    (hf : row < p.frames.length) (hm : row < p.main_texts.length)
    (ht : row < p.tran_texts.length) :
    (sort_data p row).1.times = moveRow p.times row (sort_data p row).2 default ∧
    (sort_data p row).1.frames = moveRow p.frames row (sort_data p row).2 default ∧
    (sort_data p row).1.main_texts = moveRow p.main_texts row (sort_data p row).2 blank ∧
    (sort_data p row).1.tran_texts = moveRow p.tran_texts row (sort_data p row).2 blank ∧
    (sort_data p row).1.mode = p.mode ∧ (sort_data p row).1.calcu = p.calcu ∧
    (sort_data p row).1.framerate = p.framerate ∧
    (sort_data p row).1.clipboard = p.clipboard ∧
    (sort_data p row).1.undoables = p.undoables ∧
    (sort_data p row).1.redoables = p.redoables ∧
    (sort_data p row).2 = new_row_of p row := by
  unfold sort_data
  by_cases h : new_row_of p row ≠ row
  · simp only [if_pos h]
    simp
  · simp only [if_neg h]
    push_neg at h
    rw [h, moveRow_self p.times row default hrow, moveRow_self p.frames row default hf,
      moveRow_self p.main_texts row blank hm, moveRow_self p.tran_texts row blank ht]
    simp

theorem new_row_of_eq_bisect_time (p : Project) (row : Nat) (hm : p.mode = Mode.TIME) :
    new_row_of p row
      = bisect_right tripleLt (p.times.eraseIdx row) (p.times.getD row default) := by
  unfold new_row_of
  rw [hm]
  dsimp only
  rw [← List.eraseIdx_eq_take_drop_succ]

theorem new_row_of_eq_bisect_frame (p : Project) (row : Nat) (hm : p.mode = Mode.FRAME) :
    new_row_of p row
      = bisect_right tripleLt (p.frames.eraseIdx row) (p.frames.getD row default) := by
  unfold new_row_of
  rw [hm]
  dsimp only
  rw [← List.eraseIdx_eq_take_drop_succ]

theorem new_row_of_le_time (p : Project) (row : Nat) (hm : p.mode = Mode.TIME)
    (hrow : row < p.times.length) : new_row_of p row ≤ p.times.length - 1 := by
  rw [new_row_of_eq_bisect_time p row hm]
  have h := (bisect_right_spec tripleLt (p.times.eraseIdx row) (p.times.getD row default)).1
  rw [List.length_eraseIdx] at h
  simp only [hrow, if_pos] at h
  exact h

theorem new_row_of_le_frame (p : Project) (row : Nat) (hm : p.mode = Mode.FRAME)
    (hfr : row < p.frames.length) : new_row_of p row ≤ p.frames.length - 1 := by
  rw [new_row_of_eq_bisect_frame p row hm]
  have h := (bisect_right_spec tripleLt (p.frames.eraseIdx row) (p.frames.getD row default)).1
  rw [List.length_eraseIdx] at h
  simp only [hfr, if_pos] at h
  exact h

theorem bisect_right_eq_upperBound_of_lexSorted (a : List (Triple Int)) (x : Triple Int)
    (hs : lexSorted a) : bisect_right tripleLt a x = upperBound tripleLt a x :=
  bisect_right_eq_upperBound tripleLt a x (lex_upward_of_pairwise x hs)

theorem lexSorted_eraseIdx (l : List (Triple Int)) (i : Nat) (hs : lexSorted l) :
    lexSorted (l.eraseIdx i) :=
  hs.sublist (List.eraseIdx_sublist l i)

theorem strictShowSorted_eraseIdx (l : List (Triple Int)) (i : Nat)
    (hs : strictShowSorted l) : strictShowSorted (l.eraseIdx i) :=
  hs.sublist (List.eraseIdx_sublist l i)

/-- On a strictly show-sorted list, the rightmost insertion point of the
row's own triple among the other rows' triples is the row's own index: the
resort of an unchanged (or reverted) show value is a fixpoint. -/
theorem upperBound_eraseIdx_self (l : List (Triple Int)) (row : Nat)
    (hs : strictShowSorted l) (hrow : row < l.length) :
    upperBound tripleLt (l.eraseIdx row) (l.getD row default) = row := by
  have hlen : (l.eraseIdx row).length = l.length - 1 := by
    rw [List.length_eraseIdx]
    simp [hrow]
  have hsx := List.pairwise_iff_getElem.mp hs
  have hup := lex_upward_of_pairwise (l.getD row default)
    (pairwise_not_lex_of_strict (strictShowSorted_eraseIdx l row hs))
  have hubspec := upperBound_spec tripleLt (l.eraseIdx row) (l.getD row default)
  apply insertion_point_unique tripleLt (l.eraseIdx row) (l.getD row default) hup
    (upperBound_le_length _ _ _) (by omega) hubspec.1 hubspec.2
  · -- row = 0 or the element left of row is not greater
    cases hr0 : row with
    | zero => exact Or.inl rfl
    | succ r2 =>
        right
        rw [getD_eraseIdx_lt _ _ _ _ (by omega)]
        simp only [Nat.add_sub_cancel]
        rw [List.getD_eq_getElem _ _ (show r2 < l.length by omega),
          List.getD_eq_getElem _ _ (show r2 + 1 < l.length by omega)]
        simp only [tripleLt, decide_eq_false_iff_not]
        intro hlex
        have hlt := hsx r2 (r2 + 1) (by omega) (by omega) (by omega)
        exact absurd (lex_shw_le hlex) (not_le.mpr hlt)
  · -- row = remaining length or the element at row is greater
    by_cases hend : row = l.length - 1
    · exact Or.inl (by omega)
    · right
      rw [getD_eraseIdx_ge _ _ _ _ (le_refl row)]
      rw [List.getD_eq_getElem _ _ hrow,
        List.getD_eq_getElem _ _ (show row + 1 < l.length by omega)]
      simp only [tripleLt, decide_eq_true_eq]
      exact Or.inl (hsx row (row + 1) hrow (by omega) (by omega))

theorem project_eq (p q : Project) (hm : p.mode = q.mode) (hc : p.calcu = q.calcu)
    (hf : p.framerate = q.framerate) (h1 : p.times = q.times) (h2 : p.frames = q.frames)
    (h3 : p.main_texts = q.main_texts) (h4 : p.tran_texts = q.tran_texts)
    (h5 : p.clipboard = q.clipboard) (h6 : p.undoables = q.undoables)
    (h7 : p.redoables = q.redoables) : p = q := by
  cases p
  cases q
  simp_all

theorem set_time_SHOW_effect (p : Project) (row : Nat) (v : Int) (reg : Action)
    (hv : v ≠ (p.times.getD row default).get Col.SHOW) (hrow : row < p.times.length)
    (hwf : wfP p) :
    set_time p row Col.SHOW v reg
      = (register_action
          { p with
            times := moveRow (writeShowTime p row v).times row
              (new_row_of (writeShowTime p row v) row) default
            frames := moveRow (writeShowTime p row v).frames row
              (new_row_of (writeShowTime p row v) row) default
            main_texts := moveRow p.main_texts row
              (new_row_of (writeShowTime p row v) row) blank
            tran_texts := moveRow p.tran_texts row
              (new_row_of (writeShowTime p row v) row) blank }
          reg
          (match p.mode with
            | Mode.TIME => RevertOp.set_time (new_row_of (writeShowTime p row v) row) Col.SHOW
                (p.times.getD row default).shw
            | Mode.FRAME => RevertOp.set_frame (new_row_of (writeShowTime p row v) row) Col.SHOW
                (p.frames.getD row default).shw)
          (if new_row_of (writeShowTime p row v) row ≠ row then
            List.range' (min row (new_row_of (writeShowTime p row v) row))
              (max row (new_row_of (writeShowTime p row v) row) + 1
                - min row (new_row_of (writeShowTime p row v) row))
          else []),
        new_row_of (writeShowTime p row v) row) := by
  have hfr : row < p.frames.length := by
    rw [hwf.1]
    exact hrow
  rw [set_time_SHOW_parts p row v reg hv hrow hfr]
  obtain ⟨e1, e2, e3, e4, e5, e6, e7, e8, e9, e10, hr⟩ :=
    sort_data_arrays (writeShowTime p row v) row
      (by simpa [writeShowTime] using hrow)
      (by simpa [writeShowTime] using hfr)
      (by simpa [writeShowTime] using (by rw [hwf.2.1]; exact hrow : row < p.main_texts.length))
      (by simpa [writeShowTime] using (by rw [hwf.2.2]; exact hrow : row < p.tran_texts.length))
  rw [hr] at e1 e2 e3 e4
  have hstruct : (sort_data (writeShowTime p row v) row).1
      = { p with
          times := moveRow (writeShowTime p row v).times row
            (new_row_of (writeShowTime p row v) row) default
          frames := moveRow (writeShowTime p row v).frames row
            (new_row_of (writeShowTime p row v) row) default
          main_texts := moveRow p.main_texts row
            (new_row_of (writeShowTime p row v) row) blank
          tran_texts := moveRow p.tran_texts row
            (new_row_of (writeShowTime p row v) row) blank } :=
    project_eq _ _ e5 e6 e7 e1 e2 e3 e4 e8 e9 e10
  rw [hr, hstruct]

theorem set_frame_SHOW_effect (p : Project) (row : Nat) (v : Int) (reg : Action)
    (hv : v ≠ (p.frames.getD row default).get Col.SHOW) (hrow : row < p.times.length)
    (hwf : wfP p) :
    set_frame p row Col.SHOW v reg
      = (register_action
          { p with
            times := moveRow (writeShowFrame p row v).times row
              (new_row_of (writeShowFrame p row v) row) default
            frames := moveRow (writeShowFrame p row v).frames row
              (new_row_of (writeShowFrame p row v) row) default
            main_texts := moveRow p.main_texts row
              (new_row_of (writeShowFrame p row v) row) blank
            tran_texts := moveRow p.tran_texts row
              (new_row_of (writeShowFrame p row v) row) blank }
          reg
          (match p.mode with
            | Mode.TIME => RevertOp.set_time (new_row_of (writeShowFrame p row v) row) Col.SHOW
                (p.times.getD row default).shw
            | Mode.FRAME => RevertOp.set_frame (new_row_of (writeShowFrame p row v) row) Col.SHOW
                (p.frames.getD row default).shw)
          (if new_row_of (writeShowFrame p row v) row ≠ row then
            List.range' (min row (new_row_of (writeShowFrame p row v) row))
              (max row (new_row_of (writeShowFrame p row v) row) + 1
                - min row (new_row_of (writeShowFrame p row v) row))
          else []),
        new_row_of (writeShowFrame p row v) row) := by
  have hfr : row < p.frames.length := by
    rw [hwf.1]
    exact hrow
  rw [set_frame_SHOW_parts p row v reg hv hrow hfr]
  obtain ⟨e1, e2, e3, e4, e5, e6, e7, e8, e9, e10, hr⟩ :=
    sort_data_arrays (writeShowFrame p row v) row
      (by simpa [writeShowFrame] using hrow)
      (by simpa [writeShowFrame] using hfr)
      (by simpa [writeShowFrame] using (by rw [hwf.2.1]; exact hrow : row < p.main_texts.length))
      (by simpa [writeShowFrame] using (by rw [hwf.2.2]; exact hrow : row < p.tran_texts.length))
  rw [hr] at e1 e2 e3 e4
  have hstruct : (sort_data (writeShowFrame p row v) row).1
      = { p with
          times := moveRow (writeShowFrame p row v).times row
            (new_row_of (writeShowFrame p row v) row) default
          frames := moveRow (writeShowFrame p row v).frames row
            (new_row_of (writeShowFrame p row v) row) default
          main_texts := moveRow p.main_texts row
            (new_row_of (writeShowFrame p row v) row) blank
          tran_texts := moveRow p.tran_texts row
            (new_row_of (writeShowFrame p row v) row) blank } :=
    project_eq _ _ e5 e6 e7 e1 e2 e3 e4 e8 e9 e10
  rw [hr, hstruct]

/-- C4: a SHOW-field change through set_time or set_frame lands the row at
the rightmost insertion point (upper bound) of the row's full new position
triple among the remaining rows' triples, compared lexicographically on the
full (show, hide, duration) triple rather than on show alone; all four
parallel arrays move the row's entries together to that index, and the
registered action's updated-rows list is the inclusive range from the
smaller to the larger of the old and new indices (empty when the row did
not move). -/
theorem resort_upper_bound (p : Project) (row : Nat) (tv fv : Int)
    (htv : tv ≠ (p.times.getD row default).get Col.SHOW)
    (hfv : fv ≠ (p.frames.getD row default).get Col.SHOW)
    (hrow : row < p.times.length) (hwf : wfP p) :
    (p.mode = Mode.TIME → lexSorted p.times →
      (set_time p row Col.SHOW tv Action.DO).2
        = upperBound tripleLt (p.times.eraseIdx row)
            (Triple.mk tv (p.times.getD row default).hid
              ((p.times.getD row default).hid - tv)) ∧
      (set_frame p row Col.SHOW fv Action.DO).2
        = upperBound tripleLt (p.times.eraseIdx row)
            (Triple.mk (p.calcu.frame_to_time fv) (p.times.getD row default).hid
              ((p.times.getD row default).hid - p.calcu.frame_to_time fv))) ∧
    (p.mode = Mode.FRAME → lexSorted p.frames →
      (set_time p row Col.SHOW tv Action.DO).2
        = upperBound tripleLt (p.frames.eraseIdx row)
            (Triple.mk (p.calcu.time_to_frame tv) (p.frames.getD row default).hid
              ((p.frames.getD row default).hid - p.calcu.time_to_frame tv)) ∧
      (set_frame p row Col.SHOW fv Action.DO).2
        = upperBound tripleLt (p.frames.eraseIdx row)
            (Triple.mk fv (p.frames.getD row default).hid
              ((p.frames.getD row default).hid - fv))) ∧
    ((set_time p row Col.SHOW tv Action.DO).1.times
        = moveRow (writeShowTime p row tv).times row
            (set_time p row Col.SHOW tv Action.DO).2 default ∧
      (set_time p row Col.SHOW tv Action.DO).1.frames
        = moveRow (writeShowTime p row tv).frames row
            (set_time p row Col.SHOW tv Action.DO).2 default ∧
      (set_time p row Col.SHOW tv Action.DO).1.main_texts
        = moveRow p.main_texts row (set_time p row Col.SHOW tv Action.DO).2 blank ∧
      (set_time p row Col.SHOW tv Action.DO).1.tran_texts
        = moveRow p.tran_texts row (set_time p row Col.SHOW tv Action.DO).2 blank) ∧
    ((set_frame p row Col.SHOW fv Action.DO).1.times
        = moveRow (writeShowFrame p row fv).times row
            (set_frame p row Col.SHOW fv Action.DO).2 default ∧
      (set_frame p row Col.SHOW fv Action.DO).1.frames
        = moveRow (writeShowFrame p row fv).frames row
            (set_frame p row Col.SHOW fv Action.DO).2 default ∧
      (set_frame p row Col.SHOW fv Action.DO).1.main_texts
        = moveRow p.main_texts row (set_frame p row Col.SHOW fv Action.DO).2 blank ∧
      (set_frame p row Col.SHOW fv Action.DO).1.tran_texts
        = moveRow p.tran_texts row (set_frame p row Col.SHOW fv Action.DO).2 blank) ∧
    ((set_time p row Col.SHOW tv Action.DO).1.undoables.headD
        (RevertableAction.mk [] [])).updated_rows
      = (if (set_time p row Col.SHOW tv Action.DO).2 ≠ row then
          List.range' (min row (set_time p row Col.SHOW tv Action.DO).2)
            (max row (set_time p row Col.SHOW tv Action.DO).2 + 1
              - min row (set_time p row Col.SHOW tv Action.DO).2)
        else []) ∧
    ((set_frame p row Col.SHOW fv Action.DO).1.undoables.headD
        (RevertableAction.mk [] [])).updated_rows
      = (if (set_frame p row Col.SHOW fv Action.DO).2 ≠ row then
          List.range' (min row (set_frame p row Col.SHOW fv Action.DO).2)
            (max row (set_frame p row Col.SHOW fv Action.DO).2 + 1
              - min row (set_frame p row Col.SHOW fv Action.DO).2)
        else []) := by
  have hfr : row < p.frames.length := by
    rw [hwf.1]
    exact hrow
  have et := set_time_SHOW_effect p row tv Action.DO htv hrow hwf
  have ef := set_frame_SHOW_effect p row fv Action.DO hfv hrow hwf
  have ht1 : (writeShowTime p row tv).times.eraseIdx row = p.times.eraseIdx row := by
    simp only [writeShowTime]
    exact eraseIdx_set_self p.times row _
  have ht2 : (writeShowTime p row tv).times.getD row default
      = Triple.mk tv (p.times.getD row default).hid ((p.times.getD row default).hid - tv) := by
    simp only [writeShowTime]
    exact getD_set_self p.times row _ _ hrow
  have ht3 : (writeShowTime p row tv).frames.eraseIdx row = p.frames.eraseIdx row := by
    simp only [writeShowTime]
    exact eraseIdx_set_self p.frames row _
  have ht4 : (writeShowTime p row tv).frames.getD row default
      = Triple.mk (p.calcu.time_to_frame tv) (p.frames.getD row default).hid
          ((p.frames.getD row default).hid - p.calcu.time_to_frame tv) := by
    simp only [writeShowTime]
    exact getD_set_self p.frames row _ _ hfr
  have hf1 : (writeShowFrame p row fv).times.eraseIdx row = p.times.eraseIdx row := by
    simp only [writeShowFrame]
    exact eraseIdx_set_self p.times row _
  have hf2 : (writeShowFrame p row fv).times.getD row default
      = Triple.mk (p.calcu.frame_to_time fv) (p.times.getD row default).hid
          ((p.times.getD row default).hid - p.calcu.frame_to_time fv) := by
    simp only [writeShowFrame]
    exact getD_set_self p.times row _ _ hrow
  have hf3 : (writeShowFrame p row fv).frames.eraseIdx row = p.frames.eraseIdx row := by
    simp only [writeShowFrame]
    exact eraseIdx_set_self p.frames row _
  have hf4 : (writeShowFrame p row fv).frames.getD row default
      = Triple.mk fv (p.frames.getD row default).hid
          ((p.frames.getD row default).hid - fv) := by
    simp only [writeShowFrame]
    exact getD_set_self p.frames row _ _ hfr
  rw [et, ef]
  refine ⟨?_, ?_, ⟨rfl, rfl, rfl, rfl⟩, ⟨rfl, rfl, rfl, rfl⟩, rfl, rfl⟩
  · intro hm hs
    constructor
    · rw [new_row_of_eq_bisect_time (writeShowTime p row tv) row hm, ht1, ht2]
      exact bisect_right_eq_upperBound_of_lexSorted _ _ (lexSorted_eraseIdx p.times row hs)
    · rw [new_row_of_eq_bisect_time (writeShowFrame p row fv) row hm, hf1, hf2]
      exact bisect_right_eq_upperBound_of_lexSorted _ _ (lexSorted_eraseIdx p.times row hs)
  · intro hm hs
    constructor
    · rw [new_row_of_eq_bisect_frame (writeShowTime p row tv) row hm, ht3, ht4]
      exact bisect_right_eq_upperBound_of_lexSorted _ _ (lexSorted_eraseIdx p.frames row hs)
    · rw [new_row_of_eq_bisect_frame (writeShowFrame p row fv) row hm, hf3, hf4]
      exact bisect_right_eq_upperBound_of_lexSorted _ _ (lexSorted_eraseIdx p.frames row hs)

/-- Witness for C4 on a concrete strictly sorted time-mode project. -/
theorem resort_upper_bound_witness :
    ((9999 : Int) ≠ (wbase.times.getD 0 default).get Col.SHOW ∧
      (9999 : Int) ≠ (wbase.frames.getD 0 default).get Col.SHOW ∧
      0 < wbase.times.length ∧ wfP wbase) ∧
    (wbase.mode = Mode.TIME → lexSorted wbase.times →
      (set_time wbase 0 Col.SHOW 9999 Action.DO).2
        = upperBound tripleLt (wbase.times.eraseIdx 0)
            (Triple.mk 9999 (wbase.times.getD 0 default).hid
              ((wbase.times.getD 0 default).hid - 9999)) ∧
      (set_frame wbase 0 Col.SHOW 9999 Action.DO).2
        = upperBound tripleLt (wbase.times.eraseIdx 0)
            (Triple.mk (wbase.calcu.frame_to_time 9999) (wbase.times.getD 0 default).hid
              ((wbase.times.getD 0 default).hid - wbase.calcu.frame_to_time 9999))) :=
  ⟨⟨by decide, by decide, by decide, by decide⟩,
    (resort_upper_bound wbase 0 9999 9999 (by decide) (by decide) (by decide) (by decide)).1⟩

theorem pairwise_lt_of_le_nodup {l : List Nat} (hle : l.Pairwise (· ≤ ·)) (hnd : l.Nodup) :
    l.Pairwise (· < ·) :=
  (hle.and hnd).imp (fun h => lt_of_le_of_ne h.1 h.2)

theorem sorted_rows_facts (rows : List Nat) (hnd : rows.Nodup) :
    (List.insertionSort (· ≤ ·) rows).Pairwise (· < ·) ∧
    (∀ r, r ∈ List.insertionSort (· ≤ ·) rows ↔ r ∈ rows) := by
  have hperm := List.perm_insertionSort (fun a b : Nat => a ≤ b) rows
  constructor
  · exact pairwise_lt_of_le_nodup
      (List.sorted_insertionSort (fun a b : Nat => a ≤ b) rows)
      (hperm.nodup_iff.mpr hnd)
  · intro r
    exact hperm.mem_iff

/-- C7: remove_subtitles takes an arbitrary, not necessarily contiguous, row
set; removal happens from the highest index down, so the surviving arrays
hold exactly the entries whose index lies outside the row set, in their
original order, and the registered revert is an insert_subtitles call
carrying the removed quadruple listed in ascending row order. -/
theorem remove_subtitles_spec (p : Project) (rows : List Nat) (hnd : rows.Nodup)
    (hb : ∀ r ∈ rows, r < p.times.length) (hwf : wfP p) :
    (remove_subtitles p rows Action.DO).times
        = dropAt p.times (List.insertionSort (· ≤ ·) rows) ∧
    (remove_subtitles p rows Action.DO).frames
        = dropAt p.frames (List.insertionSort (· ≤ ·) rows) ∧
    (remove_subtitles p rows Action.DO).main_texts
        = dropAt p.main_texts (List.insertionSort (· ≤ ·) rows) ∧
    (remove_subtitles p rows Action.DO).tran_texts
        = dropAt p.tran_texts (List.insertionSort (· ≤ ·) rows) ∧
    ((remove_subtitles p rows Action.DO).undoables.headD
        (RevertableAction.mk [] [])).revert_ops
      = [RevertOp.insert_subtitles (List.insertionSort (· ≤ ·) rows)
          (some (selectAt p.times (List.insertionSort (· ≤ ·) rows),
                 selectAt p.frames (List.insertionSort (· ≤ ·) rows),
                 selectAt p.main_texts (List.insertionSort (· ≤ ·) rows),
                 selectAt p.tran_texts (List.insertionSort (· ≤ ·) rows)))] := by
  obtain ⟨hslt, hsmem⟩ := sorted_rows_facts rows hnd
  have hbs : ∀ r ∈ List.insertionSort (· ≤ ·) rows, r < p.times.length :=
    fun r hm => hb r ((hsmem r).mp hm)
  have hbf : ∀ r ∈ List.insertionSort (· ≤ ·) rows, r < p.frames.length := by
    intro r hm
    rw [hwf.1]
    exact hbs r hm
  have hbm : ∀ r ∈ List.insertionSort (· ≤ ·) rows, r < p.main_texts.length := by
    intro r hm
    rw [hwf.2.1]
    exact hbs r hm
  have hbt : ∀ r ∈ List.insertionSort (· ≤ ·) rows, r < p.tran_texts.length := by
    intro r hm
    rw [hwf.2.2]
    exact hbs r hm
  unfold remove_subtitles
  refine ⟨?_, ?_, ?_, ?_, ?_⟩
  · exact removeLoop_fst_eq_dropAt p.times _ hslt hbs
  · exact removeLoop_fst_eq_dropAt p.frames _ hslt hbf
  · exact removeLoop_fst_eq_dropAt p.main_texts _ hslt hbm
  · exact removeLoop_fst_eq_dropAt p.tran_texts _ hslt hbt
  · show [RevertOp.insert_subtitles _ _] = _
    rw [removeLoop_snd_eq_selectAt p.times _ hslt, removeLoop_snd_eq_selectAt p.frames _ hslt,
      removeLoop_snd_eq_selectAt p.main_texts _ hslt,
      removeLoop_snd_eq_selectAt p.tran_texts _ hslt]

/-- Witness for C7 at a non-contiguous unsorted row set. -/
theorem remove_subtitles_spec_witness :
    (([2, 0] : List Nat).Nodup ∧ (∀ r ∈ ([2, 0] : List Nat), r < wbase.times.length) ∧
      wfP wbase) ∧
    (remove_subtitles wbase [2, 0] Action.DO).times
        = dropAt wbase.times (List.insertionSort (· ≤ ·) [2, 0]) ∧
    (remove_subtitles wbase [2, 0] Action.DO).frames
        = dropAt wbase.frames (List.insertionSort (· ≤ ·) [2, 0]) ∧
    (remove_subtitles wbase [2, 0] Action.DO).main_texts
        = dropAt wbase.main_texts (List.insertionSort (· ≤ ·) [2, 0]) ∧
    (remove_subtitles wbase [2, 0] Action.DO).tran_texts
        = dropAt wbase.tran_texts (List.insertionSort (· ≤ ·) [2, 0]) ∧
    ((remove_subtitles wbase [2, 0] Action.DO).undoables.headD
        (RevertableAction.mk [] [])).revert_ops
      = [RevertOp.insert_subtitles (List.insertionSort (· ≤ ·) [2, 0])
          (some (selectAt wbase.times (List.insertionSort (· ≤ ·) [2, 0]),
                 selectAt wbase.frames (List.insertionSort (· ≤ ·) [2, 0]),
                 selectAt wbase.main_texts (List.insertionSort (· ≤ ·) [2, 0]),
                 selectAt wbase.tran_texts (List.insertionSort (· ≤ ·) [2, 0])))] :=
  ⟨⟨by decide, by decide, by decide⟩,
    remove_subtitles_spec wbase [2, 0] (by decide) (by decide) (by decide)⟩

theorem new_row_of_le (p : Project) (row : Nat) (hrow : row < p.times.length)
    (hfl : p.frames.length = p.times.length) : new_row_of p row ≤ p.times.length - 1 := by
  cases hm : p.mode with
  | TIME => exact new_row_of_le_time p row hm hrow
  | FRAME =>
      have h := new_row_of_le_frame p row hm (by rw [hfl]; exact hrow)
      rw [hfl] at h
      exact h

/-- C3: after every completed (value-changing) set_time or set_frame call,
the row's durations satisfy duration = hide - show in both coordinate
systems exactly, and the stored frame triple lies within three times the
calculator's rounding tolerance of the calculator image of the stored time
triple, provided the row was in sync before the call and the calculator
rounds consistently (round-trip and additivity within the tolerance). -/
theorem sync_after_set (p : Project) (row : Nat) (col : Col) (tv fv : Int) (tol : Nat)
    (hwf : wfP p) (hrow : row < p.times.length)
    (htv : tv ≠ (p.times.getD row default).get col)
    (hfv : fv ≠ (p.frames.getD row default).get col)
    (hrt : calcRoundTrip p.calcu tol) (hadd : calcQuasiAdd p.calcu tol)
    (hsyncS : near tol (p.frames.getD row default).shw
      (p.calcu.time_to_frame (p.times.getD row default).shw))
    (hsyncH : near tol (p.frames.getD row default).hid
      (p.calcu.time_to_frame (p.times.getD row default).hid)) :
    (((set_time p row col tv Action.DO).1.times.getD
          (set_time p row col tv Action.DO).2 default).drn
        = ((set_time p row col tv Action.DO).1.times.getD
            (set_time p row col tv Action.DO).2 default).hid
          - ((set_time p row col tv Action.DO).1.times.getD
              (set_time p row col tv Action.DO).2 default).shw ∧
      ((set_time p row col tv Action.DO).1.frames.getD
          (set_time p row col tv Action.DO).2 default).drn
        = ((set_time p row col tv Action.DO).1.frames.getD
            (set_time p row col tv Action.DO).2 default).hid
          - ((set_time p row col tv Action.DO).1.frames.getD
              (set_time p row col tv Action.DO).2 default).shw ∧
      near (3 * tol)
        ((set_time p row col tv Action.DO).1.frames.getD
          (set_time p row col tv Action.DO).2 default).shw
        (p.calcu.time_to_frame ((set_time p row col tv Action.DO).1.times.getD
          (set_time p row col tv Action.DO).2 default).shw) ∧
      near (3 * tol)
        ((set_time p row col tv Action.DO).1.frames.getD
          (set_time p row col tv Action.DO).2 default).hid
        (p.calcu.time_to_frame ((set_time p row col tv Action.DO).1.times.getD
          (set_time p row col tv Action.DO).2 default).hid) ∧
      near (3 * tol)
        ((set_time p row col tv Action.DO).1.frames.getD
          (set_time p row col tv Action.DO).2 default).drn
        (p.calcu.time_to_frame ((set_time p row col tv Action.DO).1.times.getD
          (set_time p row col tv Action.DO).2 default).drn)) ∧
    (((set_frame p row col fv Action.DO).1.times.getD
          (set_frame p row col fv Action.DO).2 default).drn
        = ((set_frame p row col fv Action.DO).1.times.getD
            (set_frame p row col fv Action.DO).2 default).hid
          - ((set_frame p row col fv Action.DO).1.times.getD
              (set_frame p row col fv Action.DO).2 default).shw ∧
      ((set_frame p row col fv Action.DO).1.frames.getD
          (set_frame p row col fv Action.DO).2 default).drn
        = ((set_frame p row col fv Action.DO).1.frames.getD
            (set_frame p row col fv Action.DO).2 default).hid
          - ((set_frame p row col fv Action.DO).1.frames.getD
              (set_frame p row col fv Action.DO).2 default).shw ∧
      near (3 * tol)
        ((set_frame p row col fv Action.DO).1.frames.getD
          (set_frame p row col fv Action.DO).2 default).shw
        (p.calcu.time_to_frame ((set_frame p row col fv Action.DO).1.times.getD
          (set_frame p row col fv Action.DO).2 default).shw) ∧
      near (3 * tol)
        ((set_frame p row col fv Action.DO).1.frames.getD
          (set_frame p row col fv Action.DO).2 default).hid
        (p.calcu.time_to_frame ((set_frame p row col fv Action.DO).1.times.getD
          (set_frame p row col fv Action.DO).2 default).hid) ∧
      near (3 * tol)
        ((set_frame p row col fv Action.DO).1.frames.getD
          (set_frame p row col fv Action.DO).2 default).drn
        (p.calcu.time_to_frame ((set_frame p row col fv Action.DO).1.times.getD
          (set_frame p row col fv Action.DO).2 default).drn)) := by
  have hfr : row < p.frames.length := by
    rw [hwf.1]
    exact hrow
  have ht0 := p.times.getD row default
  have hf0 := p.frames.getD row default
  constructor
  · cases col with
    | SHOW =>
        rw [set_time_SHOW_effect p row tv Action.DO htv hrow hwf]
        simp only [register_action]
        have hWlen : (writeShowTime p row tv).times.length = p.times.length := by
          simp [writeShowTime]
        have hWflen : (writeShowTime p row tv).frames.length = p.frames.length := by
          simp [writeShowTime]
        have hR : new_row_of (writeShowTime p row tv) row ≤ p.times.length - 1 := by
          have h := new_row_of_le (writeShowTime p row tv) row (by rw [hWlen]; exact hrow)
            (by rw [hWflen, hWlen, hwf.1])
          rw [hWlen] at h
          exact h
        rw [getD_moveRow_self _ _ _ _ (by rw [hWlen]; exact hrow) (by rw [hWlen]; exact hR),
          getD_moveRow_self _ _ _ _ (by rw [hWflen]; exact hfr)
            (by rw [hWflen, hwf.1]; exact hR)]
        simp only [writeShowTime]
        rw [getD_set_self _ _ _ _ hrow, getD_set_self _ _ _ _ hfr]
        dsimp only
        have e1 : (p.times.getD row default).hid - tv + tv = (p.times.getD row default).hid := by
          ring
        have ha1 := hadd ((p.times.getD row default).hid - tv) tv
        rw [e1] at ha1
        unfold near at ha1 hsyncS hsyncH ⊢
        refine ⟨by ring, by ring, ?_, ?_, ?_⟩ <;> omega
    | HIDE =>
        rw [set_time_HIDE_parts p row tv Action.DO htv hrow hfr]
        simp only [register_action]
        rw [getD_set_self _ _ _ _ hrow, getD_set_self _ _ _ _ hfr]
        dsimp only
        have e1 : tv - (p.times.getD row default).shw + (p.times.getD row default).shw = tv := by
          ring
        have ha1 := hadd (tv - (p.times.getD row default).shw) (p.times.getD row default).shw
        rw [e1] at ha1
        unfold near at ha1 hsyncS hsyncH ⊢
        refine ⟨by ring, by ring, ?_, ?_, ?_⟩ <;> omega
    | DURN =>
        rw [set_time_DURN_parts p row tv Action.DO htv hrow hfr]
        simp only [register_action]
        rw [getD_set_self _ _ _ _ hrow, getD_set_self _ _ _ _ hfr]
        dsimp only
        have ha1 := hadd (p.times.getD row default).shw tv
        unfold near at ha1 hsyncS hsyncH ⊢
        refine ⟨by ring, by ring, ?_, ?_, ?_⟩ <;> omega
  · cases col with
    | SHOW =>
        rw [set_frame_SHOW_effect p row fv Action.DO hfv hrow hwf]
        simp only [register_action]
        have hWlen : (writeShowFrame p row fv).times.length = p.times.length := by
          simp [writeShowFrame]
        have hWflen : (writeShowFrame p row fv).frames.length = p.frames.length := by
          simp [writeShowFrame]
        have hR : new_row_of (writeShowFrame p row fv) row ≤ p.times.length - 1 := by
          have h := new_row_of_le (writeShowFrame p row fv) row (by rw [hWlen]; exact hrow)
            (by rw [hWflen, hWlen, hwf.1])
          rw [hWlen] at h
          exact h
        rw [getD_moveRow_self _ _ _ _ (by rw [hWlen]; exact hrow) (by rw [hWlen]; exact hR),
          getD_moveRow_self _ _ _ _ (by rw [hWflen]; exact hfr)
            (by rw [hWflen, hwf.1]; exact hR)]
        simp only [writeShowFrame]
        rw [getD_set_self _ _ _ _ hrow, getD_set_self _ _ _ _ hfr]
        dsimp only
        have e1 : (p.times.getD row default).hid - p.calcu.frame_to_time fv
            + p.calcu.frame_to_time fv = (p.times.getD row default).hid := by
          ring
        have ha1 := hadd ((p.times.getD row default).hid - p.calcu.frame_to_time fv)
          (p.calcu.frame_to_time fv)
        rw [e1] at ha1
        have hr1 := hrt fv
        unfold near at ha1 hr1 hsyncS hsyncH ⊢
        refine ⟨by ring, by ring, ?_, ?_, ?_⟩ <;> omega
    | HIDE =>
        rw [set_frame_HIDE_parts p row fv Action.DO hfv hrow hfr]
        simp only [register_action]
        rw [getD_set_self _ _ _ _ hrow, getD_set_self _ _ _ _ hfr]
        dsimp only
        have e1 : p.calcu.frame_to_time fv - (p.times.getD row default).shw
            + (p.times.getD row default).shw = p.calcu.frame_to_time fv := by
          ring
        have ha1 := hadd (p.calcu.frame_to_time fv - (p.times.getD row default).shw)
          (p.times.getD row default).shw
        rw [e1] at ha1
        have hr1 := hrt fv
        unfold near at ha1 hr1 hsyncS hsyncH ⊢
        refine ⟨by ring, by ring, ?_, ?_, ?_⟩ <;> omega
    | DURN =>
        rw [set_frame_DURN_parts p row fv Action.DO hfv hrow hfr]
        simp only [register_action]
        rw [getD_set_self _ _ _ _ hrow, getD_set_self _ _ _ _ hfr]
        dsimp only
        have ha1 := hadd (p.times.getD row default).shw (p.calcu.frame_to_time fv)
        have hr1 := hrt fv
        unfold near at ha1 hr1 hsyncS hsyncH ⊢
        refine ⟨by ring, by ring, ?_, ?_, ?_⟩ <;> omega

theorem calc25_round_trip : calcRoundTrip calc25 1 := by
  intro f
  unfold calc25 near
  simp only []
  rw [Int.mul_ediv_cancel_left f (by norm_num)]
  simp

theorem calc25_quasi_add : calcQuasiAdd calc25 1 := by
  intro a b
  unfold calc25 near
  simp only []
  omega

/-- Witness for C3 at a concrete project, row, field and calculator. -/
theorem sync_after_set_witness :
    (wfP wbase ∧ 1 < wbase.times.length ∧
      (3456 : Int) ≠ (wbase.times.getD 1 default).get Col.HIDE ∧
      (99 : Int) ≠ (wbase.frames.getD 1 default).get Col.HIDE ∧
      calcRoundTrip wbase.calcu 1 ∧ calcQuasiAdd wbase.calcu 1 ∧
      near 1 (wbase.frames.getD 1 default).shw
        (wbase.calcu.time_to_frame (wbase.times.getD 1 default).shw) ∧
      near 1 (wbase.frames.getD 1 default).hid
        (wbase.calcu.time_to_frame (wbase.times.getD 1 default).hid)) ∧
    (((set_time wbase 1 Col.HIDE 3456 Action.DO).1.times.getD
          (set_time wbase 1 Col.HIDE 3456 Action.DO).2 default).drn
        = ((set_time wbase 1 Col.HIDE 3456 Action.DO).1.times.getD
            (set_time wbase 1 Col.HIDE 3456 Action.DO).2 default).hid
          - ((set_time wbase 1 Col.HIDE 3456 Action.DO).1.times.getD
              (set_time wbase 1 Col.HIDE 3456 Action.DO).2 default).shw ∧
      ((set_time wbase 1 Col.HIDE 3456 Action.DO).1.frames.getD
          (set_time wbase 1 Col.HIDE 3456 Action.DO).2 default).drn
        = ((set_time wbase 1 Col.HIDE 3456 Action.DO).1.frames.getD
            (set_time wbase 1 Col.HIDE 3456 Action.DO).2 default).hid
          - ((set_time wbase 1 Col.HIDE 3456 Action.DO).1.frames.getD
              (set_time wbase 1 Col.HIDE 3456 Action.DO).2 default).shw ∧
      near (3 * 1)
        ((set_time wbase 1 Col.HIDE 3456 Action.DO).1.frames.getD
          (set_time wbase 1 Col.HIDE 3456 Action.DO).2 default).shw
        (wbase.calcu.time_to_frame ((set_time wbase 1 Col.HIDE 3456 Action.DO).1.times.getD
          (set_time wbase 1 Col.HIDE 3456 Action.DO).2 default).shw) ∧
      near (3 * 1)
        ((set_time wbase 1 Col.HIDE 3456 Action.DO).1.frames.getD
          (set_time wbase 1 Col.HIDE 3456 Action.DO).2 default).hid
        (wbase.calcu.time_to_frame ((set_time wbase 1 Col.HIDE 3456 Action.DO).1.times.getD
          (set_time wbase 1 Col.HIDE 3456 Action.DO).2 default).hid) ∧
      near (3 * 1)
        ((set_time wbase 1 Col.HIDE 3456 Action.DO).1.frames.getD
          (set_time wbase 1 Col.HIDE 3456 Action.DO).2 default).drn
        (wbase.calcu.time_to_frame ((set_time wbase 1 Col.HIDE 3456 Action.DO).1.times.getD
          (set_time wbase 1 Col.HIDE 3456 Action.DO).2 default).drn)) :=
  ⟨⟨by decide, by decide, by decide, by decide, calc25_round_trip, calc25_quasi_add,
      by decide, by decide⟩,
    (sync_after_set wbase 1 Col.HIDE 3456 99 1 (by decide) (by decide) (by decide)
      (by decide) calc25_round_trip calc25_quasi_add (by decide) (by decide)).1⟩

/-! Order invariant machinery. -/

theorem round_monotone {x y : ℚ} (h : x ≤ y) : round x ≤ round y := by
  rw [round_eq, round_eq]
  exact Int.floor_le_floor (by linarith)

theorem foldl_min_of_le (l : List Nat) (a : Nat) (h : ∀ x ∈ l, a ≤ x) :
    l.foldl min a = a := by
  induction l generalizing a with
  | nil => rfl
  | cons x xs ih =>
      rw [List.foldl_cons, min_eq_left (h x (List.mem_cons_self x xs))]
      exact ih a (fun y hy => h y (List.mem_cons_of_mem x hy))

theorem min?_range' (s k : Nat) (hk : 1 ≤ k) : (List.range' s k).min? = some s := by
  rw [List.min?_eq_some_iff]
  · constructor
    · exact List.mem_range'_1.mpr ⟨le_refl s, by omega⟩
    · intro b hb
      have := List.mem_range'_1.mp hb
      omega
  · intro a
    exact le_refl a
  · intro a b
    exact min_choice a b
  · intro a b c
    exact le_min_iff

theorem showSorted_iff_getD (l : List (Triple Int)) :
    showSorted l ↔ ∀ i j, i < j → j < l.length →
      (l.getD i default).shw ≤ (l.getD j default).shw := by
  unfold showSorted
  rw [List.pairwise_iff_getElem]
  constructor
  · intro h i j hij hj
    rw [List.getD_eq_getElem _ _ (lt_trans hij hj), List.getD_eq_getElem _ _ hj]
    exact h i j (lt_trans hij hj) hj hij
  · intro h i j hi hj hij
    have := h i j hij hj
    rwa [List.getD_eq_getElem _ _ hi, List.getD_eq_getElem _ _ hj] at this

theorem showSorted_set_same_shw (l : List (Triple Int)) (row : Nat) (x : Triple Int)
    (hs : showSorted l) (hx : x.shw = (l.getD row default).shw) :
    showSorted (l.set row x) := by
  rw [showSorted_iff_getD] at hs ⊢
  intro i j hij hj
  rw [List.length_set] at hj
  have hi : i < l.length := lt_trans hij hj
  by_cases h1 : row = i
  · subst h1
    rw [getD_set_self _ _ _ _ hi, getD_set_ne _ _ _ _ _ (by omega), hx]
    exact hs row j hij hj
  · by_cases h2 : row = j
    · subst h2
      rw [getD_set_self _ _ _ _ hj, getD_set_ne _ _ _ _ _ h1, hx]
      exact hs i row hij hj
    · rw [getD_set_ne _ _ _ _ _ h1, getD_set_ne _ _ _ _ _ h2]
      exact hs i j hij hj

theorem getD_insertIdx_cases (l : List α) (x d : α) (R k : Nat) (hR : R ≤ l.length)
    (hk : k < l.length + 1) :
    (l.insertIdx R x).getD k d
      = if k < R then l.getD k d else if k = R then x else l.getD (k - 1) d := by
  induction l generalizing R k with
  | nil =>
      have hR0 : R = 0 := by simpa using hR
      have hk0 : k = 0 := Nat.lt_one_iff.mp (by simpa using hk)
      subst hR0
      subst hk0
      simp
  | cons a t ih =>
      cases R with
      | zero =>
          cases k with
          | zero => simp
          | succ m => simp [List.getD_cons_succ]
      | succ s =>
          cases k with
          | zero => simp
          | succ m =>
              rw [List.insertIdx_succ_cons, List.getD_cons_succ,
                ih s m (by simpa using hR)
                  (by simp only [List.length_cons] at hk; omega)]
              by_cases h1 : m < s
              · rw [if_pos h1, if_pos (show m + 1 < s + 1 from by omega),
                  List.getD_cons_succ]
              · rw [if_neg h1, if_neg (show ¬ m + 1 < s + 1 from by omega)]
                by_cases h2 : m = s
                · rw [if_pos h2, if_pos (show m + 1 = s + 1 from by omega)]
                · rw [if_neg h2, if_neg (show ¬ m + 1 = s + 1 from by omega)]
                  have hm : 1 ≤ m := by omega
                  rw [show m + 1 - 1 = (m - 1) + 1 from by omega, List.getD_cons_succ]

theorem showSorted_insertIdx (l : List (Triple Int)) (x : Triple Int) (R : Nat)
    (hs : showSorted l) (hR : R ≤ l.length)
    (hleft : R = 0 ∨ (l.getD (R - 1) default).shw ≤ x.shw)
    (hright : R = l.length ∨ x.shw ≤ (l.getD R default).shw) :
    showSorted (l.insertIdx R x) := by
  rw [showSorted_iff_getD] at hs ⊢
  intro i j hij hj
  rw [List.length_insertIdx _ _ hR] at hj
  have hi : i < l.length + 1 := by omega
  rw [getD_insertIdx_cases l x default R i hR hi, getD_insertIdx_cases l x default R j hR hj]
  have hxleft : ∀ m, m < R → (l.getD m default).shw ≤ x.shw := by
    intro m hm
    rcases hleft with h0 | hbound
    · omega
    · rcases Nat.eq_or_lt_of_le (Nat.le_sub_one_of_lt hm) with he | hlt
      · rw [he]
        exact hbound
      · exact le_trans (hs m (R - 1) hlt (by omega)) hbound
  have hxright : ∀ m, R ≤ m → m < l.length → x.shw ≤ (l.getD m default).shw := by
    intro m hm hml
    rcases hright with h0 | hbound
    · omega
    · rcases Nat.eq_or_lt_of_le hm with he | hlt
      · rw [← he]
        exact hbound
      · exact le_trans hbound (hs R m hlt hml)
  by_cases h1 : i < R
  · rw [if_pos h1]
    by_cases h2 : j < R
    · rw [if_pos h2]
      exact hs i j hij (by omega)
    · rw [if_neg h2]
      by_cases h3 : j = R
      · rw [if_pos h3]
        exact hxleft i h1
      · rw [if_neg h3]
        have : R ≤ j - 1 := by omega
        exact le_trans (hxleft i h1) (hxright (j - 1) this (by omega))
  · rw [if_neg h1]
    by_cases h2 : i = R
    · rw [if_pos h2]
      have hjR : ¬ j < R := by omega
      have hjR2 : ¬ j = R := by omega
      rw [if_neg hjR, if_neg hjR2]
      exact hxright (j - 1) (by omega) (by omega)
    · rw [if_neg h2]
      have hjR : ¬ j < R := by omega
      have hjR2 : ¬ j = R := by omega
      rw [if_neg hjR, if_neg hjR2]
      exact hs (i - 1) (j - 1) (by omega) (by omega)

theorem insertIdx_append_mid (A B : List α) (x : α) :
    (A ++ B).insertIdx A.length x = A ++ x :: B := by
  induction A with
  | nil => rfl
  | cons a t ih => simp [List.insertIdx_succ_cons, ih]

/-- A left fold of insertions at consecutive indices s, s+1, ..., s+k-1 lays
down a contiguous block between the first s elements and the rest. -/
theorem foldl_insert_block (l : List α) (s k : Nat) (g : Nat → α) (hs : s ≤ l.length) :
    (List.range k).foldl (fun acc i => acc.insertIdx (s + i) (g i)) l
      = l.take s ++ (List.range k).map g ++ l.drop s := by
  induction k with
  | zero => simp
  | succ m ih =>
      rw [List.range_succ, List.foldl_append, ih, List.foldl_cons, List.foldl_nil,
        List.map_append, List.map_cons, List.map_nil]
      have hlen : (l.take s ++ (List.range m).map g).length = s + m := by
        rw [List.length_append, List.length_take, List.length_map, List.length_range]
        omega
      rw [← hlen, insertIdx_append_mid]
      simp [List.append_assoc]

/-- Sortedness of a list with a block spliced in at position s, given the
block is sorted and bounded by the surrounding elements. -/
theorem showSorted_block (l : List (Triple Int)) (s : Nat) (bl : List (Triple Int))
    (hs : s ≤ l.length) (hord : showSorted l) (hbl : showSorted bl)
    (h1 : s = 0 ∨ ∀ b ∈ bl, (l.getD (s - 1) default).shw ≤ b.shw)
    (h2 : s = l.length ∨ ∀ b ∈ bl, b.shw ≤ (l.getD s default).shw) :
    showSorted (l.take s ++ bl ++ l.drop s) := by
  have hordG := (showSorted_iff_getD l).mp hord
  unfold showSorted
  rw [List.append_assoc, List.pairwise_append]
  refine ⟨(hord.sublist (List.take_sublist s l)), ?_, ?_⟩
  · rw [List.pairwise_append]
    refine ⟨hbl, hord.sublist (List.drop_sublist s l), ?_⟩
    intro b hb c hc
    obtain ⟨j, hj, hcj⟩ := List.mem_iff_getElem.mp hc
    have hjl : s + j < l.length := by
      rw [List.length_drop] at hj
      omega
    have hcval : c = l.getD (s + j) default := by
      rw [← hcj, List.getElem_drop, List.getD_eq_getElem _ _ hjl]
    rcases h2 with he | hbound
    · omega
    · have hb2 : b.shw ≤ (l.getD s default).shw := hbound b hb
      have hcge : (l.getD s default).shw ≤ (l.getD (s + j) default).shw := by
        rcases Nat.eq_zero_or_pos j with hj0 | hjpos
        · rw [hj0, Nat.add_zero]
        · exact hordG s (s + j) (by omega) hjl
      rw [hcval]
      exact le_trans hb2 hcge
  · intro a ha c hc
    obtain ⟨i, hi, hai⟩ := List.mem_iff_getElem.mp ha
    have hil : i < s := by
      rw [List.length_take] at hi
      omega
    have hil2 : i < l.length := by omega
    have haval : a = l.getD i default := by
      rw [← hai, List.getElem_take, List.getD_eq_getElem _ _ hil2]
    rcases List.mem_append.mp hc with hcb | hcd
    · rcases h1 with he | hbound
      · omega
      · have hstep : (l.getD i default).shw ≤ (l.getD (s - 1) default).shw := by
          rcases Nat.eq_or_lt_of_le (Nat.le_sub_one_of_lt hil) with he2 | hlt
          · rw [he2]
          · exact hordG i (s - 1) hlt (by omega)
        rw [haval]
        exact le_trans hstep (hbound c hcb)
    · obtain ⟨j, hj, hcj⟩ := List.mem_iff_getElem.mp hcd
      have hjl : s + j < l.length := by
        rw [List.length_drop] at hj
        omega
      have hcval : c = l.getD (s + j) default := by
        rw [← hcj, List.getElem_drop, List.getD_eq_getElem _ _ hjl]
      rw [haval, hcval]
      exact hordG i (s + j) (by omega) hjl

/-- A map over range k is show-sorted when the generator is monotone. -/
theorem showSorted_map_range (k : Nat) (g : Nat → Triple Int)
    (hmono : ∀ i j, i < j → j < k → (g i).shw ≤ (g j).shw) :
    showSorted ((List.range k).map g) := by
  unfold showSorted
  rw [List.pairwise_iff_getElem]
  intro i j hi hj hij
  rw [List.length_map, List.length_range] at hj
  simp only [List.getElem_map, List.getElem_range]
  exact hmono i j hij hj

/-- The project-level insertion fold of _insert_blank acts on the four
arrays independently. -/
theorem foldl_project_insert (P : Project) (k s : Nat) (gt gf : Nat → Triple Int) :
    (List.range k).foldl (fun (q : Project) (i : Nat) =>
      { q with
        times := q.times.insertIdx (s + i) (gt i)
        frames := q.frames.insertIdx (s + i) (gf i)
        main_texts := q.main_texts.insertIdx (s + i) blank
        tran_texts := q.tran_texts.insertIdx (s + i) blank }) P
      = { P with
          times := (List.range k).foldl (fun l i => l.insertIdx (s + i) (gt i)) P.times
          frames := (List.range k).foldl (fun l i => l.insertIdx (s + i) (gf i)) P.frames
          main_texts :=
            (List.range k).foldl (fun l i => l.insertIdx (s + i) blank) P.main_texts
          tran_texts :=
            (List.range k).foldl (fun l i => l.insertIdx (s + i) blank) P.tran_texts } := by
  induction k with
  | zero => rfl
  | succ m ih =>
      rw [List.range_succ, List.foldl_append, List.foldl_append, List.foldl_append,
        List.foldl_append, List.foldl_append, ih, List.foldl_cons, List.foldl_nil,
        List.foldl_cons, List.foldl_nil, List.foldl_cons, List.foldl_nil,
        List.foldl_cons, List.foldl_nil, List.foldl_cons, List.foldl_nil]

/-- Inserting any triple at the index the binary search returns preserves
show-sortedness, with no assumption beyond sortedness of the target list. -/
theorem showSorted_insert_bisect (lst : List (Triple Int)) (x : Triple Int)
    (hs : showSorted lst) :
    showSorted (lst.insertIdx (bisect_right tripleLt lst x) x) := by
  obtain ⟨hle, hleft, hright⟩ := bisect_right_spec tripleLt lst x
  apply showSorted_insertIdx lst x _ hs hle
  · rcases hleft with h | h
    · exact Or.inl h
    · by_cases h0 : bisect_right tripleLt lst x = 0
      · exact Or.inl h0
      · right
        have hin : bisect_right tripleLt lst x - 1 < lst.length := by omega
        have hnl : ¬ Triple.lex x (lst.getD (bisect_right tripleLt lst x - 1) x) := by
          intro hc
          rw [show Triple.lex x (lst.getD (bisect_right tripleLt lst x - 1) x)
              = (tripleLt x (lst.getD (bisect_right tripleLt lst x - 1) x) = true) from
            propext (by unfold tripleLt; simp)] at hc
          rw [h] at hc
          exact Bool.false_ne_true hc
        have hg : lst.getD (bisect_right tripleLt lst x - 1) x
            = lst.getD (bisect_right tripleLt lst x - 1) default := by
          rw [List.getD_eq_getElem _ _ hin, List.getD_eq_getElem _ _ hin]
        rw [hg] at hnl
        exact shw_le_of_not_lex hnl
  · rcases hright with h | h
    · exact Or.inl h
    · by_cases h0 : bisect_right tripleLt lst x = lst.length
      · exact Or.inl h0
      · right
        have hin : bisect_right tripleLt lst x < lst.length := by omega
        have hl : Triple.lex x (lst.getD (bisect_right tripleLt lst x) x) := by
          unfold tripleLt at h
          exact of_decide_eq_true h
        have hg : lst.getD (bisect_right tripleLt lst x) x
            = lst.getD (bisect_right tripleLt lst x) default := by
          rw [List.getD_eq_getElem _ _ hin, List.getD_eq_getElem _ _ hin]
        rw [hg] at hl
        exact lex_shw_le hl

/-- Registering an action changes only the undo and redo stacks. -/
theorem register_action_obs (p : Project) (reg : Action) (op : RevertOp) (u : List Nat) :
    (register_action p reg op u).mode = p.mode ∧
    (register_action p reg op u).times = p.times ∧
    (register_action p reg op u).frames = p.frames ∧
    (register_action p reg op u).main_texts = p.main_texts ∧
    (register_action p reg op u).tran_texts = p.tran_texts := by
  cases reg <;> exact ⟨rfl, rfl, rfl, rfl, rfl⟩

/-- The order invariant only looks at the mode and position arrays. -/
theorem orderedP_transfer (q p : Project) (hm : q.mode = p.mode) (ht : q.times = p.times)
    (hf : q.frames = p.frames) (h : orderedP p) : orderedP q := by
  constructor
  · intro hT
    rw [ht]
    exact h.1 (by rw [← hm]; exact hT)
  · intro hF
    rw [hf]
    exact h.2 (by rw [← hm]; exact hF)

/-- The resort move of a row whose triple was overwritten lands it at its
upper bound, so sortedness of the original list is preserved. -/
theorem showSorted_moveRow_bisect (l : List (Triple Int)) (row : Nat) (X : Triple Int)
    (hs : showSorted l) :
    showSorted (moveRow (l.set row X) row
      (bisect_right tripleLt ((l.set row X).eraseIdx row)
        ((l.set row X).getD row default)) default) := by
  unfold moveRow
  rw [eraseIdx_set_self]
  exact showSorted_insert_bisect (l.eraseIdx row) _
    (hs.sublist (List.eraseIdx_sublist l row))

/-- The surviving part of the high-to-low removal loop is a sublist of the
original array. -/
theorem removeLoop_fst_sublist [Inhabited α] (l : List α) (rows : List Nat) :
    (removeLoop l rows).1.Sublist l := by
  induction rows with
  | nil => exact List.Sublist.refl l
  | cons r rs ih =>
      exact (List.eraseIdx_sublist (removeLoop l rs).1 r).trans ih

/-- set_text changes neither positions nor the mode. -/
theorem set_text_obs (p : Project) (row : Nat) (document : Document) (v : String)
    (reg : Action) :
    (set_text p row document v reg).mode = p.mode ∧
    (set_text p row document v reg).times = p.times ∧
    (set_text p row document v reg).frames = p.frames := by
  cases document <;> dsimp only [set_text] <;> split <;> cases reg <;> exact ⟨rfl, rfl, rfl⟩

/-- replace_texts changes neither positions nor the mode. -/
theorem replace_texts_obs (p : Project) (rows : List Nat) (document : Document)
    (texts : List String) (reg : Action) :
    (replace_texts p rows document texts reg).mode = p.mode ∧
    (replace_texts p rows document texts reg).times = p.times ∧
    (replace_texts p rows document texts reg).frames = p.frames := by
  cases document <;> dsimp only [replace_texts] <;> cases reg <;> exact ⟨rfl, rfl, rfl⟩

/-- replace_both_texts changes neither positions nor the mode. -/
theorem replace_both_texts_obs (p : Project) (mr tr : List Nat)
    (mt trt : List String) (reg : Action) :
    (replace_both_texts p mr tr mt trt reg).mode = p.mode ∧
    (replace_both_texts p mr tr mt trt reg).times = p.times ∧
    (replace_both_texts p mr tr mt trt reg).frames = p.frames := by
  dsimp only [replace_both_texts]
  cases reg <;> exact ⟨rfl, rfl, rfl⟩

/-- A contiguous ascending range is untouched by the entry sort. -/
theorem insertionSort_range' (s k : Nat) :
    List.insertionSort (fun a b : Nat => a ≤ b) (List.range' s k) = List.range' s k := by
  have hs1 := List.sorted_insertionSort (fun a b : Nat => a ≤ b) (List.range' s k)
  have hs2 : (List.range' s k).Sorted (fun a b : Nat => a ≤ b) :=
    (List.pairwise_lt_range' s k).imp le_of_lt
  exact List.eq_of_perm_of_sorted (List.perm_insertionSort _ _) hs1 hs2

/-- _insert_blank keeps the time list sorted in TIME mode whenever the
surrounding rows do not overlap. -/
theorem insert_blank_ordered_time (p : Project) (s k : Nat) (hk : 1 ≤ k)
    (hs : s ≤ p.times.length) (hm : p.mode = Mode.TIME)
    (hfit : blankFitsPre p s) (hord : showSorted p.times) :
    (insert_blank p (List.range' s k)).mode = Mode.TIME ∧
    showSorted (insert_blank p (List.range' s k)).times := by
  unfold insert_blank
  rw [List.length_range', min?_range' s k hk]
  rw [hm]
  dsimp only [Option.getD_some]
  generalize hST : (if s > 0 then p.calcu.time_to_seconds ((p.times.getD (s - 1) default).hid) else (0 : ℚ)) = ST
  generalize hDU : (if s < p.times.length then (p.calcu.time_to_seconds ((p.times.getD s default).shw) - ST) / (k : ℚ) else (3 : ℚ)) = DU
  rw [foldl_project_insert p k s
    (fun i => ⟨p.calcu.seconds_to_time (ST + (i : ℚ) * DU), p.calcu.seconds_to_time (ST + ((i : ℚ) + 1) * DU), p.calcu.get_time_duration (p.calcu.seconds_to_time (ST + (i : ℚ) * DU)) (p.calcu.seconds_to_time (ST + ((i : ℚ) + 1) * DU))⟩)
    (fun i => ⟨p.calcu.time_to_frame (p.calcu.seconds_to_time (ST + (i : ℚ) * DU)), p.calcu.time_to_frame (p.calcu.seconds_to_time (ST + ((i : ℚ) + 1) * DU)), p.calcu.get_frame_duration (p.calcu.time_to_frame (p.calcu.seconds_to_time (ST + (i : ℚ) * DU))) (p.calcu.time_to_frame (p.calcu.seconds_to_time (ST + ((i : ℚ) + 1) * DU)))⟩)]
  refine ⟨hm, ?_⟩
  have hDU0 : 0 ≤ DU := by
    rw [← hDU]
    by_cases hsl : s < p.times.length
    · rw [if_pos hsl]
      apply div_nonneg
      · unfold Calc.time_to_seconds
        rw [← hST]
        by_cases hs0 : s > 0
        · rw [if_pos hs0]
          have h2 := (hfit.1 hm).2 hsl
          rw [if_pos hs0] at h2
          have hc : ((p.times.getD (s - 1) default).hid : ℚ)
              ≤ ((p.times.getD s default).shw : ℚ) := by exact_mod_cast h2
          unfold Calc.time_to_seconds
          linarith
        · rw [if_neg hs0]
          have h2 := (hfit.1 hm).2 hsl
          rw [if_neg hs0] at h2
          have hc : (0 : ℚ) ≤ ((p.times.getD s default).shw : ℚ) := by exact_mod_cast h2
          linarith
      · exact_mod_cast Nat.zero_le k
    · rw [if_neg hsl]
      norm_num
  show showSorted (List.foldl _ p.times (List.range k))
  rw [show (fun (l : List (Triple Int)) (i : Nat) => List.insertIdx (s + i) (⟨p.calcu.seconds_to_time (ST + (i : ℚ) * DU), p.calcu.seconds_to_time (ST + ((i : ℚ) + 1) * DU), p.calcu.get_time_duration (p.calcu.seconds_to_time (ST + (i : ℚ) * DU)) (p.calcu.seconds_to_time (ST + ((i : ℚ) + 1) * DU))⟩ : Triple Int) l) = (fun (l : List (Triple Int)) (i : Nat) => l.insertIdx (s + i) ((fun j => (⟨p.calcu.seconds_to_time (ST + (j : ℚ) * DU), p.calcu.seconds_to_time (ST + ((j : ℚ) + 1) * DU), p.calcu.get_time_duration (p.calcu.seconds_to_time (ST + (j : ℚ) * DU)) (p.calcu.seconds_to_time (ST + ((j : ℚ) + 1) * DU))⟩ : Triple Int)) i)) from rfl]
  rw [foldl_insert_block p.times s k _ hs]
  apply showSorted_block p.times s _ hs hord
  · apply showSorted_map_range
    intro i j hij hjk
    dsimp only
    unfold Calc.seconds_to_time
    apply round_monotone
    have hij2 : (i : ℚ) ≤ (j : ℚ) := by exact_mod_cast le_of_lt hij
    have hstep : (i : ℚ) * DU ≤ (j : ℚ) * DU := mul_le_mul_of_nonneg_right hij2 hDU0
    linarith
  · by_cases hs0 : s = 0
    · exact Or.inl hs0
    · right
      intro b hb
      obtain ⟨i, hi, hbe⟩ := List.mem_map.mp hb
      subst hbe
      dsimp only
      have hSTv : ST = ((p.times.getD (s - 1) default).hid : ℚ) / 1000 := by
        rw [← hST, if_pos (Nat.pos_of_ne_zero hs0)]
        rfl
      have h1000 : (1000 : ℚ) * ST = ((p.times.getD (s - 1) default).hid : ℚ) := by
        rw [hSTv]
        ring
      have hmono : round ((1000 : ℚ) * ST) ≤ round ((1000 : ℚ) * (ST + (i : ℚ) * DU)) := by
        apply round_monotone
        have hnn : 0 ≤ (i : ℚ) * DU := mul_nonneg (by positivity) hDU0
        linarith
      have hr : round ((1000 : ℚ) * ST) = (p.times.getD (s - 1) default).hid := by
        rw [h1000, round_intCast]
      have hsh := (hfit.1 hm).1 (Nat.pos_of_ne_zero hs0)
      unfold Calc.seconds_to_time
      omega
  · by_cases hsl : s < p.times.length
    · right
      intro b hb
      obtain ⟨i, hi, hbe⟩ := List.mem_map.mp hb
      subst hbe
      dsimp only
      have hDUv : DU = (p.calcu.time_to_seconds ((p.times.getD s default).shw) - ST) / (k : ℚ) := by
        rw [← hDU, if_pos hsl]
      have hkne : (k : ℚ) ≠ 0 := Nat.cast_ne_zero.mpr (by omega)
      have hkDU : (k : ℚ) * DU = p.calcu.time_to_seconds ((p.times.getD s default).shw) - ST := by
        rw [hDUv]
        field_simp
      have hile : (i : ℚ) ≤ (k : ℚ) := by exact_mod_cast le_of_lt (List.mem_range.mp hi)
      have hstep : (i : ℚ) * DU ≤ (k : ℚ) * DU := mul_le_mul_of_nonneg_right hile hDU0
      have h3 : (1000 : ℚ) * (ST + (k : ℚ) * DU) = ((p.times.getD s default).shw : ℚ) := by
        rw [hkDU]
        unfold Calc.time_to_seconds
        ring
      have hfin : round ((1000 : ℚ) * (ST + (i : ℚ) * DU)) ≤ (p.times.getD s default).shw := by
        have hmono : round ((1000 : ℚ) * (ST + (i : ℚ) * DU))
            ≤ round ((1000 : ℚ) * (ST + (k : ℚ) * DU)) := round_monotone (by linarith)
        rw [h3, round_intCast] at hmono
        exact hmono
      unfold Calc.seconds_to_time
      exact hfin
    · exact Or.inl (by omega)

/-- _insert_blank keeps the frame list sorted in FRAME mode whenever the
surrounding rows do not overlap and the framerate is nonnegative. -/
theorem insert_blank_ordered_frame (p : Project) (s k : Nat) (hk : 1 ≤ k)
    (hs : s ≤ p.times.length) (hwf : wfP p) (hm : p.mode = Mode.FRAME)
    (hfr : 0 ≤ p.framerate) (hfit : blankFitsPre p s) (hord : showSorted p.frames) :
    (insert_blank p (List.range' s k)).mode = Mode.FRAME ∧
    showSorted (insert_blank p (List.range' s k)).frames := by
  unfold insert_blank
  rw [List.length_range', min?_range' s k hk]
  rw [hm]
  dsimp only [Option.getD_some]
  generalize hST : (if s > 0 then ((p.frames.getD (s - 1) default).hid) else (0 : Int)) = ST
  generalize hDU : (if s < p.times.length then (((p.frames.getD s default).shw - ST).tdiv ((k : Nat) : Int)) else round (p.framerate * 3)) = DU
  rw [foldl_project_insert p k s
    (fun i => ⟨p.calcu.frame_to_time (ST + (i : Int) * DU), p.calcu.frame_to_time (ST + ((i : Int) + 1) * DU), p.calcu.get_time_duration (p.calcu.frame_to_time (ST + (i : Int) * DU)) (p.calcu.frame_to_time (ST + ((i : Int) + 1) * DU))⟩)
    (fun i => ⟨ST + (i : Int) * DU, ST + ((i : Int) + 1) * DU, p.calcu.get_frame_duration (ST + (i : Int) * DU) (ST + ((i : Int) + 1) * DU)⟩)]
  refine ⟨hm, ?_⟩
  have hshw : 0 ≤ (p.frames.getD s default).shw - ST ∨ ¬ s < p.times.length := by
    by_cases hsl : s < p.times.length
    · left
      have h2 := (hfit.2 hm).2 hsl
      rw [← hST]
      by_cases hs0 : s > 0
      · rw [if_pos hs0] at h2 ⊢
        omega
      · rw [if_neg hs0] at h2 ⊢
        omega
    · exact Or.inr hsl
  have hDU0 : 0 ≤ DU := by
    rw [← hDU]
    by_cases hsl : s < p.times.length
    · rw [if_pos hsl]
      rcases hshw with hnn | hc
      · rw [Int.tdiv_eq_ediv hnn (by positivity)]
        exact Int.ediv_nonneg hnn (by positivity)
      · exact absurd hsl hc
    · rw [if_neg hsl]
      have h0 : (0 : Int) = round ((0 : ℚ)) := by rw [round_zero]
      rw [h0]
      exact round_monotone (by nlinarith)
  show showSorted (List.foldl _ p.frames (List.range k))
  rw [show (fun (l : List (Triple Int)) (i : Nat) => List.insertIdx (s + i) ((⟨ST + (i : Int) * DU, ST + ((i : Int) + 1) * DU, p.calcu.get_frame_duration (ST + (i : Int) * DU) (ST + ((i : Int) + 1) * DU)⟩ : Triple Int)) l) = (fun (l : List (Triple Int)) (i : Nat) => l.insertIdx (s + i) ((fun j => ((⟨ST + (j : Int) * DU, ST + ((j : Int) + 1) * DU, p.calcu.get_frame_duration (ST + (j : Int) * DU) (ST + ((j : Int) + 1) * DU)⟩ : Triple Int))) i)) from rfl]
  have hs2 : s ≤ p.frames.length := by
    rw [hwf.1]
    exact hs
  rw [foldl_insert_block p.frames s k _ hs2]
  apply showSorted_block p.frames s _ hs2 hord
  · apply showSorted_map_range
    intro i j hij hjk
    dsimp only
    have hij2 : (i : Int) ≤ (j : Int) := by exact_mod_cast le_of_lt hij
    have hstep : (i : Int) * DU ≤ (j : Int) * DU := mul_le_mul_of_nonneg_right hij2 hDU0
    linarith
  · by_cases hs0 : s = 0
    · exact Or.inl hs0
    · right
      intro b hb
      obtain ⟨i, hi, hbe⟩ := List.mem_map.mp hb
      subst hbe
      dsimp only
      have hSTv : ST = (p.frames.getD (s - 1) default).hid := by
        rw [← hST, if_pos (Nat.pos_of_ne_zero hs0)]
      have hsh := (hfit.2 hm).1 (Nat.pos_of_ne_zero hs0)
      have hnn : 0 ≤ (i : Int) * DU := mul_nonneg (by positivity) hDU0
      omega
  · by_cases hsl : s < p.times.length
    · right
      intro b hb
      obtain ⟨i, hi, hbe⟩ := List.mem_map.mp hb
      subst hbe
      dsimp only
      have hnn : 0 ≤ (p.frames.getD s default).shw - ST := by
        rcases hshw with hnn | hc
        · exact hnn
        · exact absurd hsl hc
      have hDUv : DU = ((p.frames.getD s default).shw - ST) / ((k : Nat) : Int) := by
        rw [← hDU, if_pos hsl, Int.tdiv_eq_ediv hnn (by positivity)]
      have hkne : ((k : Nat) : Int) ≠ 0 := by
        have : (1 : Int) ≤ (k : Int) := by exact_mod_cast hk
        omega
      have hkDU : ((k : Nat) : Int) * DU ≤ (p.frames.getD s default).shw - ST := by
        rw [hDUv]
        have h := Int.ediv_mul_le ((p.frames.getD s default).shw - ST) hkne
        linarith
      have hile : (i : Int) ≤ ((k : Nat) : Int) := by
        exact_mod_cast le_of_lt (List.mem_range.mp hi)
      have hstep : (i : Int) * DU ≤ ((k : Nat) : Int) * DU :=
        mul_le_mul_of_nonneg_right hile hDU0
      have hs3 : s < p.frames.length := by
        rw [hwf.1]
        exact hsl
      linarith
    · left
      have hwl := hwf.1
      omega

/-- A fold whose step preserves the mode preserves the mode. -/
theorem foldl_mode (f : Project → Nat → Project) (hf : ∀ q i, (f q i).mode = q.mode) :
    ∀ (l : List Nat) (P : Project), (l.foldl f P).mode = P.mode := by
  intro l
  induction l with
  | nil =>
      intro P
      rfl
  | cons a t ih =>
      intro P
      rw [List.foldl_cons, ih, hf]

/-- _insert_blank never changes the document mode. -/
theorem insert_blank_mode (p : Project) (rows : List Nat) :
    (insert_blank p rows).mode = p.mode := by
  unfold insert_blank
  cases hm : p.mode
  · dsimp only
    refine Eq.trans ?_ hm
    apply foldl_mode
    intro q i
    rfl
  · dsimp only
    refine Eq.trans ?_ hm
    apply foldl_mode
    intro q i
    rfl

/-- Registering an action preserves the order invariant. -/
theorem orderedP_register (p : Project) (reg : Action) (op : RevertOp) (u : List Nat)
    (h : orderedP p) : orderedP (register_action p reg op u) := by
  obtain ⟨hm, ht, hf, h4, h5⟩ := register_action_obs p reg op u
  exact orderedP_transfer _ _ hm ht hf h

/-- The per-operation step of the order invariant: every completed editing
call satisfying its ordering contract preserves INV-3. -/
theorem orderedP_applyEdit (p : Project) (op : RevertOp)
    (h : orderPre p op) (hord : orderedP p) : orderedP (applyEdit p op) := by
  cases op with
  | set_time row col v =>
      obtain ⟨hwf, hrow⟩ := h
      show orderedP (set_time p row col v Action.DO).1
      by_cases hv : v = (p.times.getD row default).get col
      · rw [set_time, if_pos hv]
        exact hord
      · have hfr : row < p.frames.length := by
          rw [hwf.1]
          exact hrow
        cases col with
        | SHOW =>
            rw [set_time_SHOW_effect p row v Action.DO hv hrow hwf]
            apply orderedP_register
            constructor
            · intro hT
              rw [new_row_of_eq_bisect_time (writeShowTime p row v) row hT]
              exact showSorted_moveRow_bisect p.times row _ (hord.1 hT)
            · intro hF
              rw [new_row_of_eq_bisect_frame (writeShowTime p row v) row hF]
              exact showSorted_moveRow_bisect p.frames row _ (hord.2 hF)
        | HIDE =>
            rw [set_time_HIDE_parts p row v Action.DO hv hrow hfr]
            apply orderedP_register
            constructor
            · intro hT
              exact showSorted_set_same_shw p.times row _ (hord.1 hT) rfl
            · intro hF
              exact showSorted_set_same_shw p.frames row _ (hord.2 hF) rfl
        | DURN =>
            rw [set_time_DURN_parts p row v Action.DO hv hrow hfr]
            apply orderedP_register
            constructor
            · intro hT
              exact showSorted_set_same_shw p.times row _ (hord.1 hT) rfl
            · intro hF
              exact showSorted_set_same_shw p.frames row _ (hord.2 hF) rfl
  | set_frame row col v =>
      obtain ⟨hwf, hrow⟩ := h
      show orderedP (set_frame p row col v Action.DO).1
      by_cases hv : v = (p.frames.getD row default).get col
      · rw [set_frame, if_pos hv]
        exact hord
      · have hfr : row < p.frames.length := by
          rw [hwf.1]
          exact hrow
        cases col with
        | SHOW =>
            rw [set_frame_SHOW_effect p row v Action.DO hv hrow hwf]
            apply orderedP_register
            constructor
            · intro hT
              rw [new_row_of_eq_bisect_time (writeShowFrame p row v) row hT]
              exact showSorted_moveRow_bisect p.times row _ (hord.1 hT)
            · intro hF
              rw [new_row_of_eq_bisect_frame (writeShowFrame p row v) row hF]
              exact showSorted_moveRow_bisect p.frames row _ (hord.2 hF)
        | HIDE =>
            rw [set_frame_HIDE_parts p row v Action.DO hv hrow hfr]
            apply orderedP_register
            constructor
            · intro hT
              exact showSorted_set_same_shw p.times row _ (hord.1 hT) rfl
            · intro hF
              exact showSorted_set_same_shw p.frames row _ (hord.2 hF) rfl
        | DURN =>
            rw [set_frame_DURN_parts p row v Action.DO hv hrow hfr]
            apply orderedP_register
            constructor
            · intro hT
              exact showSorted_set_same_shw p.times row _ (hord.1 hT) rfl
            · intro hF
              exact showSorted_set_same_shw p.frames row _ (hord.2 hF) rfl
  | set_text row document v =>
      obtain ⟨hm, ht, hf⟩ := set_text_obs p row document v Action.DO
      exact orderedP_transfer _ _ hm ht hf hord
  | replace_texts rows document texts =>
      obtain ⟨hm, ht, hf⟩ := replace_texts_obs p rows document texts Action.DO
      exact orderedP_transfer _ _ hm ht hf hord
  | replace_both_texts mr tr mt trt =>
      obtain ⟨hm, ht, hf⟩ := replace_both_texts_obs p mr tr mt trt Action.DO
      exact orderedP_transfer _ _ hm ht hf hord
  | insert_subtitles rows data =>
      cases data with
      | none =>
          obtain ⟨hwf, hfr, ⟨s, k, hk, hs, hrows⟩, hfit⟩ := h
          subst hrows
          show orderedP (insert_subtitles p (List.range' s k) none Action.DO)
          unfold insert_subtitles
          rw [insertionSort_range']
          apply orderedP_register
          have hfit2 : blankFitsPre p s := by
            rw [min?_range' s k hk] at hfit
            simpa using hfit
          cases hmode : p.mode
          · obtain ⟨hm2, hsorted⟩ :=
              insert_blank_ordered_time p s k hk hs hmode hfit2 (hord.1 hmode)
            constructor
            · intro hc
              exact hsorted
            · intro hc
              exact absurd (hm2.symm.trans hc) (by decide)
          · obtain ⟨hm2, hsorted⟩ :=
              insert_blank_ordered_frame p s k hk hs hwf hmode hfr hfit2 (hord.2 hmode)
            constructor
            · intro hc
              exact absurd (hm2.symm.trans hc) (by decide)
            · intro hc
              exact hsorted
      | some d =>
          obtain ⟨ts, fs, ms, trs⟩ := d
          show orderedP (insert_subtitles p rows (some (ts, fs, ms, trs)) Action.DO)
          unfold insert_subtitles
          apply orderedP_register
          exact h
  | remove_subtitles rows =>
      show orderedP (remove_subtitles p rows Action.DO)
      unfold remove_subtitles
      apply orderedP_register
      constructor
      · intro hT
        exact (hord.1 hT).sublist (removeLoop_fst_sublist p.times _)
      · intro hF
        exact (hord.2 hF).sublist (removeLoop_fst_sublist p.frames _)

/-- C2 (amended): under the ordering contract of each call — set calls name a
valid row, blank insertion inserts a contiguous in-range row range whose
surrounding rows do not overlap, and insertion of caller-supplied data comes
with the caller's ordering guarantee — any sequence of completed editing
operations keeps the authoritative coordinate system's show values
non-decreasing across ascending row indices; SHOW writes restore the order by
the binary-search resort, inserts of supplied data rely on their
precondition. -/
theorem order_invariant_sequence (p : Project) (ops : List RevertOp)
    (hpre : orderPreAlong p ops) (hord : orderedP p) :
    orderedP (applyEdits p ops) := by
  induction ops generalizing p with
  | nil => exact hord
  | cons op ops ih =>
      exact ih (applyEdit p op) hpre.2 (orderedP_applyEdit p op hpre.1 hord)

/-- Witness for the amended order theorem: a concrete SHOW write on a valid
three-row document. -/
theorem order_invariant_sequence_witness :
    orderPreAlong wbase [RevertOp.set_time 0 Col.SHOW 2500] ∧ orderedP wbase ∧
    orderedP (applyEdits wbase [RevertOp.set_time 0 Col.SHOW 2500]) :=
  ⟨⟨⟨by decide, by decide⟩, trivial⟩, by decide,
    order_invariant_sequence wbase [RevertOp.set_time 0 Col.SHOW 2500]
      ⟨⟨by decide, by decide⟩, trivial⟩ (by decide)⟩

/-- C2 as frozen is refuted: on a valid ordered frame-mode document whose
first row's hide frame exceeds the second row's show frame, inserting one
blank row between them — a contiguous in-range row set, the operation's only
documented calling requirement — interpolates a negative duration and leaves
the frame show values out of order. -/
theorem order_invariant_counterexample :
    Valid cover ∧ orderedP cover ∧
    (∃ s k, 1 ≤ k ∧ s ≤ cover.times.length ∧ ([1] : List Nat) = List.range' s k) ∧
    ¬ orderedP (applyEdit cover (RevertOp.insert_subtitles [1] none)) :=
  ⟨by decide, by decide, ⟨1, 1, by decide, by decide, by decide⟩, by decide⟩

/-- Shifting the enumeration base of the paste row computation shifts the
start row. -/
theorem enumFrom_filterMap_shift (rest : List (Option String)) :
    ∀ (m c : Nat),
    (rest.enumFrom (m + 1)).filterMap (fun iv => iv.2.map (fun _ => c + iv.1))
      = (rest.enumFrom m).filterMap (fun iv => iv.2.map (fun _ => (c + 1) + iv.1)) := by
  induction rest with
  | nil =>
      intro m c
      rfl
  | cons o t ih =>
      intro m c
      show ((m + 1, o) :: t.enumFrom (m + 2)).filterMap _
        = ((m, o) :: t.enumFrom (m + 1)).filterMap _
      rw [List.filterMap_cons, List.filterMap_cons]
      cases o with
      | none =>
          dsimp only [Option.map_none]
          exact ih (m + 1) c
      | some v =>
          dsimp only [Option.map_some]
          rw [ih (m + 1) c]
          have : c + (m + 1) = c + 1 + m := by omega
          rw [this]

/-- One step of the paste row computation. -/
theorem pasteRows_cons (o : Option String) (rest : List (Option String)) (c : Nat) :
    pasteRows (o :: rest) c
      = (match o with | some _ => [c] | none => []) ++ pasteRows rest (c + 1) := by
  unfold pasteRows
  show ((0, o) :: rest.enumFrom 1).filterMap _ = _
  rw [List.filterMap_cons]
  cases o with
  | none =>
      dsimp only [Option.map_none]
      exact enumFrom_filterMap_shift rest 0 c
  | some v =>
      dsimp only [Option.map_some]
      rw [enumFrom_filterMap_shift rest 0 c]
      simp
      rfl

/-- The pasted rows are strictly increasing, lie in the pasted window, and
pair off with the non-None clipboard entries. -/
theorem pasteRows_facts (data : List (Option String)) :
    ∀ c : Nat, (pasteRows data c).Pairwise (fun a b => a < b) ∧
      (∀ r ∈ pasteRows data c, c ≤ r ∧ r < c + data.length) ∧
      (data.filterMap id).length = (pasteRows data c).length := by
  induction data with
  | nil =>
      intro c
      refine ⟨List.Pairwise.nil, ?_, rfl⟩
      intro r hr
      cases hr
  | cons o rest ih =>
      intro c
      obtain ⟨hp, hb, hl⟩ := ih (c + 1)
      rw [pasteRows_cons]
      cases o with
      | none =>
          refine ⟨by simpa using hp, ?_, by simpa using hl⟩
          intro r hr
          simp only [List.nil_append] at hr
          have := hb r hr
          simp only [List.length_cons]
          omega
      | some v =>
          refine ⟨?_, ?_, ?_⟩
          · rw [List.singleton_append, List.pairwise_cons]
            refine ⟨?_, hp⟩
            intro r hr
            have := (hb r hr).1
            omega
          · intro r hr
            rw [List.singleton_append, List.mem_cons] at hr
            simp only [List.length_cons]
            rcases hr with he | hm
            · omega
            · have := hb r hm
              omega
          · rw [List.singleton_append]
            show (v :: rest.filterMap id).length = (c :: pasteRows rest (c + 1)).length
            rw [List.length_cons, List.length_cons, hl]

/-- The replacement loop on the pasted rows and texts realizes the spec
wording: overwrite exactly the non-None offsets. -/
theorem replaceLoop_overlay (data : List (Option String)) :
    ∀ (texts : List String) (sr : Nat),
    (replaceLoop texts (pasteRows data sr) (data.filterMap id)).1 = overlay texts sr data := by
  induction data with
  | nil =>
      intro texts sr
      rfl
  | cons o rest ih =>
      intro texts sr
      rw [pasteRows_cons]
      cases o with
      | none =>
          rw [List.nil_append]
          show (replaceLoop texts (pasteRows rest (sr + 1)) (rest.filterMap id)).1
            = overlay texts (sr + 1) rest
          exact ih texts (sr + 1)
      | some v =>
          rw [List.singleton_append]
          show (replaceLoop (texts.set sr v) (pasteRows rest (sr + 1)) (rest.filterMap id)).1
            = overlay texts sr (some v :: rest)
          exact ih (texts.set sr v) (sr + 1)

/-- A contiguous range starting at the array end is insertable. -/
theorem insOk_range' (n : Nat) : ∀ L : Nat, insOk L (List.range' L n) = true := by
  induction n with
  | zero =>
      intro L
      rfl
  | succ m ih =>
      intro L
      rw [List.range'_succ, insOk]
      rw [ih (L + 1)]
      simp

/-- Inserting at consecutive end positions appends. -/
theorem insertLoop_append (ext : List α) : ∀ l : List α,
    insertLoop l (List.range' l.length ext.length) ext = l ++ ext := by
  induction ext with
  | nil =>
      intro l
      simp [insertLoop]
  | cons v vs ih =>
      intro l
      rw [List.length_cons, List.range'_succ, insertLoop]
      have h1 : l.insertIdx l.length v = l ++ [v] := by
        simp
      rw [h1]
      have h2 : l.length + 1 = (l ++ [v]).length := by simp
      rw [h2, ih (l ++ [v])]
      simp

/-- Removing the contiguous tail range pops exactly the appended block. -/
theorem removeLoop_append [Inhabited α] (l ext : List α) :
    removeLoop (l ++ ext) (List.range' l.length ext.length) = (l, ext) := by
  have h := removeLoop_insertLoop l (List.range' l.length ext.length) ext
    (insOk_range' ext.length l.length) (by simp)
  rwa [insertLoop_append ext l] at h

/-- _insert_blank at the end of the document appends one interpolated block
to each position array and blank texts to both text arrays, touching
nothing else. -/
theorem insert_blank_append (p : Project) (k : Nat) (hk : 1 ≤ k) (hwf : wfP p) :
    ∃ ts fs : List (Triple Int), ts.length = k ∧ fs.length = k ∧
      insert_blank p (List.range' p.times.length k)
        = { p with
            times := p.times ++ ts
            frames := p.frames ++ fs
            main_texts := p.main_texts ++ List.replicate k blank
            tran_texts := p.tran_texts ++ List.replicate k blank } := by
  have hfl : p.times.length ≤ p.frames.length := le_of_eq hwf.1.symm
  have hml : p.times.length ≤ p.main_texts.length := le_of_eq hwf.2.1.symm
  have htl : p.times.length ≤ p.tran_texts.length := le_of_eq hwf.2.2.symm
  unfold insert_blank
  rw [List.length_range', min?_range' p.times.length k hk]
  cases hm : p.mode
  · dsimp only [Option.getD_some]
    generalize hST : (if p.times.length > 0 then p.calcu.time_to_seconds ((p.times.getD (p.times.length - 1) default).hid) else (0 : ℚ)) = ST
    generalize hDU : (if p.times.length < p.times.length then (p.calcu.time_to_seconds ((p.times.getD p.times.length default).shw) - ST) / (k : ℚ) else (3 : ℚ)) = DU
    rw [foldl_project_insert p k p.times.length (fun (i : Nat) => (⟨p.calcu.seconds_to_time (ST + (i : ℚ) * DU), p.calcu.seconds_to_time (ST + ((i : ℚ) + 1) * DU), p.calcu.get_time_duration (p.calcu.seconds_to_time (ST + (i : ℚ) * DU)) (p.calcu.seconds_to_time (ST + ((i : ℚ) + 1) * DU))⟩ : Triple Int)) (fun (i : Nat) => (⟨p.calcu.time_to_frame (p.calcu.seconds_to_time (ST + (i : ℚ) * DU)), p.calcu.time_to_frame (p.calcu.seconds_to_time (ST + ((i : ℚ) + 1) * DU)), p.calcu.get_frame_duration (p.calcu.time_to_frame (p.calcu.seconds_to_time (ST + (i : ℚ) * DU))) (p.calcu.time_to_frame (p.calcu.seconds_to_time (ST + ((i : ℚ) + 1) * DU)))⟩ : Triple Int))]
    refine ⟨(List.range k).map (fun (i : Nat) => (⟨p.calcu.seconds_to_time (ST + (i : ℚ) * DU), p.calcu.seconds_to_time (ST + ((i : ℚ) + 1) * DU), p.calcu.get_time_duration (p.calcu.seconds_to_time (ST + (i : ℚ) * DU)) (p.calcu.seconds_to_time (ST + ((i : ℚ) + 1) * DU))⟩ : Triple Int)), (List.range k).map (fun (i : Nat) => (⟨p.calcu.time_to_frame (p.calcu.seconds_to_time (ST + (i : ℚ) * DU)), p.calcu.time_to_frame (p.calcu.seconds_to_time (ST + ((i : ℚ) + 1) * DU)), p.calcu.get_frame_duration (p.calcu.time_to_frame (p.calcu.seconds_to_time (ST + (i : ℚ) * DU))) (p.calcu.time_to_frame (p.calcu.seconds_to_time (ST + ((i : ℚ) + 1) * DU)))⟩ : Triple Int)),
      by rw [List.length_map, List.length_range],
      by rw [List.length_map, List.length_range], ?_⟩
    have e1 : (List.range k).foldl (fun l i => l.insertIdx (p.times.length + i) ((fun (i : Nat) => (⟨p.calcu.seconds_to_time (ST + (i : ℚ) * DU), p.calcu.seconds_to_time (ST + ((i : ℚ) + 1) * DU), p.calcu.get_time_duration (p.calcu.seconds_to_time (ST + (i : ℚ) * DU)) (p.calcu.seconds_to_time (ST + ((i : ℚ) + 1) * DU))⟩ : Triple Int)) i)) p.times = p.times ++ (List.range k).map (fun (i : Nat) => (⟨p.calcu.seconds_to_time (ST + (i : ℚ) * DU), p.calcu.seconds_to_time (ST + ((i : ℚ) + 1) * DU), p.calcu.get_time_duration (p.calcu.seconds_to_time (ST + (i : ℚ) * DU)) (p.calcu.seconds_to_time (ST + ((i : ℚ) + 1) * DU))⟩ : Triple Int)) := by
      rw [foldl_insert_block p.times p.times.length k _ (le_refl _), List.take_length, List.drop_length, List.append_nil]
    have e2 : (List.range k).foldl (fun l i => l.insertIdx (p.times.length + i) ((fun (i : Nat) => (⟨p.calcu.time_to_frame (p.calcu.seconds_to_time (ST + (i : ℚ) * DU)), p.calcu.time_to_frame (p.calcu.seconds_to_time (ST + ((i : ℚ) + 1) * DU)), p.calcu.get_frame_duration (p.calcu.time_to_frame (p.calcu.seconds_to_time (ST + (i : ℚ) * DU))) (p.calcu.time_to_frame (p.calcu.seconds_to_time (ST + ((i : ℚ) + 1) * DU)))⟩ : Triple Int)) i)) p.frames = p.frames ++ (List.range k).map (fun (i : Nat) => (⟨p.calcu.time_to_frame (p.calcu.seconds_to_time (ST + (i : ℚ) * DU)), p.calcu.time_to_frame (p.calcu.seconds_to_time (ST + ((i : ℚ) + 1) * DU)), p.calcu.get_frame_duration (p.calcu.time_to_frame (p.calcu.seconds_to_time (ST + (i : ℚ) * DU))) (p.calcu.time_to_frame (p.calcu.seconds_to_time (ST + ((i : ℚ) + 1) * DU)))⟩ : Triple Int)) := by
      rw [foldl_insert_block p.frames p.times.length k _ hfl]
      rw [show p.frames.take p.times.length = p.frames from by rw [hwf.1.symm]; exact List.take_length p.frames]
      rw [show p.frames.drop p.times.length = ([] : List (Triple Int)) from by rw [hwf.1.symm]; exact List.drop_length p.frames]
      rw [List.append_nil]
    have e3 : (List.range k).foldl (fun l i => l.insertIdx (p.times.length + i) ((fun (j : Nat) => blank) i)) p.main_texts = p.main_texts ++ List.replicate k blank := by
      rw [foldl_insert_block p.main_texts p.times.length k _ hml]
      rw [show p.main_texts.take p.times.length = p.main_texts from by rw [hwf.2.1.symm]; exact List.take_length p.main_texts]
      rw [show p.main_texts.drop p.times.length = ([] : List String) from by rw [hwf.2.1.symm]; exact List.drop_length p.main_texts]
      rw [List.append_nil, List.map_const']
      rw [List.length_range]
    have e4 : (List.range k).foldl (fun l i => l.insertIdx (p.times.length + i) ((fun (j : Nat) => blank) i)) p.tran_texts = p.tran_texts ++ List.replicate k blank := by
      rw [foldl_insert_block p.tran_texts p.times.length k _ htl]
      rw [show p.tran_texts.take p.times.length = p.tran_texts from by rw [hwf.2.2.symm]; exact List.take_length p.tran_texts]
      rw [show p.tran_texts.drop p.times.length = ([] : List String) from by rw [hwf.2.2.symm]; exact List.drop_length p.tran_texts]
      rw [List.append_nil, List.map_const']
      rw [List.length_range]
    rw [e1, e2, e3, e4, hm]
  · dsimp only [Option.getD_some]
    generalize hST : (if p.times.length > 0 then ((p.frames.getD (p.times.length - 1) default).hid) else (0 : Int)) = ST
    generalize hDU : (if p.times.length < p.times.length then (((p.frames.getD p.times.length default).shw - ST).tdiv ((k : Nat) : Int)) else round (p.framerate * 3)) = DU
    rw [foldl_project_insert p k p.times.length (fun (i : Nat) => (⟨p.calcu.frame_to_time (ST + (i : Int) * DU), p.calcu.frame_to_time (ST + ((i : Int) + 1) * DU), p.calcu.get_time_duration (p.calcu.frame_to_time (ST + (i : Int) * DU)) (p.calcu.frame_to_time (ST + ((i : Int) + 1) * DU))⟩ : Triple Int)) (fun (i : Nat) => (⟨ST + (i : Int) * DU, ST + ((i : Int) + 1) * DU, p.calcu.get_frame_duration (ST + (i : Int) * DU) (ST + ((i : Int) + 1) * DU)⟩ : Triple Int))]
    refine ⟨(List.range k).map (fun (i : Nat) => (⟨p.calcu.frame_to_time (ST + (i : Int) * DU), p.calcu.frame_to_time (ST + ((i : Int) + 1) * DU), p.calcu.get_time_duration (p.calcu.frame_to_time (ST + (i : Int) * DU)) (p.calcu.frame_to_time (ST + ((i : Int) + 1) * DU))⟩ : Triple Int)), (List.range k).map (fun (i : Nat) => (⟨ST + (i : Int) * DU, ST + ((i : Int) + 1) * DU, p.calcu.get_frame_duration (ST + (i : Int) * DU) (ST + ((i : Int) + 1) * DU)⟩ : Triple Int)),
      by rw [List.length_map, List.length_range],
      by rw [List.length_map, List.length_range], ?_⟩
    have e1 : (List.range k).foldl (fun l i => l.insertIdx (p.times.length + i) ((fun (i : Nat) => (⟨p.calcu.frame_to_time (ST + (i : Int) * DU), p.calcu.frame_to_time (ST + ((i : Int) + 1) * DU), p.calcu.get_time_duration (p.calcu.frame_to_time (ST + (i : Int) * DU)) (p.calcu.frame_to_time (ST + ((i : Int) + 1) * DU))⟩ : Triple Int)) i)) p.times = p.times ++ (List.range k).map (fun (i : Nat) => (⟨p.calcu.frame_to_time (ST + (i : Int) * DU), p.calcu.frame_to_time (ST + ((i : Int) + 1) * DU), p.calcu.get_time_duration (p.calcu.frame_to_time (ST + (i : Int) * DU)) (p.calcu.frame_to_time (ST + ((i : Int) + 1) * DU))⟩ : Triple Int)) := by
      rw [foldl_insert_block p.times p.times.length k _ (le_refl _), List.take_length, List.drop_length, List.append_nil]
    have e2 : (List.range k).foldl (fun l i => l.insertIdx (p.times.length + i) ((fun (i : Nat) => (⟨ST + (i : Int) * DU, ST + ((i : Int) + 1) * DU, p.calcu.get_frame_duration (ST + (i : Int) * DU) (ST + ((i : Int) + 1) * DU)⟩ : Triple Int)) i)) p.frames = p.frames ++ (List.range k).map (fun (i : Nat) => (⟨ST + (i : Int) * DU, ST + ((i : Int) + 1) * DU, p.calcu.get_frame_duration (ST + (i : Int) * DU) (ST + ((i : Int) + 1) * DU)⟩ : Triple Int)) := by
      rw [foldl_insert_block p.frames p.times.length k _ hfl]
      rw [show p.frames.take p.times.length = p.frames from by rw [hwf.1.symm]; exact List.take_length p.frames]
      rw [show p.frames.drop p.times.length = ([] : List (Triple Int)) from by rw [hwf.1.symm]; exact List.drop_length p.frames]
      rw [List.append_nil]
    have e3 : (List.range k).foldl (fun l i => l.insertIdx (p.times.length + i) ((fun (j : Nat) => blank) i)) p.main_texts = p.main_texts ++ List.replicate k blank := by
      rw [foldl_insert_block p.main_texts p.times.length k _ hml]
      rw [show p.main_texts.take p.times.length = p.main_texts from by rw [hwf.2.1.symm]; exact List.take_length p.main_texts]
      rw [show p.main_texts.drop p.times.length = ([] : List String) from by rw [hwf.2.1.symm]; exact List.drop_length p.main_texts]
      rw [List.append_nil, List.map_const']
      rw [List.length_range]
    have e4 : (List.range k).foldl (fun l i => l.insertIdx (p.times.length + i) ((fun (j : Nat) => blank) i)) p.tran_texts = p.tran_texts ++ List.replicate k blank := by
      rw [foldl_insert_block p.tran_texts p.times.length k _ htl]
      rw [show p.tran_texts.take p.times.length = p.tran_texts from by rw [hwf.2.2.symm]; exact List.take_length p.tran_texts]
      rw [show p.tran_texts.drop p.times.length = ([] : List String) from by rw [hwf.2.2.symm]; exact List.drop_length p.tran_texts]
      rw [List.append_nil, List.map_const']
      rw [List.length_range]
    rw [e1, e2, e3, e4, hm]

/-- The closed form of an extending paste into the main channel: appended
rows, replaced texts, and the two registered actions merged into one. -/
theorem paste_texts_closed_main (p : Project) (sr : Nat) (hwf : wfP p)
    (hA : p.times.length < sr + p.clipboard.length) :
    ∃ ts fs : List (Triple Int),
      ts.length = (sr + p.clipboard.length - p.times.length) ∧
      fs.length = (sr + p.clipboard.length - p.times.length) ∧
      (paste_texts p sr Document.MAIN Action.DO).1
        = { p with
            times := p.times ++ ts
            frames := p.frames ++ fs
            main_texts := (replaceLoop (p.main_texts ++ List.replicate (sr + p.clipboard.length - p.times.length) blank) (pasteRows p.clipboard sr) (p.clipboard.filterMap id)).1
            tran_texts := p.tran_texts ++ List.replicate (sr + p.clipboard.length - p.times.length) blank
            undoables := RevertableAction.mk
              [RevertOp.replace_texts (pasteRows p.clipboard sr) Document.MAIN (replaceLoop (p.main_texts ++ List.replicate (sr + p.clipboard.length - p.times.length) blank) (pasteRows p.clipboard sr) (p.clipboard.filterMap id)).2,
               RevertOp.remove_subtitles (List.range' p.times.length (sr + p.clipboard.length - p.times.length))] []
              :: p.undoables
            redoables := [] } := by
  have hk : 1 ≤ (sr + p.clipboard.length - p.times.length) := by omega
  obtain ⟨ts, fs, hts, hfs, hins⟩ := insert_blank_append p (sr + p.clipboard.length - p.times.length) hk hwf
  refine ⟨ts, fs, hts, hfs, ?_⟩
  unfold paste_texts
  dsimp only
  rw [if_pos (show ((p.clipboard.length : Int) - ((p.times.length : Int) - (sr : Int)) > 0) from by omega),
    if_pos (show ((p.clipboard.length : Int) - ((p.times.length : Int) - (sr : Int)) > 0) from by omega)]
  rw [show ((p.clipboard.length : Int) - ((p.times.length : Int) - (sr : Int))).toNat = (sr + p.clipboard.length - p.times.length) from by omega]
  unfold insert_subtitles
  rw [insertionSort_range']
  dsimp only
  rw [hins]
  dsimp only [register_action]
  unfold replace_texts
  dsimp only
  dsimp only [register_action]
  unfold group_actions
  dsimp only
  simp only [List.take_succ_cons, List.take_zero, List.drop_succ_cons, List.drop_zero,
    List.map_cons, List.map_nil, List.flatten_cons, List.flatten_nil, List.append_nil]
  rw [List.singleton_append]
  unfold pasteRows
  rfl

/-- A single undo of an extending main-channel paste restores all four
arrays. -/
theorem paste_undo_restores_main (p : Project) (sr : Nat) (hwf : wfP p)
    (hA : p.times.length < sr + p.clipboard.length) :
    arraysOf (undo (paste_texts p sr Document.MAIN Action.DO).1) = arraysOf p := by
  obtain ⟨ts, fs, hts, hfs, hq⟩ := paste_texts_closed_main p sr hwf hA
  obtain ⟨hpair, hbound, hlen⟩ := pasteRows_facts p.clipboard sr
  have hnd : (pasteRows p.clipboard sr).Nodup := hpair.imp ne_of_lt
  have hbd : ∀ r ∈ pasteRows p.clipboard sr,
      r < (p.main_texts ++ List.replicate (sr + p.clipboard.length - p.times.length) blank).length := by
    intro r hr
    rw [List.length_append, List.length_replicate, hwf.2.1]
    have := (hbound r hr).2
    omega
  have hinv := replaceLoop_invol (p.main_texts ++ List.replicate (sr + p.clipboard.length - p.times.length) blank)
    (pasteRows p.clipboard sr) (p.clipboard.filterMap id) hnd hbd hlen
  have hT := removeLoop_append p.times ts
  rw [hts] at hT
  have hF := removeLoop_append p.frames fs
  rw [hfs, hwf.1] at hF
  have hM := removeLoop_append p.main_texts (List.replicate (sr + p.clipboard.length - p.times.length) blank)
  rw [List.length_replicate, hwf.2.1] at hM
  have hR := removeLoop_append p.tran_texts (List.replicate (sr + p.clipboard.length - p.times.length) blank)
  rw [List.length_replicate, hwf.2.2] at hR
  rw [hq]
  unfold undo
  dsimp only
  rw [List.foldl_cons]
  unfold applyRevert
  dsimp only
  unfold replace_texts
  dsimp only
  rw [hinv]
  dsimp only [register_action]
  rw [List.foldl_cons, List.foldl_nil]
  dsimp only
  unfold remove_subtitles
  rw [insertionSort_range']
  dsimp only
  rw [hT, hF, hM, hR]
  rfl

/-- The closed form of an extending paste into the translation channel. -/
theorem paste_texts_closed_tran (p : Project) (sr : Nat) (hwf : wfP p)
    (hA : p.times.length < sr + p.clipboard.length) :
    ∃ ts fs : List (Triple Int),
      ts.length = (sr + p.clipboard.length - p.times.length) ∧
      fs.length = (sr + p.clipboard.length - p.times.length) ∧
      (paste_texts p sr Document.TRAN Action.DO).1
        = { p with
            times := p.times ++ ts
            frames := p.frames ++ fs
            tran_texts := (replaceLoop (p.tran_texts ++ List.replicate (sr + p.clipboard.length - p.times.length) blank) (pasteRows p.clipboard sr) (p.clipboard.filterMap id)).1
            main_texts := p.main_texts ++ List.replicate (sr + p.clipboard.length - p.times.length) blank
            undoables := RevertableAction.mk
              [RevertOp.replace_texts (pasteRows p.clipboard sr) Document.TRAN (replaceLoop (p.tran_texts ++ List.replicate (sr + p.clipboard.length - p.times.length) blank) (pasteRows p.clipboard sr) (p.clipboard.filterMap id)).2,
               RevertOp.remove_subtitles (List.range' p.times.length (sr + p.clipboard.length - p.times.length))] []
              :: p.undoables
            redoables := [] } := by
  have hk : 1 ≤ (sr + p.clipboard.length - p.times.length) := by omega
  obtain ⟨ts, fs, hts, hfs, hins⟩ := insert_blank_append p (sr + p.clipboard.length - p.times.length) hk hwf
  refine ⟨ts, fs, hts, hfs, ?_⟩
  unfold paste_texts
  dsimp only
  rw [if_pos (show ((p.clipboard.length : Int) - ((p.times.length : Int) - (sr : Int)) > 0) from by omega),
    if_pos (show ((p.clipboard.length : Int) - ((p.times.length : Int) - (sr : Int)) > 0) from by omega)]
  rw [show ((p.clipboard.length : Int) - ((p.times.length : Int) - (sr : Int))).toNat = (sr + p.clipboard.length - p.times.length) from by omega]
  unfold insert_subtitles
  rw [insertionSort_range']
  dsimp only
  rw [hins]
  dsimp only [register_action]
  unfold replace_texts
  dsimp only
  dsimp only [register_action]
  unfold group_actions
  dsimp only
  simp only [List.take_succ_cons, List.take_zero, List.drop_succ_cons, List.drop_zero,
    List.map_cons, List.map_nil, List.flatten_cons, List.flatten_nil, List.append_nil]
  rw [List.singleton_append]
  unfold pasteRows
  rfl

/-- A single undo of an extending translation-channel paste restores all
four arrays. -/
theorem paste_undo_restores_tran (p : Project) (sr : Nat) (hwf : wfP p)
    (hA : p.times.length < sr + p.clipboard.length) :
    arraysOf (undo (paste_texts p sr Document.TRAN Action.DO).1) = arraysOf p := by
  obtain ⟨ts, fs, hts, hfs, hq⟩ := paste_texts_closed_tran p sr hwf hA
  obtain ⟨hpair, hbound, hlen⟩ := pasteRows_facts p.clipboard sr
  have hnd : (pasteRows p.clipboard sr).Nodup := hpair.imp ne_of_lt
  have hbd : ∀ r ∈ pasteRows p.clipboard sr,
      r < (p.tran_texts ++ List.replicate (sr + p.clipboard.length - p.times.length) blank).length := by
    intro r hr
    rw [List.length_append, List.length_replicate, hwf.2.2]
    have := (hbound r hr).2
    omega
  have hinv := replaceLoop_invol (p.tran_texts ++ List.replicate (sr + p.clipboard.length - p.times.length) blank)
    (pasteRows p.clipboard sr) (p.clipboard.filterMap id) hnd hbd hlen
  have hT := removeLoop_append p.times ts
  rw [hts] at hT
  have hF := removeLoop_append p.frames fs
  rw [hfs, hwf.1] at hF
  have hM := removeLoop_append p.tran_texts (List.replicate (sr + p.clipboard.length - p.times.length) blank)
  rw [List.length_replicate, hwf.2.2] at hM
  have hR := removeLoop_append p.main_texts (List.replicate (sr + p.clipboard.length - p.times.length) blank)
  rw [List.length_replicate, hwf.2.1] at hR
  rw [hq]
  unfold undo
  dsimp only
  rw [List.foldl_cons]
  unfold applyRevert
  dsimp only
  unfold replace_texts
  dsimp only
  rw [hinv]
  dsimp only [register_action]
  rw [List.foldl_cons, List.foldl_nil]
  dsimp only
  unfold remove_subtitles
  rw [insertionSort_range']
  dsimp only
  rw [hT, hF, hM, hR]
  rfl

/-- A fitting paste is exactly the text replacement call. -/
theorem paste_texts_fits (p : Project) (sr : Nat) (document : Document)
    (hA : sr + p.clipboard.length ≤ p.times.length) :
    (paste_texts p sr document Action.DO).1
      = replace_texts p (pasteRows p.clipboard sr) document
          (p.clipboard.filterMap id) Action.DO := by
  unfold paste_texts
  dsimp only
  rw [if_neg (show ¬ ((p.clipboard.length : Int) - ((p.times.length : Int) - (sr : Int)) > 0) from by omega),
    if_neg (show ¬ ((p.clipboard.length : Int) - ((p.times.length : Int) - (sr : Int)) > 0) from by omega)]
  unfold pasteRows
  rfl

/-- C8: when the clipboard is longer than the rows available from the start
row, paste_texts first inserts exactly the needed number of rows at the end
of the document — blank texts in both channels — then overwrites the pasted
document channel at the offsets whose buffer entry is not None, groups the
two registered actions into one unit whose reverts replay text restoration
then row removal, and a single undo restores all four arrays; when the
buffer fits, no rows are inserted and only the one text-replacement action
is registered. -/
theorem paste_extension_atomicity (p : Project) (start_row : Nat) (document : Document)
    (hwf : wfP p) :
    (p.times.length < start_row + p.clipboard.length →
      (∃ ts fs : List (Triple Int),
        ts.length = (start_row + p.clipboard.length - p.times.length) ∧ fs.length = (start_row + p.clipboard.length - p.times.length) ∧
        (paste_texts p start_row document Action.DO).1.times = p.times ++ ts ∧ (paste_texts p start_row document Action.DO).1.frames = p.frames ++ fs) ∧
      (document = Document.MAIN →
        (paste_texts p start_row document Action.DO).1.main_texts
          = overlay (p.main_texts ++ List.replicate (start_row + p.clipboard.length - p.times.length) blank) start_row p.clipboard ∧
        (paste_texts p start_row document Action.DO).1.tran_texts = p.tran_texts ++ List.replicate (start_row + p.clipboard.length - p.times.length) blank) ∧
      (document = Document.TRAN →
        (paste_texts p start_row document Action.DO).1.tran_texts
          = overlay (p.tran_texts ++ List.replicate (start_row + p.clipboard.length - p.times.length) blank) start_row p.clipboard ∧
        (paste_texts p start_row document Action.DO).1.main_texts = p.main_texts ++ List.replicate (start_row + p.clipboard.length - p.times.length) blank) ∧
      (∃ origs : List String,
        (paste_texts p start_row document Action.DO).1.undoables
          = RevertableAction.mk
              [RevertOp.replace_texts (pasteRows p.clipboard start_row) document origs,
               RevertOp.remove_subtitles (List.range' p.times.length (start_row + p.clipboard.length - p.times.length))] []
            :: p.undoables) ∧
      arraysOf (undo (paste_texts p start_row document Action.DO).1) = arraysOf p) ∧
    (start_row + p.clipboard.length ≤ p.times.length →
      (paste_texts p start_row document Action.DO).1.times = p.times ∧ (paste_texts p start_row document Action.DO).1.frames = p.frames ∧
      (document = Document.MAIN →
        (paste_texts p start_row document Action.DO).1.main_texts = overlay p.main_texts start_row p.clipboard ∧
        (paste_texts p start_row document Action.DO).1.tran_texts = p.tran_texts) ∧
      (document = Document.TRAN →
        (paste_texts p start_row document Action.DO).1.tran_texts = overlay p.tran_texts start_row p.clipboard ∧
        (paste_texts p start_row document Action.DO).1.main_texts = p.main_texts) ∧
      (∃ origs : List String,
        (paste_texts p start_row document Action.DO).1.undoables
          = RevertableAction.mk
              [RevertOp.replace_texts (pasteRows p.clipboard start_row) document origs] []
            :: p.undoables)) := by
  constructor
  · intro hA
    cases document
    · obtain ⟨ts, fs, hts, hfs, hq⟩ := paste_texts_closed_main p start_row hwf hA
      refine ⟨⟨ts, fs, hts, hfs, by rw [hq], by rw [hq]⟩, ?_, ?_, ?_, ?_⟩
      · intro hd
        constructor
        · rw [hq]
          exact replaceLoop_overlay p.clipboard _ start_row
        · rw [hq]
      · intro hd
        exact nomatch hd
      · exact ⟨_, by rw [hq]⟩
      · exact paste_undo_restores_main p start_row hwf hA
    · obtain ⟨ts, fs, hts, hfs, hq⟩ := paste_texts_closed_tran p start_row hwf hA
      refine ⟨⟨ts, fs, hts, hfs, by rw [hq], by rw [hq]⟩, ?_, ?_, ?_, ?_⟩
      · intro hd
        exact nomatch hd
      · intro hd
        constructor
        · rw [hq]
          exact replaceLoop_overlay p.clipboard _ start_row
        · rw [hq]
      · exact ⟨_, by rw [hq]⟩
      · exact paste_undo_restores_tran p start_row hwf hA
  · intro hB
    have hq := paste_texts_fits p start_row document hB
    cases document
    · refine ⟨by rw [hq]; rfl, by rw [hq]; rfl, ?_, ?_, ?_⟩
      · intro hd
        constructor
        · rw [hq]
          exact replaceLoop_overlay p.clipboard p.main_texts start_row
        · rw [hq]
          rfl
      · intro hd
        exact nomatch hd
      · exact ⟨_, by rw [hq]; rfl⟩
    · refine ⟨by rw [hq]; rfl, by rw [hq]; rfl, ?_, ?_, ?_⟩
      · intro hd
        exact nomatch hd
      · intro hd
        constructor
        · rw [hq]
          exact replaceLoop_overlay p.clipboard p.tran_texts start_row
        · rw [hq]
          rfl
      · exact ⟨_, by rw [hq]; rfl⟩

/-- Witness for C8: pasting a three-entry clipboard at row 2 of the
three-row base document extends it and one undo restores the arrays. -/
theorem paste_extension_atomicity_witness :
    wfP wpaste ∧ wpaste.times.length < 2 + wpaste.clipboard.length ∧
    arraysOf (undo (paste_texts wpaste 2 Document.MAIN Action.DO).1) = arraysOf wpaste :=
  ⟨by decide, by decide,
    ((paste_extension_atomicity wpaste 2 Document.MAIN (by decide)).1 (by decide)).2.2.2.2⟩

theorem set_insertIdx_self (l : List α) (i : Nat) (x y : α) (h : i ≤ l.length) :
    (l.insertIdx i x).set i y = l.insertIdx i y := by
  induction l generalizing i with
  | nil =>
      have h0 : i = 0 := by simpa using h
      subst h0
      rfl
  | cons a t ih =>
      cases i with
      | zero => rfl
      | succ m =>
          rw [List.insertIdx_succ_cons, List.insertIdx_succ_cons, List.set_cons_succ,
            ih m (by simpa using h)]

theorem arraysOf_register (p : Project) (reg : Action) (op : RevertOp) (u : List Nat) :
    arraysOf (register_action p reg op u) = arraysOf p := by
  cases reg <;> rfl

theorem arraysOf_group (p : Project) (reg : Action) (n : Nat) :
    arraysOf (group_actions p reg n) = arraysOf p := by
  cases reg <;> rfl

theorem undo_register_DO (Q : Project) (rop : RevertOp) (u : List Nat) :
    undo (register_action Q Action.DO rop u)
      = group_actions (applyRevert { Q with redoables := [] } rop Action.UNDO)
          Action.UNDO 1 := by
  unfold undo register_action
  dsimp only
  rw [List.foldl_cons, List.foldl_nil]
  rfl

theorem group_register_UNDO (E : Project) (rop : RevertOp) (u : List Nat) :
    group_actions (register_action E Action.UNDO rop u) Action.UNDO 1
      = { E with redoables := RevertableAction.mk [rop] u :: E.redoables } := by
  unfold group_actions register_action
  dsimp only
  rw [List.take_succ_cons, List.take_zero, List.drop_succ_cons, List.drop_zero]
  simp

theorem redo_cons (E : Project) (rop : RevertOp) (u : List Nat)
    (rest : List RevertableAction) :
    redo { E with redoables := RevertableAction.mk [rop] u :: rest }
      = group_actions (applyRevert { E with redoables := rest } rop Action.REDO)
          Action.REDO 1 := by
  unfold redo
  dsimp only
  rw [List.foldl_cons, List.foldl_nil]
  rfl

theorem resort_restore (l : List (Triple Int)) (row : Nat) (X : Triple Int)
    (hrow : row < l.length) (hstrict : strictShowSorted l) :
    (bisect_right tripleLt
        (((moveRow (l.set row X) row
            (bisect_right tripleLt ((l.set row X).eraseIdx row)
              ((l.set row X).getD row default)) default).set
          (bisect_right tripleLt ((l.set row X).eraseIdx row)
            ((l.set row X).getD row default)) (l.getD row default)).eraseIdx
          (bisect_right tripleLt ((l.set row X).eraseIdx row)
            ((l.set row X).getD row default)))
        (((moveRow (l.set row X) row
            (bisect_right tripleLt ((l.set row X).eraseIdx row)
              ((l.set row X).getD row default)) default).set
          (bisect_right tripleLt ((l.set row X).eraseIdx row)
            ((l.set row X).getD row default)) (l.getD row default)).getD
          (bisect_right tripleLt ((l.set row X).eraseIdx row)
            ((l.set row X).getD row default)) default)
        = row) ∧
    moveRow ((moveRow (l.set row X) row
        (bisect_right tripleLt ((l.set row X).eraseIdx row)
          ((l.set row X).getD row default)) default).set
      (bisect_right tripleLt ((l.set row X).eraseIdx row)
        ((l.set row X).getD row default)) (l.getD row default))
      (bisect_right tripleLt ((l.set row X).eraseIdx row)
        ((l.set row X).getD row default)) row default = l := by
  have hE : (l.set row X).eraseIdx row = l.eraseIdx row := eraseIdx_set_self l row X
  have hlen : (l.eraseIdx row).length = l.length - 1 := by
    rw [List.length_eraseIdx]
    simp [hrow]
  have hRle : bisect_right tripleLt ((l.set row X).eraseIdx row)
      ((l.set row X).getD row default) ≤ (l.eraseIdx row).length := by
    rw [hE]
    have := (bisect_right_spec tripleLt (l.eraseIdx row) ((l.set row X).getD row default)).1
    exact this
  have hmv : moveRow (l.set row X) row
      (bisect_right tripleLt ((l.set row X).eraseIdx row)
        ((l.set row X).getD row default)) default
      = (l.eraseIdx row).insertIdx
          (bisect_right tripleLt ((l.set row X).eraseIdx row)
            ((l.set row X).getD row default)) ((l.set row X).getD row default) := by
    unfold moveRow
    rw [hE]
  have hset : (moveRow (l.set row X) row
      (bisect_right tripleLt ((l.set row X).eraseIdx row)
        ((l.set row X).getD row default)) default).set
      (bisect_right tripleLt ((l.set row X).eraseIdx row)
        ((l.set row X).getD row default)) (l.getD row default)
      = (l.eraseIdx row).insertIdx
          (bisect_right tripleLt ((l.set row X).eraseIdx row)
            ((l.set row X).getD row default)) (l.getD row default) := by
    rw [hmv, set_insertIdx_self _ _ _ _ hRle]
  have hback : ((l.eraseIdx row).insertIdx
      (bisect_right tripleLt ((l.set row X).eraseIdx row)
        ((l.set row X).getD row default)) (l.getD row default)).eraseIdx
      (bisect_right tripleLt ((l.set row X).eraseIdx row)
        ((l.set row X).getD row default)) = l.eraseIdx row :=
    List.eraseIdx_insertIdx _ _
  have hget : ((l.eraseIdx row).insertIdx
      (bisect_right tripleLt ((l.set row X).eraseIdx row)
        ((l.set row X).getD row default)) (l.getD row default)).getD
      (bisect_right tripleLt ((l.set row X).eraseIdx row)
        ((l.set row X).getD row default)) default = l.getD row default :=
    getD_insertIdx_self _ _ _ _ hRle
  have hbis : bisect_right tripleLt (l.eraseIdx row) (l.getD row default) = row := by
    rw [bisect_right_eq_upperBound_of_lexSorted _ _
      (lexSorted_eraseIdx l row (pairwise_not_lex_of_strict hstrict))]
    exact upperBound_eraseIdx_self l row hstrict hrow
  constructor
  · rw [hset, hback, hget, hbis]
  · rw [moveRow, hset, hback, hget]
    exact insertIdx_eraseIdx_getD l row default hrow

theorem triple_rebuild (t : Triple Int) (h : t.drn = t.hid - t.shw) :
    (⟨t.shw, t.hid, t.hid - t.shw⟩ : Triple Int) = t := by
  cases t
  dsimp only at h ⊢
  rw [← h]

theorem moveRow_set_restore (l : List α) (row R : Nat) (X y d : α)
    (hrow : row < l.length) (hR : R ≤ l.length - 1) (hy : y = l.getD row d) :
    moveRow ((moveRow (l.set row X) row R d).set R y) R row d = l := by
  have hlen : (l.eraseIdx row).length = l.length - 1 := by
    rw [List.length_eraseIdx]
    simp [hrow]
  have hmv : moveRow (l.set row X) row R d = (l.eraseIdx row).insertIdx R ((l.set row X).getD row d) := by
    unfold moveRow
    rw [eraseIdx_set_self]
  rw [hmv, set_insertIdx_self _ _ _ _ (by omega)]
  unfold moveRow
  rw [List.eraseIdx_insertIdx, getD_insertIdx_self _ _ _ _ (by omega), hy]
  exact insertIdx_eraseIdx_getD l row d hrow

theorem undo_register_DO' (Q : Project) (rop : RevertOp) (u : List Nat) :
    undo (register_action Q Action.DO rop u)
      = group_actions (applyRevert (clearRedo Q) rop Action.UNDO) Action.UNDO 1 := by
  rw [undo_register_DO]
  rfl

theorem group_register_REDO (E : Project) (rop : RevertOp) (u : List Nat) :
    group_actions (register_action E Action.REDO rop u) Action.REDO 1
      = { E with undoables := RevertableAction.mk [rop] u :: E.undoables } := by
  unfold group_actions register_action
  dsimp only
  rw [List.take_succ_cons, List.take_zero, List.drop_succ_cons, List.drop_zero]
  simp

theorem set_time_SHOW_effect2 (p : Project) (row : Nat) (v : Int) (reg : Action)
    (hv : v ≠ (p.times.getD row default).get Col.SHOW) (hrow : row < p.times.length)
    (hwf : wfP p) :
    set_time p row Col.SHOW v reg
      = (register_action
          (moveAll (writeShowTime p row v) row (new_row_of (writeShowTime p row v) row)) reg
          (revertOp_of p row (new_row_of (writeShowTime p row v) row) Col.SHOW)
          (urows_of row (new_row_of (writeShowTime p row v) row)),
        new_row_of (writeShowTime p row v) row) := by
  rw [set_time_SHOW_effect p row v reg hv hrow hwf]
  rfl

theorem set_frame_SHOW_effect2 (p : Project) (row : Nat) (v : Int) (reg : Action)
    (hv : v ≠ (p.frames.getD row default).get Col.SHOW) (hrow : row < p.times.length)
    (hwf : wfP p) :
    set_frame p row Col.SHOW v reg
      = (register_action
          (moveAll (writeShowFrame p row v) row (new_row_of (writeShowFrame p row v) row)) reg
          (revertOp_of p row (new_row_of (writeShowFrame p row v) row) Col.SHOW)
          (urows_of row (new_row_of (writeShowFrame p row v) row)),
        new_row_of (writeShowFrame p row v) row) := by
  rw [set_frame_SHOW_effect p row v reg hv hrow hwf]
  rfl

theorem set_time_SHOW_TIME_roundtrip (p : Project) (row : Nat) (v : Int)
    (hwf : wfP p) (hdur : durationsOk p) (hsy : syncedTF p)
    (hstrict : strictShowSorted p.times) (hm : p.mode = Mode.TIME)
    (hrow : row < p.times.length) (hneq : v ≠ (p.times.getD row default).get Col.SHOW) :
    arraysOf (undo (set_time p row Col.SHOW v Action.DO).1) = arraysOf p ∧
    arraysOf (redo (undo (set_time p row Col.SHOW v Action.DO).1))
      = arraysOf (set_time p row Col.SHOW v Action.DO).1 := by
  have hfr : row < p.frames.length := by
    rw [hwf.1]
    exact hrow
  have hml : row < p.main_texts.length := by
    rw [hwf.2.1]
    exact hrow
  have htl : row < p.tran_texts.length := by
    rw [hwf.2.2]
    exact hrow
  have hWt : (writeShowTime p row v).times = p.times.set row (⟨v, (p.times.getD row default).hid, (p.times.getD row default).hid - v⟩ : Triple Int) := rfl
  have hWf : (writeShowTime p row v).frames = p.frames.set row (⟨p.calcu.time_to_frame v, (p.frames.getD row default).hid, (p.frames.getD row default).hid - p.calcu.time_to_frame v⟩ : Triple Int) := rfl
  have hWtl : (writeShowTime p row v).times.length = p.times.length := by
    rw [hWt, List.length_set]
  have hWfl : (writeShowTime p row v).frames.length = p.frames.length := by
    rw [hWf, List.length_set]
  have hRb : (new_row_of (writeShowTime p row v) row) ≤ p.times.length - 1 := by
    have h := new_row_of_le (writeShowTime p row v) row (by rw [hWtl]; exact hrow) (by rw [hWfl, hWtl, hwf.1])
    rwa [hWtl] at h
  have hRlt : (new_row_of (writeShowTime p row v) row) < p.times.length := by omega
  have ht0mem : p.times.getD row default ∈ p.times := by
    rw [List.getD_eq_getElem _ _ hrow]
    exact List.getElem_mem _
  have ht0drn : (p.times.getD row default).drn
      = (p.times.getD row default).hid - (p.times.getD row default).shw :=
    hdur.1 _ ht0mem
  have hreb := triple_rebuild (p.times.getD row default) ht0drn
  have hf0mem : p.frames.getD row default ∈ p.frames := by
    rw [List.getD_eq_getElem _ _ hfr]
    exact List.getElem_mem _
  have hf0drn : (p.frames.getD row default).drn
      = (p.frames.getD row default).hid - (p.frames.getD row default).shw :=
    hdur.2 _ hf0mem
  have hfreb := triple_rebuild (p.frames.getD row default) hf0drn
  have hCt : (clearRedo (moveAll (writeShowTime p row v) row (new_row_of (writeShowTime p row v) row))).times = moveRow (p.times.set row (⟨v, (p.times.getD row default).hid, (p.times.getD row default).hid - v⟩ : Triple Int)) row (new_row_of (writeShowTime p row v) row) default := rfl
  have hCf : (clearRedo (moveAll (writeShowTime p row v) row (new_row_of (writeShowTime p row v) row))).frames = moveRow (p.frames.set row (⟨p.calcu.time_to_frame v, (p.frames.getD row default).hid, (p.frames.getD row default).hid - p.calcu.time_to_frame v⟩ : Triple Int)) row (new_row_of (writeShowTime p row v) row) default := rfl
  have hCgetR : (clearRedo (moveAll (writeShowTime p row v) row (new_row_of (writeShowTime p row v) row))).times.getD (new_row_of (writeShowTime p row v) row) default = (⟨v, (p.times.getD row default).hid, (p.times.getD row default).hid - v⟩ : Triple Int) := by
    show (moveRow (writeShowTime p row v).times row (new_row_of (writeShowTime p row v) row) default).getD (new_row_of (writeShowTime p row v) row) default = (⟨v, (p.times.getD row default).hid, (p.times.getD row default).hid - v⟩ : Triple Int)
    rw [getD_moveRow_self (writeShowTime p row v).times row (new_row_of (writeShowTime p row v) row) default (by rw [hWtl]; exact hrow)
      (by rw [hWtl]; exact hRb), hWt]
    exact getD_set_self p.times row (⟨v, (p.times.getD row default).hid, (p.times.getD row default).hid - v⟩ : Triple Int) default hrow
  have hCfgetR : (clearRedo (moveAll (writeShowTime p row v) row (new_row_of (writeShowTime p row v) row))).frames.getD (new_row_of (writeShowTime p row v) row) default = (⟨p.calcu.time_to_frame v, (p.frames.getD row default).hid, (p.frames.getD row default).hid - p.calcu.time_to_frame v⟩ : Triple Int) := by
    show (moveRow (writeShowTime p row v).frames row (new_row_of (writeShowTime p row v) row) default).getD (new_row_of (writeShowTime p row v) row) default = (⟨p.calcu.time_to_frame v, (p.frames.getD row default).hid, (p.frames.getD row default).hid - p.calcu.time_to_frame v⟩ : Triple Int)
    rw [getD_moveRow_self (writeShowTime p row v).frames row (new_row_of (writeShowTime p row v) row) default (by rw [hWfl]; exact hfr)
      (by rw [hWfl, hwf.1]; exact hRb), hWf]
    exact getD_set_self p.frames row (⟨p.calcu.time_to_frame v, (p.frames.getD row default).hid, (p.frames.getD row default).hid - p.calcu.time_to_frame v⟩ : Triple Int) default hfr
  have hne2 : ((p.times.getD row default).get Col.SHOW) ≠ ((clearRedo (moveAll (writeShowTime p row v) row (new_row_of (writeShowTime p row v) row))).times.getD (new_row_of (writeShowTime p row v) row) default).get Col.SHOW := by
    rw [hCgetR]
    intro hc
    exact hneq hc.symm
  have hClen : (clearRedo (moveAll (writeShowTime p row v) row (new_row_of (writeShowTime p row v) row))).times.length = p.times.length := by
    rw [hCt, length_moveRow _ row (new_row_of (writeShowTime p row v) row) default (by rw [List.length_set]; exact hrow)
      (by rw [List.length_set]; exact hRb), List.length_set]
  have hCflen : (clearRedo (moveAll (writeShowTime p row v) row (new_row_of (writeShowTime p row v) row))).frames.length = p.frames.length := by
    rw [hCf, length_moveRow _ row (new_row_of (writeShowTime p row v) row) default (by rw [List.length_set]; exact hfr)
      (by rw [List.length_set, hwf.1]; exact hRb), List.length_set]
  have hR2lt : (new_row_of (writeShowTime p row v) row) < (clearRedo (moveAll (writeShowTime p row v) row (new_row_of (writeShowTime p row v) row))).times.length := by
    rw [hClen]
    exact hRlt
  have hCwf : wfP (clearRedo (moveAll (writeShowTime p row v) row (new_row_of (writeShowTime p row v) row))) := by
    refine ⟨?_, ?_, ?_⟩
    · rw [hClen, hCflen, hwf.1]
    · show (moveRow p.main_texts row (new_row_of (writeShowTime p row v) row) blank).length = (clearRedo (moveAll (writeShowTime p row v) row (new_row_of (writeShowTime p row v) row))).times.length
      rw [hClen, length_moveRow p.main_texts row (new_row_of (writeShowTime p row v) row) blank hml (by rw [hwf.2.1]; exact hRb),
        hwf.2.1]
    · show (moveRow p.tran_texts row (new_row_of (writeShowTime p row v) row) blank).length = (clearRedo (moveAll (writeShowTime p row v) row (new_row_of (writeShowTime p row v) row))).times.length
      rw [hClen, length_moveRow p.tran_texts row (new_row_of (writeShowTime p row v) row) blank htl (by rw [hwf.2.2]; exact hRb),
        hwf.2.2]
  have hrop : revertOp_of p row (new_row_of (writeShowTime p row v) row) Col.SHOW
      = RevertOp.set_time (new_row_of (writeShowTime p row v) row) Col.SHOW ((p.times.getD row default).get Col.SHOW) := by
    unfold revertOp_of
    rw [hm]
  have hRbis : (new_row_of (writeShowTime p row v) row) = (bisect_right tripleLt ((p.times.set row (⟨v, (p.times.getD row default).hid, (p.times.getD row default).hid - v⟩ : Triple Int)).eraseIdx row) ((p.times.set row (⟨v, (p.times.getD row default).hid, (p.times.getD row default).hid - v⟩ : Triple Int)).getD row default)) := by
    have h := new_row_of_eq_bisect_time (writeShowTime p row v) row (show (writeShowTime p row v).mode = Mode.TIME from hm)
    rw [hWt] at h
    exact h
  have hW2t : (writeShowTime (clearRedo (moveAll (writeShowTime p row v) row (new_row_of (writeShowTime p row v) row))) (new_row_of (writeShowTime p row v) row) ((p.times.getD row default).get Col.SHOW)).times = (clearRedo (moveAll (writeShowTime p row v) row (new_row_of (writeShowTime p row v) row))).times.set (new_row_of (writeShowTime p row v) row) (p.times.getD row default) := by
    show (clearRedo (moveAll (writeShowTime p row v) row (new_row_of (writeShowTime p row v) row))).times.set (new_row_of (writeShowTime p row v) row) ⟨((p.times.getD row default).get Col.SHOW), ((clearRedo (moveAll (writeShowTime p row v) row (new_row_of (writeShowTime p row v) row))).times.getD (new_row_of (writeShowTime p row v) row) default).hid,
      ((clearRedo (moveAll (writeShowTime p row v) row (new_row_of (writeShowTime p row v) row))).times.getD (new_row_of (writeShowTime p row v) row) default).hid - ((p.times.getD row default).get Col.SHOW)⟩ = _
    rw [hCgetR]
    dsimp only [Triple.get]
    rw [hreb]
  have hW2f : (writeShowTime (clearRedo (moveAll (writeShowTime p row v) row (new_row_of (writeShowTime p row v) row))) (new_row_of (writeShowTime p row v) row) ((p.times.getD row default).get Col.SHOW)).frames = (clearRedo (moveAll (writeShowTime p row v) row (new_row_of (writeShowTime p row v) row))).frames.set (new_row_of (writeShowTime p row v) row) (p.frames.getD row default) := by
    show (clearRedo (moveAll (writeShowTime p row v) row (new_row_of (writeShowTime p row v) row))).frames.set (new_row_of (writeShowTime p row v) row) ⟨p.calcu.time_to_frame ((p.times.getD row default).get Col.SHOW), ((clearRedo (moveAll (writeShowTime p row v) row (new_row_of (writeShowTime p row v) row))).frames.getD (new_row_of (writeShowTime p row v) row) default).hid,
      ((clearRedo (moveAll (writeShowTime p row v) row (new_row_of (writeShowTime p row v) row))).frames.getD (new_row_of (writeShowTime p row v) row) default).hid - p.calcu.time_to_frame ((p.times.getD row default).get Col.SHOW)⟩ = _
    rw [hCfgetR]
    dsimp only [Triple.get]
    rw [show p.calcu.time_to_frame (p.times.getD row default).shw
        = (p.frames.getD row default).shw from (hsy row hrow).1.symm]
    rw [hfreb]
  have hR2 : new_row_of (writeShowTime (clearRedo (moveAll (writeShowTime p row v) row (new_row_of (writeShowTime p row v) row))) (new_row_of (writeShowTime p row v) row) ((p.times.getD row default).get Col.SHOW)) (new_row_of (writeShowTime p row v) row) = row := by
    have h := new_row_of_eq_bisect_time (writeShowTime (clearRedo (moveAll (writeShowTime p row v) row (new_row_of (writeShowTime p row v) row))) (new_row_of (writeShowTime p row v) row) ((p.times.getD row default).get Col.SHOW)) (new_row_of (writeShowTime p row v) row) (show (writeShowTime (clearRedo (moveAll (writeShowTime p row v) row (new_row_of (writeShowTime p row v) row))) (new_row_of (writeShowTime p row v) row) ((p.times.getD row default).get Col.SHOW)).mode = Mode.TIME from hm)
    rw [hW2t, hCt] at h
    rw [h]
    conv_lhs => rw [hRbis]
    exact (resort_restore p.times row (⟨v, (p.times.getD row default).hid, (p.times.getD row default).hid - v⟩ : Triple Int) hrow hstrict).1
  have hrop2 : revertOp_of (clearRedo (moveAll (writeShowTime p row v) row (new_row_of (writeShowTime p row v) row))) (new_row_of (writeShowTime p row v) row) row Col.SHOW = RevertOp.set_time row Col.SHOW v := by
    unfold revertOp_of
    rw [show (clearRedo (moveAll (writeShowTime p row v) row (new_row_of (writeShowTime p row v) row))).mode = Mode.TIME from hm, hCgetR]
    rfl
  have hE2t : moveRow (writeShowTime (clearRedo (moveAll (writeShowTime p row v) row (new_row_of (writeShowTime p row v) row))) (new_row_of (writeShowTime p row v) row) ((p.times.getD row default).get Col.SHOW)).times (new_row_of (writeShowTime p row v) row) row default = p.times := by
    rw [hW2t, hCt]
    conv_lhs => rw [hRbis]
    exact (resort_restore p.times row (⟨v, (p.times.getD row default).hid, (p.times.getD row default).hid - v⟩ : Triple Int) hrow hstrict).2
  have hE2f : moveRow (writeShowTime (clearRedo (moveAll (writeShowTime p row v) row (new_row_of (writeShowTime p row v) row))) (new_row_of (writeShowTime p row v) row) ((p.times.getD row default).get Col.SHOW)).frames (new_row_of (writeShowTime p row v) row) row default = p.frames := by
    rw [hW2f, hCf]
    exact moveRow_set_restore p.frames row (new_row_of (writeShowTime p row v) row) (⟨p.calcu.time_to_frame v, (p.frames.getD row default).hid, (p.frames.getD row default).hid - p.calcu.time_to_frame v⟩ : Triple Int) (p.frames.getD row default) default hfr
      (by rw [hwf.1]; exact hRb) rfl
  have hE2m : moveRow (moveRow p.main_texts row (new_row_of (writeShowTime p row v) row) blank) (new_row_of (writeShowTime p row v) row) row blank = p.main_texts :=
    moveRow_moveRow p.main_texts row (new_row_of (writeShowTime p row v) row) blank hml (by rw [hwf.2.1]; exact hRb)
  have hE2r : moveRow (moveRow p.tran_texts row (new_row_of (writeShowTime p row v) row) blank) (new_row_of (writeShowTime p row v) row) row blank = p.tran_texts :=
    moveRow_moveRow p.tran_texts row (new_row_of (writeShowTime p row v) row) blank htl (by rw [hwf.2.2]; exact hRb)
  have hundo : undo (set_time p row Col.SHOW v Action.DO).1
      = { p with redoables := [RevertableAction.mk [RevertOp.set_time row Col.SHOW v]
          (urows_of (new_row_of (writeShowTime p row v) row) row)] } := by
    rw [set_time_SHOW_effect2 p row v Action.DO hneq hrow hwf]
    dsimp only
    rw [undo_register_DO', hrop]
    show group_actions (set_time (clearRedo (moveAll (writeShowTime p row v) row (new_row_of (writeShowTime p row v) row))) (new_row_of (writeShowTime p row v) row) Col.SHOW ((p.times.getD row default).get Col.SHOW) Action.UNDO).1 Action.UNDO 1 = _
    rw [set_time_SHOW_effect2 (clearRedo (moveAll (writeShowTime p row v) row (new_row_of (writeShowTime p row v) row))) (new_row_of (writeShowTime p row v) row) ((p.times.getD row default).get Col.SHOW) Action.UNDO hne2 hR2lt hCwf]
    dsimp only
    rw [group_register_UNDO, hR2, hrop2]
    apply project_eq
    · rfl
    · rfl
    · rfl
    · show moveRow (writeShowTime (clearRedo (moveAll (writeShowTime p row v) row (new_row_of (writeShowTime p row v) row))) (new_row_of (writeShowTime p row v) row) ((p.times.getD row default).get Col.SHOW)).times (new_row_of (writeShowTime p row v) row) row default = p.times
      exact hE2t
    · show moveRow (writeShowTime (clearRedo (moveAll (writeShowTime p row v) row (new_row_of (writeShowTime p row v) row))) (new_row_of (writeShowTime p row v) row) ((p.times.getD row default).get Col.SHOW)).frames (new_row_of (writeShowTime p row v) row) row default = p.frames
      exact hE2f
    · show moveRow (moveRow p.main_texts row (new_row_of (writeShowTime p row v) row) blank) (new_row_of (writeShowTime p row v) row) row blank = p.main_texts
      exact hE2m
    · show moveRow (moveRow p.tran_texts row (new_row_of (writeShowTime p row v) row) blank) (new_row_of (writeShowTime p row v) row) row blank = p.tran_texts
      exact hE2r
    · rfl
    · rfl
    · rfl
  refine ⟨?_, ?_⟩
  · rw [hundo]
    rfl
  · rw [hundo]
    rw [redo_cons p (RevertOp.set_time row Col.SHOW v) (urows_of (new_row_of (writeShowTime p row v) row) row) []]
    show arraysOf (group_actions (set_time (clearRedo p) row Col.SHOW v Action.REDO).1
      Action.REDO 1) = _
    rw [arraysOf_group]
    rw [set_time_SHOW_effect2 (clearRedo p) row v Action.REDO hneq hrow hwf]
    rw [set_time_SHOW_effect2 p row v Action.DO hneq hrow hwf]
    rfl

theorem set_time_SHOW_FRAME_roundtrip (p : Project) (row : Nat) (v : Int)
    (hwf : wfP p) (hdur : durationsOk p) (hsy : syncedFT p)
    (hstrict : strictShowSorted p.frames) (hm : p.mode = Mode.FRAME)
    (hrow : row < p.times.length) (hneq : v ≠ (p.times.getD row default).get Col.SHOW)
    (hmir : p.calcu.time_to_frame v ≠ (p.frames.getD row default).get Col.SHOW)
    (hexact : p.calcu.frame_to_time (p.calcu.time_to_frame v) = v) :
    arraysOf (undo (set_time p row Col.SHOW v Action.DO).1) = arraysOf p ∧
    arraysOf (redo (undo (set_time p row Col.SHOW v Action.DO).1))
      = arraysOf (set_time p row Col.SHOW v Action.DO).1 := by
  have hfr : row < p.frames.length := by
    rw [hwf.1]
    exact hrow
  have hml : row < p.main_texts.length := by
    rw [hwf.2.1]
    exact hrow
  have htl : row < p.tran_texts.length := by
    rw [hwf.2.2]
    exact hrow
  have hWt : (writeShowTime p row v).times = p.times.set row (⟨v, (p.times.getD row default).hid, (p.times.getD row default).hid - v⟩ : Triple Int) := rfl
  have hWf : (writeShowTime p row v).frames = p.frames.set row (⟨p.calcu.time_to_frame v, (p.frames.getD row default).hid, (p.frames.getD row default).hid - p.calcu.time_to_frame v⟩ : Triple Int) := rfl
  have hWtl : (writeShowTime p row v).times.length = p.times.length := by
    rw [hWt, List.length_set]
  have hWfl : (writeShowTime p row v).frames.length = p.frames.length := by
    rw [hWf, List.length_set]
  have hRb : (new_row_of (writeShowTime p row v) row) ≤ p.times.length - 1 := by
    have h := new_row_of_le (writeShowTime p row v) row (by rw [hWtl]; exact hrow) (by rw [hWfl, hWtl, hwf.1])
    rwa [hWtl] at h
  have hRlt : (new_row_of (writeShowTime p row v) row) < p.times.length := by omega
  have ht0mem : p.times.getD row default ∈ p.times := by
    rw [List.getD_eq_getElem _ _ hrow]
    exact List.getElem_mem _
  have ht0drn : (p.times.getD row default).drn
      = (p.times.getD row default).hid - (p.times.getD row default).shw :=
    hdur.1 _ ht0mem
  have hreb := triple_rebuild (p.times.getD row default) ht0drn
  have hf0mem : p.frames.getD row default ∈ p.frames := by
    rw [List.getD_eq_getElem _ _ hfr]
    exact List.getElem_mem _
  have hf0drn : (p.frames.getD row default).drn
      = (p.frames.getD row default).hid - (p.frames.getD row default).shw :=
    hdur.2 _ hf0mem
  have hfreb := triple_rebuild (p.frames.getD row default) hf0drn
  have hCt : (clearRedo (moveAll (writeShowTime p row v) row (new_row_of (writeShowTime p row v) row))).times = moveRow (p.times.set row (⟨v, (p.times.getD row default).hid, (p.times.getD row default).hid - v⟩ : Triple Int)) row (new_row_of (writeShowTime p row v) row) default := rfl
  have hCf : (clearRedo (moveAll (writeShowTime p row v) row (new_row_of (writeShowTime p row v) row))).frames = moveRow (p.frames.set row (⟨p.calcu.time_to_frame v, (p.frames.getD row default).hid, (p.frames.getD row default).hid - p.calcu.time_to_frame v⟩ : Triple Int)) row (new_row_of (writeShowTime p row v) row) default := rfl
  have hCgetR : (clearRedo (moveAll (writeShowTime p row v) row (new_row_of (writeShowTime p row v) row))).times.getD (new_row_of (writeShowTime p row v) row) default = (⟨v, (p.times.getD row default).hid, (p.times.getD row default).hid - v⟩ : Triple Int) := by
    show (moveRow (writeShowTime p row v).times row (new_row_of (writeShowTime p row v) row) default).getD (new_row_of (writeShowTime p row v) row) default = (⟨v, (p.times.getD row default).hid, (p.times.getD row default).hid - v⟩ : Triple Int)
    rw [getD_moveRow_self (writeShowTime p row v).times row (new_row_of (writeShowTime p row v) row) default (by rw [hWtl]; exact hrow)
      (by rw [hWtl]; exact hRb), hWt]
    exact getD_set_self p.times row (⟨v, (p.times.getD row default).hid, (p.times.getD row default).hid - v⟩ : Triple Int) default hrow
  have hCfgetR : (clearRedo (moveAll (writeShowTime p row v) row (new_row_of (writeShowTime p row v) row))).frames.getD (new_row_of (writeShowTime p row v) row) default = (⟨p.calcu.time_to_frame v, (p.frames.getD row default).hid, (p.frames.getD row default).hid - p.calcu.time_to_frame v⟩ : Triple Int) := by
    show (moveRow (writeShowTime p row v).frames row (new_row_of (writeShowTime p row v) row) default).getD (new_row_of (writeShowTime p row v) row) default = (⟨p.calcu.time_to_frame v, (p.frames.getD row default).hid, (p.frames.getD row default).hid - p.calcu.time_to_frame v⟩ : Triple Int)
    rw [getD_moveRow_self (writeShowTime p row v).frames row (new_row_of (writeShowTime p row v) row) default (by rw [hWfl]; exact hfr)
      (by rw [hWfl, hwf.1]; exact hRb), hWf]
    exact getD_set_self p.frames row (⟨p.calcu.time_to_frame v, (p.frames.getD row default).hid, (p.frames.getD row default).hid - p.calcu.time_to_frame v⟩ : Triple Int) default hfr
  have hne2 : ((p.frames.getD row default).get Col.SHOW) ≠ ((clearRedo (moveAll (writeShowTime p row v) row (new_row_of (writeShowTime p row v) row))).frames.getD (new_row_of (writeShowTime p row v) row) default).get Col.SHOW := by
    rw [hCfgetR]
    intro hc
    exact hmir hc.symm
  have hClen : (clearRedo (moveAll (writeShowTime p row v) row (new_row_of (writeShowTime p row v) row))).times.length = p.times.length := by
    rw [hCt, length_moveRow _ row (new_row_of (writeShowTime p row v) row) default (by rw [List.length_set]; exact hrow)
      (by rw [List.length_set]; exact hRb), List.length_set]
  have hCflen : (clearRedo (moveAll (writeShowTime p row v) row (new_row_of (writeShowTime p row v) row))).frames.length = p.frames.length := by
    rw [hCf, length_moveRow _ row (new_row_of (writeShowTime p row v) row) default (by rw [List.length_set]; exact hfr)
      (by rw [List.length_set, hwf.1]; exact hRb), List.length_set]
  have hR2lt : (new_row_of (writeShowTime p row v) row) < (clearRedo (moveAll (writeShowTime p row v) row (new_row_of (writeShowTime p row v) row))).times.length := by
    rw [hClen]
    exact hRlt
  have hCwf : wfP (clearRedo (moveAll (writeShowTime p row v) row (new_row_of (writeShowTime p row v) row))) := by
    refine ⟨?_, ?_, ?_⟩
    · rw [hClen, hCflen, hwf.1]
    · show (moveRow p.main_texts row (new_row_of (writeShowTime p row v) row) blank).length = (clearRedo (moveAll (writeShowTime p row v) row (new_row_of (writeShowTime p row v) row))).times.length
      rw [hClen, length_moveRow p.main_texts row (new_row_of (writeShowTime p row v) row) blank hml (by rw [hwf.2.1]; exact hRb),
        hwf.2.1]
    · show (moveRow p.tran_texts row (new_row_of (writeShowTime p row v) row) blank).length = (clearRedo (moveAll (writeShowTime p row v) row (new_row_of (writeShowTime p row v) row))).times.length
      rw [hClen, length_moveRow p.tran_texts row (new_row_of (writeShowTime p row v) row) blank htl (by rw [hwf.2.2]; exact hRb),
        hwf.2.2]
  have hrop : revertOp_of p row (new_row_of (writeShowTime p row v) row) Col.SHOW
      = RevertOp.set_frame (new_row_of (writeShowTime p row v) row) Col.SHOW ((p.frames.getD row default).get Col.SHOW) := by
    unfold revertOp_of
    rw [hm]
  have hRbis : (new_row_of (writeShowTime p row v) row) = (bisect_right tripleLt ((p.frames.set row (⟨p.calcu.time_to_frame v, (p.frames.getD row default).hid, (p.frames.getD row default).hid - p.calcu.time_to_frame v⟩ : Triple Int)).eraseIdx row) ((p.frames.set row (⟨p.calcu.time_to_frame v, (p.frames.getD row default).hid, (p.frames.getD row default).hid - p.calcu.time_to_frame v⟩ : Triple Int)).getD row default)) := by
    have h := new_row_of_eq_bisect_frame (writeShowTime p row v) row (show (writeShowTime p row v).mode = Mode.FRAME from hm)
    rw [hWf] at h
    exact h
  have hW2f : (writeShowFrame (clearRedo (moveAll (writeShowTime p row v) row (new_row_of (writeShowTime p row v) row))) (new_row_of (writeShowTime p row v) row) ((p.frames.getD row default).get Col.SHOW)).frames = (clearRedo (moveAll (writeShowTime p row v) row (new_row_of (writeShowTime p row v) row))).frames.set (new_row_of (writeShowTime p row v) row) (p.frames.getD row default) := by
    show (clearRedo (moveAll (writeShowTime p row v) row (new_row_of (writeShowTime p row v) row))).frames.set (new_row_of (writeShowTime p row v) row) ⟨((p.frames.getD row default).get Col.SHOW), ((clearRedo (moveAll (writeShowTime p row v) row (new_row_of (writeShowTime p row v) row))).frames.getD (new_row_of (writeShowTime p row v) row) default).hid,
      ((clearRedo (moveAll (writeShowTime p row v) row (new_row_of (writeShowTime p row v) row))).frames.getD (new_row_of (writeShowTime p row v) row) default).hid - ((p.frames.getD row default).get Col.SHOW)⟩ = _
    rw [hCfgetR]
    dsimp only [Triple.get]
    rw [hfreb]
  have hW2t : (writeShowFrame (clearRedo (moveAll (writeShowTime p row v) row (new_row_of (writeShowTime p row v) row))) (new_row_of (writeShowTime p row v) row) ((p.frames.getD row default).get Col.SHOW)).times = (clearRedo (moveAll (writeShowTime p row v) row (new_row_of (writeShowTime p row v) row))).times.set (new_row_of (writeShowTime p row v) row) (p.times.getD row default) := by
    show (clearRedo (moveAll (writeShowTime p row v) row (new_row_of (writeShowTime p row v) row))).times.set (new_row_of (writeShowTime p row v) row) ⟨p.calcu.frame_to_time ((p.frames.getD row default).get Col.SHOW), ((clearRedo (moveAll (writeShowTime p row v) row (new_row_of (writeShowTime p row v) row))).times.getD (new_row_of (writeShowTime p row v) row) default).hid,
      ((clearRedo (moveAll (writeShowTime p row v) row (new_row_of (writeShowTime p row v) row))).times.getD (new_row_of (writeShowTime p row v) row) default).hid - p.calcu.frame_to_time ((p.frames.getD row default).get Col.SHOW)⟩ = _
    rw [hCgetR]
    dsimp only [Triple.get]
    rw [show p.calcu.frame_to_time (p.frames.getD row default).shw
        = (p.times.getD row default).shw from (hsy row hrow).1.symm]
    rw [hreb]
  have hR2 : new_row_of (writeShowFrame (clearRedo (moveAll (writeShowTime p row v) row (new_row_of (writeShowTime p row v) row))) (new_row_of (writeShowTime p row v) row) ((p.frames.getD row default).get Col.SHOW)) (new_row_of (writeShowTime p row v) row) = row := by
    have h := new_row_of_eq_bisect_frame (writeShowFrame (clearRedo (moveAll (writeShowTime p row v) row (new_row_of (writeShowTime p row v) row))) (new_row_of (writeShowTime p row v) row) ((p.frames.getD row default).get Col.SHOW)) (new_row_of (writeShowTime p row v) row) (show (writeShowFrame (clearRedo (moveAll (writeShowTime p row v) row (new_row_of (writeShowTime p row v) row))) (new_row_of (writeShowTime p row v) row) ((p.frames.getD row default).get Col.SHOW)).mode = Mode.FRAME from hm)
    rw [hW2f, hCf] at h
    rw [h]
    conv_lhs => rw [hRbis]
    exact (resort_restore p.frames row (⟨p.calcu.time_to_frame v, (p.frames.getD row default).hid, (p.frames.getD row default).hid - p.calcu.time_to_frame v⟩ : Triple Int) hfr hstrict).1
  have hrop2 : revertOp_of (clearRedo (moveAll (writeShowTime p row v) row (new_row_of (writeShowTime p row v) row))) (new_row_of (writeShowTime p row v) row) row Col.SHOW
      = RevertOp.set_frame row Col.SHOW (p.calcu.time_to_frame v) := by
    unfold revertOp_of
    rw [show (clearRedo (moveAll (writeShowTime p row v) row (new_row_of (writeShowTime p row v) row))).mode = Mode.FRAME from hm, hCfgetR]
    rfl
  have hE2t : moveRow (writeShowFrame (clearRedo (moveAll (writeShowTime p row v) row (new_row_of (writeShowTime p row v) row))) (new_row_of (writeShowTime p row v) row) ((p.frames.getD row default).get Col.SHOW)).times (new_row_of (writeShowTime p row v) row) row default = p.times := by
    rw [hW2t, hCt]
    exact moveRow_set_restore p.times row (new_row_of (writeShowTime p row v) row) (⟨v, (p.times.getD row default).hid, (p.times.getD row default).hid - v⟩ : Triple Int) (p.times.getD row default) default hrow
      hRb rfl
  have hE2f : moveRow (writeShowFrame (clearRedo (moveAll (writeShowTime p row v) row (new_row_of (writeShowTime p row v) row))) (new_row_of (writeShowTime p row v) row) ((p.frames.getD row default).get Col.SHOW)).frames (new_row_of (writeShowTime p row v) row) row default = p.frames := by
    rw [hW2f, hCf]
    conv_lhs => rw [hRbis]
    exact (resort_restore p.frames row (⟨p.calcu.time_to_frame v, (p.frames.getD row default).hid, (p.frames.getD row default).hid - p.calcu.time_to_frame v⟩ : Triple Int) hfr hstrict).2
  have hE2m : moveRow (moveRow p.main_texts row (new_row_of (writeShowTime p row v) row) blank) (new_row_of (writeShowTime p row v) row) row blank = p.main_texts :=
    moveRow_moveRow p.main_texts row (new_row_of (writeShowTime p row v) row) blank hml (by rw [hwf.2.1]; exact hRb)
  have hE2r : moveRow (moveRow p.tran_texts row (new_row_of (writeShowTime p row v) row) blank) (new_row_of (writeShowTime p row v) row) row blank = p.tran_texts :=
    moveRow_moveRow p.tran_texts row (new_row_of (writeShowTime p row v) row) blank htl (by rw [hwf.2.2]; exact hRb)
  have hundo : undo (set_time p row Col.SHOW v Action.DO).1
      = { p with redoables := [RevertableAction.mk
          [RevertOp.set_frame row Col.SHOW (p.calcu.time_to_frame v)]
          (urows_of (new_row_of (writeShowTime p row v) row) row)] } := by
    rw [set_time_SHOW_effect2 p row v Action.DO hneq hrow hwf]
    dsimp only
    rw [undo_register_DO', hrop]
    show group_actions (set_frame (clearRedo (moveAll (writeShowTime p row v) row (new_row_of (writeShowTime p row v) row))) (new_row_of (writeShowTime p row v) row) Col.SHOW ((p.frames.getD row default).get Col.SHOW) Action.UNDO).1 Action.UNDO 1 = _
    rw [set_frame_SHOW_effect2 (clearRedo (moveAll (writeShowTime p row v) row (new_row_of (writeShowTime p row v) row))) (new_row_of (writeShowTime p row v) row) ((p.frames.getD row default).get Col.SHOW) Action.UNDO hne2 hR2lt hCwf]
    dsimp only
    rw [group_register_UNDO, hR2, hrop2]
    apply project_eq
    · rfl
    · rfl
    · rfl
    · show moveRow (writeShowFrame (clearRedo (moveAll (writeShowTime p row v) row (new_row_of (writeShowTime p row v) row))) (new_row_of (writeShowTime p row v) row) ((p.frames.getD row default).get Col.SHOW)).times (new_row_of (writeShowTime p row v) row) row default = p.times
      exact hE2t
    · show moveRow (writeShowFrame (clearRedo (moveAll (writeShowTime p row v) row (new_row_of (writeShowTime p row v) row))) (new_row_of (writeShowTime p row v) row) ((p.frames.getD row default).get Col.SHOW)).frames (new_row_of (writeShowTime p row v) row) row default = p.frames
      exact hE2f
    · show moveRow (moveRow p.main_texts row (new_row_of (writeShowTime p row v) row) blank) (new_row_of (writeShowTime p row v) row) row blank = p.main_texts
      exact hE2m
    · show moveRow (moveRow p.tran_texts row (new_row_of (writeShowTime p row v) row) blank) (new_row_of (writeShowTime p row v) row) row blank = p.tran_texts
      exact hE2r
    · rfl
    · rfl
    · rfl
  refine ⟨?_, ?_⟩
  · rw [hundo]
    rfl
  · rw [hundo]
    rw [redo_cons p (RevertOp.set_frame row Col.SHOW (p.calcu.time_to_frame v))
      (urows_of (new_row_of (writeShowTime p row v) row) row) []]
    show arraysOf (group_actions (set_frame (clearRedo p) row Col.SHOW
      (p.calcu.time_to_frame v) Action.REDO).1 Action.REDO 1) = _
    rw [arraysOf_group]
    rw [set_frame_SHOW_effect2 (clearRedo p) row (p.calcu.time_to_frame v) Action.REDO hmir
      hrow hwf]
    rw [set_time_SHOW_effect2 p row v Action.DO hneq hrow hwf]
    dsimp only
    rw [arraysOf_register, arraysOf_register]
    have hWWf : (writeShowFrame (clearRedo p) row (p.calcu.time_to_frame v)).frames = p.frames.set row (⟨p.calcu.time_to_frame v, (p.frames.getD row default).hid, (p.frames.getD row default).hid - p.calcu.time_to_frame v⟩ : Triple Int) := rfl
    have hWWt : (writeShowFrame (clearRedo p) row (p.calcu.time_to_frame v)).times = p.times.set row (⟨v, (p.times.getD row default).hid, (p.times.getD row default).hid - v⟩ : Triple Int) := by
      show p.times.set row ⟨p.calcu.frame_to_time (p.calcu.time_to_frame v),
        (p.times.getD row default).hid,
        (p.times.getD row default).hid - p.calcu.frame_to_time (p.calcu.time_to_frame v)⟩ = _
      rw [hexact]
    have hRR : new_row_of (writeShowFrame (clearRedo p) row (p.calcu.time_to_frame v)) row = (new_row_of (writeShowTime p row v) row) := by
      have h1 := new_row_of_eq_bisect_frame (writeShowFrame (clearRedo p) row (p.calcu.time_to_frame v)) row (show (writeShowFrame (clearRedo p) row (p.calcu.time_to_frame v)).mode = Mode.FRAME from hm)
      rw [hWWf] at h1
      rw [h1, hRbis]
    dsimp only [arraysOf, moveAll]
    rw [hWWt, hWWf, hRR]
    rfl

theorem set_frame_SHOW_FRAME_roundtrip (p : Project) (row : Nat) (v : Int)
    (hwf : wfP p) (hdur : durationsOk p) (hsy : syncedFT p)
    (hstrict : strictShowSorted p.frames) (hm : p.mode = Mode.FRAME)
    (hrow : row < p.times.length) (hneq : v ≠ (p.frames.getD row default).get Col.SHOW) :
    arraysOf (undo (set_frame p row Col.SHOW v Action.DO).1) = arraysOf p ∧
    arraysOf (redo (undo (set_frame p row Col.SHOW v Action.DO).1))
      = arraysOf (set_frame p row Col.SHOW v Action.DO).1 := by
  have hfr : row < p.frames.length := by
    rw [hwf.1]
    exact hrow
  have hml : row < p.main_texts.length := by
    rw [hwf.2.1]
    exact hrow
  have htl : row < p.tran_texts.length := by
    rw [hwf.2.2]
    exact hrow
  have hWt : (writeShowFrame p row v).times = p.times.set row (⟨p.calcu.frame_to_time v, (p.times.getD row default).hid, (p.times.getD row default).hid - p.calcu.frame_to_time v⟩ : Triple Int) := rfl
  have hWf : (writeShowFrame p row v).frames = p.frames.set row (⟨v, (p.frames.getD row default).hid, (p.frames.getD row default).hid - v⟩ : Triple Int) := rfl
  have hWtl : (writeShowFrame p row v).times.length = p.times.length := by
    rw [hWt, List.length_set]
  have hWfl : (writeShowFrame p row v).frames.length = p.frames.length := by
    rw [hWf, List.length_set]
  have hRb : (new_row_of (writeShowFrame p row v) row) ≤ p.times.length - 1 := by
    have h := new_row_of_le (writeShowFrame p row v) row (by rw [hWtl]; exact hrow) (by rw [hWfl, hWtl, hwf.1])
    rwa [hWtl] at h
  have hRlt : (new_row_of (writeShowFrame p row v) row) < p.times.length := by omega
  have ht0mem : p.times.getD row default ∈ p.times := by
    rw [List.getD_eq_getElem _ _ hrow]
    exact List.getElem_mem _
  have ht0drn : (p.times.getD row default).drn
      = (p.times.getD row default).hid - (p.times.getD row default).shw :=
    hdur.1 _ ht0mem
  have hreb := triple_rebuild (p.times.getD row default) ht0drn
  have hf0mem : p.frames.getD row default ∈ p.frames := by
    rw [List.getD_eq_getElem _ _ hfr]
    exact List.getElem_mem _
  have hf0drn : (p.frames.getD row default).drn
      = (p.frames.getD row default).hid - (p.frames.getD row default).shw :=
    hdur.2 _ hf0mem
  have hfreb := triple_rebuild (p.frames.getD row default) hf0drn
  have hCt : (clearRedo (moveAll (writeShowFrame p row v) row (new_row_of (writeShowFrame p row v) row))).times = moveRow (p.times.set row (⟨p.calcu.frame_to_time v, (p.times.getD row default).hid, (p.times.getD row default).hid - p.calcu.frame_to_time v⟩ : Triple Int)) row (new_row_of (writeShowFrame p row v) row) default := rfl
  have hCf : (clearRedo (moveAll (writeShowFrame p row v) row (new_row_of (writeShowFrame p row v) row))).frames = moveRow (p.frames.set row (⟨v, (p.frames.getD row default).hid, (p.frames.getD row default).hid - v⟩ : Triple Int)) row (new_row_of (writeShowFrame p row v) row) default := rfl
  have hCgetR : (clearRedo (moveAll (writeShowFrame p row v) row (new_row_of (writeShowFrame p row v) row))).times.getD (new_row_of (writeShowFrame p row v) row) default = (⟨p.calcu.frame_to_time v, (p.times.getD row default).hid, (p.times.getD row default).hid - p.calcu.frame_to_time v⟩ : Triple Int) := by
    show (moveRow (writeShowFrame p row v).times row (new_row_of (writeShowFrame p row v) row) default).getD (new_row_of (writeShowFrame p row v) row) default = (⟨p.calcu.frame_to_time v, (p.times.getD row default).hid, (p.times.getD row default).hid - p.calcu.frame_to_time v⟩ : Triple Int)
    rw [getD_moveRow_self (writeShowFrame p row v).times row (new_row_of (writeShowFrame p row v) row) default (by rw [hWtl]; exact hrow)
      (by rw [hWtl]; exact hRb), hWt]
    exact getD_set_self p.times row (⟨p.calcu.frame_to_time v, (p.times.getD row default).hid, (p.times.getD row default).hid - p.calcu.frame_to_time v⟩ : Triple Int) default hrow
  have hCfgetR : (clearRedo (moveAll (writeShowFrame p row v) row (new_row_of (writeShowFrame p row v) row))).frames.getD (new_row_of (writeShowFrame p row v) row) default = (⟨v, (p.frames.getD row default).hid, (p.frames.getD row default).hid - v⟩ : Triple Int) := by
    show (moveRow (writeShowFrame p row v).frames row (new_row_of (writeShowFrame p row v) row) default).getD (new_row_of (writeShowFrame p row v) row) default = (⟨v, (p.frames.getD row default).hid, (p.frames.getD row default).hid - v⟩ : Triple Int)
    rw [getD_moveRow_self (writeShowFrame p row v).frames row (new_row_of (writeShowFrame p row v) row) default (by rw [hWfl]; exact hfr)
      (by rw [hWfl, hwf.1]; exact hRb), hWf]
    exact getD_set_self p.frames row (⟨v, (p.frames.getD row default).hid, (p.frames.getD row default).hid - v⟩ : Triple Int) default hfr
  have hne2 : ((p.frames.getD row default).get Col.SHOW) ≠ ((clearRedo (moveAll (writeShowFrame p row v) row (new_row_of (writeShowFrame p row v) row))).frames.getD (new_row_of (writeShowFrame p row v) row) default).get Col.SHOW := by
    rw [hCfgetR]
    intro hc
    exact hneq hc.symm
  have hClen : (clearRedo (moveAll (writeShowFrame p row v) row (new_row_of (writeShowFrame p row v) row))).times.length = p.times.length := by
    rw [hCt, length_moveRow _ row (new_row_of (writeShowFrame p row v) row) default (by rw [List.length_set]; exact hrow)
      (by rw [List.length_set]; exact hRb), List.length_set]
  have hCflen : (clearRedo (moveAll (writeShowFrame p row v) row (new_row_of (writeShowFrame p row v) row))).frames.length = p.frames.length := by
    rw [hCf, length_moveRow _ row (new_row_of (writeShowFrame p row v) row) default (by rw [List.length_set]; exact hfr)
      (by rw [List.length_set, hwf.1]; exact hRb), List.length_set]
  have hR2lt : (new_row_of (writeShowFrame p row v) row) < (clearRedo (moveAll (writeShowFrame p row v) row (new_row_of (writeShowFrame p row v) row))).times.length := by
    rw [hClen]
    exact hRlt
  have hCwf : wfP (clearRedo (moveAll (writeShowFrame p row v) row (new_row_of (writeShowFrame p row v) row))) := by
    refine ⟨?_, ?_, ?_⟩
    · rw [hClen, hCflen, hwf.1]
    · show (moveRow p.main_texts row (new_row_of (writeShowFrame p row v) row) blank).length = (clearRedo (moveAll (writeShowFrame p row v) row (new_row_of (writeShowFrame p row v) row))).times.length
      rw [hClen, length_moveRow p.main_texts row (new_row_of (writeShowFrame p row v) row) blank hml (by rw [hwf.2.1]; exact hRb),
        hwf.2.1]
    · show (moveRow p.tran_texts row (new_row_of (writeShowFrame p row v) row) blank).length = (clearRedo (moveAll (writeShowFrame p row v) row (new_row_of (writeShowFrame p row v) row))).times.length
      rw [hClen, length_moveRow p.tran_texts row (new_row_of (writeShowFrame p row v) row) blank htl (by rw [hwf.2.2]; exact hRb),
        hwf.2.2]
  have hrop : revertOp_of p row (new_row_of (writeShowFrame p row v) row) Col.SHOW
      = RevertOp.set_frame (new_row_of (writeShowFrame p row v) row) Col.SHOW ((p.frames.getD row default).get Col.SHOW) := by
    unfold revertOp_of
    rw [hm]
  have hRbis : (new_row_of (writeShowFrame p row v) row) = (bisect_right tripleLt ((p.frames.set row (⟨v, (p.frames.getD row default).hid, (p.frames.getD row default).hid - v⟩ : Triple Int)).eraseIdx row) ((p.frames.set row (⟨v, (p.frames.getD row default).hid, (p.frames.getD row default).hid - v⟩ : Triple Int)).getD row default)) := by
    have h := new_row_of_eq_bisect_frame (writeShowFrame p row v) row (show (writeShowFrame p row v).mode = Mode.FRAME from hm)
    rw [hWf] at h
    exact h
  have hW2f : (writeShowFrame (clearRedo (moveAll (writeShowFrame p row v) row (new_row_of (writeShowFrame p row v) row))) (new_row_of (writeShowFrame p row v) row) ((p.frames.getD row default).get Col.SHOW)).frames = (clearRedo (moveAll (writeShowFrame p row v) row (new_row_of (writeShowFrame p row v) row))).frames.set (new_row_of (writeShowFrame p row v) row) (p.frames.getD row default) := by
    show (clearRedo (moveAll (writeShowFrame p row v) row (new_row_of (writeShowFrame p row v) row))).frames.set (new_row_of (writeShowFrame p row v) row) ⟨((p.frames.getD row default).get Col.SHOW), ((clearRedo (moveAll (writeShowFrame p row v) row (new_row_of (writeShowFrame p row v) row))).frames.getD (new_row_of (writeShowFrame p row v) row) default).hid,
      ((clearRedo (moveAll (writeShowFrame p row v) row (new_row_of (writeShowFrame p row v) row))).frames.getD (new_row_of (writeShowFrame p row v) row) default).hid - ((p.frames.getD row default).get Col.SHOW)⟩ = _
    rw [hCfgetR]
    dsimp only [Triple.get]
    rw [hfreb]
  have hW2t : (writeShowFrame (clearRedo (moveAll (writeShowFrame p row v) row (new_row_of (writeShowFrame p row v) row))) (new_row_of (writeShowFrame p row v) row) ((p.frames.getD row default).get Col.SHOW)).times = (clearRedo (moveAll (writeShowFrame p row v) row (new_row_of (writeShowFrame p row v) row))).times.set (new_row_of (writeShowFrame p row v) row) (p.times.getD row default) := by
    show (clearRedo (moveAll (writeShowFrame p row v) row (new_row_of (writeShowFrame p row v) row))).times.set (new_row_of (writeShowFrame p row v) row) ⟨p.calcu.frame_to_time ((p.frames.getD row default).get Col.SHOW), ((clearRedo (moveAll (writeShowFrame p row v) row (new_row_of (writeShowFrame p row v) row))).times.getD (new_row_of (writeShowFrame p row v) row) default).hid,
      ((clearRedo (moveAll (writeShowFrame p row v) row (new_row_of (writeShowFrame p row v) row))).times.getD (new_row_of (writeShowFrame p row v) row) default).hid - p.calcu.frame_to_time ((p.frames.getD row default).get Col.SHOW)⟩ = _
    rw [hCgetR]
    dsimp only [Triple.get]
    rw [show p.calcu.frame_to_time (p.frames.getD row default).shw
        = (p.times.getD row default).shw from (hsy row hrow).1.symm]
    rw [hreb]
  have hR2 : new_row_of (writeShowFrame (clearRedo (moveAll (writeShowFrame p row v) row (new_row_of (writeShowFrame p row v) row))) (new_row_of (writeShowFrame p row v) row) ((p.frames.getD row default).get Col.SHOW)) (new_row_of (writeShowFrame p row v) row) = row := by
    have h := new_row_of_eq_bisect_frame (writeShowFrame (clearRedo (moveAll (writeShowFrame p row v) row (new_row_of (writeShowFrame p row v) row))) (new_row_of (writeShowFrame p row v) row) ((p.frames.getD row default).get Col.SHOW)) (new_row_of (writeShowFrame p row v) row) (show (writeShowFrame (clearRedo (moveAll (writeShowFrame p row v) row (new_row_of (writeShowFrame p row v) row))) (new_row_of (writeShowFrame p row v) row) ((p.frames.getD row default).get Col.SHOW)).mode = Mode.FRAME from hm)
    rw [hW2f, hCf] at h
    rw [h]
    conv_lhs => rw [hRbis]
    exact (resort_restore p.frames row (⟨v, (p.frames.getD row default).hid, (p.frames.getD row default).hid - v⟩ : Triple Int) hfr hstrict).1
  have hrop2 : revertOp_of (clearRedo (moveAll (writeShowFrame p row v) row (new_row_of (writeShowFrame p row v) row))) (new_row_of (writeShowFrame p row v) row) row Col.SHOW = RevertOp.set_frame row Col.SHOW v := by
    unfold revertOp_of
    rw [show (clearRedo (moveAll (writeShowFrame p row v) row (new_row_of (writeShowFrame p row v) row))).mode = Mode.FRAME from hm, hCfgetR]
    rfl
  have hE2t : moveRow (writeShowFrame (clearRedo (moveAll (writeShowFrame p row v) row (new_row_of (writeShowFrame p row v) row))) (new_row_of (writeShowFrame p row v) row) ((p.frames.getD row default).get Col.SHOW)).times (new_row_of (writeShowFrame p row v) row) row default = p.times := by
    rw [hW2t, hCt]
    exact moveRow_set_restore p.times row (new_row_of (writeShowFrame p row v) row) (⟨p.calcu.frame_to_time v, (p.times.getD row default).hid, (p.times.getD row default).hid - p.calcu.frame_to_time v⟩ : Triple Int) (p.times.getD row default) default hrow
      hRb rfl
  have hE2f : moveRow (writeShowFrame (clearRedo (moveAll (writeShowFrame p row v) row (new_row_of (writeShowFrame p row v) row))) (new_row_of (writeShowFrame p row v) row) ((p.frames.getD row default).get Col.SHOW)).frames (new_row_of (writeShowFrame p row v) row) row default = p.frames := by
    rw [hW2f, hCf]
    conv_lhs => rw [hRbis]
    exact (resort_restore p.frames row (⟨v, (p.frames.getD row default).hid, (p.frames.getD row default).hid - v⟩ : Triple Int) hfr hstrict).2
  have hE2m : moveRow (moveRow p.main_texts row (new_row_of (writeShowFrame p row v) row) blank) (new_row_of (writeShowFrame p row v) row) row blank = p.main_texts :=
    moveRow_moveRow p.main_texts row (new_row_of (writeShowFrame p row v) row) blank hml (by rw [hwf.2.1]; exact hRb)
  have hE2r : moveRow (moveRow p.tran_texts row (new_row_of (writeShowFrame p row v) row) blank) (new_row_of (writeShowFrame p row v) row) row blank = p.tran_texts :=
    moveRow_moveRow p.tran_texts row (new_row_of (writeShowFrame p row v) row) blank htl (by rw [hwf.2.2]; exact hRb)
  have hundo : undo (set_frame p row Col.SHOW v Action.DO).1
      = { p with redoables := [RevertableAction.mk [RevertOp.set_frame row Col.SHOW v]
          (urows_of (new_row_of (writeShowFrame p row v) row) row)] } := by
    rw [set_frame_SHOW_effect2 p row v Action.DO hneq hrow hwf]
    dsimp only
    rw [undo_register_DO', hrop]
    show group_actions (set_frame (clearRedo (moveAll (writeShowFrame p row v) row (new_row_of (writeShowFrame p row v) row))) (new_row_of (writeShowFrame p row v) row) Col.SHOW ((p.frames.getD row default).get Col.SHOW) Action.UNDO).1 Action.UNDO 1 = _
    rw [set_frame_SHOW_effect2 (clearRedo (moveAll (writeShowFrame p row v) row (new_row_of (writeShowFrame p row v) row))) (new_row_of (writeShowFrame p row v) row) ((p.frames.getD row default).get Col.SHOW) Action.UNDO hne2 hR2lt hCwf]
    dsimp only
    rw [group_register_UNDO, hR2, hrop2]
    apply project_eq
    · rfl
    · rfl
    · rfl
    · show moveRow (writeShowFrame (clearRedo (moveAll (writeShowFrame p row v) row (new_row_of (writeShowFrame p row v) row))) (new_row_of (writeShowFrame p row v) row) ((p.frames.getD row default).get Col.SHOW)).times (new_row_of (writeShowFrame p row v) row) row default = p.times
      exact hE2t
    · show moveRow (writeShowFrame (clearRedo (moveAll (writeShowFrame p row v) row (new_row_of (writeShowFrame p row v) row))) (new_row_of (writeShowFrame p row v) row) ((p.frames.getD row default).get Col.SHOW)).frames (new_row_of (writeShowFrame p row v) row) row default = p.frames
      exact hE2f
    · show moveRow (moveRow p.main_texts row (new_row_of (writeShowFrame p row v) row) blank) (new_row_of (writeShowFrame p row v) row) row blank = p.main_texts
      exact hE2m
    · show moveRow (moveRow p.tran_texts row (new_row_of (writeShowFrame p row v) row) blank) (new_row_of (writeShowFrame p row v) row) row blank = p.tran_texts
      exact hE2r
    · rfl
    · rfl
    · rfl
  refine ⟨?_, ?_⟩
  · rw [hundo]
    rfl
  · rw [hundo]
    rw [redo_cons p (RevertOp.set_frame row Col.SHOW v) (urows_of (new_row_of (writeShowFrame p row v) row) row) []]
    show arraysOf (group_actions (set_frame (clearRedo p) row Col.SHOW v Action.REDO).1
      Action.REDO 1) = _
    rw [arraysOf_group]
    rw [set_frame_SHOW_effect2 (clearRedo p) row v Action.REDO hneq hrow hwf]
    rw [set_frame_SHOW_effect2 p row v Action.DO hneq hrow hwf]
    rfl

theorem set_frame_SHOW_TIME_roundtrip (p : Project) (row : Nat) (v : Int)
    (hwf : wfP p) (hdur : durationsOk p) (hsy : syncedTF p)
    (hstrict : strictShowSorted p.times) (hm : p.mode = Mode.TIME)
    (hrow : row < p.times.length) (hneq : v ≠ (p.frames.getD row default).get Col.SHOW)
    (hmir : p.calcu.frame_to_time v ≠ (p.times.getD row default).get Col.SHOW)
    (hexact : p.calcu.time_to_frame (p.calcu.frame_to_time v) = v) :
    arraysOf (undo (set_frame p row Col.SHOW v Action.DO).1) = arraysOf p ∧
    arraysOf (redo (undo (set_frame p row Col.SHOW v Action.DO).1))
      = arraysOf (set_frame p row Col.SHOW v Action.DO).1 := by
  have hfr : row < p.frames.length := by
    rw [hwf.1]
    exact hrow
  have hml : row < p.main_texts.length := by
    rw [hwf.2.1]
    exact hrow
  have htl : row < p.tran_texts.length := by
    rw [hwf.2.2]
    exact hrow
  have hWt : (writeShowFrame p row v).times = p.times.set row (⟨p.calcu.frame_to_time v, (p.times.getD row default).hid, (p.times.getD row default).hid - p.calcu.frame_to_time v⟩ : Triple Int) := rfl
  have hWf : (writeShowFrame p row v).frames = p.frames.set row (⟨v, (p.frames.getD row default).hid, (p.frames.getD row default).hid - v⟩ : Triple Int) := rfl
  have hWtl : (writeShowFrame p row v).times.length = p.times.length := by
    rw [hWt, List.length_set]
  have hWfl : (writeShowFrame p row v).frames.length = p.frames.length := by
    rw [hWf, List.length_set]
  have hRb : (new_row_of (writeShowFrame p row v) row) ≤ p.times.length - 1 := by
    have h := new_row_of_le (writeShowFrame p row v) row (by rw [hWtl]; exact hrow) (by rw [hWfl, hWtl, hwf.1])
    rwa [hWtl] at h
  have hRlt : (new_row_of (writeShowFrame p row v) row) < p.times.length := by omega
  have ht0mem : p.times.getD row default ∈ p.times := by
    rw [List.getD_eq_getElem _ _ hrow]
    exact List.getElem_mem _
  have ht0drn : (p.times.getD row default).drn
      = (p.times.getD row default).hid - (p.times.getD row default).shw :=
    hdur.1 _ ht0mem
  have hreb := triple_rebuild (p.times.getD row default) ht0drn
  have hf0mem : p.frames.getD row default ∈ p.frames := by
    rw [List.getD_eq_getElem _ _ hfr]
    exact List.getElem_mem _
  have hf0drn : (p.frames.getD row default).drn
      = (p.frames.getD row default).hid - (p.frames.getD row default).shw :=
    hdur.2 _ hf0mem
  have hfreb := triple_rebuild (p.frames.getD row default) hf0drn
  have hCt : (clearRedo (moveAll (writeShowFrame p row v) row (new_row_of (writeShowFrame p row v) row))).times = moveRow (p.times.set row (⟨p.calcu.frame_to_time v, (p.times.getD row default).hid, (p.times.getD row default).hid - p.calcu.frame_to_time v⟩ : Triple Int)) row (new_row_of (writeShowFrame p row v) row) default := rfl
  have hCf : (clearRedo (moveAll (writeShowFrame p row v) row (new_row_of (writeShowFrame p row v) row))).frames = moveRow (p.frames.set row (⟨v, (p.frames.getD row default).hid, (p.frames.getD row default).hid - v⟩ : Triple Int)) row (new_row_of (writeShowFrame p row v) row) default := rfl
  have hCgetR : (clearRedo (moveAll (writeShowFrame p row v) row (new_row_of (writeShowFrame p row v) row))).times.getD (new_row_of (writeShowFrame p row v) row) default = (⟨p.calcu.frame_to_time v, (p.times.getD row default).hid, (p.times.getD row default).hid - p.calcu.frame_to_time v⟩ : Triple Int) := by
    show (moveRow (writeShowFrame p row v).times row (new_row_of (writeShowFrame p row v) row) default).getD (new_row_of (writeShowFrame p row v) row) default = (⟨p.calcu.frame_to_time v, (p.times.getD row default).hid, (p.times.getD row default).hid - p.calcu.frame_to_time v⟩ : Triple Int)
    rw [getD_moveRow_self (writeShowFrame p row v).times row (new_row_of (writeShowFrame p row v) row) default (by rw [hWtl]; exact hrow)
      (by rw [hWtl]; exact hRb), hWt]
    exact getD_set_self p.times row (⟨p.calcu.frame_to_time v, (p.times.getD row default).hid, (p.times.getD row default).hid - p.calcu.frame_to_time v⟩ : Triple Int) default hrow
  have hCfgetR : (clearRedo (moveAll (writeShowFrame p row v) row (new_row_of (writeShowFrame p row v) row))).frames.getD (new_row_of (writeShowFrame p row v) row) default = (⟨v, (p.frames.getD row default).hid, (p.frames.getD row default).hid - v⟩ : Triple Int) := by
    show (moveRow (writeShowFrame p row v).frames row (new_row_of (writeShowFrame p row v) row) default).getD (new_row_of (writeShowFrame p row v) row) default = (⟨v, (p.frames.getD row default).hid, (p.frames.getD row default).hid - v⟩ : Triple Int)
    rw [getD_moveRow_self (writeShowFrame p row v).frames row (new_row_of (writeShowFrame p row v) row) default (by rw [hWfl]; exact hfr)
      (by rw [hWfl, hwf.1]; exact hRb), hWf]
    exact getD_set_self p.frames row (⟨v, (p.frames.getD row default).hid, (p.frames.getD row default).hid - v⟩ : Triple Int) default hfr
  have hne2 : ((p.times.getD row default).get Col.SHOW) ≠ ((clearRedo (moveAll (writeShowFrame p row v) row (new_row_of (writeShowFrame p row v) row))).times.getD (new_row_of (writeShowFrame p row v) row) default).get Col.SHOW := by
    rw [hCgetR]
    intro hc
    exact hmir hc.symm
  have hClen : (clearRedo (moveAll (writeShowFrame p row v) row (new_row_of (writeShowFrame p row v) row))).times.length = p.times.length := by
    rw [hCt, length_moveRow _ row (new_row_of (writeShowFrame p row v) row) default (by rw [List.length_set]; exact hrow)
      (by rw [List.length_set]; exact hRb), List.length_set]
  have hCflen : (clearRedo (moveAll (writeShowFrame p row v) row (new_row_of (writeShowFrame p row v) row))).frames.length = p.frames.length := by
    rw [hCf, length_moveRow _ row (new_row_of (writeShowFrame p row v) row) default (by rw [List.length_set]; exact hfr)
      (by rw [List.length_set, hwf.1]; exact hRb), List.length_set]
  have hR2lt : (new_row_of (writeShowFrame p row v) row) < (clearRedo (moveAll (writeShowFrame p row v) row (new_row_of (writeShowFrame p row v) row))).times.length := by
    rw [hClen]
    exact hRlt
  have hCwf : wfP (clearRedo (moveAll (writeShowFrame p row v) row (new_row_of (writeShowFrame p row v) row))) := by
    refine ⟨?_, ?_, ?_⟩
    · rw [hClen, hCflen, hwf.1]
    · show (moveRow p.main_texts row (new_row_of (writeShowFrame p row v) row) blank).length = (clearRedo (moveAll (writeShowFrame p row v) row (new_row_of (writeShowFrame p row v) row))).times.length
      rw [hClen, length_moveRow p.main_texts row (new_row_of (writeShowFrame p row v) row) blank hml (by rw [hwf.2.1]; exact hRb),
        hwf.2.1]
    · show (moveRow p.tran_texts row (new_row_of (writeShowFrame p row v) row) blank).length = (clearRedo (moveAll (writeShowFrame p row v) row (new_row_of (writeShowFrame p row v) row))).times.length
      rw [hClen, length_moveRow p.tran_texts row (new_row_of (writeShowFrame p row v) row) blank htl (by rw [hwf.2.2]; exact hRb),
        hwf.2.2]
  have hrop : revertOp_of p row (new_row_of (writeShowFrame p row v) row) Col.SHOW
      = RevertOp.set_time (new_row_of (writeShowFrame p row v) row) Col.SHOW ((p.times.getD row default).get Col.SHOW) := by
    unfold revertOp_of
    rw [hm]
  have hRbis : (new_row_of (writeShowFrame p row v) row) = (bisect_right tripleLt ((p.times.set row (⟨p.calcu.frame_to_time v, (p.times.getD row default).hid, (p.times.getD row default).hid - p.calcu.frame_to_time v⟩ : Triple Int)).eraseIdx row) ((p.times.set row (⟨p.calcu.frame_to_time v, (p.times.getD row default).hid, (p.times.getD row default).hid - p.calcu.frame_to_time v⟩ : Triple Int)).getD row default)) := by
    have h := new_row_of_eq_bisect_time (writeShowFrame p row v) row (show (writeShowFrame p row v).mode = Mode.TIME from hm)
    rw [hWt] at h
    exact h
  have hW2t : (writeShowTime (clearRedo (moveAll (writeShowFrame p row v) row (new_row_of (writeShowFrame p row v) row))) (new_row_of (writeShowFrame p row v) row) ((p.times.getD row default).get Col.SHOW)).times = (clearRedo (moveAll (writeShowFrame p row v) row (new_row_of (writeShowFrame p row v) row))).times.set (new_row_of (writeShowFrame p row v) row) (p.times.getD row default) := by
    show (clearRedo (moveAll (writeShowFrame p row v) row (new_row_of (writeShowFrame p row v) row))).times.set (new_row_of (writeShowFrame p row v) row) ⟨((p.times.getD row default).get Col.SHOW), ((clearRedo (moveAll (writeShowFrame p row v) row (new_row_of (writeShowFrame p row v) row))).times.getD (new_row_of (writeShowFrame p row v) row) default).hid,
      ((clearRedo (moveAll (writeShowFrame p row v) row (new_row_of (writeShowFrame p row v) row))).times.getD (new_row_of (writeShowFrame p row v) row) default).hid - ((p.times.getD row default).get Col.SHOW)⟩ = _
    rw [hCgetR]
    dsimp only [Triple.get]
    rw [hreb]
  have hW2f : (writeShowTime (clearRedo (moveAll (writeShowFrame p row v) row (new_row_of (writeShowFrame p row v) row))) (new_row_of (writeShowFrame p row v) row) ((p.times.getD row default).get Col.SHOW)).frames = (clearRedo (moveAll (writeShowFrame p row v) row (new_row_of (writeShowFrame p row v) row))).frames.set (new_row_of (writeShowFrame p row v) row) (p.frames.getD row default) := by
    show (clearRedo (moveAll (writeShowFrame p row v) row (new_row_of (writeShowFrame p row v) row))).frames.set (new_row_of (writeShowFrame p row v) row) ⟨p.calcu.time_to_frame ((p.times.getD row default).get Col.SHOW), ((clearRedo (moveAll (writeShowFrame p row v) row (new_row_of (writeShowFrame p row v) row))).frames.getD (new_row_of (writeShowFrame p row v) row) default).hid,
      ((clearRedo (moveAll (writeShowFrame p row v) row (new_row_of (writeShowFrame p row v) row))).frames.getD (new_row_of (writeShowFrame p row v) row) default).hid - p.calcu.time_to_frame ((p.times.getD row default).get Col.SHOW)⟩ = _
    rw [hCfgetR]
    dsimp only [Triple.get]
    rw [show p.calcu.time_to_frame (p.times.getD row default).shw
        = (p.frames.getD row default).shw from (hsy row hrow).1.symm]
    rw [hfreb]
  have hR2 : new_row_of (writeShowTime (clearRedo (moveAll (writeShowFrame p row v) row (new_row_of (writeShowFrame p row v) row))) (new_row_of (writeShowFrame p row v) row) ((p.times.getD row default).get Col.SHOW)) (new_row_of (writeShowFrame p row v) row) = row := by
    have h := new_row_of_eq_bisect_time (writeShowTime (clearRedo (moveAll (writeShowFrame p row v) row (new_row_of (writeShowFrame p row v) row))) (new_row_of (writeShowFrame p row v) row) ((p.times.getD row default).get Col.SHOW)) (new_row_of (writeShowFrame p row v) row) (show (writeShowTime (clearRedo (moveAll (writeShowFrame p row v) row (new_row_of (writeShowFrame p row v) row))) (new_row_of (writeShowFrame p row v) row) ((p.times.getD row default).get Col.SHOW)).mode = Mode.TIME from hm)
    rw [hW2t, hCt] at h
    rw [h]
    conv_lhs => rw [hRbis]
    exact (resort_restore p.times row (⟨p.calcu.frame_to_time v, (p.times.getD row default).hid, (p.times.getD row default).hid - p.calcu.frame_to_time v⟩ : Triple Int) hrow hstrict).1
  have hrop2 : revertOp_of (clearRedo (moveAll (writeShowFrame p row v) row (new_row_of (writeShowFrame p row v) row))) (new_row_of (writeShowFrame p row v) row) row Col.SHOW
      = RevertOp.set_time row Col.SHOW (p.calcu.frame_to_time v) := by
    unfold revertOp_of
    rw [show (clearRedo (moveAll (writeShowFrame p row v) row (new_row_of (writeShowFrame p row v) row))).mode = Mode.TIME from hm, hCgetR]
    rfl
  have hE2t : moveRow (writeShowTime (clearRedo (moveAll (writeShowFrame p row v) row (new_row_of (writeShowFrame p row v) row))) (new_row_of (writeShowFrame p row v) row) ((p.times.getD row default).get Col.SHOW)).times (new_row_of (writeShowFrame p row v) row) row default = p.times := by
    rw [hW2t, hCt]
    conv_lhs => rw [hRbis]
    exact (resort_restore p.times row (⟨p.calcu.frame_to_time v, (p.times.getD row default).hid, (p.times.getD row default).hid - p.calcu.frame_to_time v⟩ : Triple Int) hrow hstrict).2
  have hE2f : moveRow (writeShowTime (clearRedo (moveAll (writeShowFrame p row v) row (new_row_of (writeShowFrame p row v) row))) (new_row_of (writeShowFrame p row v) row) ((p.times.getD row default).get Col.SHOW)).frames (new_row_of (writeShowFrame p row v) row) row default = p.frames := by
    rw [hW2f, hCf]
    exact moveRow_set_restore p.frames row (new_row_of (writeShowFrame p row v) row) (⟨v, (p.frames.getD row default).hid, (p.frames.getD row default).hid - v⟩ : Triple Int) (p.frames.getD row default) default hfr
      (by rw [hwf.1]; exact hRb) rfl
  have hE2m : moveRow (moveRow p.main_texts row (new_row_of (writeShowFrame p row v) row) blank) (new_row_of (writeShowFrame p row v) row) row blank = p.main_texts :=
    moveRow_moveRow p.main_texts row (new_row_of (writeShowFrame p row v) row) blank hml (by rw [hwf.2.1]; exact hRb)
  have hE2r : moveRow (moveRow p.tran_texts row (new_row_of (writeShowFrame p row v) row) blank) (new_row_of (writeShowFrame p row v) row) row blank = p.tran_texts :=
    moveRow_moveRow p.tran_texts row (new_row_of (writeShowFrame p row v) row) blank htl (by rw [hwf.2.2]; exact hRb)
  have hundo : undo (set_frame p row Col.SHOW v Action.DO).1
      = { p with redoables := [RevertableAction.mk
          [RevertOp.set_time row Col.SHOW (p.calcu.frame_to_time v)]
          (urows_of (new_row_of (writeShowFrame p row v) row) row)] } := by
    rw [set_frame_SHOW_effect2 p row v Action.DO hneq hrow hwf]
    dsimp only
    rw [undo_register_DO', hrop]
    show group_actions (set_time (clearRedo (moveAll (writeShowFrame p row v) row (new_row_of (writeShowFrame p row v) row))) (new_row_of (writeShowFrame p row v) row) Col.SHOW ((p.times.getD row default).get Col.SHOW) Action.UNDO).1 Action.UNDO 1 = _
    rw [set_time_SHOW_effect2 (clearRedo (moveAll (writeShowFrame p row v) row (new_row_of (writeShowFrame p row v) row))) (new_row_of (writeShowFrame p row v) row) ((p.times.getD row default).get Col.SHOW) Action.UNDO hne2 hR2lt hCwf]
    dsimp only
    rw [group_register_UNDO, hR2, hrop2]
    apply project_eq
    · rfl
    · rfl
    · rfl
    · show moveRow (writeShowTime (clearRedo (moveAll (writeShowFrame p row v) row (new_row_of (writeShowFrame p row v) row))) (new_row_of (writeShowFrame p row v) row) ((p.times.getD row default).get Col.SHOW)).times (new_row_of (writeShowFrame p row v) row) row default = p.times
      exact hE2t
    · show moveRow (writeShowTime (clearRedo (moveAll (writeShowFrame p row v) row (new_row_of (writeShowFrame p row v) row))) (new_row_of (writeShowFrame p row v) row) ((p.times.getD row default).get Col.SHOW)).frames (new_row_of (writeShowFrame p row v) row) row default = p.frames
      exact hE2f
    · show moveRow (moveRow p.main_texts row (new_row_of (writeShowFrame p row v) row) blank) (new_row_of (writeShowFrame p row v) row) row blank = p.main_texts
      exact hE2m
    · show moveRow (moveRow p.tran_texts row (new_row_of (writeShowFrame p row v) row) blank) (new_row_of (writeShowFrame p row v) row) row blank = p.tran_texts
      exact hE2r
    · rfl
    · rfl
    · rfl
  refine ⟨?_, ?_⟩
  · rw [hundo]
    rfl
  · rw [hundo]
    rw [redo_cons p (RevertOp.set_time row Col.SHOW (p.calcu.frame_to_time v))
      (urows_of (new_row_of (writeShowFrame p row v) row) row) []]
    show arraysOf (group_actions (set_time (clearRedo p) row Col.SHOW
      (p.calcu.frame_to_time v) Action.REDO).1 Action.REDO 1) = _
    rw [arraysOf_group]
    rw [set_time_SHOW_effect2 (clearRedo p) row (p.calcu.frame_to_time v) Action.REDO hmir
      hrow hwf]
    rw [set_frame_SHOW_effect2 p row v Action.DO hneq hrow hwf]
    dsimp only
    rw [arraysOf_register, arraysOf_register]
    have hWWt : (writeShowTime (clearRedo p) row (p.calcu.frame_to_time v)).times = p.times.set row (⟨p.calcu.frame_to_time v, (p.times.getD row default).hid, (p.times.getD row default).hid - p.calcu.frame_to_time v⟩ : Triple Int) := rfl
    have hWWf : (writeShowTime (clearRedo p) row (p.calcu.frame_to_time v)).frames = p.frames.set row (⟨v, (p.frames.getD row default).hid, (p.frames.getD row default).hid - v⟩ : Triple Int) := by
      show p.frames.set row ⟨p.calcu.time_to_frame (p.calcu.frame_to_time v),
        (p.frames.getD row default).hid,
        (p.frames.getD row default).hid - p.calcu.time_to_frame (p.calcu.frame_to_time v)⟩ = _
      rw [hexact]
    have hRR : new_row_of (writeShowTime (clearRedo p) row (p.calcu.frame_to_time v)) row = (new_row_of (writeShowFrame p row v) row) := by
      have h1 := new_row_of_eq_bisect_time (writeShowTime (clearRedo p) row (p.calcu.frame_to_time v)) row (show (writeShowTime (clearRedo p) row (p.calcu.frame_to_time v)).mode = Mode.TIME from hm)
      rw [hWWt] at h1
      rw [h1, hRbis]
    dsimp only [arraysOf, moveAll]
    rw [hWWt, hWWf, hRR]
    rfl


theorem set_time_HIDE_effect2 (p : Project) (row : Nat) (v : Int) (reg : Action)
    (hv : v ≠ (p.times.getD row default).get Col.HIDE) (hrow : row < p.times.length)
    (hfr : row < p.frames.length) :
    set_time p row Col.HIDE v reg
      = (register_action (setTriples p row (⟨(p.times.getD row default).shw, v, v - (p.times.getD row default).shw⟩ : Triple Int) (⟨(p.frames.getD row default).shw, p.calcu.time_to_frame v, p.calcu.time_to_frame v - (p.frames.getD row default).shw⟩ : Triple Int)) reg
          (revertOp_of p row row Col.HIDE) [], row) := by
  rw [set_time_HIDE_parts p row v reg hv hrow hfr]
  rfl

theorem set_time_DURN_effect2 (p : Project) (row : Nat) (v : Int) (reg : Action)
    (hv : v ≠ (p.times.getD row default).get Col.DURN) (hrow : row < p.times.length)
    (hfr : row < p.frames.length) :
    set_time p row Col.DURN v reg
      = (register_action (setTriples p row (⟨(p.times.getD row default).shw, (p.times.getD row default).shw + v, v⟩ : Triple Int) (⟨(p.frames.getD row default).shw, (p.frames.getD row default).shw + p.calcu.time_to_frame v, p.calcu.time_to_frame v⟩ : Triple Int)) reg
          (revertOp_of p row row Col.DURN) [], row) := by
  rw [set_time_DURN_parts p row v reg hv hrow hfr]
  rfl

theorem set_frame_HIDE_effect2 (p : Project) (row : Nat) (v : Int) (reg : Action)
    (hv : v ≠ (p.frames.getD row default).get Col.HIDE) (hrow : row < p.times.length)
    (hfr : row < p.frames.length) :
    set_frame p row Col.HIDE v reg
      = (register_action (setTriples p row (⟨(p.times.getD row default).shw, p.calcu.frame_to_time v, p.calcu.frame_to_time v - (p.times.getD row default).shw⟩ : Triple Int) (⟨(p.frames.getD row default).shw, v, v - (p.frames.getD row default).shw⟩ : Triple Int)) reg
          (revertOp_of p row row Col.HIDE) [], row) := by
  rw [set_frame_HIDE_parts p row v reg hv hrow hfr]
  rfl

theorem set_frame_DURN_effect2 (p : Project) (row : Nat) (v : Int) (reg : Action)
    (hv : v ≠ (p.frames.getD row default).get Col.DURN) (hrow : row < p.times.length)
    (hfr : row < p.frames.length) :
    set_frame p row Col.DURN v reg
      = (register_action (setTriples p row (⟨(p.times.getD row default).shw, (p.times.getD row default).shw + p.calcu.frame_to_time v, p.calcu.frame_to_time v⟩ : Triple Int) (⟨(p.frames.getD row default).shw, (p.frames.getD row default).shw + v, v⟩ : Triple Int)) reg
          (revertOp_of p row row Col.DURN) [], row) := by
  rw [set_frame_DURN_parts p row v reg hv hrow hfr]
  rfl

theorem triple_rebuild2 (t : Triple Int) (h : t.drn = t.hid - t.shw) :
    (⟨t.shw, t.shw + t.drn, t.drn⟩ : Triple Int) = t := by
  cases t
  dsimp only at h ⊢
  subst h
  congr 1
  omega

theorem set_time_HIDE_TIME_roundtrip (p : Project) (row : Nat) (v : Int)
    (hwf : wfP p) (hdur : durationsOk p) (hsy : syncedTF p) (hm : p.mode = Mode.TIME)
    (hrow : row < p.times.length)
    (hneq : v ≠ (p.times.getD row default).get Col.HIDE) :
    arraysOf (undo (set_time p row Col.HIDE v Action.DO).1) = arraysOf p ∧
    arraysOf (redo (undo (set_time p row Col.HIDE v Action.DO).1))
      = arraysOf (set_time p row Col.HIDE v Action.DO).1 := by
  have hfr : row < p.frames.length := by
    rw [hwf.1]
    exact hrow
  have ht0mem : p.times.getD row default ∈ p.times := by
    rw [List.getD_eq_getElem _ _ hrow]
    exact List.getElem_mem _
  have ht0drn : (p.times.getD row default).drn = (p.times.getD row default).hid - (p.times.getD row default).shw := hdur.1 _ ht0mem
  have hreb := triple_rebuild (p.times.getD row default) ht0drn
  have hreb2 := triple_rebuild2 (p.times.getD row default) ht0drn
  have hf0mem : p.frames.getD row default ∈ p.frames := by
    rw [List.getD_eq_getElem _ _ hfr]
    exact List.getElem_mem _
  have hf0drn : (p.frames.getD row default).drn = (p.frames.getD row default).hid - (p.frames.getD row default).shw := hdur.2 _ hf0mem
  have hfreb := triple_rebuild (p.frames.getD row default) hf0drn
  have hfreb2 := triple_rebuild2 (p.frames.getD row default) hf0drn
  have hCget : (clearRedo (setTriples p row (⟨(p.times.getD row default).shw, v, v - (p.times.getD row default).shw⟩ : Triple Int) (⟨(p.frames.getD row default).shw, p.calcu.time_to_frame v, p.calcu.time_to_frame v - (p.frames.getD row default).shw⟩ : Triple Int))).times.getD row default = (⟨(p.times.getD row default).shw, v, v - (p.times.getD row default).shw⟩ : Triple Int) := by
    show (p.times.set row (⟨(p.times.getD row default).shw, v, v - (p.times.getD row default).shw⟩ : Triple Int)).getD row default = (⟨(p.times.getD row default).shw, v, v - (p.times.getD row default).shw⟩ : Triple Int)
    exact getD_set_self p.times row (⟨(p.times.getD row default).shw, v, v - (p.times.getD row default).shw⟩ : Triple Int) default hrow
  have hCfget : (clearRedo (setTriples p row (⟨(p.times.getD row default).shw, v, v - (p.times.getD row default).shw⟩ : Triple Int) (⟨(p.frames.getD row default).shw, p.calcu.time_to_frame v, p.calcu.time_to_frame v - (p.frames.getD row default).shw⟩ : Triple Int))).frames.getD row default = (⟨(p.frames.getD row default).shw, p.calcu.time_to_frame v, p.calcu.time_to_frame v - (p.frames.getD row default).shw⟩ : Triple Int) := by
    show (p.frames.set row (⟨(p.frames.getD row default).shw, p.calcu.time_to_frame v, p.calcu.time_to_frame v - (p.frames.getD row default).shw⟩ : Triple Int)).getD row default = (⟨(p.frames.getD row default).shw, p.calcu.time_to_frame v, p.calcu.time_to_frame v - (p.frames.getD row default).shw⟩ : Triple Int)
    exact getD_set_self p.frames row (⟨(p.frames.getD row default).shw, p.calcu.time_to_frame v, p.calcu.time_to_frame v - (p.frames.getD row default).shw⟩ : Triple Int) default hfr
  have hrow2 : row < (clearRedo (setTriples p row (⟨(p.times.getD row default).shw, v, v - (p.times.getD row default).shw⟩ : Triple Int) (⟨(p.frames.getD row default).shw, p.calcu.time_to_frame v, p.calcu.time_to_frame v - (p.frames.getD row default).shw⟩ : Triple Int))).times.length := by
    show row < (p.times.set row (⟨(p.times.getD row default).shw, v, v - (p.times.getD row default).shw⟩ : Triple Int)).length
    rw [List.length_set]
    exact hrow
  have hfr2 : row < (clearRedo (setTriples p row (⟨(p.times.getD row default).shw, v, v - (p.times.getD row default).shw⟩ : Triple Int) (⟨(p.frames.getD row default).shw, p.calcu.time_to_frame v, p.calcu.time_to_frame v - (p.frames.getD row default).shw⟩ : Triple Int))).frames.length := by
    show row < (p.frames.set row (⟨(p.frames.getD row default).shw, p.calcu.time_to_frame v, p.calcu.time_to_frame v - (p.frames.getD row default).shw⟩ : Triple Int)).length
    rw [List.length_set]
    exact hfr
  have hne2 : ((p.times.getD row default).get Col.HIDE) ≠ ((clearRedo (setTriples p row (⟨(p.times.getD row default).shw, v, v - (p.times.getD row default).shw⟩ : Triple Int) (⟨(p.frames.getD row default).shw, p.calcu.time_to_frame v, p.calcu.time_to_frame v - (p.frames.getD row default).shw⟩ : Triple Int))).times.getD row default).get Col.HIDE := by
    rw [hCget]
    intro hc
    exact hneq hc.symm
  have hrop : revertOp_of p row row Col.HIDE = RevertOp.set_time row Col.HIDE ((p.times.getD row default).get Col.HIDE) := by
    unfold revertOp_of
    rw [hm]
  have hrop2 : revertOp_of (clearRedo (setTriples p row (⟨(p.times.getD row default).shw, v, v - (p.times.getD row default).shw⟩ : Triple Int) (⟨(p.frames.getD row default).shw, p.calcu.time_to_frame v, p.calcu.time_to_frame v - (p.frames.getD row default).shw⟩ : Triple Int))) row row Col.HIDE = RevertOp.set_time row Col.HIDE v := by
    unfold revertOp_of
    rw [show (clearRedo (setTriples p row (⟨(p.times.getD row default).shw, v, v - (p.times.getD row default).shw⟩ : Triple Int) (⟨(p.frames.getD row default).shw, p.calcu.time_to_frame v, p.calcu.time_to_frame v - (p.frames.getD row default).shw⟩ : Triple Int))).mode = Mode.TIME from hm, hCget]
    rfl
  have hundo : undo (set_time p row Col.HIDE v Action.DO).1
      = { p with redoables := [RevertableAction.mk [RevertOp.set_time row Col.HIDE v] []] } := by
    rw [set_time_HIDE_effect2 p row v Action.DO hneq hrow hfr]
    dsimp only
    rw [undo_register_DO', hrop]
    show group_actions (set_time (clearRedo (setTriples p row (⟨(p.times.getD row default).shw, v, v - (p.times.getD row default).shw⟩ : Triple Int) (⟨(p.frames.getD row default).shw, p.calcu.time_to_frame v, p.calcu.time_to_frame v - (p.frames.getD row default).shw⟩ : Triple Int))) row Col.HIDE ((p.times.getD row default).get Col.HIDE) Action.UNDO).1 Action.UNDO 1 = _
    rw [set_time_HIDE_effect2 (clearRedo (setTriples p row (⟨(p.times.getD row default).shw, v, v - (p.times.getD row default).shw⟩ : Triple Int) (⟨(p.frames.getD row default).shw, p.calcu.time_to_frame v, p.calcu.time_to_frame v - (p.frames.getD row default).shw⟩ : Triple Int))) row ((p.times.getD row default).get Col.HIDE) Action.UNDO hne2 hrow2 hfr2]
    dsimp only
    rw [group_register_UNDO, hrop2]
    apply project_eq
    · rfl
    · rfl
    · rfl
    · show (clearRedo (setTriples p row (⟨(p.times.getD row default).shw, v, v - (p.times.getD row default).shw⟩ : Triple Int) (⟨(p.frames.getD row default).shw, p.calcu.time_to_frame v, p.calcu.time_to_frame v - (p.frames.getD row default).shw⟩ : Triple Int))).times.set row (⟨((clearRedo (setTriples p row (⟨(p.times.getD row default).shw, v, v - (p.times.getD row default).shw⟩ : Triple Int) (⟨(p.frames.getD row default).shw, p.calcu.time_to_frame v, p.calcu.time_to_frame v - (p.frames.getD row default).shw⟩ : Triple Int))).times.getD row default).shw, ((p.times.getD row default).get Col.HIDE), ((p.times.getD row default).get Col.HIDE) - ((clearRedo (setTriples p row (⟨(p.times.getD row default).shw, v, v - (p.times.getD row default).shw⟩ : Triple Int) (⟨(p.frames.getD row default).shw, p.calcu.time_to_frame v, p.calcu.time_to_frame v - (p.frames.getD row default).shw⟩ : Triple Int))).times.getD row default).shw⟩ : Triple Int) = p.times
      rw [hCget]
      dsimp only [Triple.get]
      rw [hreb]
      show (p.times.set row (⟨(p.times.getD row default).shw, v, v - (p.times.getD row default).shw⟩ : Triple Int)).set row (p.times.getD row default) = p.times
      rw [List.set_set]
      exact set_getD_self p.times row default hrow
    · show (clearRedo (setTriples p row (⟨(p.times.getD row default).shw, v, v - (p.times.getD row default).shw⟩ : Triple Int) (⟨(p.frames.getD row default).shw, p.calcu.time_to_frame v, p.calcu.time_to_frame v - (p.frames.getD row default).shw⟩ : Triple Int))).frames.set row (⟨((clearRedo (setTriples p row (⟨(p.times.getD row default).shw, v, v - (p.times.getD row default).shw⟩ : Triple Int) (⟨(p.frames.getD row default).shw, p.calcu.time_to_frame v, p.calcu.time_to_frame v - (p.frames.getD row default).shw⟩ : Triple Int))).frames.getD row default).shw, p.calcu.time_to_frame ((p.times.getD row default).get Col.HIDE), p.calcu.time_to_frame ((p.times.getD row default).get Col.HIDE) - ((clearRedo (setTriples p row (⟨(p.times.getD row default).shw, v, v - (p.times.getD row default).shw⟩ : Triple Int) (⟨(p.frames.getD row default).shw, p.calcu.time_to_frame v, p.calcu.time_to_frame v - (p.frames.getD row default).shw⟩ : Triple Int))).frames.getD row default).shw⟩ : Triple Int) = p.frames
      rw [hCfget]
      dsimp only [Triple.get]
      rw [show p.calcu.time_to_frame (p.times.getD row default).hid = (p.frames.getD row default).hid from (hsy row hrow).2.1.symm]
      rw [hfreb]
      show (p.frames.set row (⟨(p.frames.getD row default).shw, p.calcu.time_to_frame v, p.calcu.time_to_frame v - (p.frames.getD row default).shw⟩ : Triple Int)).set row (p.frames.getD row default) = p.frames
      rw [List.set_set]
      exact set_getD_self p.frames row default hfr
    · rfl
    · rfl
    · rfl
    · rfl
    · rfl
  refine ⟨?_, ?_⟩
  · rw [hundo]
    rfl
  · rw [hundo]
    rw [redo_cons p (RevertOp.set_time row Col.HIDE v) [] []]
    show arraysOf (group_actions (set_time (clearRedo p) row Col.HIDE v Action.REDO).1
      Action.REDO 1) = _
    rw [arraysOf_group]
    rw [set_time_HIDE_effect2 (clearRedo p) row v Action.REDO hneq hrow hfr]
    rw [set_time_HIDE_effect2 p row v Action.DO hneq hrow hfr]
    dsimp only
    rw [arraysOf_register, arraysOf_register]
    rfl


theorem set_time_HIDE_FRAME_roundtrip (p : Project) (row : Nat) (v : Int)
    (hwf : wfP p) (hdur : durationsOk p) (hsy : syncedFT p) (hm : p.mode = Mode.FRAME)
    (hrow : row < p.times.length)
    (hneq : v ≠ (p.times.getD row default).get Col.HIDE)
    (hmir : p.calcu.time_to_frame v ≠ (p.frames.getD row default).get Col.HIDE)
    (hexact : p.calcu.frame_to_time (p.calcu.time_to_frame v) = v) :
    arraysOf (undo (set_time p row Col.HIDE v Action.DO).1) = arraysOf p ∧
    arraysOf (redo (undo (set_time p row Col.HIDE v Action.DO).1))
      = arraysOf (set_time p row Col.HIDE v Action.DO).1 := by
  have hfr : row < p.frames.length := by
    rw [hwf.1]
    exact hrow
  have ht0mem : p.times.getD row default ∈ p.times := by
    rw [List.getD_eq_getElem _ _ hrow]
    exact List.getElem_mem _
  have ht0drn : (p.times.getD row default).drn = (p.times.getD row default).hid - (p.times.getD row default).shw := hdur.1 _ ht0mem
  have hreb := triple_rebuild (p.times.getD row default) ht0drn
  have hreb2 := triple_rebuild2 (p.times.getD row default) ht0drn
  have hf0mem : p.frames.getD row default ∈ p.frames := by
    rw [List.getD_eq_getElem _ _ hfr]
    exact List.getElem_mem _
  have hf0drn : (p.frames.getD row default).drn = (p.frames.getD row default).hid - (p.frames.getD row default).shw := hdur.2 _ hf0mem
  have hfreb := triple_rebuild (p.frames.getD row default) hf0drn
  have hfreb2 := triple_rebuild2 (p.frames.getD row default) hf0drn
  have hCget : (clearRedo (setTriples p row (⟨(p.times.getD row default).shw, v, v - (p.times.getD row default).shw⟩ : Triple Int) (⟨(p.frames.getD row default).shw, p.calcu.time_to_frame v, p.calcu.time_to_frame v - (p.frames.getD row default).shw⟩ : Triple Int))).times.getD row default = (⟨(p.times.getD row default).shw, v, v - (p.times.getD row default).shw⟩ : Triple Int) := by
    show (p.times.set row (⟨(p.times.getD row default).shw, v, v - (p.times.getD row default).shw⟩ : Triple Int)).getD row default = (⟨(p.times.getD row default).shw, v, v - (p.times.getD row default).shw⟩ : Triple Int)
    exact getD_set_self p.times row (⟨(p.times.getD row default).shw, v, v - (p.times.getD row default).shw⟩ : Triple Int) default hrow
  have hCfget : (clearRedo (setTriples p row (⟨(p.times.getD row default).shw, v, v - (p.times.getD row default).shw⟩ : Triple Int) (⟨(p.frames.getD row default).shw, p.calcu.time_to_frame v, p.calcu.time_to_frame v - (p.frames.getD row default).shw⟩ : Triple Int))).frames.getD row default = (⟨(p.frames.getD row default).shw, p.calcu.time_to_frame v, p.calcu.time_to_frame v - (p.frames.getD row default).shw⟩ : Triple Int) := by
    show (p.frames.set row (⟨(p.frames.getD row default).shw, p.calcu.time_to_frame v, p.calcu.time_to_frame v - (p.frames.getD row default).shw⟩ : Triple Int)).getD row default = (⟨(p.frames.getD row default).shw, p.calcu.time_to_frame v, p.calcu.time_to_frame v - (p.frames.getD row default).shw⟩ : Triple Int)
    exact getD_set_self p.frames row (⟨(p.frames.getD row default).shw, p.calcu.time_to_frame v, p.calcu.time_to_frame v - (p.frames.getD row default).shw⟩ : Triple Int) default hfr
  have hrow2 : row < (clearRedo (setTriples p row (⟨(p.times.getD row default).shw, v, v - (p.times.getD row default).shw⟩ : Triple Int) (⟨(p.frames.getD row default).shw, p.calcu.time_to_frame v, p.calcu.time_to_frame v - (p.frames.getD row default).shw⟩ : Triple Int))).times.length := by
    show row < (p.times.set row (⟨(p.times.getD row default).shw, v, v - (p.times.getD row default).shw⟩ : Triple Int)).length
    rw [List.length_set]
    exact hrow
  have hfr2 : row < (clearRedo (setTriples p row (⟨(p.times.getD row default).shw, v, v - (p.times.getD row default).shw⟩ : Triple Int) (⟨(p.frames.getD row default).shw, p.calcu.time_to_frame v, p.calcu.time_to_frame v - (p.frames.getD row default).shw⟩ : Triple Int))).frames.length := by
    show row < (p.frames.set row (⟨(p.frames.getD row default).shw, p.calcu.time_to_frame v, p.calcu.time_to_frame v - (p.frames.getD row default).shw⟩ : Triple Int)).length
    rw [List.length_set]
    exact hfr
  have hne2 : ((p.frames.getD row default).get Col.HIDE) ≠ ((clearRedo (setTriples p row (⟨(p.times.getD row default).shw, v, v - (p.times.getD row default).shw⟩ : Triple Int) (⟨(p.frames.getD row default).shw, p.calcu.time_to_frame v, p.calcu.time_to_frame v - (p.frames.getD row default).shw⟩ : Triple Int))).frames.getD row default).get Col.HIDE := by
    rw [hCfget]
    intro hc
    exact hmir hc.symm
  have hrop : revertOp_of p row row Col.HIDE = RevertOp.set_frame row Col.HIDE ((p.frames.getD row default).get Col.HIDE) := by
    unfold revertOp_of
    rw [hm]
  have hrop2 : revertOp_of (clearRedo (setTriples p row (⟨(p.times.getD row default).shw, v, v - (p.times.getD row default).shw⟩ : Triple Int) (⟨(p.frames.getD row default).shw, p.calcu.time_to_frame v, p.calcu.time_to_frame v - (p.frames.getD row default).shw⟩ : Triple Int))) row row Col.HIDE = RevertOp.set_frame row Col.HIDE (p.calcu.time_to_frame v) := by
    unfold revertOp_of
    rw [show (clearRedo (setTriples p row (⟨(p.times.getD row default).shw, v, v - (p.times.getD row default).shw⟩ : Triple Int) (⟨(p.frames.getD row default).shw, p.calcu.time_to_frame v, p.calcu.time_to_frame v - (p.frames.getD row default).shw⟩ : Triple Int))).mode = Mode.FRAME from hm, hCfget]
    rfl
  have hundo : undo (set_time p row Col.HIDE v Action.DO).1
      = { p with redoables := [RevertableAction.mk [RevertOp.set_frame row Col.HIDE (p.calcu.time_to_frame v)] []] } := by
    rw [set_time_HIDE_effect2 p row v Action.DO hneq hrow hfr]
    dsimp only
    rw [undo_register_DO', hrop]
    show group_actions (set_frame (clearRedo (setTriples p row (⟨(p.times.getD row default).shw, v, v - (p.times.getD row default).shw⟩ : Triple Int) (⟨(p.frames.getD row default).shw, p.calcu.time_to_frame v, p.calcu.time_to_frame v - (p.frames.getD row default).shw⟩ : Triple Int))) row Col.HIDE ((p.frames.getD row default).get Col.HIDE) Action.UNDO).1 Action.UNDO 1 = _
    rw [set_frame_HIDE_effect2 (clearRedo (setTriples p row (⟨(p.times.getD row default).shw, v, v - (p.times.getD row default).shw⟩ : Triple Int) (⟨(p.frames.getD row default).shw, p.calcu.time_to_frame v, p.calcu.time_to_frame v - (p.frames.getD row default).shw⟩ : Triple Int))) row ((p.frames.getD row default).get Col.HIDE) Action.UNDO hne2 hrow2 hfr2]
    dsimp only
    rw [group_register_UNDO, hrop2]
    apply project_eq
    · rfl
    · rfl
    · rfl
    · show (clearRedo (setTriples p row (⟨(p.times.getD row default).shw, v, v - (p.times.getD row default).shw⟩ : Triple Int) (⟨(p.frames.getD row default).shw, p.calcu.time_to_frame v, p.calcu.time_to_frame v - (p.frames.getD row default).shw⟩ : Triple Int))).times.set row (⟨((clearRedo (setTriples p row (⟨(p.times.getD row default).shw, v, v - (p.times.getD row default).shw⟩ : Triple Int) (⟨(p.frames.getD row default).shw, p.calcu.time_to_frame v, p.calcu.time_to_frame v - (p.frames.getD row default).shw⟩ : Triple Int))).times.getD row default).shw, p.calcu.frame_to_time ((p.frames.getD row default).get Col.HIDE), p.calcu.frame_to_time ((p.frames.getD row default).get Col.HIDE) - ((clearRedo (setTriples p row (⟨(p.times.getD row default).shw, v, v - (p.times.getD row default).shw⟩ : Triple Int) (⟨(p.frames.getD row default).shw, p.calcu.time_to_frame v, p.calcu.time_to_frame v - (p.frames.getD row default).shw⟩ : Triple Int))).times.getD row default).shw⟩ : Triple Int) = p.times
      rw [hCget]
      dsimp only [Triple.get]
      rw [show p.calcu.frame_to_time (p.frames.getD row default).hid = (p.times.getD row default).hid from (hsy row hrow).2.1.symm]
      rw [hreb]
      show (p.times.set row (⟨(p.times.getD row default).shw, v, v - (p.times.getD row default).shw⟩ : Triple Int)).set row (p.times.getD row default) = p.times
      rw [List.set_set]
      exact set_getD_self p.times row default hrow
    · show (clearRedo (setTriples p row (⟨(p.times.getD row default).shw, v, v - (p.times.getD row default).shw⟩ : Triple Int) (⟨(p.frames.getD row default).shw, p.calcu.time_to_frame v, p.calcu.time_to_frame v - (p.frames.getD row default).shw⟩ : Triple Int))).frames.set row (⟨((clearRedo (setTriples p row (⟨(p.times.getD row default).shw, v, v - (p.times.getD row default).shw⟩ : Triple Int) (⟨(p.frames.getD row default).shw, p.calcu.time_to_frame v, p.calcu.time_to_frame v - (p.frames.getD row default).shw⟩ : Triple Int))).frames.getD row default).shw, ((p.frames.getD row default).get Col.HIDE), ((p.frames.getD row default).get Col.HIDE) - ((clearRedo (setTriples p row (⟨(p.times.getD row default).shw, v, v - (p.times.getD row default).shw⟩ : Triple Int) (⟨(p.frames.getD row default).shw, p.calcu.time_to_frame v, p.calcu.time_to_frame v - (p.frames.getD row default).shw⟩ : Triple Int))).frames.getD row default).shw⟩ : Triple Int) = p.frames
      rw [hCfget]
      dsimp only [Triple.get]
      rw [hfreb]
      show (p.frames.set row (⟨(p.frames.getD row default).shw, p.calcu.time_to_frame v, p.calcu.time_to_frame v - (p.frames.getD row default).shw⟩ : Triple Int)).set row (p.frames.getD row default) = p.frames
      rw [List.set_set]
      exact set_getD_self p.frames row default hfr
    · rfl
    · rfl
    · rfl
    · rfl
    · rfl
  refine ⟨?_, ?_⟩
  · rw [hundo]
    rfl
  · rw [hundo]
    rw [redo_cons p (RevertOp.set_frame row Col.HIDE (p.calcu.time_to_frame v)) [] []]
    show arraysOf (group_actions (set_frame (clearRedo p) row Col.HIDE (p.calcu.time_to_frame v) Action.REDO).1
      Action.REDO 1) = _
    rw [arraysOf_group]
    rw [set_frame_HIDE_effect2 (clearRedo p) row (p.calcu.time_to_frame v) Action.REDO hmir hrow hfr]
    rw [set_time_HIDE_effect2 p row v Action.DO hneq hrow hfr]
    dsimp only
    rw [arraysOf_register, arraysOf_register]
    dsimp only [arraysOf, setTriples, clearRedo]
    rw [hexact]


theorem set_time_DURN_TIME_roundtrip (p : Project) (row : Nat) (v : Int)
    (hwf : wfP p) (hdur : durationsOk p) (hsy : syncedTF p) (hm : p.mode = Mode.TIME)
    (hrow : row < p.times.length)
    (hneq : v ≠ (p.times.getD row default).get Col.DURN) :
    arraysOf (undo (set_time p row Col.DURN v Action.DO).1) = arraysOf p ∧
    arraysOf (redo (undo (set_time p row Col.DURN v Action.DO).1))
      = arraysOf (set_time p row Col.DURN v Action.DO).1 := by
  have hfr : row < p.frames.length := by
    rw [hwf.1]
    exact hrow
  have ht0mem : p.times.getD row default ∈ p.times := by
    rw [List.getD_eq_getElem _ _ hrow]
    exact List.getElem_mem _
  have ht0drn : (p.times.getD row default).drn = (p.times.getD row default).hid - (p.times.getD row default).shw := hdur.1 _ ht0mem
  have hreb := triple_rebuild (p.times.getD row default) ht0drn
  have hreb2 := triple_rebuild2 (p.times.getD row default) ht0drn
  have hf0mem : p.frames.getD row default ∈ p.frames := by
    rw [List.getD_eq_getElem _ _ hfr]
    exact List.getElem_mem _
  have hf0drn : (p.frames.getD row default).drn = (p.frames.getD row default).hid - (p.frames.getD row default).shw := hdur.2 _ hf0mem
  have hfreb := triple_rebuild (p.frames.getD row default) hf0drn
  have hfreb2 := triple_rebuild2 (p.frames.getD row default) hf0drn
  have hCget : (clearRedo (setTriples p row (⟨(p.times.getD row default).shw, (p.times.getD row default).shw + v, v⟩ : Triple Int) (⟨(p.frames.getD row default).shw, (p.frames.getD row default).shw + p.calcu.time_to_frame v, p.calcu.time_to_frame v⟩ : Triple Int))).times.getD row default = (⟨(p.times.getD row default).shw, (p.times.getD row default).shw + v, v⟩ : Triple Int) := by
    show (p.times.set row (⟨(p.times.getD row default).shw, (p.times.getD row default).shw + v, v⟩ : Triple Int)).getD row default = (⟨(p.times.getD row default).shw, (p.times.getD row default).shw + v, v⟩ : Triple Int)
    exact getD_set_self p.times row (⟨(p.times.getD row default).shw, (p.times.getD row default).shw + v, v⟩ : Triple Int) default hrow
  have hCfget : (clearRedo (setTriples p row (⟨(p.times.getD row default).shw, (p.times.getD row default).shw + v, v⟩ : Triple Int) (⟨(p.frames.getD row default).shw, (p.frames.getD row default).shw + p.calcu.time_to_frame v, p.calcu.time_to_frame v⟩ : Triple Int))).frames.getD row default = (⟨(p.frames.getD row default).shw, (p.frames.getD row default).shw + p.calcu.time_to_frame v, p.calcu.time_to_frame v⟩ : Triple Int) := by
    show (p.frames.set row (⟨(p.frames.getD row default).shw, (p.frames.getD row default).shw + p.calcu.time_to_frame v, p.calcu.time_to_frame v⟩ : Triple Int)).getD row default = (⟨(p.frames.getD row default).shw, (p.frames.getD row default).shw + p.calcu.time_to_frame v, p.calcu.time_to_frame v⟩ : Triple Int)
    exact getD_set_self p.frames row (⟨(p.frames.getD row default).shw, (p.frames.getD row default).shw + p.calcu.time_to_frame v, p.calcu.time_to_frame v⟩ : Triple Int) default hfr
  have hrow2 : row < (clearRedo (setTriples p row (⟨(p.times.getD row default).shw, (p.times.getD row default).shw + v, v⟩ : Triple Int) (⟨(p.frames.getD row default).shw, (p.frames.getD row default).shw + p.calcu.time_to_frame v, p.calcu.time_to_frame v⟩ : Triple Int))).times.length := by
    show row < (p.times.set row (⟨(p.times.getD row default).shw, (p.times.getD row default).shw + v, v⟩ : Triple Int)).length
    rw [List.length_set]
    exact hrow
  have hfr2 : row < (clearRedo (setTriples p row (⟨(p.times.getD row default).shw, (p.times.getD row default).shw + v, v⟩ : Triple Int) (⟨(p.frames.getD row default).shw, (p.frames.getD row default).shw + p.calcu.time_to_frame v, p.calcu.time_to_frame v⟩ : Triple Int))).frames.length := by
    show row < (p.frames.set row (⟨(p.frames.getD row default).shw, (p.frames.getD row default).shw + p.calcu.time_to_frame v, p.calcu.time_to_frame v⟩ : Triple Int)).length
    rw [List.length_set]
    exact hfr
  have hne2 : ((p.times.getD row default).get Col.DURN) ≠ ((clearRedo (setTriples p row (⟨(p.times.getD row default).shw, (p.times.getD row default).shw + v, v⟩ : Triple Int) (⟨(p.frames.getD row default).shw, (p.frames.getD row default).shw + p.calcu.time_to_frame v, p.calcu.time_to_frame v⟩ : Triple Int))).times.getD row default).get Col.DURN := by
    rw [hCget]
    intro hc
    exact hneq hc.symm
  have hrop : revertOp_of p row row Col.DURN = RevertOp.set_time row Col.DURN ((p.times.getD row default).get Col.DURN) := by
    unfold revertOp_of
    rw [hm]
  have hrop2 : revertOp_of (clearRedo (setTriples p row (⟨(p.times.getD row default).shw, (p.times.getD row default).shw + v, v⟩ : Triple Int) (⟨(p.frames.getD row default).shw, (p.frames.getD row default).shw + p.calcu.time_to_frame v, p.calcu.time_to_frame v⟩ : Triple Int))) row row Col.DURN = RevertOp.set_time row Col.DURN v := by
    unfold revertOp_of
    rw [show (clearRedo (setTriples p row (⟨(p.times.getD row default).shw, (p.times.getD row default).shw + v, v⟩ : Triple Int) (⟨(p.frames.getD row default).shw, (p.frames.getD row default).shw + p.calcu.time_to_frame v, p.calcu.time_to_frame v⟩ : Triple Int))).mode = Mode.TIME from hm, hCget]
    rfl
  have hundo : undo (set_time p row Col.DURN v Action.DO).1
      = { p with redoables := [RevertableAction.mk [RevertOp.set_time row Col.DURN v] []] } := by
    rw [set_time_DURN_effect2 p row v Action.DO hneq hrow hfr]
    dsimp only
    rw [undo_register_DO', hrop]
    show group_actions (set_time (clearRedo (setTriples p row (⟨(p.times.getD row default).shw, (p.times.getD row default).shw + v, v⟩ : Triple Int) (⟨(p.frames.getD row default).shw, (p.frames.getD row default).shw + p.calcu.time_to_frame v, p.calcu.time_to_frame v⟩ : Triple Int))) row Col.DURN ((p.times.getD row default).get Col.DURN) Action.UNDO).1 Action.UNDO 1 = _
    rw [set_time_DURN_effect2 (clearRedo (setTriples p row (⟨(p.times.getD row default).shw, (p.times.getD row default).shw + v, v⟩ : Triple Int) (⟨(p.frames.getD row default).shw, (p.frames.getD row default).shw + p.calcu.time_to_frame v, p.calcu.time_to_frame v⟩ : Triple Int))) row ((p.times.getD row default).get Col.DURN) Action.UNDO hne2 hrow2 hfr2]
    dsimp only
    rw [group_register_UNDO, hrop2]
    apply project_eq
    · rfl
    · rfl
    · rfl
    · show (clearRedo (setTriples p row (⟨(p.times.getD row default).shw, (p.times.getD row default).shw + v, v⟩ : Triple Int) (⟨(p.frames.getD row default).shw, (p.frames.getD row default).shw + p.calcu.time_to_frame v, p.calcu.time_to_frame v⟩ : Triple Int))).times.set row (⟨((clearRedo (setTriples p row (⟨(p.times.getD row default).shw, (p.times.getD row default).shw + v, v⟩ : Triple Int) (⟨(p.frames.getD row default).shw, (p.frames.getD row default).shw + p.calcu.time_to_frame v, p.calcu.time_to_frame v⟩ : Triple Int))).times.getD row default).shw, ((clearRedo (setTriples p row (⟨(p.times.getD row default).shw, (p.times.getD row default).shw + v, v⟩ : Triple Int) (⟨(p.frames.getD row default).shw, (p.frames.getD row default).shw + p.calcu.time_to_frame v, p.calcu.time_to_frame v⟩ : Triple Int))).times.getD row default).shw + ((p.times.getD row default).get Col.DURN), ((p.times.getD row default).get Col.DURN)⟩ : Triple Int) = p.times
      rw [hCget]
      dsimp only [Triple.get]
      rw [hreb2]
      show (p.times.set row (⟨(p.times.getD row default).shw, (p.times.getD row default).shw + v, v⟩ : Triple Int)).set row (p.times.getD row default) = p.times
      rw [List.set_set]
      exact set_getD_self p.times row default hrow
    · show (clearRedo (setTriples p row (⟨(p.times.getD row default).shw, (p.times.getD row default).shw + v, v⟩ : Triple Int) (⟨(p.frames.getD row default).shw, (p.frames.getD row default).shw + p.calcu.time_to_frame v, p.calcu.time_to_frame v⟩ : Triple Int))).frames.set row (⟨((clearRedo (setTriples p row (⟨(p.times.getD row default).shw, (p.times.getD row default).shw + v, v⟩ : Triple Int) (⟨(p.frames.getD row default).shw, (p.frames.getD row default).shw + p.calcu.time_to_frame v, p.calcu.time_to_frame v⟩ : Triple Int))).frames.getD row default).shw, ((clearRedo (setTriples p row (⟨(p.times.getD row default).shw, (p.times.getD row default).shw + v, v⟩ : Triple Int) (⟨(p.frames.getD row default).shw, (p.frames.getD row default).shw + p.calcu.time_to_frame v, p.calcu.time_to_frame v⟩ : Triple Int))).frames.getD row default).shw + p.calcu.time_to_frame ((p.times.getD row default).get Col.DURN), p.calcu.time_to_frame ((p.times.getD row default).get Col.DURN)⟩ : Triple Int) = p.frames
      rw [hCfget]
      dsimp only [Triple.get]
      rw [show p.calcu.time_to_frame (p.times.getD row default).drn = (p.frames.getD row default).drn from (hsy row hrow).2.2.symm]
      rw [hfreb2]
      show (p.frames.set row (⟨(p.frames.getD row default).shw, (p.frames.getD row default).shw + p.calcu.time_to_frame v, p.calcu.time_to_frame v⟩ : Triple Int)).set row (p.frames.getD row default) = p.frames
      rw [List.set_set]
      exact set_getD_self p.frames row default hfr
    · rfl
    · rfl
    · rfl
    · rfl
    · rfl
  refine ⟨?_, ?_⟩
  · rw [hundo]
    rfl
  · rw [hundo]
    rw [redo_cons p (RevertOp.set_time row Col.DURN v) [] []]
    show arraysOf (group_actions (set_time (clearRedo p) row Col.DURN v Action.REDO).1
      Action.REDO 1) = _
    rw [arraysOf_group]
    rw [set_time_DURN_effect2 (clearRedo p) row v Action.REDO hneq hrow hfr]
    rw [set_time_DURN_effect2 p row v Action.DO hneq hrow hfr]
    dsimp only
    rw [arraysOf_register, arraysOf_register]
    rfl


theorem set_time_DURN_FRAME_roundtrip (p : Project) (row : Nat) (v : Int)
    (hwf : wfP p) (hdur : durationsOk p) (hsy : syncedFT p) (hm : p.mode = Mode.FRAME)
    (hrow : row < p.times.length)
    (hneq : v ≠ (p.times.getD row default).get Col.DURN)
    (hmir : p.calcu.time_to_frame v ≠ (p.frames.getD row default).get Col.DURN)
    (hexact : p.calcu.frame_to_time (p.calcu.time_to_frame v) = v) :
    arraysOf (undo (set_time p row Col.DURN v Action.DO).1) = arraysOf p ∧
    arraysOf (redo (undo (set_time p row Col.DURN v Action.DO).1))
      = arraysOf (set_time p row Col.DURN v Action.DO).1 := by
  have hfr : row < p.frames.length := by
    rw [hwf.1]
    exact hrow
  have ht0mem : p.times.getD row default ∈ p.times := by
    rw [List.getD_eq_getElem _ _ hrow]
    exact List.getElem_mem _
  have ht0drn : (p.times.getD row default).drn = (p.times.getD row default).hid - (p.times.getD row default).shw := hdur.1 _ ht0mem
  have hreb := triple_rebuild (p.times.getD row default) ht0drn
  have hreb2 := triple_rebuild2 (p.times.getD row default) ht0drn
  have hf0mem : p.frames.getD row default ∈ p.frames := by
    rw [List.getD_eq_getElem _ _ hfr]
    exact List.getElem_mem _
  have hf0drn : (p.frames.getD row default).drn = (p.frames.getD row default).hid - (p.frames.getD row default).shw := hdur.2 _ hf0mem
  have hfreb := triple_rebuild (p.frames.getD row default) hf0drn
  have hfreb2 := triple_rebuild2 (p.frames.getD row default) hf0drn
  have hCget : (clearRedo (setTriples p row (⟨(p.times.getD row default).shw, (p.times.getD row default).shw + v, v⟩ : Triple Int) (⟨(p.frames.getD row default).shw, (p.frames.getD row default).shw + p.calcu.time_to_frame v, p.calcu.time_to_frame v⟩ : Triple Int))).times.getD row default = (⟨(p.times.getD row default).shw, (p.times.getD row default).shw + v, v⟩ : Triple Int) := by
    show (p.times.set row (⟨(p.times.getD row default).shw, (p.times.getD row default).shw + v, v⟩ : Triple Int)).getD row default = (⟨(p.times.getD row default).shw, (p.times.getD row default).shw + v, v⟩ : Triple Int)
    exact getD_set_self p.times row (⟨(p.times.getD row default).shw, (p.times.getD row default).shw + v, v⟩ : Triple Int) default hrow
  have hCfget : (clearRedo (setTriples p row (⟨(p.times.getD row default).shw, (p.times.getD row default).shw + v, v⟩ : Triple Int) (⟨(p.frames.getD row default).shw, (p.frames.getD row default).shw + p.calcu.time_to_frame v, p.calcu.time_to_frame v⟩ : Triple Int))).frames.getD row default = (⟨(p.frames.getD row default).shw, (p.frames.getD row default).shw + p.calcu.time_to_frame v, p.calcu.time_to_frame v⟩ : Triple Int) := by
    show (p.frames.set row (⟨(p.frames.getD row default).shw, (p.frames.getD row default).shw + p.calcu.time_to_frame v, p.calcu.time_to_frame v⟩ : Triple Int)).getD row default = (⟨(p.frames.getD row default).shw, (p.frames.getD row default).shw + p.calcu.time_to_frame v, p.calcu.time_to_frame v⟩ : Triple Int)
    exact getD_set_self p.frames row (⟨(p.frames.getD row default).shw, (p.frames.getD row default).shw + p.calcu.time_to_frame v, p.calcu.time_to_frame v⟩ : Triple Int) default hfr
  have hrow2 : row < (clearRedo (setTriples p row (⟨(p.times.getD row default).shw, (p.times.getD row default).shw + v, v⟩ : Triple Int) (⟨(p.frames.getD row default).shw, (p.frames.getD row default).shw + p.calcu.time_to_frame v, p.calcu.time_to_frame v⟩ : Triple Int))).times.length := by
    show row < (p.times.set row (⟨(p.times.getD row default).shw, (p.times.getD row default).shw + v, v⟩ : Triple Int)).length
    rw [List.length_set]
    exact hrow
  have hfr2 : row < (clearRedo (setTriples p row (⟨(p.times.getD row default).shw, (p.times.getD row default).shw + v, v⟩ : Triple Int) (⟨(p.frames.getD row default).shw, (p.frames.getD row default).shw + p.calcu.time_to_frame v, p.calcu.time_to_frame v⟩ : Triple Int))).frames.length := by
    show row < (p.frames.set row (⟨(p.frames.getD row default).shw, (p.frames.getD row default).shw + p.calcu.time_to_frame v, p.calcu.time_to_frame v⟩ : Triple Int)).length
    rw [List.length_set]
    exact hfr
  have hne2 : ((p.frames.getD row default).get Col.DURN) ≠ ((clearRedo (setTriples p row (⟨(p.times.getD row default).shw, (p.times.getD row default).shw + v, v⟩ : Triple Int) (⟨(p.frames.getD row default).shw, (p.frames.getD row default).shw + p.calcu.time_to_frame v, p.calcu.time_to_frame v⟩ : Triple Int))).frames.getD row default).get Col.DURN := by
    rw [hCfget]
    intro hc
    exact hmir hc.symm
  have hrop : revertOp_of p row row Col.DURN = RevertOp.set_frame row Col.DURN ((p.frames.getD row default).get Col.DURN) := by
    unfold revertOp_of
    rw [hm]
  have hrop2 : revertOp_of (clearRedo (setTriples p row (⟨(p.times.getD row default).shw, (p.times.getD row default).shw + v, v⟩ : Triple Int) (⟨(p.frames.getD row default).shw, (p.frames.getD row default).shw + p.calcu.time_to_frame v, p.calcu.time_to_frame v⟩ : Triple Int))) row row Col.DURN = RevertOp.set_frame row Col.DURN (p.calcu.time_to_frame v) := by
    unfold revertOp_of
    rw [show (clearRedo (setTriples p row (⟨(p.times.getD row default).shw, (p.times.getD row default).shw + v, v⟩ : Triple Int) (⟨(p.frames.getD row default).shw, (p.frames.getD row default).shw + p.calcu.time_to_frame v, p.calcu.time_to_frame v⟩ : Triple Int))).mode = Mode.FRAME from hm, hCfget]
    rfl
  have hundo : undo (set_time p row Col.DURN v Action.DO).1
      = { p with redoables := [RevertableAction.mk [RevertOp.set_frame row Col.DURN (p.calcu.time_to_frame v)] []] } := by
    rw [set_time_DURN_effect2 p row v Action.DO hneq hrow hfr]
    dsimp only
    rw [undo_register_DO', hrop]
    show group_actions (set_frame (clearRedo (setTriples p row (⟨(p.times.getD row default).shw, (p.times.getD row default).shw + v, v⟩ : Triple Int) (⟨(p.frames.getD row default).shw, (p.frames.getD row default).shw + p.calcu.time_to_frame v, p.calcu.time_to_frame v⟩ : Triple Int))) row Col.DURN ((p.frames.getD row default).get Col.DURN) Action.UNDO).1 Action.UNDO 1 = _
    rw [set_frame_DURN_effect2 (clearRedo (setTriples p row (⟨(p.times.getD row default).shw, (p.times.getD row default).shw + v, v⟩ : Triple Int) (⟨(p.frames.getD row default).shw, (p.frames.getD row default).shw + p.calcu.time_to_frame v, p.calcu.time_to_frame v⟩ : Triple Int))) row ((p.frames.getD row default).get Col.DURN) Action.UNDO hne2 hrow2 hfr2]
    dsimp only
    rw [group_register_UNDO, hrop2]
    apply project_eq
    · rfl
    · rfl
    · rfl
    · show (clearRedo (setTriples p row (⟨(p.times.getD row default).shw, (p.times.getD row default).shw + v, v⟩ : Triple Int) (⟨(p.frames.getD row default).shw, (p.frames.getD row default).shw + p.calcu.time_to_frame v, p.calcu.time_to_frame v⟩ : Triple Int))).times.set row (⟨((clearRedo (setTriples p row (⟨(p.times.getD row default).shw, (p.times.getD row default).shw + v, v⟩ : Triple Int) (⟨(p.frames.getD row default).shw, (p.frames.getD row default).shw + p.calcu.time_to_frame v, p.calcu.time_to_frame v⟩ : Triple Int))).times.getD row default).shw, ((clearRedo (setTriples p row (⟨(p.times.getD row default).shw, (p.times.getD row default).shw + v, v⟩ : Triple Int) (⟨(p.frames.getD row default).shw, (p.frames.getD row default).shw + p.calcu.time_to_frame v, p.calcu.time_to_frame v⟩ : Triple Int))).times.getD row default).shw + p.calcu.frame_to_time ((p.frames.getD row default).get Col.DURN), p.calcu.frame_to_time ((p.frames.getD row default).get Col.DURN)⟩ : Triple Int) = p.times
      rw [hCget]
      dsimp only [Triple.get]
      rw [show p.calcu.frame_to_time (p.frames.getD row default).drn = (p.times.getD row default).drn from (hsy row hrow).2.2.symm]
      rw [hreb2]
      show (p.times.set row (⟨(p.times.getD row default).shw, (p.times.getD row default).shw + v, v⟩ : Triple Int)).set row (p.times.getD row default) = p.times
      rw [List.set_set]
      exact set_getD_self p.times row default hrow
    · show (clearRedo (setTriples p row (⟨(p.times.getD row default).shw, (p.times.getD row default).shw + v, v⟩ : Triple Int) (⟨(p.frames.getD row default).shw, (p.frames.getD row default).shw + p.calcu.time_to_frame v, p.calcu.time_to_frame v⟩ : Triple Int))).frames.set row (⟨((clearRedo (setTriples p row (⟨(p.times.getD row default).shw, (p.times.getD row default).shw + v, v⟩ : Triple Int) (⟨(p.frames.getD row default).shw, (p.frames.getD row default).shw + p.calcu.time_to_frame v, p.calcu.time_to_frame v⟩ : Triple Int))).frames.getD row default).shw, ((clearRedo (setTriples p row (⟨(p.times.getD row default).shw, (p.times.getD row default).shw + v, v⟩ : Triple Int) (⟨(p.frames.getD row default).shw, (p.frames.getD row default).shw + p.calcu.time_to_frame v, p.calcu.time_to_frame v⟩ : Triple Int))).frames.getD row default).shw + ((p.frames.getD row default).get Col.DURN), ((p.frames.getD row default).get Col.DURN)⟩ : Triple Int) = p.frames
      rw [hCfget]
      dsimp only [Triple.get]
      rw [hfreb2]
      show (p.frames.set row (⟨(p.frames.getD row default).shw, (p.frames.getD row default).shw + p.calcu.time_to_frame v, p.calcu.time_to_frame v⟩ : Triple Int)).set row (p.frames.getD row default) = p.frames
      rw [List.set_set]
      exact set_getD_self p.frames row default hfr
    · rfl
    · rfl
    · rfl
    · rfl
    · rfl
  refine ⟨?_, ?_⟩
  · rw [hundo]
    rfl
  · rw [hundo]
    rw [redo_cons p (RevertOp.set_frame row Col.DURN (p.calcu.time_to_frame v)) [] []]
    show arraysOf (group_actions (set_frame (clearRedo p) row Col.DURN (p.calcu.time_to_frame v) Action.REDO).1
      Action.REDO 1) = _
    rw [arraysOf_group]
    rw [set_frame_DURN_effect2 (clearRedo p) row (p.calcu.time_to_frame v) Action.REDO hmir hrow hfr]
    rw [set_time_DURN_effect2 p row v Action.DO hneq hrow hfr]
    dsimp only
    rw [arraysOf_register, arraysOf_register]
    dsimp only [arraysOf, setTriples, clearRedo]
    rw [hexact]


theorem set_frame_HIDE_TIME_roundtrip (p : Project) (row : Nat) (v : Int)
    (hwf : wfP p) (hdur : durationsOk p) (hsy : syncedTF p) (hm : p.mode = Mode.TIME)
    (hrow : row < p.times.length)
    (hneq : v ≠ (p.frames.getD row default).get Col.HIDE)
    (hmir : p.calcu.frame_to_time v ≠ (p.times.getD row default).get Col.HIDE)
    (hexact : p.calcu.time_to_frame (p.calcu.frame_to_time v) = v) :
    arraysOf (undo (set_frame p row Col.HIDE v Action.DO).1) = arraysOf p ∧
    arraysOf (redo (undo (set_frame p row Col.HIDE v Action.DO).1))
      = arraysOf (set_frame p row Col.HIDE v Action.DO).1 := by
  have hfr : row < p.frames.length := by
    rw [hwf.1]
    exact hrow
  have ht0mem : p.times.getD row default ∈ p.times := by
    rw [List.getD_eq_getElem _ _ hrow]
    exact List.getElem_mem _
  have ht0drn : (p.times.getD row default).drn = (p.times.getD row default).hid - (p.times.getD row default).shw := hdur.1 _ ht0mem
  have hreb := triple_rebuild (p.times.getD row default) ht0drn
  have hreb2 := triple_rebuild2 (p.times.getD row default) ht0drn
  have hf0mem : p.frames.getD row default ∈ p.frames := by
    rw [List.getD_eq_getElem _ _ hfr]
    exact List.getElem_mem _
  have hf0drn : (p.frames.getD row default).drn = (p.frames.getD row default).hid - (p.frames.getD row default).shw := hdur.2 _ hf0mem
  have hfreb := triple_rebuild (p.frames.getD row default) hf0drn
  have hfreb2 := triple_rebuild2 (p.frames.getD row default) hf0drn
  have hCget : (clearRedo (setTriples p row (⟨(p.times.getD row default).shw, p.calcu.frame_to_time v, p.calcu.frame_to_time v - (p.times.getD row default).shw⟩ : Triple Int) (⟨(p.frames.getD row default).shw, v, v - (p.frames.getD row default).shw⟩ : Triple Int))).times.getD row default = (⟨(p.times.getD row default).shw, p.calcu.frame_to_time v, p.calcu.frame_to_time v - (p.times.getD row default).shw⟩ : Triple Int) := by
    show (p.times.set row (⟨(p.times.getD row default).shw, p.calcu.frame_to_time v, p.calcu.frame_to_time v - (p.times.getD row default).shw⟩ : Triple Int)).getD row default = (⟨(p.times.getD row default).shw, p.calcu.frame_to_time v, p.calcu.frame_to_time v - (p.times.getD row default).shw⟩ : Triple Int)
    exact getD_set_self p.times row (⟨(p.times.getD row default).shw, p.calcu.frame_to_time v, p.calcu.frame_to_time v - (p.times.getD row default).shw⟩ : Triple Int) default hrow
  have hCfget : (clearRedo (setTriples p row (⟨(p.times.getD row default).shw, p.calcu.frame_to_time v, p.calcu.frame_to_time v - (p.times.getD row default).shw⟩ : Triple Int) (⟨(p.frames.getD row default).shw, v, v - (p.frames.getD row default).shw⟩ : Triple Int))).frames.getD row default = (⟨(p.frames.getD row default).shw, v, v - (p.frames.getD row default).shw⟩ : Triple Int) := by
    show (p.frames.set row (⟨(p.frames.getD row default).shw, v, v - (p.frames.getD row default).shw⟩ : Triple Int)).getD row default = (⟨(p.frames.getD row default).shw, v, v - (p.frames.getD row default).shw⟩ : Triple Int)
    exact getD_set_self p.frames row (⟨(p.frames.getD row default).shw, v, v - (p.frames.getD row default).shw⟩ : Triple Int) default hfr
  have hrow2 : row < (clearRedo (setTriples p row (⟨(p.times.getD row default).shw, p.calcu.frame_to_time v, p.calcu.frame_to_time v - (p.times.getD row default).shw⟩ : Triple Int) (⟨(p.frames.getD row default).shw, v, v - (p.frames.getD row default).shw⟩ : Triple Int))).times.length := by
    show row < (p.times.set row (⟨(p.times.getD row default).shw, p.calcu.frame_to_time v, p.calcu.frame_to_time v - (p.times.getD row default).shw⟩ : Triple Int)).length
    rw [List.length_set]
    exact hrow
  have hfr2 : row < (clearRedo (setTriples p row (⟨(p.times.getD row default).shw, p.calcu.frame_to_time v, p.calcu.frame_to_time v - (p.times.getD row default).shw⟩ : Triple Int) (⟨(p.frames.getD row default).shw, v, v - (p.frames.getD row default).shw⟩ : Triple Int))).frames.length := by
    show row < (p.frames.set row (⟨(p.frames.getD row default).shw, v, v - (p.frames.getD row default).shw⟩ : Triple Int)).length
    rw [List.length_set]
    exact hfr
  have hne2 : ((p.times.getD row default).get Col.HIDE) ≠ ((clearRedo (setTriples p row (⟨(p.times.getD row default).shw, p.calcu.frame_to_time v, p.calcu.frame_to_time v - (p.times.getD row default).shw⟩ : Triple Int) (⟨(p.frames.getD row default).shw, v, v - (p.frames.getD row default).shw⟩ : Triple Int))).times.getD row default).get Col.HIDE := by
    rw [hCget]
    intro hc
    exact hmir hc.symm
  have hrop : revertOp_of p row row Col.HIDE = RevertOp.set_time row Col.HIDE ((p.times.getD row default).get Col.HIDE) := by
    unfold revertOp_of
    rw [hm]
  have hrop2 : revertOp_of (clearRedo (setTriples p row (⟨(p.times.getD row default).shw, p.calcu.frame_to_time v, p.calcu.frame_to_time v - (p.times.getD row default).shw⟩ : Triple Int) (⟨(p.frames.getD row default).shw, v, v - (p.frames.getD row default).shw⟩ : Triple Int))) row row Col.HIDE = RevertOp.set_time row Col.HIDE (p.calcu.frame_to_time v) := by
    unfold revertOp_of
    rw [show (clearRedo (setTriples p row (⟨(p.times.getD row default).shw, p.calcu.frame_to_time v, p.calcu.frame_to_time v - (p.times.getD row default).shw⟩ : Triple Int) (⟨(p.frames.getD row default).shw, v, v - (p.frames.getD row default).shw⟩ : Triple Int))).mode = Mode.TIME from hm, hCget]
    rfl
  have hundo : undo (set_frame p row Col.HIDE v Action.DO).1
      = { p with redoables := [RevertableAction.mk [RevertOp.set_time row Col.HIDE (p.calcu.frame_to_time v)] []] } := by
    rw [set_frame_HIDE_effect2 p row v Action.DO hneq hrow hfr]
    dsimp only
    rw [undo_register_DO', hrop]
    show group_actions (set_time (clearRedo (setTriples p row (⟨(p.times.getD row default).shw, p.calcu.frame_to_time v, p.calcu.frame_to_time v - (p.times.getD row default).shw⟩ : Triple Int) (⟨(p.frames.getD row default).shw, v, v - (p.frames.getD row default).shw⟩ : Triple Int))) row Col.HIDE ((p.times.getD row default).get Col.HIDE) Action.UNDO).1 Action.UNDO 1 = _
    rw [set_time_HIDE_effect2 (clearRedo (setTriples p row (⟨(p.times.getD row default).shw, p.calcu.frame_to_time v, p.calcu.frame_to_time v - (p.times.getD row default).shw⟩ : Triple Int) (⟨(p.frames.getD row default).shw, v, v - (p.frames.getD row default).shw⟩ : Triple Int))) row ((p.times.getD row default).get Col.HIDE) Action.UNDO hne2 hrow2 hfr2]
    dsimp only
    rw [group_register_UNDO, hrop2]
    apply project_eq
    · rfl
    · rfl
    · rfl
    · show (clearRedo (setTriples p row (⟨(p.times.getD row default).shw, p.calcu.frame_to_time v, p.calcu.frame_to_time v - (p.times.getD row default).shw⟩ : Triple Int) (⟨(p.frames.getD row default).shw, v, v - (p.frames.getD row default).shw⟩ : Triple Int))).times.set row (⟨((clearRedo (setTriples p row (⟨(p.times.getD row default).shw, p.calcu.frame_to_time v, p.calcu.frame_to_time v - (p.times.getD row default).shw⟩ : Triple Int) (⟨(p.frames.getD row default).shw, v, v - (p.frames.getD row default).shw⟩ : Triple Int))).times.getD row default).shw, ((p.times.getD row default).get Col.HIDE), ((p.times.getD row default).get Col.HIDE) - ((clearRedo (setTriples p row (⟨(p.times.getD row default).shw, p.calcu.frame_to_time v, p.calcu.frame_to_time v - (p.times.getD row default).shw⟩ : Triple Int) (⟨(p.frames.getD row default).shw, v, v - (p.frames.getD row default).shw⟩ : Triple Int))).times.getD row default).shw⟩ : Triple Int) = p.times
      rw [hCget]
      dsimp only [Triple.get]
      rw [hreb]
      show (p.times.set row (⟨(p.times.getD row default).shw, p.calcu.frame_to_time v, p.calcu.frame_to_time v - (p.times.getD row default).shw⟩ : Triple Int)).set row (p.times.getD row default) = p.times
      rw [List.set_set]
      exact set_getD_self p.times row default hrow
    · show (clearRedo (setTriples p row (⟨(p.times.getD row default).shw, p.calcu.frame_to_time v, p.calcu.frame_to_time v - (p.times.getD row default).shw⟩ : Triple Int) (⟨(p.frames.getD row default).shw, v, v - (p.frames.getD row default).shw⟩ : Triple Int))).frames.set row (⟨((clearRedo (setTriples p row (⟨(p.times.getD row default).shw, p.calcu.frame_to_time v, p.calcu.frame_to_time v - (p.times.getD row default).shw⟩ : Triple Int) (⟨(p.frames.getD row default).shw, v, v - (p.frames.getD row default).shw⟩ : Triple Int))).frames.getD row default).shw, p.calcu.time_to_frame ((p.times.getD row default).get Col.HIDE), p.calcu.time_to_frame ((p.times.getD row default).get Col.HIDE) - ((clearRedo (setTriples p row (⟨(p.times.getD row default).shw, p.calcu.frame_to_time v, p.calcu.frame_to_time v - (p.times.getD row default).shw⟩ : Triple Int) (⟨(p.frames.getD row default).shw, v, v - (p.frames.getD row default).shw⟩ : Triple Int))).frames.getD row default).shw⟩ : Triple Int) = p.frames
      rw [hCfget]
      dsimp only [Triple.get]
      rw [show p.calcu.time_to_frame (p.times.getD row default).hid = (p.frames.getD row default).hid from (hsy row hrow).2.1.symm]
      rw [hfreb]
      show (p.frames.set row (⟨(p.frames.getD row default).shw, v, v - (p.frames.getD row default).shw⟩ : Triple Int)).set row (p.frames.getD row default) = p.frames
      rw [List.set_set]
      exact set_getD_self p.frames row default hfr
    · rfl
    · rfl
    · rfl
    · rfl
    · rfl
  refine ⟨?_, ?_⟩
  · rw [hundo]
    rfl
  · rw [hundo]
    rw [redo_cons p (RevertOp.set_time row Col.HIDE (p.calcu.frame_to_time v)) [] []]
    show arraysOf (group_actions (set_time (clearRedo p) row Col.HIDE (p.calcu.frame_to_time v) Action.REDO).1
      Action.REDO 1) = _
    rw [arraysOf_group]
    rw [set_time_HIDE_effect2 (clearRedo p) row (p.calcu.frame_to_time v) Action.REDO hmir hrow hfr]
    rw [set_frame_HIDE_effect2 p row v Action.DO hneq hrow hfr]
    dsimp only
    rw [arraysOf_register, arraysOf_register]
    dsimp only [arraysOf, setTriples, clearRedo]
    rw [hexact]


theorem set_frame_HIDE_FRAME_roundtrip (p : Project) (row : Nat) (v : Int)
    (hwf : wfP p) (hdur : durationsOk p) (hsy : syncedFT p) (hm : p.mode = Mode.FRAME)
    (hrow : row < p.times.length)
    (hneq : v ≠ (p.frames.getD row default).get Col.HIDE) :
    arraysOf (undo (set_frame p row Col.HIDE v Action.DO).1) = arraysOf p ∧
    arraysOf (redo (undo (set_frame p row Col.HIDE v Action.DO).1))
      = arraysOf (set_frame p row Col.HIDE v Action.DO).1 := by
  have hfr : row < p.frames.length := by
    rw [hwf.1]
    exact hrow
  have ht0mem : p.times.getD row default ∈ p.times := by
    rw [List.getD_eq_getElem _ _ hrow]
    exact List.getElem_mem _
  have ht0drn : (p.times.getD row default).drn = (p.times.getD row default).hid - (p.times.getD row default).shw := hdur.1 _ ht0mem
  have hreb := triple_rebuild (p.times.getD row default) ht0drn
  have hreb2 := triple_rebuild2 (p.times.getD row default) ht0drn
  have hf0mem : p.frames.getD row default ∈ p.frames := by
    rw [List.getD_eq_getElem _ _ hfr]
    exact List.getElem_mem _
  have hf0drn : (p.frames.getD row default).drn = (p.frames.getD row default).hid - (p.frames.getD row default).shw := hdur.2 _ hf0mem
  have hfreb := triple_rebuild (p.frames.getD row default) hf0drn
  have hfreb2 := triple_rebuild2 (p.frames.getD row default) hf0drn
  have hCget : (clearRedo (setTriples p row (⟨(p.times.getD row default).shw, p.calcu.frame_to_time v, p.calcu.frame_to_time v - (p.times.getD row default).shw⟩ : Triple Int) (⟨(p.frames.getD row default).shw, v, v - (p.frames.getD row default).shw⟩ : Triple Int))).times.getD row default = (⟨(p.times.getD row default).shw, p.calcu.frame_to_time v, p.calcu.frame_to_time v - (p.times.getD row default).shw⟩ : Triple Int) := by
    show (p.times.set row (⟨(p.times.getD row default).shw, p.calcu.frame_to_time v, p.calcu.frame_to_time v - (p.times.getD row default).shw⟩ : Triple Int)).getD row default = (⟨(p.times.getD row default).shw, p.calcu.frame_to_time v, p.calcu.frame_to_time v - (p.times.getD row default).shw⟩ : Triple Int)
    exact getD_set_self p.times row (⟨(p.times.getD row default).shw, p.calcu.frame_to_time v, p.calcu.frame_to_time v - (p.times.getD row default).shw⟩ : Triple Int) default hrow
  have hCfget : (clearRedo (setTriples p row (⟨(p.times.getD row default).shw, p.calcu.frame_to_time v, p.calcu.frame_to_time v - (p.times.getD row default).shw⟩ : Triple Int) (⟨(p.frames.getD row default).shw, v, v - (p.frames.getD row default).shw⟩ : Triple Int))).frames.getD row default = (⟨(p.frames.getD row default).shw, v, v - (p.frames.getD row default).shw⟩ : Triple Int) := by
    show (p.frames.set row (⟨(p.frames.getD row default).shw, v, v - (p.frames.getD row default).shw⟩ : Triple Int)).getD row default = (⟨(p.frames.getD row default).shw, v, v - (p.frames.getD row default).shw⟩ : Triple Int)
    exact getD_set_self p.frames row (⟨(p.frames.getD row default).shw, v, v - (p.frames.getD row default).shw⟩ : Triple Int) default hfr
  have hrow2 : row < (clearRedo (setTriples p row (⟨(p.times.getD row default).shw, p.calcu.frame_to_time v, p.calcu.frame_to_time v - (p.times.getD row default).shw⟩ : Triple Int) (⟨(p.frames.getD row default).shw, v, v - (p.frames.getD row default).shw⟩ : Triple Int))).times.length := by
    show row < (p.times.set row (⟨(p.times.getD row default).shw, p.calcu.frame_to_time v, p.calcu.frame_to_time v - (p.times.getD row default).shw⟩ : Triple Int)).length
    rw [List.length_set]
    exact hrow
  have hfr2 : row < (clearRedo (setTriples p row (⟨(p.times.getD row default).shw, p.calcu.frame_to_time v, p.calcu.frame_to_time v - (p.times.getD row default).shw⟩ : Triple Int) (⟨(p.frames.getD row default).shw, v, v - (p.frames.getD row default).shw⟩ : Triple Int))).frames.length := by
    show row < (p.frames.set row (⟨(p.frames.getD row default).shw, v, v - (p.frames.getD row default).shw⟩ : Triple Int)).length
    rw [List.length_set]
    exact hfr
  have hne2 : ((p.frames.getD row default).get Col.HIDE) ≠ ((clearRedo (setTriples p row (⟨(p.times.getD row default).shw, p.calcu.frame_to_time v, p.calcu.frame_to_time v - (p.times.getD row default).shw⟩ : Triple Int) (⟨(p.frames.getD row default).shw, v, v - (p.frames.getD row default).shw⟩ : Triple Int))).frames.getD row default).get Col.HIDE := by
    rw [hCfget]
    intro hc
    exact hneq hc.symm
  have hrop : revertOp_of p row row Col.HIDE = RevertOp.set_frame row Col.HIDE ((p.frames.getD row default).get Col.HIDE) := by
    unfold revertOp_of
    rw [hm]
  have hrop2 : revertOp_of (clearRedo (setTriples p row (⟨(p.times.getD row default).shw, p.calcu.frame_to_time v, p.calcu.frame_to_time v - (p.times.getD row default).shw⟩ : Triple Int) (⟨(p.frames.getD row default).shw, v, v - (p.frames.getD row default).shw⟩ : Triple Int))) row row Col.HIDE = RevertOp.set_frame row Col.HIDE v := by
    unfold revertOp_of
    rw [show (clearRedo (setTriples p row (⟨(p.times.getD row default).shw, p.calcu.frame_to_time v, p.calcu.frame_to_time v - (p.times.getD row default).shw⟩ : Triple Int) (⟨(p.frames.getD row default).shw, v, v - (p.frames.getD row default).shw⟩ : Triple Int))).mode = Mode.FRAME from hm, hCfget]
    rfl
  have hundo : undo (set_frame p row Col.HIDE v Action.DO).1
      = { p with redoables := [RevertableAction.mk [RevertOp.set_frame row Col.HIDE v] []] } := by
    rw [set_frame_HIDE_effect2 p row v Action.DO hneq hrow hfr]
    dsimp only
    rw [undo_register_DO', hrop]
    show group_actions (set_frame (clearRedo (setTriples p row (⟨(p.times.getD row default).shw, p.calcu.frame_to_time v, p.calcu.frame_to_time v - (p.times.getD row default).shw⟩ : Triple Int) (⟨(p.frames.getD row default).shw, v, v - (p.frames.getD row default).shw⟩ : Triple Int))) row Col.HIDE ((p.frames.getD row default).get Col.HIDE) Action.UNDO).1 Action.UNDO 1 = _
    rw [set_frame_HIDE_effect2 (clearRedo (setTriples p row (⟨(p.times.getD row default).shw, p.calcu.frame_to_time v, p.calcu.frame_to_time v - (p.times.getD row default).shw⟩ : Triple Int) (⟨(p.frames.getD row default).shw, v, v - (p.frames.getD row default).shw⟩ : Triple Int))) row ((p.frames.getD row default).get Col.HIDE) Action.UNDO hne2 hrow2 hfr2]
    dsimp only
    rw [group_register_UNDO, hrop2]
    apply project_eq
    · rfl
    · rfl
    · rfl
    · show (clearRedo (setTriples p row (⟨(p.times.getD row default).shw, p.calcu.frame_to_time v, p.calcu.frame_to_time v - (p.times.getD row default).shw⟩ : Triple Int) (⟨(p.frames.getD row default).shw, v, v - (p.frames.getD row default).shw⟩ : Triple Int))).times.set row (⟨((clearRedo (setTriples p row (⟨(p.times.getD row default).shw, p.calcu.frame_to_time v, p.calcu.frame_to_time v - (p.times.getD row default).shw⟩ : Triple Int) (⟨(p.frames.getD row default).shw, v, v - (p.frames.getD row default).shw⟩ : Triple Int))).times.getD row default).shw, p.calcu.frame_to_time ((p.frames.getD row default).get Col.HIDE), p.calcu.frame_to_time ((p.frames.getD row default).get Col.HIDE) - ((clearRedo (setTriples p row (⟨(p.times.getD row default).shw, p.calcu.frame_to_time v, p.calcu.frame_to_time v - (p.times.getD row default).shw⟩ : Triple Int) (⟨(p.frames.getD row default).shw, v, v - (p.frames.getD row default).shw⟩ : Triple Int))).times.getD row default).shw⟩ : Triple Int) = p.times
      rw [hCget]
      dsimp only [Triple.get]
      rw [show p.calcu.frame_to_time (p.frames.getD row default).hid = (p.times.getD row default).hid from (hsy row hrow).2.1.symm]
      rw [hreb]
      show (p.times.set row (⟨(p.times.getD row default).shw, p.calcu.frame_to_time v, p.calcu.frame_to_time v - (p.times.getD row default).shw⟩ : Triple Int)).set row (p.times.getD row default) = p.times
      rw [List.set_set]
      exact set_getD_self p.times row default hrow
    · show (clearRedo (setTriples p row (⟨(p.times.getD row default).shw, p.calcu.frame_to_time v, p.calcu.frame_to_time v - (p.times.getD row default).shw⟩ : Triple Int) (⟨(p.frames.getD row default).shw, v, v - (p.frames.getD row default).shw⟩ : Triple Int))).frames.set row (⟨((clearRedo (setTriples p row (⟨(p.times.getD row default).shw, p.calcu.frame_to_time v, p.calcu.frame_to_time v - (p.times.getD row default).shw⟩ : Triple Int) (⟨(p.frames.getD row default).shw, v, v - (p.frames.getD row default).shw⟩ : Triple Int))).frames.getD row default).shw, ((p.frames.getD row default).get Col.HIDE), ((p.frames.getD row default).get Col.HIDE) - ((clearRedo (setTriples p row (⟨(p.times.getD row default).shw, p.calcu.frame_to_time v, p.calcu.frame_to_time v - (p.times.getD row default).shw⟩ : Triple Int) (⟨(p.frames.getD row default).shw, v, v - (p.frames.getD row default).shw⟩ : Triple Int))).frames.getD row default).shw⟩ : Triple Int) = p.frames
      rw [hCfget]
      dsimp only [Triple.get]
      rw [hfreb]
      show (p.frames.set row (⟨(p.frames.getD row default).shw, v, v - (p.frames.getD row default).shw⟩ : Triple Int)).set row (p.frames.getD row default) = p.frames
      rw [List.set_set]
      exact set_getD_self p.frames row default hfr
    · rfl
    · rfl
    · rfl
    · rfl
    · rfl
  refine ⟨?_, ?_⟩
  · rw [hundo]
    rfl
  · rw [hundo]
    rw [redo_cons p (RevertOp.set_frame row Col.HIDE v) [] []]
    show arraysOf (group_actions (set_frame (clearRedo p) row Col.HIDE v Action.REDO).1
      Action.REDO 1) = _
    rw [arraysOf_group]
    rw [set_frame_HIDE_effect2 (clearRedo p) row v Action.REDO hneq hrow hfr]
    rw [set_frame_HIDE_effect2 p row v Action.DO hneq hrow hfr]
    dsimp only
    rw [arraysOf_register, arraysOf_register]
    rfl


theorem set_frame_DURN_TIME_roundtrip (p : Project) (row : Nat) (v : Int)
    (hwf : wfP p) (hdur : durationsOk p) (hsy : syncedTF p) (hm : p.mode = Mode.TIME)
    (hrow : row < p.times.length)
    (hneq : v ≠ (p.frames.getD row default).get Col.DURN)
    (hmir : p.calcu.frame_to_time v ≠ (p.times.getD row default).get Col.DURN)
    (hexact : p.calcu.time_to_frame (p.calcu.frame_to_time v) = v) :
    arraysOf (undo (set_frame p row Col.DURN v Action.DO).1) = arraysOf p ∧
    arraysOf (redo (undo (set_frame p row Col.DURN v Action.DO).1))
      = arraysOf (set_frame p row Col.DURN v Action.DO).1 := by
  have hfr : row < p.frames.length := by
    rw [hwf.1]
    exact hrow
  have ht0mem : p.times.getD row default ∈ p.times := by
    rw [List.getD_eq_getElem _ _ hrow]
    exact List.getElem_mem _
  have ht0drn : (p.times.getD row default).drn = (p.times.getD row default).hid - (p.times.getD row default).shw := hdur.1 _ ht0mem
  have hreb := triple_rebuild (p.times.getD row default) ht0drn
  have hreb2 := triple_rebuild2 (p.times.getD row default) ht0drn
  have hf0mem : p.frames.getD row default ∈ p.frames := by
    rw [List.getD_eq_getElem _ _ hfr]
    exact List.getElem_mem _
  have hf0drn : (p.frames.getD row default).drn = (p.frames.getD row default).hid - (p.frames.getD row default).shw := hdur.2 _ hf0mem
  have hfreb := triple_rebuild (p.frames.getD row default) hf0drn
  have hfreb2 := triple_rebuild2 (p.frames.getD row default) hf0drn
  have hCget : (clearRedo (setTriples p row (⟨(p.times.getD row default).shw, (p.times.getD row default).shw + p.calcu.frame_to_time v, p.calcu.frame_to_time v⟩ : Triple Int) (⟨(p.frames.getD row default).shw, (p.frames.getD row default).shw + v, v⟩ : Triple Int))).times.getD row default = (⟨(p.times.getD row default).shw, (p.times.getD row default).shw + p.calcu.frame_to_time v, p.calcu.frame_to_time v⟩ : Triple Int) := by
    show (p.times.set row (⟨(p.times.getD row default).shw, (p.times.getD row default).shw + p.calcu.frame_to_time v, p.calcu.frame_to_time v⟩ : Triple Int)).getD row default = (⟨(p.times.getD row default).shw, (p.times.getD row default).shw + p.calcu.frame_to_time v, p.calcu.frame_to_time v⟩ : Triple Int)
    exact getD_set_self p.times row (⟨(p.times.getD row default).shw, (p.times.getD row default).shw + p.calcu.frame_to_time v, p.calcu.frame_to_time v⟩ : Triple Int) default hrow
  have hCfget : (clearRedo (setTriples p row (⟨(p.times.getD row default).shw, (p.times.getD row default).shw + p.calcu.frame_to_time v, p.calcu.frame_to_time v⟩ : Triple Int) (⟨(p.frames.getD row default).shw, (p.frames.getD row default).shw + v, v⟩ : Triple Int))).frames.getD row default = (⟨(p.frames.getD row default).shw, (p.frames.getD row default).shw + v, v⟩ : Triple Int) := by
    show (p.frames.set row (⟨(p.frames.getD row default).shw, (p.frames.getD row default).shw + v, v⟩ : Triple Int)).getD row default = (⟨(p.frames.getD row default).shw, (p.frames.getD row default).shw + v, v⟩ : Triple Int)
    exact getD_set_self p.frames row (⟨(p.frames.getD row default).shw, (p.frames.getD row default).shw + v, v⟩ : Triple Int) default hfr
  have hrow2 : row < (clearRedo (setTriples p row (⟨(p.times.getD row default).shw, (p.times.getD row default).shw + p.calcu.frame_to_time v, p.calcu.frame_to_time v⟩ : Triple Int) (⟨(p.frames.getD row default).shw, (p.frames.getD row default).shw + v, v⟩ : Triple Int))).times.length := by
    show row < (p.times.set row (⟨(p.times.getD row default).shw, (p.times.getD row default).shw + p.calcu.frame_to_time v, p.calcu.frame_to_time v⟩ : Triple Int)).length
    rw [List.length_set]
    exact hrow
  have hfr2 : row < (clearRedo (setTriples p row (⟨(p.times.getD row default).shw, (p.times.getD row default).shw + p.calcu.frame_to_time v, p.calcu.frame_to_time v⟩ : Triple Int) (⟨(p.frames.getD row default).shw, (p.frames.getD row default).shw + v, v⟩ : Triple Int))).frames.length := by
    show row < (p.frames.set row (⟨(p.frames.getD row default).shw, (p.frames.getD row default).shw + v, v⟩ : Triple Int)).length
    rw [List.length_set]
    exact hfr
  have hne2 : ((p.times.getD row default).get Col.DURN) ≠ ((clearRedo (setTriples p row (⟨(p.times.getD row default).shw, (p.times.getD row default).shw + p.calcu.frame_to_time v, p.calcu.frame_to_time v⟩ : Triple Int) (⟨(p.frames.getD row default).shw, (p.frames.getD row default).shw + v, v⟩ : Triple Int))).times.getD row default).get Col.DURN := by
    rw [hCget]
    intro hc
    exact hmir hc.symm
  have hrop : revertOp_of p row row Col.DURN = RevertOp.set_time row Col.DURN ((p.times.getD row default).get Col.DURN) := by
    unfold revertOp_of
    rw [hm]
  have hrop2 : revertOp_of (clearRedo (setTriples p row (⟨(p.times.getD row default).shw, (p.times.getD row default).shw + p.calcu.frame_to_time v, p.calcu.frame_to_time v⟩ : Triple Int) (⟨(p.frames.getD row default).shw, (p.frames.getD row default).shw + v, v⟩ : Triple Int))) row row Col.DURN = RevertOp.set_time row Col.DURN (p.calcu.frame_to_time v) := by
    unfold revertOp_of
    rw [show (clearRedo (setTriples p row (⟨(p.times.getD row default).shw, (p.times.getD row default).shw + p.calcu.frame_to_time v, p.calcu.frame_to_time v⟩ : Triple Int) (⟨(p.frames.getD row default).shw, (p.frames.getD row default).shw + v, v⟩ : Triple Int))).mode = Mode.TIME from hm, hCget]
    rfl
  have hundo : undo (set_frame p row Col.DURN v Action.DO).1
      = { p with redoables := [RevertableAction.mk [RevertOp.set_time row Col.DURN (p.calcu.frame_to_time v)] []] } := by
    rw [set_frame_DURN_effect2 p row v Action.DO hneq hrow hfr]
    dsimp only
    rw [undo_register_DO', hrop]
    show group_actions (set_time (clearRedo (setTriples p row (⟨(p.times.getD row default).shw, (p.times.getD row default).shw + p.calcu.frame_to_time v, p.calcu.frame_to_time v⟩ : Triple Int) (⟨(p.frames.getD row default).shw, (p.frames.getD row default).shw + v, v⟩ : Triple Int))) row Col.DURN ((p.times.getD row default).get Col.DURN) Action.UNDO).1 Action.UNDO 1 = _
    rw [set_time_DURN_effect2 (clearRedo (setTriples p row (⟨(p.times.getD row default).shw, (p.times.getD row default).shw + p.calcu.frame_to_time v, p.calcu.frame_to_time v⟩ : Triple Int) (⟨(p.frames.getD row default).shw, (p.frames.getD row default).shw + v, v⟩ : Triple Int))) row ((p.times.getD row default).get Col.DURN) Action.UNDO hne2 hrow2 hfr2]
    dsimp only
    rw [group_register_UNDO, hrop2]
    apply project_eq
    · rfl
    · rfl
    · rfl
    · show (clearRedo (setTriples p row (⟨(p.times.getD row default).shw, (p.times.getD row default).shw + p.calcu.frame_to_time v, p.calcu.frame_to_time v⟩ : Triple Int) (⟨(p.frames.getD row default).shw, (p.frames.getD row default).shw + v, v⟩ : Triple Int))).times.set row (⟨((clearRedo (setTriples p row (⟨(p.times.getD row default).shw, (p.times.getD row default).shw + p.calcu.frame_to_time v, p.calcu.frame_to_time v⟩ : Triple Int) (⟨(p.frames.getD row default).shw, (p.frames.getD row default).shw + v, v⟩ : Triple Int))).times.getD row default).shw, ((clearRedo (setTriples p row (⟨(p.times.getD row default).shw, (p.times.getD row default).shw + p.calcu.frame_to_time v, p.calcu.frame_to_time v⟩ : Triple Int) (⟨(p.frames.getD row default).shw, (p.frames.getD row default).shw + v, v⟩ : Triple Int))).times.getD row default).shw + ((p.times.getD row default).get Col.DURN), ((p.times.getD row default).get Col.DURN)⟩ : Triple Int) = p.times
      rw [hCget]
      dsimp only [Triple.get]
      rw [hreb2]
      show (p.times.set row (⟨(p.times.getD row default).shw, (p.times.getD row default).shw + p.calcu.frame_to_time v, p.calcu.frame_to_time v⟩ : Triple Int)).set row (p.times.getD row default) = p.times
      rw [List.set_set]
      exact set_getD_self p.times row default hrow
    · show (clearRedo (setTriples p row (⟨(p.times.getD row default).shw, (p.times.getD row default).shw + p.calcu.frame_to_time v, p.calcu.frame_to_time v⟩ : Triple Int) (⟨(p.frames.getD row default).shw, (p.frames.getD row default).shw + v, v⟩ : Triple Int))).frames.set row (⟨((clearRedo (setTriples p row (⟨(p.times.getD row default).shw, (p.times.getD row default).shw + p.calcu.frame_to_time v, p.calcu.frame_to_time v⟩ : Triple Int) (⟨(p.frames.getD row default).shw, (p.frames.getD row default).shw + v, v⟩ : Triple Int))).frames.getD row default).shw, ((clearRedo (setTriples p row (⟨(p.times.getD row default).shw, (p.times.getD row default).shw + p.calcu.frame_to_time v, p.calcu.frame_to_time v⟩ : Triple Int) (⟨(p.frames.getD row default).shw, (p.frames.getD row default).shw + v, v⟩ : Triple Int))).frames.getD row default).shw + p.calcu.time_to_frame ((p.times.getD row default).get Col.DURN), p.calcu.time_to_frame ((p.times.getD row default).get Col.DURN)⟩ : Triple Int) = p.frames
      rw [hCfget]
      dsimp only [Triple.get]
      rw [show p.calcu.time_to_frame (p.times.getD row default).drn = (p.frames.getD row default).drn from (hsy row hrow).2.2.symm]
      rw [hfreb2]
      show (p.frames.set row (⟨(p.frames.getD row default).shw, (p.frames.getD row default).shw + v, v⟩ : Triple Int)).set row (p.frames.getD row default) = p.frames
      rw [List.set_set]
      exact set_getD_self p.frames row default hfr
    · rfl
    · rfl
    · rfl
    · rfl
    · rfl
  refine ⟨?_, ?_⟩
  · rw [hundo]
    rfl
  · rw [hundo]
    rw [redo_cons p (RevertOp.set_time row Col.DURN (p.calcu.frame_to_time v)) [] []]
    show arraysOf (group_actions (set_time (clearRedo p) row Col.DURN (p.calcu.frame_to_time v) Action.REDO).1
      Action.REDO 1) = _
    rw [arraysOf_group]
    rw [set_time_DURN_effect2 (clearRedo p) row (p.calcu.frame_to_time v) Action.REDO hmir hrow hfr]
    rw [set_frame_DURN_effect2 p row v Action.DO hneq hrow hfr]
    dsimp only
    rw [arraysOf_register, arraysOf_register]
    dsimp only [arraysOf, setTriples, clearRedo]
    rw [hexact]


theorem set_frame_DURN_FRAME_roundtrip (p : Project) (row : Nat) (v : Int)
    (hwf : wfP p) (hdur : durationsOk p) (hsy : syncedFT p) (hm : p.mode = Mode.FRAME)
    (hrow : row < p.times.length)
    (hneq : v ≠ (p.frames.getD row default).get Col.DURN) :
    arraysOf (undo (set_frame p row Col.DURN v Action.DO).1) = arraysOf p ∧
    arraysOf (redo (undo (set_frame p row Col.DURN v Action.DO).1))
      = arraysOf (set_frame p row Col.DURN v Action.DO).1 := by
  have hfr : row < p.frames.length := by
    rw [hwf.1]
    exact hrow
  have ht0mem : p.times.getD row default ∈ p.times := by
    rw [List.getD_eq_getElem _ _ hrow]
    exact List.getElem_mem _
  have ht0drn : (p.times.getD row default).drn = (p.times.getD row default).hid - (p.times.getD row default).shw := hdur.1 _ ht0mem
  have hreb := triple_rebuild (p.times.getD row default) ht0drn
  have hreb2 := triple_rebuild2 (p.times.getD row default) ht0drn
  have hf0mem : p.frames.getD row default ∈ p.frames := by
    rw [List.getD_eq_getElem _ _ hfr]
    exact List.getElem_mem _
  have hf0drn : (p.frames.getD row default).drn = (p.frames.getD row default).hid - (p.frames.getD row default).shw := hdur.2 _ hf0mem
  have hfreb := triple_rebuild (p.frames.getD row default) hf0drn
  have hfreb2 := triple_rebuild2 (p.frames.getD row default) hf0drn
  have hCget : (clearRedo (setTriples p row (⟨(p.times.getD row default).shw, (p.times.getD row default).shw + p.calcu.frame_to_time v, p.calcu.frame_to_time v⟩ : Triple Int) (⟨(p.frames.getD row default).shw, (p.frames.getD row default).shw + v, v⟩ : Triple Int))).times.getD row default = (⟨(p.times.getD row default).shw, (p.times.getD row default).shw + p.calcu.frame_to_time v, p.calcu.frame_to_time v⟩ : Triple Int) := by
    show (p.times.set row (⟨(p.times.getD row default).shw, (p.times.getD row default).shw + p.calcu.frame_to_time v, p.calcu.frame_to_time v⟩ : Triple Int)).getD row default = (⟨(p.times.getD row default).shw, (p.times.getD row default).shw + p.calcu.frame_to_time v, p.calcu.frame_to_time v⟩ : Triple Int)
    exact getD_set_self p.times row (⟨(p.times.getD row default).shw, (p.times.getD row default).shw + p.calcu.frame_to_time v, p.calcu.frame_to_time v⟩ : Triple Int) default hrow
  have hCfget : (clearRedo (setTriples p row (⟨(p.times.getD row default).shw, (p.times.getD row default).shw + p.calcu.frame_to_time v, p.calcu.frame_to_time v⟩ : Triple Int) (⟨(p.frames.getD row default).shw, (p.frames.getD row default).shw + v, v⟩ : Triple Int))).frames.getD row default = (⟨(p.frames.getD row default).shw, (p.frames.getD row default).shw + v, v⟩ : Triple Int) := by
    show (p.frames.set row (⟨(p.frames.getD row default).shw, (p.frames.getD row default).shw + v, v⟩ : Triple Int)).getD row default = (⟨(p.frames.getD row default).shw, (p.frames.getD row default).shw + v, v⟩ : Triple Int)
    exact getD_set_self p.frames row (⟨(p.frames.getD row default).shw, (p.frames.getD row default).shw + v, v⟩ : Triple Int) default hfr
  have hrow2 : row < (clearRedo (setTriples p row (⟨(p.times.getD row default).shw, (p.times.getD row default).shw + p.calcu.frame_to_time v, p.calcu.frame_to_time v⟩ : Triple Int) (⟨(p.frames.getD row default).shw, (p.frames.getD row default).shw + v, v⟩ : Triple Int))).times.length := by
    show row < (p.times.set row (⟨(p.times.getD row default).shw, (p.times.getD row default).shw + p.calcu.frame_to_time v, p.calcu.frame_to_time v⟩ : Triple Int)).length
    rw [List.length_set]
    exact hrow
  have hfr2 : row < (clearRedo (setTriples p row (⟨(p.times.getD row default).shw, (p.times.getD row default).shw + p.calcu.frame_to_time v, p.calcu.frame_to_time v⟩ : Triple Int) (⟨(p.frames.getD row default).shw, (p.frames.getD row default).shw + v, v⟩ : Triple Int))).frames.length := by
    show row < (p.frames.set row (⟨(p.frames.getD row default).shw, (p.frames.getD row default).shw + v, v⟩ : Triple Int)).length
    rw [List.length_set]
    exact hfr
  have hne2 : ((p.frames.getD row default).get Col.DURN) ≠ ((clearRedo (setTriples p row (⟨(p.times.getD row default).shw, (p.times.getD row default).shw + p.calcu.frame_to_time v, p.calcu.frame_to_time v⟩ : Triple Int) (⟨(p.frames.getD row default).shw, (p.frames.getD row default).shw + v, v⟩ : Triple Int))).frames.getD row default).get Col.DURN := by
    rw [hCfget]
    intro hc
    exact hneq hc.symm
  have hrop : revertOp_of p row row Col.DURN = RevertOp.set_frame row Col.DURN ((p.frames.getD row default).get Col.DURN) := by
    unfold revertOp_of
    rw [hm]
  have hrop2 : revertOp_of (clearRedo (setTriples p row (⟨(p.times.getD row default).shw, (p.times.getD row default).shw + p.calcu.frame_to_time v, p.calcu.frame_to_time v⟩ : Triple Int) (⟨(p.frames.getD row default).shw, (p.frames.getD row default).shw + v, v⟩ : Triple Int))) row row Col.DURN = RevertOp.set_frame row Col.DURN v := by
    unfold revertOp_of
    rw [show (clearRedo (setTriples p row (⟨(p.times.getD row default).shw, (p.times.getD row default).shw + p.calcu.frame_to_time v, p.calcu.frame_to_time v⟩ : Triple Int) (⟨(p.frames.getD row default).shw, (p.frames.getD row default).shw + v, v⟩ : Triple Int))).mode = Mode.FRAME from hm, hCfget]
    rfl
  have hundo : undo (set_frame p row Col.DURN v Action.DO).1
      = { p with redoables := [RevertableAction.mk [RevertOp.set_frame row Col.DURN v] []] } := by
    rw [set_frame_DURN_effect2 p row v Action.DO hneq hrow hfr]
    dsimp only
    rw [undo_register_DO', hrop]
    show group_actions (set_frame (clearRedo (setTriples p row (⟨(p.times.getD row default).shw, (p.times.getD row default).shw + p.calcu.frame_to_time v, p.calcu.frame_to_time v⟩ : Triple Int) (⟨(p.frames.getD row default).shw, (p.frames.getD row default).shw + v, v⟩ : Triple Int))) row Col.DURN ((p.frames.getD row default).get Col.DURN) Action.UNDO).1 Action.UNDO 1 = _
    rw [set_frame_DURN_effect2 (clearRedo (setTriples p row (⟨(p.times.getD row default).shw, (p.times.getD row default).shw + p.calcu.frame_to_time v, p.calcu.frame_to_time v⟩ : Triple Int) (⟨(p.frames.getD row default).shw, (p.frames.getD row default).shw + v, v⟩ : Triple Int))) row ((p.frames.getD row default).get Col.DURN) Action.UNDO hne2 hrow2 hfr2]
    dsimp only
    rw [group_register_UNDO, hrop2]
    apply project_eq
    · rfl
    · rfl
    · rfl
    · show (clearRedo (setTriples p row (⟨(p.times.getD row default).shw, (p.times.getD row default).shw + p.calcu.frame_to_time v, p.calcu.frame_to_time v⟩ : Triple Int) (⟨(p.frames.getD row default).shw, (p.frames.getD row default).shw + v, v⟩ : Triple Int))).times.set row (⟨((clearRedo (setTriples p row (⟨(p.times.getD row default).shw, (p.times.getD row default).shw + p.calcu.frame_to_time v, p.calcu.frame_to_time v⟩ : Triple Int) (⟨(p.frames.getD row default).shw, (p.frames.getD row default).shw + v, v⟩ : Triple Int))).times.getD row default).shw, ((clearRedo (setTriples p row (⟨(p.times.getD row default).shw, (p.times.getD row default).shw + p.calcu.frame_to_time v, p.calcu.frame_to_time v⟩ : Triple Int) (⟨(p.frames.getD row default).shw, (p.frames.getD row default).shw + v, v⟩ : Triple Int))).times.getD row default).shw + p.calcu.frame_to_time ((p.frames.getD row default).get Col.DURN), p.calcu.frame_to_time ((p.frames.getD row default).get Col.DURN)⟩ : Triple Int) = p.times
      rw [hCget]
      dsimp only [Triple.get]
      rw [show p.calcu.frame_to_time (p.frames.getD row default).drn = (p.times.getD row default).drn from (hsy row hrow).2.2.symm]
      rw [hreb2]
      show (p.times.set row (⟨(p.times.getD row default).shw, (p.times.getD row default).shw + p.calcu.frame_to_time v, p.calcu.frame_to_time v⟩ : Triple Int)).set row (p.times.getD row default) = p.times
      rw [List.set_set]
      exact set_getD_self p.times row default hrow
    · show (clearRedo (setTriples p row (⟨(p.times.getD row default).shw, (p.times.getD row default).shw + p.calcu.frame_to_time v, p.calcu.frame_to_time v⟩ : Triple Int) (⟨(p.frames.getD row default).shw, (p.frames.getD row default).shw + v, v⟩ : Triple Int))).frames.set row (⟨((clearRedo (setTriples p row (⟨(p.times.getD row default).shw, (p.times.getD row default).shw + p.calcu.frame_to_time v, p.calcu.frame_to_time v⟩ : Triple Int) (⟨(p.frames.getD row default).shw, (p.frames.getD row default).shw + v, v⟩ : Triple Int))).frames.getD row default).shw, ((clearRedo (setTriples p row (⟨(p.times.getD row default).shw, (p.times.getD row default).shw + p.calcu.frame_to_time v, p.calcu.frame_to_time v⟩ : Triple Int) (⟨(p.frames.getD row default).shw, (p.frames.getD row default).shw + v, v⟩ : Triple Int))).frames.getD row default).shw + ((p.frames.getD row default).get Col.DURN), ((p.frames.getD row default).get Col.DURN)⟩ : Triple Int) = p.frames
      rw [hCfget]
      dsimp only [Triple.get]
      rw [hfreb2]
      show (p.frames.set row (⟨(p.frames.getD row default).shw, (p.frames.getD row default).shw + v, v⟩ : Triple Int)).set row (p.frames.getD row default) = p.frames
      rw [List.set_set]
      exact set_getD_self p.frames row default hfr
    · rfl
    · rfl
    · rfl
    · rfl
    · rfl
  refine ⟨?_, ?_⟩
  · rw [hundo]
    rfl
  · rw [hundo]
    rw [redo_cons p (RevertOp.set_frame row Col.DURN v) [] []]
    show arraysOf (group_actions (set_frame (clearRedo p) row Col.DURN v Action.REDO).1
      Action.REDO 1) = _
    rw [arraysOf_group]
    rw [set_frame_DURN_effect2 (clearRedo p) row v Action.REDO hneq hrow hfr]
    rw [set_frame_DURN_effect2 p row v Action.DO hneq hrow hfr]
    dsimp only
    rw [arraysOf_register, arraysOf_register]
    rfl

theorem insOk_range'_le (n : Nat) : ∀ (s L : Nat), s ≤ L → insOk L (List.range' s n) = true := by
  induction n with
  | zero =>
      intro s L h
      rfl
  | succ m ih =>
      intro s L h
      rw [List.range'_succ, insOk, ih (s + 1) (L + 1) (by omega)]
      simp
      omega

theorem insertIdx_eq_take_cons_drop (l : List α) (s : Nat) (x : α) (hs : s ≤ l.length) :
    l.insertIdx s x = l.take s ++ x :: l.drop s := by
  have h2 := insertIdx_append_mid (l.take s) (l.drop s) x
  rw [List.length_take_of_le hs] at h2
  conv_lhs => rw [← List.take_append_drop s l]
  exact h2

theorem insertLoop_block (ext : List α) : ∀ (l : List α) (s : Nat), s ≤ l.length →
    insertLoop l (List.range' s ext.length) ext = l.take s ++ ext ++ l.drop s := by
  induction ext with
  | nil =>
      intro l s hs
      simp [insertLoop]
  | cons v vs ih =>
      intro l s hs
      rw [List.length_cons, List.range'_succ, insertLoop]
      have hlen : (l.insertIdx s v).length = l.length + 1 := List.length_insertIdx _ _ hs
      rw [ih (l.insertIdx s v) (s + 1) (by omega)]
      rw [insertIdx_eq_take_cons_drop l s v hs]
      have htake : (l.take s ++ v :: l.drop s).take (s + 1) = l.take s ++ [v] := by
        rw [show s + 1 = (l.take s).length + 1 from by rw [List.length_take_of_le hs]]
        rw [List.take_append]
        rfl
      have hdrop : (l.take s ++ v :: l.drop s).drop (s + 1) = l.drop s := by
        rw [show s + 1 = (l.take s).length + 1 from by rw [List.length_take_of_le hs]]
        rw [List.drop_append]
        rfl
      rw [htake, hdrop]
      simp

theorem removeLoop_block [Inhabited α] (l ext : List α) (s : Nat) (hs : s ≤ l.length) :
    removeLoop (l.take s ++ ext ++ l.drop s) (List.range' s ext.length) = (l, ext) := by
  have h := removeLoop_insertLoop l (List.range' s ext.length) ext
    (insOk_range'_le ext.length s l.length hs) (by simp)
  rwa [insertLoop_block ext l s hs] at h

theorem insertionSort_sorted_id (l : List Nat) (hs : l.Sorted (fun a b : Nat => a ≤ b)) :
    List.insertionSort (fun a b : Nat => a ≤ b) l = l :=
  List.eq_of_perm_of_sorted (List.perm_insertionSort _ _) (List.sorted_insertionSort _ _) hs

theorem insert_blank_block (p : Project) (s k : Nat) (hk : 1 ≤ k)
    (hs : s ≤ p.times.length) (hwf : wfP p) :
    ∃ ts fs : List (Triple Int), ts.length = k ∧ fs.length = k ∧
      insert_blank p (List.range' s k)
        = { p with
            times := p.times.take s ++ ts ++ p.times.drop s
            frames := p.frames.take s ++ fs ++ p.frames.drop s
            main_texts := p.main_texts.take s ++ List.replicate k blank ++ p.main_texts.drop s
            tran_texts :=
              p.tran_texts.take s ++ List.replicate k blank ++ p.tran_texts.drop s } := by
  have hfl : s ≤ p.frames.length := by
    rw [hwf.1]
    exact hs
  have hml : s ≤ p.main_texts.length := by
    rw [hwf.2.1]
    exact hs
  have htl : s ≤ p.tran_texts.length := by
    rw [hwf.2.2]
    exact hs
  unfold insert_blank
  rw [List.length_range', min?_range' s k hk]
  cases hm : p.mode
  · dsimp only [Option.getD_some]
    generalize hST : (if s > 0 then p.calcu.time_to_seconds ((p.times.getD (s - 1) default).hid) else (0 : ℚ)) = ST
    generalize hDU : (if s < p.times.length then (p.calcu.time_to_seconds ((p.times.getD s default).shw) - ST) / (k : ℚ) else (3 : ℚ)) = DU
    rw [foldl_project_insert p k s (fun (i : Nat) => (⟨p.calcu.seconds_to_time (ST + (i : ℚ) * DU), p.calcu.seconds_to_time (ST + ((i : ℚ) + 1) * DU), p.calcu.get_time_duration (p.calcu.seconds_to_time (ST + (i : ℚ) * DU)) (p.calcu.seconds_to_time (ST + ((i : ℚ) + 1) * DU))⟩ : Triple Int)) (fun (i : Nat) => (⟨p.calcu.time_to_frame (p.calcu.seconds_to_time (ST + (i : ℚ) * DU)), p.calcu.time_to_frame (p.calcu.seconds_to_time (ST + ((i : ℚ) + 1) * DU)), p.calcu.get_frame_duration (p.calcu.time_to_frame (p.calcu.seconds_to_time (ST + (i : ℚ) * DU))) (p.calcu.time_to_frame (p.calcu.seconds_to_time (ST + ((i : ℚ) + 1) * DU)))⟩ : Triple Int))]
    refine ⟨(List.range k).map (fun (i : Nat) => (⟨p.calcu.seconds_to_time (ST + (i : ℚ) * DU), p.calcu.seconds_to_time (ST + ((i : ℚ) + 1) * DU), p.calcu.get_time_duration (p.calcu.seconds_to_time (ST + (i : ℚ) * DU)) (p.calcu.seconds_to_time (ST + ((i : ℚ) + 1) * DU))⟩ : Triple Int)), (List.range k).map (fun (i : Nat) => (⟨p.calcu.time_to_frame (p.calcu.seconds_to_time (ST + (i : ℚ) * DU)), p.calcu.time_to_frame (p.calcu.seconds_to_time (ST + ((i : ℚ) + 1) * DU)), p.calcu.get_frame_duration (p.calcu.time_to_frame (p.calcu.seconds_to_time (ST + (i : ℚ) * DU))) (p.calcu.time_to_frame (p.calcu.seconds_to_time (ST + ((i : ℚ) + 1) * DU)))⟩ : Triple Int)),
      by rw [List.length_map, List.length_range],
      by rw [List.length_map, List.length_range], ?_⟩
    have e1 : (List.range k).foldl (fun l i => l.insertIdx (s + i) ((fun (i : Nat) => (⟨p.calcu.seconds_to_time (ST + (i : ℚ) * DU), p.calcu.seconds_to_time (ST + ((i : ℚ) + 1) * DU), p.calcu.get_time_duration (p.calcu.seconds_to_time (ST + (i : ℚ) * DU)) (p.calcu.seconds_to_time (ST + ((i : ℚ) + 1) * DU))⟩ : Triple Int)) i)) p.times = p.times.take s ++ (List.range k).map (fun (i : Nat) => (⟨p.calcu.seconds_to_time (ST + (i : ℚ) * DU), p.calcu.seconds_to_time (ST + ((i : ℚ) + 1) * DU), p.calcu.get_time_duration (p.calcu.seconds_to_time (ST + (i : ℚ) * DU)) (p.calcu.seconds_to_time (ST + ((i : ℚ) + 1) * DU))⟩ : Triple Int)) ++ p.times.drop s :=
      foldl_insert_block p.times s k _ hs
    have e2 : (List.range k).foldl (fun l i => l.insertIdx (s + i) ((fun (i : Nat) => (⟨p.calcu.time_to_frame (p.calcu.seconds_to_time (ST + (i : ℚ) * DU)), p.calcu.time_to_frame (p.calcu.seconds_to_time (ST + ((i : ℚ) + 1) * DU)), p.calcu.get_frame_duration (p.calcu.time_to_frame (p.calcu.seconds_to_time (ST + (i : ℚ) * DU))) (p.calcu.time_to_frame (p.calcu.seconds_to_time (ST + ((i : ℚ) + 1) * DU)))⟩ : Triple Int)) i)) p.frames = p.frames.take s ++ (List.range k).map (fun (i : Nat) => (⟨p.calcu.time_to_frame (p.calcu.seconds_to_time (ST + (i : ℚ) * DU)), p.calcu.time_to_frame (p.calcu.seconds_to_time (ST + ((i : ℚ) + 1) * DU)), p.calcu.get_frame_duration (p.calcu.time_to_frame (p.calcu.seconds_to_time (ST + (i : ℚ) * DU))) (p.calcu.time_to_frame (p.calcu.seconds_to_time (ST + ((i : ℚ) + 1) * DU)))⟩ : Triple Int)) ++ p.frames.drop s :=
      foldl_insert_block p.frames s k _ hfl
    have e3 : (List.range k).foldl (fun l i => l.insertIdx (s + i) ((fun (j : Nat) => blank) i)) p.main_texts = p.main_texts.take s ++ List.replicate k blank ++ p.main_texts.drop s := by
      rw [foldl_insert_block p.main_texts s k _ hml, List.map_const']
      rw [List.length_range]
    have e4 : (List.range k).foldl (fun l i => l.insertIdx (s + i) ((fun (j : Nat) => blank) i)) p.tran_texts = p.tran_texts.take s ++ List.replicate k blank ++ p.tran_texts.drop s := by
      rw [foldl_insert_block p.tran_texts s k _ htl, List.map_const']
      rw [List.length_range]
    rw [e1, e2, e3, e4, hm]
  · dsimp only [Option.getD_some]
    generalize hST : (if s > 0 then ((p.frames.getD (s - 1) default).hid) else (0 : Int)) = ST
    generalize hDU : (if s < p.times.length then (((p.frames.getD s default).shw - ST).tdiv ((k : Nat) : Int)) else round (p.framerate * 3)) = DU
    rw [foldl_project_insert p k s (fun (i : Nat) => (⟨p.calcu.frame_to_time (ST + (i : Int) * DU), p.calcu.frame_to_time (ST + ((i : Int) + 1) * DU), p.calcu.get_time_duration (p.calcu.frame_to_time (ST + (i : Int) * DU)) (p.calcu.frame_to_time (ST + ((i : Int) + 1) * DU))⟩ : Triple Int)) (fun (i : Nat) => (⟨ST + (i : Int) * DU, ST + ((i : Int) + 1) * DU, p.calcu.get_frame_duration (ST + (i : Int) * DU) (ST + ((i : Int) + 1) * DU)⟩ : Triple Int))]
    refine ⟨(List.range k).map (fun (i : Nat) => (⟨p.calcu.frame_to_time (ST + (i : Int) * DU), p.calcu.frame_to_time (ST + ((i : Int) + 1) * DU), p.calcu.get_time_duration (p.calcu.frame_to_time (ST + (i : Int) * DU)) (p.calcu.frame_to_time (ST + ((i : Int) + 1) * DU))⟩ : Triple Int)), (List.range k).map (fun (i : Nat) => (⟨ST + (i : Int) * DU, ST + ((i : Int) + 1) * DU, p.calcu.get_frame_duration (ST + (i : Int) * DU) (ST + ((i : Int) + 1) * DU)⟩ : Triple Int)),
      by rw [List.length_map, List.length_range],
      by rw [List.length_map, List.length_range], ?_⟩
    have e1 : (List.range k).foldl (fun l i => l.insertIdx (s + i) ((fun (i : Nat) => (⟨p.calcu.frame_to_time (ST + (i : Int) * DU), p.calcu.frame_to_time (ST + ((i : Int) + 1) * DU), p.calcu.get_time_duration (p.calcu.frame_to_time (ST + (i : Int) * DU)) (p.calcu.frame_to_time (ST + ((i : Int) + 1) * DU))⟩ : Triple Int)) i)) p.times = p.times.take s ++ (List.range k).map (fun (i : Nat) => (⟨p.calcu.frame_to_time (ST + (i : Int) * DU), p.calcu.frame_to_time (ST + ((i : Int) + 1) * DU), p.calcu.get_time_duration (p.calcu.frame_to_time (ST + (i : Int) * DU)) (p.calcu.frame_to_time (ST + ((i : Int) + 1) * DU))⟩ : Triple Int)) ++ p.times.drop s :=
      foldl_insert_block p.times s k _ hs
    have e2 : (List.range k).foldl (fun l i => l.insertIdx (s + i) ((fun (i : Nat) => (⟨ST + (i : Int) * DU, ST + ((i : Int) + 1) * DU, p.calcu.get_frame_duration (ST + (i : Int) * DU) (ST + ((i : Int) + 1) * DU)⟩ : Triple Int)) i)) p.frames = p.frames.take s ++ (List.range k).map (fun (i : Nat) => (⟨ST + (i : Int) * DU, ST + ((i : Int) + 1) * DU, p.calcu.get_frame_duration (ST + (i : Int) * DU) (ST + ((i : Int) + 1) * DU)⟩ : Triple Int)) ++ p.frames.drop s :=
      foldl_insert_block p.frames s k _ hfl
    have e3 : (List.range k).foldl (fun l i => l.insertIdx (s + i) ((fun (j : Nat) => blank) i)) p.main_texts = p.main_texts.take s ++ List.replicate k blank ++ p.main_texts.drop s := by
      rw [foldl_insert_block p.main_texts s k _ hml, List.map_const']
      rw [List.length_range]
    have e4 : (List.range k).foldl (fun l i => l.insertIdx (s + i) ((fun (j : Nat) => blank) i)) p.tran_texts = p.tran_texts.take s ++ List.replicate k blank ++ p.tran_texts.drop s := by
      rw [foldl_insert_block p.tran_texts s k _ htl, List.map_const']
      rw [List.length_range]
    rw [e1, e2, e3, e4, hm]

theorem set_text_eff (p : Project) (row : Nat) (v : String) (reg : Action)
    (hne : v ≠ p.main_texts.getD row blank) :
    set_text p row Document.MAIN v reg
      = register_action { p with main_texts := p.main_texts.set row v } reg
          (RevertOp.set_text row Document.MAIN (p.main_texts.getD row blank)) [] := by
  unfold set_text
  dsimp only
  rw [if_neg hne]

theorem set_text_eff_tran (p : Project) (row : Nat) (v : String) (reg : Action)
    (hne : v ≠ p.tran_texts.getD row blank) :
    set_text p row Document.TRAN v reg
      = register_action { p with tran_texts := p.tran_texts.set row v } reg
          (RevertOp.set_text row Document.TRAN (p.tran_texts.getD row blank)) [] := by
  unfold set_text
  dsimp only
  rw [if_neg hne]

theorem set_text_MAIN_roundtrip (p : Project) (row : Nat) (v : String)
    (hrow : row < p.main_texts.length) (hne : v ≠ p.main_texts.getD row blank) :
    arraysOf (undo (set_text p row Document.MAIN v Action.DO)) = arraysOf p ∧
    arraysOf (redo (undo (set_text p row Document.MAIN v Action.DO)))
      = arraysOf (set_text p row Document.MAIN v Action.DO) := by
  have hget : (p.main_texts.set row v).getD row blank = v :=
    getD_set_self p.main_texts row v blank hrow
  have hrestore : (p.main_texts.set row v).set row (p.main_texts.getD row blank)
      = p.main_texts := by
    rw [List.set_set]
    exact set_getD_self p.main_texts row blank hrow
  have hundo : undo (set_text p row Document.MAIN v Action.DO)
      = { p with redoables :=
          [RevertableAction.mk [RevertOp.set_text row Document.MAIN v] []] } := by
    rw [set_text_eff p row v Action.DO hne, undo_register_DO']
    show group_actions (set_text (clearRedo { p with main_texts := p.main_texts.set row v }) row Document.MAIN (p.main_texts.getD row blank) Action.UNDO) Action.UNDO 1 = _
    unfold set_text
    dsimp only [clearRedo]
    rw [hget, if_neg (fun hc => hne hc.symm), hrestore, group_register_UNDO]
  refine ⟨by rw [hundo]; rfl, ?_⟩
  rw [hundo, redo_cons p (RevertOp.set_text row Document.MAIN v) [] []]
  show arraysOf (group_actions (set_text (clearRedo p) row Document.MAIN v Action.REDO) Action.REDO 1) = _
  rw [arraysOf_group, set_text_eff (clearRedo p) row v Action.REDO hne,
    set_text_eff p row v Action.DO hne]
  rfl

theorem set_text_TRAN_roundtrip (p : Project) (row : Nat) (v : String)
    (hrow : row < p.tran_texts.length) (hne : v ≠ p.tran_texts.getD row blank) :
    arraysOf (undo (set_text p row Document.TRAN v Action.DO)) = arraysOf p ∧
    arraysOf (redo (undo (set_text p row Document.TRAN v Action.DO)))
      = arraysOf (set_text p row Document.TRAN v Action.DO) := by
  have hget : (p.tran_texts.set row v).getD row blank = v :=
    getD_set_self p.tran_texts row v blank hrow
  have hrestore : (p.tran_texts.set row v).set row (p.tran_texts.getD row blank)
      = p.tran_texts := by
    rw [List.set_set]
    exact set_getD_self p.tran_texts row blank hrow
  have hundo : undo (set_text p row Document.TRAN v Action.DO)
      = { p with redoables :=
          [RevertableAction.mk [RevertOp.set_text row Document.TRAN v] []] } := by
    rw [set_text_eff_tran p row v Action.DO hne, undo_register_DO']
    show group_actions (set_text (clearRedo { p with tran_texts := p.tran_texts.set row v }) row Document.TRAN (p.tran_texts.getD row blank) Action.UNDO) Action.UNDO 1 = _
    unfold set_text
    dsimp only [clearRedo]
    rw [hget, if_neg (fun hc => hne hc.symm), hrestore, group_register_UNDO]
  refine ⟨by rw [hundo]; rfl, ?_⟩
  rw [hundo, redo_cons p (RevertOp.set_text row Document.TRAN v) [] []]
  show arraysOf (group_actions (set_text (clearRedo p) row Document.TRAN v Action.REDO) Action.REDO 1) = _
  rw [arraysOf_group, set_text_eff_tran (clearRedo p) row v Action.REDO hne,
    set_text_eff_tran p row v Action.DO hne]
  rfl

theorem replace_texts_MAIN_roundtrip (p : Project) (rows : List Nat) (nts : List String)
    (hnd : rows.Nodup) (hl : nts.length = rows.length)
    (hb : ∀ r ∈ rows, r < p.main_texts.length) :
    arraysOf (undo (replace_texts p rows Document.MAIN nts Action.DO)) = arraysOf p ∧
    arraysOf (redo (undo (replace_texts p rows Document.MAIN nts Action.DO)))
      = arraysOf (replace_texts p rows Document.MAIN nts Action.DO) := by
  have hinv := replaceLoop_invol p.main_texts rows nts hnd hb hl
  have hundo : undo (replace_texts p rows Document.MAIN nts Action.DO)
      = { p with redoables := [RevertableAction.mk
          [RevertOp.replace_texts rows Document.MAIN nts] []] } := by
    rw [show replace_texts p rows Document.MAIN nts Action.DO
        = register_action { p with main_texts := (replaceLoop p.main_texts rows nts).1 }
            Action.DO
            (RevertOp.replace_texts rows Document.MAIN (replaceLoop p.main_texts rows nts).2)
            [] from rfl]
    rw [undo_register_DO']
    show group_actions (replace_texts (clearRedo { p with main_texts := (replaceLoop p.main_texts rows nts).1 }) rows Document.MAIN (replaceLoop p.main_texts rows nts).2 Action.UNDO) Action.UNDO 1 = _
    unfold replace_texts
    dsimp only [clearRedo]
    rw [hinv, group_register_UNDO]
  refine ⟨by rw [hundo]; rfl, ?_⟩
  rw [hundo, redo_cons p (RevertOp.replace_texts rows Document.MAIN nts) [] []]
  show arraysOf (group_actions (replace_texts (clearRedo p) rows Document.MAIN nts Action.REDO) Action.REDO 1) = _
  rw [arraysOf_group]
  rfl

theorem replace_texts_TRAN_roundtrip (p : Project) (rows : List Nat) (nts : List String)
    (hnd : rows.Nodup) (hl : nts.length = rows.length)
    (hb : ∀ r ∈ rows, r < p.tran_texts.length) :
    arraysOf (undo (replace_texts p rows Document.TRAN nts Action.DO)) = arraysOf p ∧
    arraysOf (redo (undo (replace_texts p rows Document.TRAN nts Action.DO)))
      = arraysOf (replace_texts p rows Document.TRAN nts Action.DO) := by
  have hinv := replaceLoop_invol p.tran_texts rows nts hnd hb hl
  have hundo : undo (replace_texts p rows Document.TRAN nts Action.DO)
      = { p with redoables := [RevertableAction.mk
          [RevertOp.replace_texts rows Document.TRAN nts] []] } := by
    rw [show replace_texts p rows Document.TRAN nts Action.DO
        = register_action { p with tran_texts := (replaceLoop p.tran_texts rows nts).1 }
            Action.DO
            (RevertOp.replace_texts rows Document.TRAN (replaceLoop p.tran_texts rows nts).2)
            [] from rfl]
    rw [undo_register_DO']
    show group_actions (replace_texts (clearRedo { p with tran_texts := (replaceLoop p.tran_texts rows nts).1 }) rows Document.TRAN (replaceLoop p.tran_texts rows nts).2 Action.UNDO) Action.UNDO 1 = _
    unfold replace_texts
    dsimp only [clearRedo]
    rw [hinv, group_register_UNDO]
  refine ⟨by rw [hundo]; rfl, ?_⟩
  rw [hundo, redo_cons p (RevertOp.replace_texts rows Document.TRAN nts) [] []]
  show arraysOf (group_actions (replace_texts (clearRedo p) rows Document.TRAN nts Action.REDO) Action.REDO 1) = _
  rw [arraysOf_group]
  rfl

theorem replace_both_texts_roundtrip (P : Project) (mr tr : List Nat) (mts tts : List String)
    (hndm : mr.Nodup) (hndt : tr.Nodup) (hlm : mts.length = mr.length)
    (hlt : tts.length = tr.length) (hbm : ∀ r ∈ mr, r < P.main_texts.length)
    (hbt : ∀ r ∈ tr, r < P.tran_texts.length) :
    arraysOf (undo (replace_both_texts P mr tr mts tts Action.DO)) = arraysOf P ∧
    arraysOf (redo (undo (replace_both_texts P mr tr mts tts Action.DO)))
      = arraysOf (replace_both_texts P mr tr mts tts Action.DO) := by
  have hinvm := replaceLoop_invol P.main_texts mr mts hndm hbm hlm
  have hinvt := replaceLoop_invol P.tran_texts tr tts hndt hbt hlt
  have hundo : undo (replace_both_texts P mr tr mts tts Action.DO)
      = { P with redoables := [RevertableAction.mk
          [RevertOp.replace_both_texts mr tr mts tts] []] } := by
    rw [show replace_both_texts P mr tr mts tts Action.DO
        = register_action { P with
            main_texts := (replaceLoop P.main_texts mr mts).1,
            tran_texts := (replaceLoop P.tran_texts tr tts).1 } Action.DO
          (RevertOp.replace_both_texts mr tr (replaceLoop P.main_texts mr mts).2
            (replaceLoop P.tran_texts tr tts).2) [] from rfl]
    rw [undo_register_DO']
    show group_actions (replace_both_texts (clearRedo { P with main_texts := (replaceLoop P.main_texts mr mts).1, tran_texts := (replaceLoop P.tran_texts tr tts).1 }) mr tr (replaceLoop P.main_texts mr mts).2 (replaceLoop P.tran_texts tr tts).2 Action.UNDO) Action.UNDO 1 = _
    unfold replace_both_texts
    dsimp only [clearRedo]
    rw [hinvm, hinvt, group_register_UNDO]
  refine ⟨by rw [hundo]; rfl, ?_⟩
  rw [hundo, redo_cons P (RevertOp.replace_both_texts mr tr mts tts) [] []]
  show arraysOf (group_actions (replace_both_texts (clearRedo P) mr tr mts tts Action.REDO) Action.REDO 1) = _
  rw [arraysOf_group]
  rfl

theorem remove_subtitles_roundtrip (p : Project) (rows : List Nat)
    (hnd : rows.Nodup) (hb : ∀ r ∈ rows, r < p.times.length) (hwf : wfP p) :
    arraysOf (undo (remove_subtitles p rows Action.DO)) = arraysOf p ∧
    arraysOf (redo (undo (remove_subtitles p rows Action.DO)))
      = arraysOf (remove_subtitles p rows Action.DO) := by
  obtain ⟨hpw, hmem⟩ := sorted_rows_facts rows hnd
  have hbs : ∀ r ∈ List.insertionSort (fun a b : Nat => a ≤ b) rows, r < p.times.length := fun r hr => hb r ((hmem r).mp hr)
  have hbf : ∀ r ∈ List.insertionSort (fun a b : Nat => a ≤ b) rows, r < p.frames.length := by
    intro r hr
    rw [hwf.1]
    exact hbs r hr
  have hbm : ∀ r ∈ List.insertionSort (fun a b : Nat => a ≤ b) rows, r < p.main_texts.length := by
    intro r hr
    rw [hwf.2.1]
    exact hbs r hr
  have hbt : ∀ r ∈ List.insertionSort (fun a b : Nat => a ≤ b) rows, r < p.tran_texts.length := by
    intro r hr
    rw [hwf.2.2]
    exact hbs r hr
  have hsid : List.insertionSort (fun a b : Nat => a ≤ b) (List.insertionSort (fun a b : Nat => a ≤ b) rows) = List.insertionSort (fun a b : Nat => a ≤ b) rows :=
    insertionSort_sorted_id _ (List.sorted_insertionSort _ _)
  have hIRt := insertLoop_removeLoop p.times (List.insertionSort (fun a b : Nat => a ≤ b) rows) hpw hbs
  have hIRf := insertLoop_removeLoop p.frames (List.insertionSort (fun a b : Nat => a ≤ b) rows) hpw hbf
  have hIRm := insertLoop_removeLoop p.main_texts (List.insertionSort (fun a b : Nat => a ≤ b) rows) hpw hbm
  have hIRr := insertLoop_removeLoop p.tran_texts (List.insertionSort (fun a b : Nat => a ≤ b) rows) hpw hbt
  have hundo : undo (remove_subtitles p rows Action.DO)
      = { p with redoables := [RevertableAction.mk
          [RevertOp.remove_subtitles (List.insertionSort (fun a b : Nat => a ≤ b) rows)] []] } := by
    rw [show remove_subtitles p rows Action.DO
        = register_action { p with
            times := (removeLoop p.times (List.insertionSort (fun a b : Nat => a ≤ b) rows)).1,
            frames := (removeLoop p.frames (List.insertionSort (fun a b : Nat => a ≤ b) rows)).1,
            main_texts := (removeLoop p.main_texts (List.insertionSort (fun a b : Nat => a ≤ b) rows)).1,
            tran_texts := (removeLoop p.tran_texts (List.insertionSort (fun a b : Nat => a ≤ b) rows)).1 } Action.DO
          (RevertOp.insert_subtitles (List.insertionSort (fun a b : Nat => a ≤ b) rows)
            (some ((removeLoop p.times (List.insertionSort (fun a b : Nat => a ≤ b) rows)).2, (removeLoop p.frames (List.insertionSort (fun a b : Nat => a ≤ b) rows)).2,
              (removeLoop p.main_texts (List.insertionSort (fun a b : Nat => a ≤ b) rows)).2, (removeLoop p.tran_texts (List.insertionSort (fun a b : Nat => a ≤ b) rows)).2))) []
        from rfl]
    rw [undo_register_DO']
    show group_actions (insert_subtitles (clearRedo { p with
        times := (removeLoop p.times (List.insertionSort (fun a b : Nat => a ≤ b) rows)).1,
        frames := (removeLoop p.frames (List.insertionSort (fun a b : Nat => a ≤ b) rows)).1,
        main_texts := (removeLoop p.main_texts (List.insertionSort (fun a b : Nat => a ≤ b) rows)).1,
        tran_texts := (removeLoop p.tran_texts (List.insertionSort (fun a b : Nat => a ≤ b) rows)).1 }) (List.insertionSort (fun a b : Nat => a ≤ b) rows)
      (some ((removeLoop p.times (List.insertionSort (fun a b : Nat => a ≤ b) rows)).2, (removeLoop p.frames (List.insertionSort (fun a b : Nat => a ≤ b) rows)).2,
        (removeLoop p.main_texts (List.insertionSort (fun a b : Nat => a ≤ b) rows)).2, (removeLoop p.tran_texts (List.insertionSort (fun a b : Nat => a ≤ b) rows)).2))
      Action.UNDO) Action.UNDO 1 = _
    unfold insert_subtitles
    dsimp only [clearRedo]
    rw [hsid]
    unfold insert_data
    dsimp only
    rw [hIRt, hIRf, hIRm, hIRr, group_register_UNDO]
  refine ⟨by rw [hundo]; rfl, ?_⟩
  rw [hundo, redo_cons p (RevertOp.remove_subtitles (List.insertionSort (fun a b : Nat => a ≤ b) rows)) [] []]
  show arraysOf (group_actions (remove_subtitles (clearRedo p) (List.insertionSort (fun a b : Nat => a ≤ b) rows) Action.REDO)
    Action.REDO 1) = _
  rw [arraysOf_group]
  unfold remove_subtitles
  dsimp only [clearRedo]
  rw [hsid]
  rfl

theorem insert_subtitles_data_roundtrip (p : Project) (rows : List Nat)
    (ts fs : List (Triple Int)) (ms trs : List String)
    (hts : ts.length = rows.length) (hfs : fs.length = rows.length)
    (hms : ms.length = rows.length) (htrs : trs.length = rows.length)
    (hok : insOk p.times.length (List.insertionSort (fun a b : Nat => a ≤ b) rows) = true) (hwf : wfP p) :
    arraysOf (undo (insert_subtitles p rows (some (ts, fs, ms, trs)) Action.DO)) = arraysOf p ∧
    arraysOf (redo (undo (insert_subtitles p rows (some (ts, fs, ms, trs)) Action.DO)))
      = arraysOf (insert_subtitles p rows (some (ts, fs, ms, trs)) Action.DO) := by
  have hlen : (List.insertionSort (fun a b : Nat => a ≤ b) rows).length = rows.length := (List.perm_insertionSort _ _).length_eq
  have hokf : insOk p.frames.length (List.insertionSort (fun a b : Nat => a ≤ b) rows) = true := by
    rw [hwf.1]
    exact hok
  have hokm : insOk p.main_texts.length (List.insertionSort (fun a b : Nat => a ≤ b) rows) = true := by
    rw [hwf.2.1]
    exact hok
  have hokt : insOk p.tran_texts.length (List.insertionSort (fun a b : Nat => a ≤ b) rows) = true := by
    rw [hwf.2.2]
    exact hok
  have hsid : List.insertionSort (fun a b : Nat => a ≤ b) (List.insertionSort (fun a b : Nat => a ≤ b) rows) = List.insertionSort (fun a b : Nat => a ≤ b) rows :=
    insertionSort_sorted_id _ (List.sorted_insertionSort _ _)
  have hRIt := removeLoop_insertLoop p.times (List.insertionSort (fun a b : Nat => a ≤ b) rows) ts hok (by rw [hlen, hts])
  have hRIf := removeLoop_insertLoop p.frames (List.insertionSort (fun a b : Nat => a ≤ b) rows) fs hokf (by rw [hlen, hfs])
  have hRIm := removeLoop_insertLoop p.main_texts (List.insertionSort (fun a b : Nat => a ≤ b) rows) ms hokm (by rw [hlen, hms])
  have hRIr := removeLoop_insertLoop p.tran_texts (List.insertionSort (fun a b : Nat => a ≤ b) rows) trs hokt (by rw [hlen, htrs])
  have hundo : undo (insert_subtitles p rows (some (ts, fs, ms, trs)) Action.DO)
      = { p with redoables := [RevertableAction.mk
          [RevertOp.insert_subtitles (List.insertionSort (fun a b : Nat => a ≤ b) rows) (some (ts, fs, ms, trs))] []] } := by
    rw [show insert_subtitles p rows (some (ts, fs, ms, trs)) Action.DO
        = register_action (insert_data p (List.insertionSort (fun a b : Nat => a ≤ b) rows) ts fs ms trs) Action.DO
            (RevertOp.remove_subtitles (List.insertionSort (fun a b : Nat => a ≤ b) rows)) [] from rfl]
    rw [undo_register_DO']
    show group_actions (remove_subtitles (clearRedo (insert_data p (List.insertionSort (fun a b : Nat => a ≤ b) rows) ts fs ms trs))
      (List.insertionSort (fun a b : Nat => a ≤ b) rows) Action.UNDO) Action.UNDO 1 = _
    unfold remove_subtitles
    dsimp only [clearRedo, insert_data]
    rw [hsid, hRIt, hRIf, hRIm, hRIr, group_register_UNDO]
  refine ⟨by rw [hundo]; rfl, ?_⟩
  rw [hundo, redo_cons p (RevertOp.insert_subtitles (List.insertionSort (fun a b : Nat => a ≤ b) rows) (some (ts, fs, ms, trs))) [] []]
  show arraysOf (group_actions (insert_subtitles (clearRedo p) (List.insertionSort (fun a b : Nat => a ≤ b) rows)
    (some (ts, fs, ms, trs)) Action.REDO) Action.REDO 1) = _
  rw [arraysOf_group]
  unfold insert_subtitles
  dsimp only [clearRedo]
  rw [hsid]
  rfl

theorem insert_blank_roundtrip (p : Project) (s k : Nat) (hk : 1 ≤ k)
    (hs : s ≤ p.times.length) (hwf : wfP p) :
    arraysOf (undo (insert_subtitles p (List.range' s k) none Action.DO)) = arraysOf p ∧
    arraysOf (redo (undo (insert_subtitles p (List.range' s k) none Action.DO)))
      = arraysOf (insert_subtitles p (List.range' s k) none Action.DO) := by
  obtain ⟨ts, fs, hts, hfs, heq⟩ := insert_blank_block p s k hk hs hwf
  have hsl : s ≤ p.frames.length := by
    rw [hwf.1]
    exact hs
  have hml : s ≤ p.main_texts.length := by
    rw [hwf.2.1]
    exact hs
  have htl : s ≤ p.tran_texts.length := by
    rw [hwf.2.2]
    exact hs
  have hsort : List.insertionSort (fun a b : Nat => a ≤ b) (List.range' s k)
      = List.range' s k := insertionSort_range' s k
  have heff : insert_subtitles p (List.range' s k) none Action.DO
      = register_action (insert_blank p (List.range' s k)) Action.DO
          (RevertOp.remove_subtitles (List.range' s k)) [] := by
    unfold insert_subtitles
    dsimp only
    rw [hsort]
  have hRt : removeLoop (p.times.take s ++ ts ++ p.times.drop s) (List.range' s k)
      = (p.times, ts) := by
    have h := removeLoop_block p.times ts s hs
    rwa [hts] at h
  have hRf : removeLoop (p.frames.take s ++ fs ++ p.frames.drop s) (List.range' s k)
      = (p.frames, fs) := by
    have h := removeLoop_block p.frames fs s hsl
    rwa [hfs] at h
  have hRm : removeLoop (p.main_texts.take s ++ List.replicate k blank ++ p.main_texts.drop s)
      (List.range' s k) = (p.main_texts, List.replicate k blank) := by
    have h := removeLoop_block p.main_texts (List.replicate k blank) s hml
    rwa [List.length_replicate] at h
  have hRr : removeLoop (p.tran_texts.take s ++ List.replicate k blank ++ p.tran_texts.drop s)
      (List.range' s k) = (p.tran_texts, List.replicate k blank) := by
    have h := removeLoop_block p.tran_texts (List.replicate k blank) s htl
    rwa [List.length_replicate] at h
  have hundo : undo (insert_subtitles p (List.range' s k) none Action.DO)
      = { p with redoables := [RevertableAction.mk
          [RevertOp.insert_subtitles (List.range' s k)
            (some (ts, fs, List.replicate k blank, List.replicate k blank))] []] } := by
    rw [heff, undo_register_DO']
    show group_actions (remove_subtitles (clearRedo (insert_blank p (List.range' s k)))
      (List.range' s k) Action.UNDO) Action.UNDO 1 = _
    rw [heq]
    unfold remove_subtitles
    dsimp only [clearRedo]
    rw [hsort, hRt, hRf, hRm, hRr, group_register_UNDO]
  refine ⟨by rw [hundo]; rfl, ?_⟩
  rw [hundo, redo_cons p (RevertOp.insert_subtitles (List.range' s k)
    (some (ts, fs, List.replicate k blank, List.replicate k blank))) [] []]
  show arraysOf (group_actions (insert_subtitles (clearRedo p) (List.range' s k)
    (some (ts, fs, List.replicate k blank, List.replicate k blank)) Action.REDO)
    Action.REDO 1) = _
  rw [arraysOf_group]
  have hIt : insertLoop p.times (List.range' s k) ts
      = p.times.take s ++ ts ++ p.times.drop s := by
    have h := insertLoop_block ts p.times s hs
    rwa [hts] at h
  have hIf : insertLoop p.frames (List.range' s k) fs
      = p.frames.take s ++ fs ++ p.frames.drop s := by
    have h := insertLoop_block fs p.frames s hsl
    rwa [hfs] at h
  have hIm : insertLoop p.main_texts (List.range' s k) (List.replicate k blank)
      = p.main_texts.take s ++ List.replicate k blank ++ p.main_texts.drop s := by
    have h := insertLoop_block (List.replicate k blank) p.main_texts s hml
    rwa [List.length_replicate] at h
  have hIr : insertLoop p.tran_texts (List.range' s k) (List.replicate k blank)
      = p.tran_texts.take s ++ List.replicate k blank ++ p.tran_texts.drop s := by
    have h := insertLoop_block (List.replicate k blank) p.tran_texts s htl
    rwa [List.length_replicate] at h
  rw [show insert_subtitles (clearRedo p) (List.range' s k)
      (some (ts, fs, List.replicate k blank, List.replicate k blank)) Action.REDO
      = register_action (insert_data (clearRedo p) (List.range' s k) ts fs
          (List.replicate k blank) (List.replicate k blank)) Action.REDO
        (RevertOp.remove_subtitles (List.range' s k)) [] from by
    unfold insert_subtitles
    dsimp only
    rw [hsort]]
  rw [heff, arraysOf_register, arraysOf_register]
  unfold insert_data
  dsimp only [clearRedo]
  rw [hIt, hIf, hIm, hIr, heq]
  rfl

/-- C1: for every mutating editing operation applied to a strictly valid
document state (the four arrays aligned, durations consistent, the
authoritative rows strictly ordered by show value and the mirror coordinate
the calculator image of the authoritative one) under its calling contract --
a set call names a valid row, actually changes the stored value, and, when
it writes the non-authoritative coordinate system, changes the authoritative
mirror too with a calculator-exact value; text operations name in-range
rows; insertion data fits the named rows -- performing the operation and
then undo restores all four parallel arrays byte-for-byte, and redo after
the undo restores the post-operation arrays byte-for-byte.  Each operation
registers a revert operation that exactly inverts the mutation and itself
registers its own inverse. -/
theorem undo_redo_roundtrip (p : Project) (op : RevertOp)
    (hv : StrictValid p) (hpre : editPre p op) :
    arraysOf (undo (applyEdit p op)) = arraysOf p ∧
    arraysOf (redo (undo (applyEdit p op))) = arraysOf (applyEdit p op) := by
  obtain ⟨hwf, hdur, hT, hF⟩ := hv
  cases op with
  | set_time row col value =>
      obtain ⟨hrow, hneq, hcross⟩ := hpre
      cases hm : p.mode with
      | TIME =>
          cases col with
          | SHOW =>
              exact set_time_SHOW_TIME_roundtrip p row value hwf hdur (hT hm).1
                (hT hm).2 hm hrow hneq
          | HIDE =>
              exact set_time_HIDE_TIME_roundtrip p row value hwf hdur (hT hm).1 hm hrow hneq
          | DURN =>
              exact set_time_DURN_TIME_roundtrip p row value hwf hdur (hT hm).1 hm hrow hneq
      | FRAME =>
          cases col with
          | SHOW =>
              exact set_time_SHOW_FRAME_roundtrip p row value hwf hdur (hF hm).1
                (hF hm).2 hm hrow hneq (hcross hm).1 (hcross hm).2
          | HIDE =>
              exact set_time_HIDE_FRAME_roundtrip p row value hwf hdur (hF hm).1
                hm hrow hneq (hcross hm).1 (hcross hm).2
          | DURN =>
              exact set_time_DURN_FRAME_roundtrip p row value hwf hdur (hF hm).1
                hm hrow hneq (hcross hm).1 (hcross hm).2
  | set_frame row col value =>
      obtain ⟨hrow, hneq, hcross⟩ := hpre
      cases hm : p.mode with
      | TIME =>
          cases col with
          | SHOW =>
              exact set_frame_SHOW_TIME_roundtrip p row value hwf hdur (hT hm).1
                (hT hm).2 hm hrow hneq (hcross hm).1 (hcross hm).2
          | HIDE =>
              exact set_frame_HIDE_TIME_roundtrip p row value hwf hdur (hT hm).1
                hm hrow hneq (hcross hm).1 (hcross hm).2
          | DURN =>
              exact set_frame_DURN_TIME_roundtrip p row value hwf hdur (hT hm).1
                hm hrow hneq (hcross hm).1 (hcross hm).2
      | FRAME =>
          cases col with
          | SHOW =>
              exact set_frame_SHOW_FRAME_roundtrip p row value hwf hdur (hF hm).1
                (hF hm).2 hm hrow hneq
          | HIDE =>
              exact set_frame_HIDE_FRAME_roundtrip p row value hwf hdur (hF hm).1 hm hrow hneq
          | DURN =>
              exact set_frame_DURN_FRAME_roundtrip p row value hwf hdur (hF hm).1 hm hrow hneq
  | set_text row document value =>
      obtain ⟨hM, hTr⟩ := hpre
      cases document with
      | MAIN => exact set_text_MAIN_roundtrip p row value (hM rfl).1 (hM rfl).2
      | TRAN => exact set_text_TRAN_roundtrip p row value (hTr rfl).1 (hTr rfl).2
  | replace_texts rows document texts =>
      obtain ⟨hnd, hlen, hbM, hbT⟩ := hpre
      cases document with
      | MAIN => exact replace_texts_MAIN_roundtrip p rows texts hnd hlen (hbM rfl)
      | TRAN => exact replace_texts_TRAN_roundtrip p rows texts hnd hlen (hbT rfl)
  | replace_both_texts mr tr mts tts =>
      obtain ⟨hndm, hndt, hlm, hlt, hbm, hbt⟩ := hpre
      exact replace_both_texts_roundtrip p mr tr mts tts hndm hndt hlm hlt hbm hbt
  | insert_subtitles rows data =>
      cases data with
      | none =>
          obtain ⟨s, k, hk, hs, hr⟩ := hpre
          subst hr
          exact insert_blank_roundtrip p s k hk hs hwf
      | some quad =>
          obtain ⟨ts, fs, ms, trs⟩ := quad
          obtain ⟨hts, hfs, hms, htrs, hok⟩ := hpre
          exact insert_subtitles_data_roundtrip p rows ts fs ms trs hts hfs hms htrs hok hwf
  | remove_subtitles rows =>
      obtain ⟨hnd, hb⟩ := hpre
      exact remove_subtitles_roundtrip p rows hnd hb hwf

/-- C1 witness: the round trip evaluated on the concrete three-row project
with a show-time write that moves the row. -/
theorem undo_redo_roundtrip_witness :
    StrictValid wbase ∧ editPre wbase (RevertOp.set_time 0 Col.SHOW 2500) ∧
    arraysOf (undo (applyEdit wbase (RevertOp.set_time 0 Col.SHOW 2500))) = arraysOf wbase ∧
    arraysOf (redo (undo (applyEdit wbase (RevertOp.set_time 0 Col.SHOW 2500))))
      = arraysOf (applyEdit wbase (RevertOp.set_time 0 Col.SHOW 2500)) := by
  have h := undo_redo_roundtrip wbase (RevertOp.set_time 0 Col.SHOW 2500) (by decide)
    ⟨by decide, by decide, fun hc => nomatch hc⟩
  exact ⟨by decide, ⟨by decide, by decide, fun hc => nomatch hc⟩, h.1, h.2⟩

/-- C1 counterexample: on a valid document in the spec's sense -- ordered
rows, but two rows sharing one position triple -- a show write followed by
undo leaves the text arrays permuted: the revert's resort drops the restored
row at the rightmost insertion point among the duplicates, not at its
original index, so undo is not byte-for-byte without strict order. -/
theorem undo_roundtrip_counterexample :
    Valid cdup ∧ editPre cdup (RevertOp.set_time 0 Col.SHOW 2000) ∧
    arraysOf (undo (applyEdit cdup (RevertOp.set_time 0 Col.SHOW 2000))) ≠ arraysOf cdup := by
  exact ⟨by decide, ⟨by decide, by decide, fun hc => nomatch hc⟩, by decide⟩

end Gaupol
